import Mathlib

/-!
# norddrop Go binding: wire codecs, call-status handling and object lifetime

A shallow embedding of `src/v7/norddrop.go`.

Conventions of the embedding

* A Go `string` or `[]byte` is a list of bytes; a Go slice is a list (a nil slice and an
  empty slice are both the empty list).
* `int8/int32/int64` are `Int`, `uint32/uint64/uint` are `Nat`; conversions wrap explicitly.
  `uint` is taken to be 64 bits wide.
* An `io.Reader` is always the `bytes.Reader` built by `AsReader` / `bytes.NewReader`; it is
  represented by the list of bytes that are still unread.
* A Go function that may panic returns `Except PanicValue _`; a reader function also returns
  the unread rest of its input.
* A tagged-union interface (`EventKind`, `TransferKind`, ...) is the closed inductive type of
  its declared variants.
-/

namespace norddrop

/-! ## Bytes, strings, errors and panics -/

/-- Byte of a Go string or byte slice. -/
abbrev Byte := Fin 256

/-- Go `string` (and `[]byte`): a sequence of bytes. -/
abbrev GoString := List Byte

/-- Reader state of a `bytes.Reader`: the bytes not yet read. -/
abbrev Reader := List Byte

/-- Conversion of a natural number to a byte, keeping the low eight bits. -/
def byteOf (n : Nat) : Byte := ⟨n % 256, Nat.mod_lt n (by decide)⟩

/-- Bytes of an ASCII string literal of the source. -/
def goString (s : String) : GoString := s.toList.map (fun c => byteOf c.toNat)

/-- Formatting of an integer with the verbs `%d` and `%v`. -/
def fmtInt (i : Int) : GoString := goString (toString i)

/-- Ten variants of `LibdropError`, in declaration order. -/
inductive LibdropErrorKind where
  | Unknown
  | InvalidString
  | BadInput
  | TransferCreate
  | NotStarted
  | AddrInUse
  | InstanceStart
  | InstanceStop
  | InvalidPrivkey
  | DbError
  deriving DecidableEq, Repr

/-- Non-nil Go `error` values that occur in the package.

* `errorString t` is a value freshly made by `fmt.Errorf` (without `%w`) or `errors.New`;
* `EOF` and `ErrUnexpectedEOF` are the `io` sentinels;
* `ErrLibdropError k` is the package-level sentinel variable `ErrLibdropError<k>`;
* `LibdropErrorVariant k m` is `&LibdropError<k>{message: m}`;
* `LibdropError e` is `&LibdropError{err: e}`. -/
inductive GoError where
  | errorString (text : GoString)
  | EOF
  | ErrUnexpectedEOF
  | ErrLibdropError (k : LibdropErrorKind)
  | LibdropErrorVariant (k : LibdropErrorKind) (message : GoString)
  | LibdropError (err : GoError)
  deriving DecidableEq, Repr

/-- Values a Go `panic` is raised with.

* `error e` is `panic(err)` with an error value;
* `message t` is `panic("...")` or `panic(fmt.Sprintf(...))`;
* `runtime t` is a panic raised by the Go runtime itself. -/
inductive PanicValue where
  | error (e : GoError)
  | message (text : GoString)
  | runtime (text : GoString)
  deriving DecidableEq, Repr

deriving instance DecidableEq for Except

/-- Name the `Error()` text of a variant starts with. -/
def LibdropErrorKind.label : LibdropErrorKind → String
  | .Unknown => "Unknown"
  | .InvalidString => "InvalidString"
  | .BadInput => "BadInput"
  | .TransferCreate => "TransferCreate"
  | .NotStarted => "NotStarted"
  | .AddrInUse => "AddrInUse"
  | .InstanceStart => "InstanceStart"
  | .InstanceStop => "InstanceStop"
  | .InvalidPrivkey => "InvalidPrivkey"
  | .DbError => "DbError"

/-- Method `Error()` of the error values. -/
def GoError.Error : GoError → GoString
  | .errorString t => t
  | .EOF => goString "EOF"
  | .ErrUnexpectedEOF => goString "unexpected EOF"
  | .ErrLibdropError k => goString ("LibdropError" ++ k.label)
  | .LibdropErrorVariant k m => goString (k.label ++ ": ") ++ m
  | .LibdropError e => goString "LibdropError: " ++ e.Error

/-- Standard library `errors.Is(err, ErrLibdropError<target>)` on the error values of the
package. Every step of the library loop is followed: pointer equality with the target (only
the sentinel itself is equal to it), then the `Is` method (only the variant structs have
one: `target == ErrLibdropError<k>`), then `Unwrap` (only `LibdropError` has one). -/
def errorsIs : GoError → LibdropErrorKind → Bool
  | .errorString _, _ => false
  | .EOF, _ => false
  | .ErrUnexpectedEOF, _ => false
  | .ErrLibdropError k, target => decide (k = target)
  | .LibdropErrorVariant k _, target => decide (k = target)
  | .LibdropError e, target => errorsIs e target

/-! ## Fixed-width big-endian integers -/

/-- Big-endian value of a byte sequence. -/
def beNat (bs : List Byte) : Nat := bs.foldl (fun acc b => acc * 256 + b.val) 0

/-- Big-endian encoding of the low `n` bytes of `v`. -/
def beBytes : Nat → Nat → List Byte
  | 0, _ => []
  | n + 1, v => beBytes n (v / 256) ++ [byteOf v]

/-- Reinterpretation of an unsigned `w`-bit word as a signed one (two's complement). -/
def toSigned (w : Nat) (n : Nat) : Int :=
  if n % 2 ^ w < 2 ^ (w - 1) then ((n % 2 ^ w : Nat) : Int) else ((n % 2 ^ w : Nat) : Int) - 2 ^ w

/-- Reinterpretation of a signed integer as an unsigned `w`-bit word (two's complement). -/
def toUnsigned (w : Nat) (i : Int) : Nat := (i % 2 ^ w).toNat

/-- Outcome of `binary.Read` for a fixed-size value of `n > 0` bytes on a `bytes.Reader`:
`io.ReadFull` reports `io.EOF` when nothing is left and `io.ErrUnexpectedEOF` when fewer
than `n` bytes are left; the callers panic with that error. -/
def readFull (n : Nat) (reader : Reader) : Except PanicValue (List Byte × Reader) :=
  if reader.length = 0 then .error (.error .EOF)
  else if reader.length < n then .error (.error .ErrUnexpectedEOF)
  else .ok (reader.take n, reader.drop n)

def readInt8 (reader : Reader) : Except PanicValue (Int × Reader) :=
  match readFull 1 reader with
  | .error p => .error p
  | .ok (bs, rest) => .ok (toSigned 8 (beNat bs), rest)

def readInt32 (reader : Reader) : Except PanicValue (Int × Reader) :=
  match readFull 4 reader with
  | .error p => .error p
  | .ok (bs, rest) => .ok (toSigned 32 (beNat bs), rest)

def readUint32 (reader : Reader) : Except PanicValue (Nat × Reader) :=
  match readFull 4 reader with
  | .error p => .error p
  | .ok (bs, rest) => .ok (beNat bs, rest)

def readInt64 (reader : Reader) : Except PanicValue (Int × Reader) :=
  match readFull 8 reader with
  | .error p => .error p
  | .ok (bs, rest) => .ok (toSigned 64 (beNat bs), rest)

def readUint64 (reader : Reader) : Except PanicValue (Nat × Reader) :=
  match readFull 8 reader with
  | .error p => .error p
  | .ok (bs, rest) => .ok (beNat bs, rest)

/-- Bytes `writeInt8` appends to a `bytes.Buffer` (the write itself cannot fail). -/
def writeInt8 (value : Int) : List Byte := beBytes 1 (toUnsigned 8 value)

def writeInt32 (value : Int) : List Byte := beBytes 4 (toUnsigned 32 value)

def writeUint32 (value : Nat) : List Byte := beBytes 4 value

def writeInt64 (value : Int) : List Byte := beBytes 8 (toUnsigned 64 value)

def writeUint64 (value : Nat) : List Byte := beBytes 8 value

/-- Constant `math.MaxInt32`. -/
def MaxInt32 : Nat := 2147483647

/-- Constant `math.MaxInt64`. -/
def MaxInt64 : Int := 9223372036854775807

/-! ## Strings and whole-buffer lifting -/

/-- Contents of a `RustBuffer`: the `len` bytes at `data`. -/
abbrev RustBuffer := List Byte

/-- Method `FfiConverterString.Lift`: the whole buffer is the string. -/
def FfiConverterString.Lift (rb : RustBuffer) : GoString := rb

/-- Method `FfiConverterString.Read`. `make([]byte, length)` panics for a negative length;
`bytes.Reader.Read` reports `io.EOF` when no byte is left (also for an empty destination)
and otherwise copies as many bytes as fit. -/
def FfiConverterString.Read (reader : Reader) : Except PanicValue (GoString × Reader) :=
  match readInt32 reader with
  | .error p => .error p
  | .ok (length, reader) =>
    if length < 0 then .error (.runtime (goString "makeslice: len out of range"))
    else if reader.length = 0 then .error (.error .EOF)
    else
      let read_length := min length.toNat reader.length
      if read_length ≠ length.toNat then
        .error (.error (.errorString
          (goString "bad read length when reading string, expected " ++ fmtInt length ++
            goString ", read " ++ fmtInt read_length)))
      else .ok (reader.take read_length, reader.drop read_length)

/-- Method `FfiConverterString.Write`: the bytes appended to the buffer. -/
def FfiConverterString.Write (value : GoString) : Except PanicValue (List Byte) :=
  if value.length > MaxInt32 then
    .error (.message (goString "String is too large to fit into Int32"))
  else .ok (writeInt32 (toSigned 32 value.length) ++ value)

/-- Function `LiftFromRustBuffer`. Releasing the buffer (`rbuf.Free()`) is a call into the
native library and has no part in the returned value. -/
def LiftFromRustBuffer {α : Type} (read : Reader → Except PanicValue (α × Reader))
    (rbuf : RustBuffer) : Except PanicValue α :=
  match read rbuf with
  | .error p => .error p
  | .ok (item, reader) =>
    if reader.length > 0 then
      .error (.error (.errorString
        (goString "Junk remaining in buffer after lifting: " ++ reader)))
    else .ok item

/-! ## LibdropError -/

/-- Method `FfiConverterTypeLibdropError.Read`. -/
def FfiConverterTypeLibdropError.Read (reader : Reader) : Except PanicValue (GoError × Reader) :=
  match readUint32 reader with
  | .error p => .error p
  | .ok (errorID, reader) =>
    match FfiConverterString.Read reader with
    | .error p => .error p
    | .ok (message, reader) =>
      match errorID with
      | 1 => .ok (.LibdropError (.LibdropErrorVariant .Unknown message), reader)
      | 2 => .ok (.LibdropError (.LibdropErrorVariant .InvalidString message), reader)
      | 3 => .ok (.LibdropError (.LibdropErrorVariant .BadInput message), reader)
      | 4 => .ok (.LibdropError (.LibdropErrorVariant .TransferCreate message), reader)
      | 5 => .ok (.LibdropError (.LibdropErrorVariant .NotStarted message), reader)
      | 6 => .ok (.LibdropError (.LibdropErrorVariant .AddrInUse message), reader)
      | 7 => .ok (.LibdropError (.LibdropErrorVariant .InstanceStart message), reader)
      | 8 => .ok (.LibdropError (.LibdropErrorVariant .InstanceStop message), reader)
      | 9 => .ok (.LibdropError (.LibdropErrorVariant .InvalidPrivkey message), reader)
      | 10 => .ok (.LibdropError (.LibdropErrorVariant .DbError message), reader)
      | _ =>
        .error (.message (goString "Unknown error code " ++ fmtInt errorID ++
          goString " in FfiConverterTypeLibdropError.Read()"))

/-- Method `FfiConverterTypeLibdropError.Lift`; the result is an `error` interface value,
`none` being nil. -/
def FfiConverterTypeLibdropError.Lift (eb : RustBuffer) : Except PanicValue (Option GoError) :=
  match LiftFromRustBuffer FfiConverterTypeLibdropError.Read eb with
  | .error p => .error p
  | .ok e => .ok (some e)

/-! ## Call status -/

/-- Struct `C.RustCallStatus` as the Go code reads it: the status code and the error buffer. -/
structure RustCallStatus where
  code : Int
  errorBuf : RustBuffer
  deriving DecidableEq, Repr

/-- Interface `BufLifter[error]`: its `Lift` method. -/
abbrev BufLifter := RustBuffer → Except PanicValue (Option GoError)

/-- Function `checkCallStatus`. The converter is `none` when the caller passes a nil
interface (as `rustCall` does); calling `Lift` on it is a nil dereference. -/
def checkCallStatus (converter : Option BufLifter) (status : RustCallStatus) :
    Except PanicValue (Option GoError) :=
  match status.code with
  | 0 => .ok none
  | 1 =>
    match converter with
    | none => .error (.runtime (goString "invalid memory address or nil pointer dereference"))
    | some lift => lift status.errorBuf
  | 2 =>
    if status.errorBuf.length > 0 then
      .error (.error (.errorString (FfiConverterString.Lift status.errorBuf)))
    else .error (.error (.errorString (goString "Rust panicked while handling Rust panic")))
  | _ => .ok (some (.errorString (goString "unknown status code: " ++ fmtInt status.code)))

/-- Function `rustCallWithError`. The callback gets the zero-valued status and yields its
return value together with the status the native function left behind. -/
def rustCallWithError {U : Type} (converter : Option BufLifter)
    (callback : RustCallStatus → Except PanicValue (U × RustCallStatus)) :
    Except PanicValue (U × Option GoError) :=
  match callback ⟨0, []⟩ with
  | .error p => .error p
  | .ok (returnValue, status) =>
    match checkCallStatus converter status with
    | .error p => .error p
    | .ok err => .ok (returnValue, err)

/-- Function `rustCall`. -/
def rustCall {U : Type} (callback : RustCallStatus → Except PanicValue (U × RustCallStatus)) :
    Except PanicValue U :=
  match rustCallWithError none callback with
  | .error p => .error p
  | .ok (_, some err) => .error (.error err)
  | .ok (returnValue, none) => .ok returnValue

/-- Membership of an `error` result in the closed `LibdropError` taxonomy: nil, or a
`LibdropError` wrapping one of the ten variants. -/
def InLibdropTaxonomy : Option GoError → Prop
  | none => True
  | some (.LibdropError (.LibdropErrorVariant _ _)) => True
  | some _ => False


/-! ## Primitive converters -/

def FfiConverterUint32.Read (reader : Reader) : Except PanicValue (Nat × Reader) :=
  readUint32 reader

def FfiConverterUint32.Write (value : Nat) : Except PanicValue (List Byte) :=
  .ok (writeUint32 value)

def FfiConverterInt32.Read (reader : Reader) : Except PanicValue (Int × Reader) :=
  readInt32 reader

def FfiConverterInt32.Write (value : Int) : Except PanicValue (List Byte) :=
  .ok (writeInt32 value)

def FfiConverterUint64.Read (reader : Reader) : Except PanicValue (Nat × Reader) :=
  readUint64 reader

def FfiConverterUint64.Write (value : Nat) : Except PanicValue (List Byte) :=
  .ok (writeUint64 value)

def FfiConverterInt64.Read (reader : Reader) : Except PanicValue (Int × Reader) :=
  readInt64 reader

def FfiConverterInt64.Write (value : Int) : Except PanicValue (List Byte) :=
  .ok (writeInt64 value)

/-- Method `FfiConverterBool.Read`: `readInt8(reader) != 0`. -/
def FfiConverterBool.Read (reader : Reader) : Except PanicValue (Bool × Reader) :=
  match readInt8 reader with
  | .error p => .error p
  | .ok (v, reader) => .ok (decide (v ≠ 0), reader)

def FfiConverterBool.Write (value : Bool) : Except PanicValue (List Byte) :=
  if value then .ok (writeInt8 1) else .ok (writeInt8 0)

/-- Method `FfiConverterOptionalInt32.Read`; `none` is the nil pointer. -/
def FfiConverterOptionalInt32.Read (reader : Reader) :
    Except PanicValue (Option Int × Reader) :=
  match readInt8 reader with
  | .error p => .error p
  | .ok (flag, reader) =>
    if flag = 0 then .ok (none, reader)
    else
      match FfiConverterInt32.Read reader with
      | .error p => .error p
      | .ok (temp, reader) => .ok (some temp, reader)

def FfiConverterOptionalInt32.Write (value : Option Int) : Except PanicValue (List Byte) :=
  match value with
  | none => .ok (writeInt8 0)
  | some v =>
    match FfiConverterInt32.Write v with
    | .error p => .error p
    | .ok bs => .ok (writeInt8 1 ++ bs)

/-- Method `FfiConverterOptionalString.Read`; `none` is the nil pointer. -/
def FfiConverterOptionalString.Read (reader : Reader) :
    Except PanicValue (Option GoString × Reader) :=
  match readInt8 reader with
  | .error p => .error p
  | .ok (flag, reader) =>
    if flag = 0 then .ok (none, reader)
    else
      match FfiConverterString.Read reader with
      | .error p => .error p
      | .ok (temp, reader) => .ok (some temp, reader)

def FfiConverterOptionalString.Write (value : Option GoString) :
    Except PanicValue (List Byte) :=
  match value with
  | none => .ok (writeInt8 0)
  | some v =>
    match FfiConverterString.Write v with
    | .error p => .error p
    | .ok bs => .ok (writeInt8 1 ++ bs)

/-! ## Sequences -/

/-- Loop `for i := int32(0); i < length; i++ { result = append(result, Read(reader)) }`
of the sequence converters, for a positive `length`. -/
def readItems {α : Type} (read : Reader → Except PanicValue (α × Reader)) :
    Nat → Reader → Except PanicValue (List α × Reader)
  | 0, reader => .ok ([], reader)
  | n + 1, reader =>
    match read reader with
    | .error p => .error p
    | .ok (item, reader) =>
      match readItems read n reader with
      | .error p => .error p
      | .ok (items, reader) => .ok (item :: items, reader)

/-- Body shared by the `Read` methods of all `FfiConverterSequence...` converters: a zero
length gives the nil slice, `make([]T, 0, length)` panics for a negative length. -/
def readSequence {α : Type} (read : Reader → Except PanicValue (α × Reader))
    (reader : Reader) : Except PanicValue (List α × Reader) :=
  match readInt32 reader with
  | .error p => .error p
  | .ok (length, reader) =>
    if length = 0 then .ok ([], reader)
    else if length < 0 then .error (.runtime (goString "makeslice: cap out of range"))
    else readItems read length.toNat reader

/-- Loop `for _, item := range value { Write(writer, item) }` of the sequence converters. -/
def writeItems {α : Type} (write : α → Except PanicValue (List Byte)) :
    List α → Except PanicValue (List Byte)
  | [] => .ok []
  | item :: items =>
    match write item with
    | .error p => .error p
    | .ok bs =>
      match writeItems write items with
      | .error p => .error p
      | .ok rest => .ok (bs ++ rest)

/-- Body shared by the `Write` methods of all `FfiConverterSequence...` converters;
`typeName` is the element type named in the panic text. -/
def writeSequence {α : Type} (typeName : String) (write : α → Except PanicValue (List Byte))
    (value : List α) : Except PanicValue (List Byte) :=
  if value.length > MaxInt32 then
    .error (.message (goString ("[]" ++ typeName ++ " is too large to fit into Int32")))
  else
    match writeItems write value with
    | .error p => .error p
    | .ok bs => .ok (writeInt32 (toSigned 32 value.length) ++ bs)

/-! ## Status codes -/

/-- Type `StatusCode` (a Go `uint`). -/
abbrev StatusCode := Nat

def StatusCodeFinalized : StatusCode := 1
def StatusCodeBadPath : StatusCode := 2
def StatusCodeBadFile : StatusCode := 3
def StatusCodeBadTransfer : StatusCode := 4
def StatusCodeBadTransferState : StatusCode := 5
def StatusCodeBadFileId : StatusCode := 6
def StatusCodeIoError : StatusCode := 7
def StatusCodeTransferLimitsExceeded : StatusCode := 8
def StatusCodeMismatchedSize : StatusCode := 9
def StatusCodeInvalidArgument : StatusCode := 10
def StatusCodeAddrInUse : StatusCode := 11
def StatusCodeFileModified : StatusCode := 12
def StatusCodeFilenameTooLong : StatusCode := 13
def StatusCodeAuthenticationFailed : StatusCode := 14
def StatusCodeStorageError : StatusCode := 15
def StatusCodeDbLost : StatusCode := 16
def StatusCodeFileChecksumMismatch : StatusCode := 17
def StatusCodeFileRejected : StatusCode := 18
def StatusCodeFileFailed : StatusCode := 19
def StatusCodeFileFinished : StatusCode := 20
def StatusCodeEmptyTransfer : StatusCode := 21
def StatusCodeConnectionClosedByPeer : StatusCode := 22
def StatusCodeTooManyRequests : StatusCode := 23
def StatusCodePermissionDenied : StatusCode := 24

/-- Method `FfiConverterTypeStatusCode.Read`: `StatusCode(id)` converts the `int32` to
`uint`. -/
def FfiConverterTypeStatusCode.Read (reader : Reader) :
    Except PanicValue (StatusCode × Reader) :=
  match readInt32 reader with
  | .error p => .error p
  | .ok (id, reader) => .ok (toUnsigned 64 id, reader)

/-- Method `FfiConverterTypeStatusCode.Write`: `int32(value)` truncates the `uint`. -/
def FfiConverterTypeStatusCode.Write (value : StatusCode) : Except PanicValue (List Byte) :=
  .ok (writeInt32 (toSigned 32 value))

/-- Struct `Status`. -/
structure Status where
  Status : StatusCode
  OsErrorCode : Option Int
  deriving DecidableEq, Repr

def FfiConverterTypeStatus.Read (reader : Reader) : Except PanicValue (Status × Reader) :=
  match FfiConverterTypeStatusCode.Read reader with
  | .error p => .error p
  | .ok (status, reader) =>
    match FfiConverterOptionalInt32.Read reader with
    | .error p => .error p
    | .ok (osErrorCode, reader) => .ok (⟨status, osErrorCode⟩, reader)

def FfiConverterTypeStatus.Write (value : Status) : Except PanicValue (List Byte) :=
  match FfiConverterTypeStatusCode.Write value.Status with
  | .error p => .error p
  | .ok b1 =>
    match FfiConverterOptionalInt32.Write value.OsErrorCode with
    | .error p => .error p
    | .ok b2 => .ok (b1 ++ b2)

/-! ## Files of a transfer request -/

/-- Struct `ReceivedFile`. -/
structure ReceivedFile where
  Id : GoString
  Path : GoString
  Size : Nat
  deriving DecidableEq, Repr

def FfiConverterTypeReceivedFile.Read (reader : Reader) :
    Except PanicValue (ReceivedFile × Reader) :=
  match FfiConverterString.Read reader with
  | .error p => .error p
  | .ok (id, reader) =>
    match FfiConverterString.Read reader with
    | .error p => .error p
    | .ok (path, reader) =>
      match FfiConverterUint64.Read reader with
      | .error p => .error p
      | .ok (size, reader) => .ok (⟨id, path, size⟩, reader)

def FfiConverterSequenceTypeReceivedFile.Read (reader : Reader) :
    Except PanicValue (List ReceivedFile × Reader) :=
  readSequence FfiConverterTypeReceivedFile.Read reader

/-- Struct `QueuedFile`. -/
structure QueuedFile where
  Id : GoString
  Path : GoString
  Size : Nat
  BaseDir : Option GoString
  deriving DecidableEq, Repr

def FfiConverterTypeQueuedFile.Read (reader : Reader) :
    Except PanicValue (QueuedFile × Reader) :=
  match FfiConverterString.Read reader with
  | .error p => .error p
  | .ok (id, reader) =>
    match FfiConverterString.Read reader with
    | .error p => .error p
    | .ok (path, reader) =>
      match FfiConverterUint64.Read reader with
      | .error p => .error p
      | .ok (size, reader) =>
        match FfiConverterOptionalString.Read reader with
        | .error p => .error p
        | .ok (baseDir, reader) => .ok (⟨id, path, size, baseDir⟩, reader)

def FfiConverterSequenceTypeQueuedFile.Read (reader : Reader) :
    Except PanicValue (List QueuedFile × Reader) :=
  readSequence FfiConverterTypeQueuedFile.Read reader

/-! ## Event kinds -/

/-- Interface `EventKind` with its 21 variant structs `EventKind<Variant>`. -/
inductive EventKind where
  | RequestReceived (Peer TransferId : GoString) (Files : List ReceivedFile)
  | RequestQueued (Peer TransferId : GoString) (Files : List QueuedFile)
  | FileStarted (TransferId FileId : GoString) (Transferred : Nat)
  | FileProgress (TransferId FileId : GoString) (Transferred : Nat)
  | FileDownloaded (TransferId FileId FinalPath : GoString)
  | FileUploaded (TransferId FileId : GoString)
  | FileFailed (TransferId FileId : GoString) (Status : Status)
  | FileRejected (TransferId FileId : GoString) (ByPeer : Bool)
  | FilePaused (TransferId FileId : GoString)
  | FileThrottled (TransferId FileId : GoString) (Transferred : Nat)
  | FilePending (TransferId FileId : GoString)
  | TransferFinalized (TransferId : GoString) (ByPeer : Bool)
  | TransferFailed (TransferId : GoString) (Status : Status)
  | TransferDeferred (TransferId Peer : GoString) (Status : Status)
  | FinalizeChecksumStarted (TransferId FileId : GoString) (Size : Nat)
  | FinalizeChecksumFinished (TransferId FileId : GoString)
  | FinalizeChecksumProgress (TransferId FileId : GoString) (BytesChecksummed : Nat)
  | VerifyChecksumStarted (TransferId FileId : GoString) (Size : Nat)
  | VerifyChecksumFinished (TransferId FileId : GoString)
  | VerifyChecksumProgress (TransferId FileId : GoString) (BytesChecksummed : Nat)
  | RuntimeError (Status : StatusCode)
  deriving DecidableEq, Repr

/-- Position of a variant in the declaration order of the source, starting at 1. -/
def EventKind.ordinal : EventKind → Nat
  | .RequestReceived .. => 1
  | .RequestQueued .. => 2
  | .FileStarted .. => 3
  | .FileProgress .. => 4
  | .FileDownloaded .. => 5
  | .FileUploaded .. => 6
  | .FileFailed .. => 7
  | .FileRejected .. => 8
  | .FilePaused .. => 9
  | .FileThrottled .. => 10
  | .FilePending .. => 11
  | .TransferFinalized .. => 12
  | .TransferFailed .. => 13
  | .TransferDeferred .. => 14
  | .FinalizeChecksumStarted .. => 15
  | .FinalizeChecksumFinished .. => 16
  | .FinalizeChecksumProgress .. => 17
  | .VerifyChecksumStarted .. => 18
  | .VerifyChecksumFinished .. => 19
  | .VerifyChecksumProgress .. => 20
  | .RuntimeError .. => 21

/-- Two strings read one after the other, as most variants of `EventKind` begin. -/
def readString2 (reader : Reader) : Except PanicValue ((GoString × GoString) × Reader) :=
  match FfiConverterString.Read reader with
  | .error p => .error p
  | .ok (a, reader) =>
    match FfiConverterString.Read reader with
    | .error p => .error p
    | .ok (b, reader) => .ok ((a, b), reader)

/-- Continuation of a read: the next field is decoded from the rest and the variant built. -/
def andThen {α β : Type} (r : Except PanicValue (α × Reader))
    (k : α → Reader → Except PanicValue (β × Reader)) : Except PanicValue (β × Reader) :=
  match r with
  | .error p => .error p
  | .ok (a, reader) => k a reader

/-- Method `FfiConverterTypeEventKind.Read`. -/
def FfiConverterTypeEventKind.Read (reader : Reader) : Except PanicValue (EventKind × Reader) :=
  match readInt32 reader with
  | .error p => .error p
  | .ok (id, reader) =>
    match id with
    | 1 => andThen (readString2 reader) fun s reader =>
        andThen (FfiConverterSequenceTypeReceivedFile.Read reader) fun files reader =>
          .ok (.RequestReceived s.1 s.2 files, reader)
    | 2 => andThen (readString2 reader) fun s reader =>
        andThen (FfiConverterSequenceTypeQueuedFile.Read reader) fun files reader =>
          .ok (.RequestQueued s.1 s.2 files, reader)
    | 3 => andThen (readString2 reader) fun s reader =>
        andThen (FfiConverterUint64.Read reader) fun n reader =>
          .ok (.FileStarted s.1 s.2 n, reader)
    | 4 => andThen (readString2 reader) fun s reader =>
        andThen (FfiConverterUint64.Read reader) fun n reader =>
          .ok (.FileProgress s.1 s.2 n, reader)
    | 5 => andThen (readString2 reader) fun s reader =>
        andThen (FfiConverterString.Read reader) fun finalPath reader =>
          .ok (.FileDownloaded s.1 s.2 finalPath, reader)
    | 6 => andThen (readString2 reader) fun s reader => .ok (.FileUploaded s.1 s.2, reader)
    | 7 => andThen (readString2 reader) fun s reader =>
        andThen (FfiConverterTypeStatus.Read reader) fun status reader =>
          .ok (.FileFailed s.1 s.2 status, reader)
    | 8 => andThen (readString2 reader) fun s reader =>
        andThen (FfiConverterBool.Read reader) fun byPeer reader =>
          .ok (.FileRejected s.1 s.2 byPeer, reader)
    | 9 => andThen (readString2 reader) fun s reader => .ok (.FilePaused s.1 s.2, reader)
    | 10 => andThen (readString2 reader) fun s reader =>
        andThen (FfiConverterUint64.Read reader) fun n reader =>
          .ok (.FileThrottled s.1 s.2 n, reader)
    | 11 => andThen (readString2 reader) fun s reader => .ok (.FilePending s.1 s.2, reader)
    | 12 => andThen (FfiConverterString.Read reader) fun transferId reader =>
        andThen (FfiConverterBool.Read reader) fun byPeer reader =>
          .ok (.TransferFinalized transferId byPeer, reader)
    | 13 => andThen (FfiConverterString.Read reader) fun transferId reader =>
        andThen (FfiConverterTypeStatus.Read reader) fun status reader =>
          .ok (.TransferFailed transferId status, reader)
    | 14 => andThen (readString2 reader) fun s reader =>
        andThen (FfiConverterTypeStatus.Read reader) fun status reader =>
          .ok (.TransferDeferred s.1 s.2 status, reader)
    | 15 => andThen (readString2 reader) fun s reader =>
        andThen (FfiConverterUint64.Read reader) fun n reader =>
          .ok (.FinalizeChecksumStarted s.1 s.2 n, reader)
    | 16 => andThen (readString2 reader) fun s reader =>
        .ok (.FinalizeChecksumFinished s.1 s.2, reader)
    | 17 => andThen (readString2 reader) fun s reader =>
        andThen (FfiConverterUint64.Read reader) fun n reader =>
          .ok (.FinalizeChecksumProgress s.1 s.2 n, reader)
    | 18 => andThen (readString2 reader) fun s reader =>
        andThen (FfiConverterUint64.Read reader) fun n reader =>
          .ok (.VerifyChecksumStarted s.1 s.2 n, reader)
    | 19 => andThen (readString2 reader) fun s reader =>
        .ok (.VerifyChecksumFinished s.1 s.2, reader)
    | 20 => andThen (readString2 reader) fun s reader =>
        andThen (FfiConverterUint64.Read reader) fun n reader =>
          .ok (.VerifyChecksumProgress s.1 s.2 n, reader)
    | 21 => andThen (FfiConverterTypeStatusCode.Read reader) fun status reader =>
        .ok (.RuntimeError status, reader)
    | _ =>
      .error (.message (goString "invalid enum value " ++ fmtInt id ++
        goString " in FfiConverterTypeEventKind.Read()"))

/-- Sequencing of two writes: the bytes of the second follow the bytes of the first. -/
def writeThen (a b : Except PanicValue (List Byte)) : Except PanicValue (List Byte) :=
  match a with
  | .error p => .error p
  | .ok x =>
    match b with
    | .error p => .error p
    | .ok y => .ok (x ++ y)

/-! ## Path states -/

/-- Interface `IncomingPathStateKind` with its six variant structs. -/
inductive IncomingPathStateKind where
  | Pending (BaseDir : GoString)
  | Started (BytesReceived : Nat)
  | Failed (Status : StatusCode) (BytesReceived : Nat)
  | Completed (FinalPath : GoString)
  | Rejected (ByPeer : Bool) (BytesReceived : Nat)
  | Paused (BytesReceived : Nat)
  deriving DecidableEq, Repr

/-- Method `FfiConverterTypeIncomingPathStateKind.Read`. -/
def FfiConverterTypeIncomingPathStateKind.Read (reader : Reader) :
    Except PanicValue (IncomingPathStateKind × Reader) :=
  match readInt32 reader with
  | .error p => .error p
  | .ok (id, reader) =>
    match id with
    | 1 => andThen (FfiConverterString.Read reader) fun baseDir reader =>
        .ok (.Pending baseDir, reader)
    | 2 => andThen (FfiConverterUint64.Read reader) fun n reader => .ok (.Started n, reader)
    | 3 => andThen (FfiConverterTypeStatusCode.Read reader) fun status reader =>
        andThen (FfiConverterUint64.Read reader) fun n reader => .ok (.Failed status n, reader)
    | 4 => andThen (FfiConverterString.Read reader) fun finalPath reader =>
        .ok (.Completed finalPath, reader)
    | 5 => andThen (FfiConverterBool.Read reader) fun byPeer reader =>
        andThen (FfiConverterUint64.Read reader) fun n reader => .ok (.Rejected byPeer n, reader)
    | 6 => andThen (FfiConverterUint64.Read reader) fun n reader => .ok (.Paused n, reader)
    | _ =>
      .error (.message (goString "invalid enum value " ++ fmtInt id ++
        goString " in FfiConverterTypeIncomingPathStateKind.Read()"))

/-- Method `FfiConverterTypeIncomingPathStateKind.Write`. -/
def FfiConverterTypeIncomingPathStateKind.Write (value : IncomingPathStateKind) :
    Except PanicValue (List Byte) :=
  match value with
  | .Pending baseDir => writeThen (.ok (writeInt32 1)) (FfiConverterString.Write baseDir)
  | .Started n => writeThen (.ok (writeInt32 2)) (FfiConverterUint64.Write n)
  | .Failed status n =>
    writeThen (.ok (writeInt32 3))
      (writeThen (FfiConverterTypeStatusCode.Write status) (FfiConverterUint64.Write n))
  | .Completed finalPath => writeThen (.ok (writeInt32 4)) (FfiConverterString.Write finalPath)
  | .Rejected byPeer n =>
    writeThen (.ok (writeInt32 5))
      (writeThen (FfiConverterBool.Write byPeer) (FfiConverterUint64.Write n))
  | .Paused n => writeThen (.ok (writeInt32 6)) (FfiConverterUint64.Write n)

/-- Struct `IncomingPathState`. -/
structure IncomingPathState where
  CreatedAt : Int
  Kind : IncomingPathStateKind
  deriving DecidableEq, Repr

def FfiConverterTypeIncomingPathState.Read (reader : Reader) :
    Except PanicValue (IncomingPathState × Reader) :=
  andThen (FfiConverterInt64.Read reader) fun createdAt reader =>
    andThen (FfiConverterTypeIncomingPathStateKind.Read reader) fun kind reader =>
      .ok (⟨createdAt, kind⟩, reader)

def FfiConverterTypeIncomingPathState.Write (value : IncomingPathState) :
    Except PanicValue (List Byte) :=
  writeThen (FfiConverterInt64.Write value.CreatedAt)
    (FfiConverterTypeIncomingPathStateKind.Write value.Kind)

def FfiConverterSequenceTypeIncomingPathState.Read (reader : Reader) :
    Except PanicValue (List IncomingPathState × Reader) :=
  readSequence FfiConverterTypeIncomingPathState.Read reader

def FfiConverterSequenceTypeIncomingPathState.Write (value : List IncomingPathState) :
    Except PanicValue (List Byte) :=
  writeSequence "IncomingPathState" FfiConverterTypeIncomingPathState.Write value

/-- Interface `OutgoingPathStateKind` with its five variant structs. -/
inductive OutgoingPathStateKind where
  | Started (BytesSent : Nat)
  | Failed (Status : StatusCode) (BytesSent : Nat)
  | Completed
  | Rejected (ByPeer : Bool) (BytesSent : Nat)
  | Paused (BytesSent : Nat)
  deriving DecidableEq, Repr

/-- Method `FfiConverterTypeOutgoingPathStateKind.Read`. -/
def FfiConverterTypeOutgoingPathStateKind.Read (reader : Reader) :
    Except PanicValue (OutgoingPathStateKind × Reader) :=
  match readInt32 reader with
  | .error p => .error p
  | .ok (id, reader) =>
    match id with
    | 1 => andThen (FfiConverterUint64.Read reader) fun n reader => .ok (.Started n, reader)
    | 2 => andThen (FfiConverterTypeStatusCode.Read reader) fun status reader =>
        andThen (FfiConverterUint64.Read reader) fun n reader => .ok (.Failed status n, reader)
    | 3 => .ok (.Completed, reader)
    | 4 => andThen (FfiConverterBool.Read reader) fun byPeer reader =>
        andThen (FfiConverterUint64.Read reader) fun n reader => .ok (.Rejected byPeer n, reader)
    | 5 => andThen (FfiConverterUint64.Read reader) fun n reader => .ok (.Paused n, reader)
    | _ =>
      .error (.message (goString "invalid enum value " ++ fmtInt id ++
        goString " in FfiConverterTypeOutgoingPathStateKind.Read()"))

/-- Method `FfiConverterTypeOutgoingPathStateKind.Write`. -/
def FfiConverterTypeOutgoingPathStateKind.Write (value : OutgoingPathStateKind) :
    Except PanicValue (List Byte) :=
  match value with
  | .Started n => writeThen (.ok (writeInt32 1)) (FfiConverterUint64.Write n)
  | .Failed status n =>
    writeThen (.ok (writeInt32 2))
      (writeThen (FfiConverterTypeStatusCode.Write status) (FfiConverterUint64.Write n))
  | .Completed => .ok (writeInt32 3)
  | .Rejected byPeer n =>
    writeThen (.ok (writeInt32 4))
      (writeThen (FfiConverterBool.Write byPeer) (FfiConverterUint64.Write n))
  | .Paused n => writeThen (.ok (writeInt32 5)) (FfiConverterUint64.Write n)

/-- Struct `OutgoingPathState`. -/
structure OutgoingPathState where
  CreatedAt : Int
  Kind : OutgoingPathStateKind
  deriving DecidableEq, Repr

def FfiConverterTypeOutgoingPathState.Read (reader : Reader) :
    Except PanicValue (OutgoingPathState × Reader) :=
  andThen (FfiConverterInt64.Read reader) fun createdAt reader =>
    andThen (FfiConverterTypeOutgoingPathStateKind.Read reader) fun kind reader =>
      .ok (⟨createdAt, kind⟩, reader)

def FfiConverterTypeOutgoingPathState.Write (value : OutgoingPathState) :
    Except PanicValue (List Byte) :=
  writeThen (FfiConverterInt64.Write value.CreatedAt)
    (FfiConverterTypeOutgoingPathStateKind.Write value.Kind)

def FfiConverterSequenceTypeOutgoingPathState.Read (reader : Reader) :
    Except PanicValue (List OutgoingPathState × Reader) :=
  readSequence FfiConverterTypeOutgoingPathState.Read reader

def FfiConverterSequenceTypeOutgoingPathState.Write (value : List OutgoingPathState) :
    Except PanicValue (List Byte) :=
  writeSequence "OutgoingPathState" FfiConverterTypeOutgoingPathState.Write value

/-! ## Paths -/

/-- Struct `IncomingPath`. -/
structure IncomingPath where
  FileId : GoString
  RelativePath : GoString
  Bytes : Nat
  BytesReceived : Nat
  States : List IncomingPathState
  deriving DecidableEq, Repr

def FfiConverterTypeIncomingPath.Read (reader : Reader) :
    Except PanicValue (IncomingPath × Reader) :=
  andThen (FfiConverterString.Read reader) fun fileId reader =>
    andThen (FfiConverterString.Read reader) fun relativePath reader =>
      andThen (FfiConverterUint64.Read reader) fun bytes reader =>
        andThen (FfiConverterUint64.Read reader) fun bytesReceived reader =>
          andThen (FfiConverterSequenceTypeIncomingPathState.Read reader) fun states reader =>
            .ok (⟨fileId, relativePath, bytes, bytesReceived, states⟩, reader)

def FfiConverterTypeIncomingPath.Write (value : IncomingPath) : Except PanicValue (List Byte) :=
  writeThen (FfiConverterString.Write value.FileId)
    (writeThen (FfiConverterString.Write value.RelativePath)
      (writeThen (FfiConverterUint64.Write value.Bytes)
        (writeThen (FfiConverterUint64.Write value.BytesReceived)
          (FfiConverterSequenceTypeIncomingPathState.Write value.States))))

def FfiConverterSequenceTypeIncomingPath.Read (reader : Reader) :
    Except PanicValue (List IncomingPath × Reader) :=
  readSequence FfiConverterTypeIncomingPath.Read reader

def FfiConverterSequenceTypeIncomingPath.Write (value : List IncomingPath) :
    Except PanicValue (List Byte) :=
  writeSequence "IncomingPath" FfiConverterTypeIncomingPath.Write value

/-- Interface `OutgoingFileSource` with its two variant structs. -/
inductive OutgoingFileSource where
  | BasePath (BasePath : GoString)
  | ContentUri (Uri : GoString)
  deriving DecidableEq, Repr

def FfiConverterTypeOutgoingFileSource.Read (reader : Reader) :
    Except PanicValue (OutgoingFileSource × Reader) :=
  match readInt32 reader with
  | .error p => .error p
  | .ok (id, reader) =>
    match id with
    | 1 => andThen (FfiConverterString.Read reader) fun basePath reader =>
        .ok (.BasePath basePath, reader)
    | 2 => andThen (FfiConverterString.Read reader) fun uri reader =>
        .ok (.ContentUri uri, reader)
    | _ =>
      .error (.message (goString "invalid enum value " ++ fmtInt id ++
        goString " in FfiConverterTypeOutgoingFileSource.Read()"))

def FfiConverterTypeOutgoingFileSource.Write (value : OutgoingFileSource) :
    Except PanicValue (List Byte) :=
  match value with
  | .BasePath basePath => writeThen (.ok (writeInt32 1)) (FfiConverterString.Write basePath)
  | .ContentUri uri => writeThen (.ok (writeInt32 2)) (FfiConverterString.Write uri)

/-- Struct `OutgoingPath`. -/
structure OutgoingPath where
  FileId : GoString
  RelativePath : GoString
  Bytes : Nat
  BytesSent : Nat
  Source : OutgoingFileSource
  States : List OutgoingPathState
  deriving DecidableEq, Repr

def FfiConverterTypeOutgoingPath.Read (reader : Reader) :
    Except PanicValue (OutgoingPath × Reader) :=
  andThen (FfiConverterString.Read reader) fun fileId reader =>
    andThen (FfiConverterString.Read reader) fun relativePath reader =>
      andThen (FfiConverterUint64.Read reader) fun bytes reader =>
        andThen (FfiConverterUint64.Read reader) fun bytesSent reader =>
          andThen (FfiConverterTypeOutgoingFileSource.Read reader) fun source reader =>
            andThen (FfiConverterSequenceTypeOutgoingPathState.Read reader) fun states reader =>
              .ok (⟨fileId, relativePath, bytes, bytesSent, source, states⟩, reader)

def FfiConverterTypeOutgoingPath.Write (value : OutgoingPath) : Except PanicValue (List Byte) :=
  writeThen (FfiConverterString.Write value.FileId)
    (writeThen (FfiConverterString.Write value.RelativePath)
      (writeThen (FfiConverterUint64.Write value.Bytes)
        (writeThen (FfiConverterUint64.Write value.BytesSent)
          (writeThen (FfiConverterTypeOutgoingFileSource.Write value.Source)
            (FfiConverterSequenceTypeOutgoingPathState.Write value.States)))))

def FfiConverterSequenceTypeOutgoingPath.Read (reader : Reader) :
    Except PanicValue (List OutgoingPath × Reader) :=
  readSequence FfiConverterTypeOutgoingPath.Read reader

def FfiConverterSequenceTypeOutgoingPath.Write (value : List OutgoingPath) :
    Except PanicValue (List Byte) :=
  writeSequence "OutgoingPath" FfiConverterTypeOutgoingPath.Write value

/-! ## Transfers -/

/-- Interface `TransferStateKind` with its two variant structs. -/
inductive TransferStateKind where
  | Cancel (ByPeer : Bool)
  | Failed (Status : StatusCode)
  deriving DecidableEq, Repr

def FfiConverterTypeTransferStateKind.Read (reader : Reader) :
    Except PanicValue (TransferStateKind × Reader) :=
  match readInt32 reader with
  | .error p => .error p
  | .ok (id, reader) =>
    match id with
    | 1 => andThen (FfiConverterBool.Read reader) fun byPeer reader =>
        .ok (.Cancel byPeer, reader)
    | 2 => andThen (FfiConverterTypeStatusCode.Read reader) fun status reader =>
        .ok (.Failed status, reader)
    | _ =>
      .error (.message (goString "invalid enum value " ++ fmtInt id ++
        goString " in FfiConverterTypeTransferStateKind.Read()"))

def FfiConverterTypeTransferStateKind.Write (value : TransferStateKind) :
    Except PanicValue (List Byte) :=
  match value with
  | .Cancel byPeer => writeThen (.ok (writeInt32 1)) (FfiConverterBool.Write byPeer)
  | .Failed status => writeThen (.ok (writeInt32 2)) (FfiConverterTypeStatusCode.Write status)

/-- Struct `TransferState`. -/
structure TransferState where
  CreatedAt : Int
  Kind : TransferStateKind
  deriving DecidableEq, Repr

def FfiConverterTypeTransferState.Read (reader : Reader) :
    Except PanicValue (TransferState × Reader) :=
  andThen (FfiConverterInt64.Read reader) fun createdAt reader =>
    andThen (FfiConverterTypeTransferStateKind.Read reader) fun kind reader =>
      .ok (⟨createdAt, kind⟩, reader)

def FfiConverterTypeTransferState.Write (value : TransferState) :
    Except PanicValue (List Byte) :=
  writeThen (FfiConverterInt64.Write value.CreatedAt)
    (FfiConverterTypeTransferStateKind.Write value.Kind)

def FfiConverterSequenceTypeTransferState.Read (reader : Reader) :
    Except PanicValue (List TransferState × Reader) :=
  readSequence FfiConverterTypeTransferState.Read reader

def FfiConverterSequenceTypeTransferState.Write (value : List TransferState) :
    Except PanicValue (List Byte) :=
  writeSequence "TransferState" FfiConverterTypeTransferState.Write value

/-- Interface `TransferKind` with its two variant structs. -/
inductive TransferKind where
  | Incoming (Paths : List IncomingPath)
  | Outgoing (Paths : List OutgoingPath)
  deriving DecidableEq, Repr

def FfiConverterTypeTransferKind.Read (reader : Reader) :
    Except PanicValue (TransferKind × Reader) :=
  match readInt32 reader with
  | .error p => .error p
  | .ok (id, reader) =>
    match id with
    | 1 => andThen (FfiConverterSequenceTypeIncomingPath.Read reader) fun paths reader =>
        .ok (.Incoming paths, reader)
    | 2 => andThen (FfiConverterSequenceTypeOutgoingPath.Read reader) fun paths reader =>
        .ok (.Outgoing paths, reader)
    | _ =>
      .error (.message (goString "invalid enum value " ++ fmtInt id ++
        goString " in FfiConverterTypeTransferKind.Read()"))

def FfiConverterTypeTransferKind.Write (value : TransferKind) : Except PanicValue (List Byte) :=
  match value with
  | .Incoming paths =>
    writeThen (.ok (writeInt32 1)) (FfiConverterSequenceTypeIncomingPath.Write paths)
  | .Outgoing paths =>
    writeThen (.ok (writeInt32 2)) (FfiConverterSequenceTypeOutgoingPath.Write paths)

/-- Struct `TransferInfo`. -/
structure TransferInfo where
  Id : GoString
  CreatedAt : Int
  Peer : GoString
  States : List TransferState
  Kind : TransferKind
  deriving DecidableEq, Repr

def FfiConverterTypeTransferInfo.Read (reader : Reader) :
    Except PanicValue (TransferInfo × Reader) :=
  andThen (FfiConverterString.Read reader) fun id reader =>
    andThen (FfiConverterInt64.Read reader) fun createdAt reader =>
      andThen (FfiConverterString.Read reader) fun peer reader =>
        andThen (FfiConverterSequenceTypeTransferState.Read reader) fun states reader =>
          andThen (FfiConverterTypeTransferKind.Read reader) fun kind reader =>
            .ok (⟨id, createdAt, peer, states, kind⟩, reader)

def FfiConverterTypeTransferInfo.Write (value : TransferInfo) : Except PanicValue (List Byte) :=
  writeThen (FfiConverterString.Write value.Id)
    (writeThen (FfiConverterInt64.Write value.CreatedAt)
      (writeThen (FfiConverterString.Write value.Peer)
        (writeThen (FfiConverterSequenceTypeTransferState.Write value.States)
          (FfiConverterTypeTransferKind.Write value.Kind))))

def FfiConverterSequenceTypeTransferInfo.Read (reader : Reader) :
    Except PanicValue (List TransferInfo × Reader) :=
  readSequence FfiConverterTypeTransferInfo.Read reader

def FfiConverterSequenceTypeTransferInfo.Write (value : List TransferInfo) :
    Except PanicValue (List Byte) :=
  writeSequence "TransferInfo" FfiConverterTypeTransferInfo.Write value

/-! ## Value ranges of the Go types and of the well-formed records -/

/-- String that is not empty and shorter than `2^31` bytes. -/
def StringOk (s : GoString) : Prop := 0 < s.length ∧ s.length ≤ MaxInt32

/-- Range of the Go type `uint64`. -/
def IsUint64 (n : Nat) : Prop := n < 18446744073709551616

/-- Range of the Go type `int64`. -/
def IsInt64 (i : Int) : Prop := -9223372036854775808 ≤ i ∧ i < 9223372036854775808

/-- Status code among the 24 declared ones. -/
def StatusCodeDeclared (c : StatusCode) : Prop :=
  StatusCodeFinalized ≤ c ∧ c ≤ StatusCodePermissionDenied

instance (s : GoString) : Decidable (StringOk s) := by unfold StringOk; infer_instance

instance (n : Nat) : Decidable (IsUint64 n) := by unfold IsUint64; infer_instance

instance (i : Int) : Decidable (IsInt64 i) := by unfold IsInt64; infer_instance

instance (c : StatusCode) : Decidable (StatusCodeDeclared c) := by
  unfold StatusCodeDeclared; infer_instance

def IncomingPathStateKind.Ok : IncomingPathStateKind → Prop
  | .Pending baseDir => StringOk baseDir
  | .Started n => IsUint64 n
  | .Failed status n => StatusCodeDeclared status ∧ IsUint64 n
  | .Completed finalPath => StringOk finalPath
  | .Rejected _ n => IsUint64 n
  | .Paused n => IsUint64 n

instance (k : IncomingPathStateKind) : Decidable k.Ok := by
  cases k <;> simp only [IncomingPathStateKind.Ok] <;> infer_instance

def IncomingPathState.Ok (s : IncomingPathState) : Prop := IsInt64 s.CreatedAt ∧ s.Kind.Ok

instance (s : IncomingPathState) : Decidable s.Ok := by
  unfold IncomingPathState.Ok; infer_instance

def OutgoingPathStateKind.Ok : OutgoingPathStateKind → Prop
  | .Started n => IsUint64 n
  | .Failed status n => StatusCodeDeclared status ∧ IsUint64 n
  | .Completed => True
  | .Rejected _ n => IsUint64 n
  | .Paused n => IsUint64 n

instance (k : OutgoingPathStateKind) : Decidable k.Ok := by
  cases k <;> simp only [OutgoingPathStateKind.Ok] <;> infer_instance

def OutgoingPathState.Ok (s : OutgoingPathState) : Prop := IsInt64 s.CreatedAt ∧ s.Kind.Ok

instance (s : OutgoingPathState) : Decidable s.Ok := by
  unfold OutgoingPathState.Ok; infer_instance

def IncomingPath.Ok (p : IncomingPath) : Prop :=
  StringOk p.FileId ∧ StringOk p.RelativePath ∧ IsUint64 p.Bytes ∧ IsUint64 p.BytesReceived ∧
    p.States.length ≤ MaxInt32 ∧ ∀ s ∈ p.States, s.Ok

instance (p : IncomingPath) : Decidable p.Ok := by unfold IncomingPath.Ok; infer_instance

def OutgoingFileSource.Ok : OutgoingFileSource → Prop
  | .BasePath basePath => StringOk basePath
  | .ContentUri uri => StringOk uri

instance (k : OutgoingFileSource) : Decidable k.Ok := by
  cases k <;> simp only [OutgoingFileSource.Ok] <;> infer_instance

def OutgoingPath.Ok (p : OutgoingPath) : Prop :=
  StringOk p.FileId ∧ StringOk p.RelativePath ∧ IsUint64 p.Bytes ∧ IsUint64 p.BytesSent ∧
    p.Source.Ok ∧ p.States.length ≤ MaxInt32 ∧ ∀ s ∈ p.States, s.Ok

instance (p : OutgoingPath) : Decidable p.Ok := by unfold OutgoingPath.Ok; infer_instance

def TransferStateKind.Ok : TransferStateKind → Prop
  | .Cancel _ => True
  | .Failed status => StatusCodeDeclared status

instance (k : TransferStateKind) : Decidable k.Ok := by
  cases k <;> simp only [TransferStateKind.Ok] <;> infer_instance

def TransferState.Ok (s : TransferState) : Prop := IsInt64 s.CreatedAt ∧ s.Kind.Ok

instance (s : TransferState) : Decidable s.Ok := by unfold TransferState.Ok; infer_instance

def TransferKind.Ok : TransferKind → Prop
  | .Incoming paths => paths.length ≤ MaxInt32 ∧ ∀ p ∈ paths, p.Ok
  | .Outgoing paths => paths.length ≤ MaxInt32 ∧ ∀ p ∈ paths, p.Ok

instance (k : TransferKind) : Decidable k.Ok := by
  cases k <;> simp only [TransferKind.Ok] <;> infer_instance

/-- Record of the claim on transfer histories: strings not empty and shorter than `2^31`
bytes, sequences with fewer than `2^31` elements, declared status codes, and every integer
within the range of its Go type. -/
def TransferInfo.Ok (t : TransferInfo) : Prop :=
  StringOk t.Id ∧ IsInt64 t.CreatedAt ∧ StringOk t.Peer ∧
    t.States.length ≤ MaxInt32 ∧ (∀ s ∈ t.States, s.Ok) ∧ t.Kind.Ok

instance (t : TransferInfo) : Decidable t.Ok := by unfold TransferInfo.Ok; infer_instance

/-! ## Terminal path states -/

/-- Terminal variants of an incoming path state: Failed, Completed and Rejected. -/
def IncomingPathStateKind.isTerminal : IncomingPathStateKind → Bool
  | .Failed .. => true
  | .Completed .. => true
  | .Rejected .. => true
  | _ => false

/-- Terminal variants of an outgoing path state: Failed, Completed and Rejected. -/
def OutgoingPathStateKind.isTerminal : OutgoingPathStateKind → Bool
  | .Failed .. => true
  | .Completed => true
  | .Rejected .. => true
  | _ => false

/-- History with at most one terminal entry which, when present, is the last element. -/
def TerminalOnceAndLast {α : Type} (isTerminal : α → Bool) (states : List α) : Prop :=
  states.countP isTerminal ≤ 1 ∧
    (states.countP isTerminal = 1 → states.getLast?.map isTerminal = some true)

instance {α : Type} (isTerminal : α → Bool) (states : List α) :
    Decidable (TerminalOnceAndLast isTerminal states) := by
  unfold TerminalOnceAndLast; infer_instance

/-! ## Object lifetime -/

/-- Struct `FfiObject`. The field `freeFunction` is a function of the native library; the
calls `freeRustArcPtr` makes to it are counted in `freeCalls`, and the native function is
taken to report success. -/
structure FfiObject where
  pointer : Nat
  callCounter : Int
  destroyed : Bool
  freeCalls : Nat
  deriving DecidableEq, Repr

/-- Function `newFfiObject`: counter and flag have their zero values. -/
def newFfiObject (pointer : Nat) : FfiObject := ⟨pointer, 0, false, 0⟩

/-- Method `atomic.Int64.Add`: addition of `int64` values wraps around. -/
def addInt64 (a delta : Int) : Int := toSigned 64 (toUnsigned 64 (a + delta))

/-- Method `freeRustArcPtr`. -/
def FfiObject.freeRustArcPtr (ffiObject : FfiObject) : FfiObject :=
  { ffiObject with freeCalls := ffiObject.freeCalls + 1 }

/-- Method `incrementPointer`. Without a concurrent writer the compare-and-swap succeeds in
the first round of the loop. -/
def FfiObject.incrementPointer (ffiObject : FfiObject) (debugName : GoString) :
    Except PanicValue (Nat × FfiObject) :=
  let counter := ffiObject.callCounter
  if counter ≤ -1 then
    .error (.error (.errorString (debugName ++ goString " object has already been destroyed")))
  else if counter = MaxInt64 then
    .error (.error (.errorString (debugName ++ goString " object call counter would overflow")))
  else .ok (ffiObject.pointer, { ffiObject with callCounter := counter + 1 })

/-- Method `decrementPointer`. -/
def FfiObject.decrementPointer (ffiObject : FfiObject) : FfiObject :=
  let ffiObject := { ffiObject with callCounter := addInt64 ffiObject.callCounter (-1) }
  if ffiObject.callCounter = -1 then ffiObject.freeRustArcPtr else ffiObject

/-- Method `destroy`. -/
def FfiObject.destroy (ffiObject : FfiObject) : FfiObject :=
  if ffiObject.destroyed = false then
    let ffiObject := { ffiObject with destroyed := true }
    let ffiObject := { ffiObject with callCounter := addInt64 ffiObject.callCounter (-1) }
    if ffiObject.callCounter = -1 then ffiObject.freeRustArcPtr else ffiObject
  else ffiObject

/-- Step of a client of an `FfiObject`. -/
inductive Step where
  | incrementPointer
  | decrementPointer
  | destroy
  deriving DecidableEq, Repr

/-- Run of a sequence of steps from an object state with `inFlight` calls in flight (the
successful `incrementPointer` steps not yet followed by their `decrementPointer`). A panic
of `incrementPointer` is caught by the client and leaves the object as it was. The run is
`none` when a `decrementPointer` step has no `incrementPointer` of its own. -/
def runSteps : FfiObject → Nat → List Step → Option (FfiObject × Nat)
  | ffiObject, inFlight, [] => some (ffiObject, inFlight)
  | ffiObject, inFlight, .incrementPointer :: steps =>
    match ffiObject.incrementPointer (goString "*NordDrop") with
    | .error _ => runSteps ffiObject inFlight steps
    | .ok (_, ffiObject) => runSteps ffiObject (inFlight + 1) steps
  | ffiObject, inFlight, .decrementPointer :: steps =>
    if inFlight = 0 then none
    else runSteps ffiObject.decrementPointer (inFlight - 1) steps
  | ffiObject, inFlight, .destroy :: steps => runSteps ffiObject.destroy inFlight steps

/-- Method `NordDrop.DownloadFile`. The native function gets the object pointer and the
three lowered arguments and leaves a call status behind; the second component is the
returned `error` (`none` being nil) or the panic the call ends with. The deferred
`decrementPointer` runs in either case once `incrementPointer` has returned. Copying the
arguments into native buffers (`Lower`) is taken to succeed. -/
def NordDrop.DownloadFile (self : FfiObject)
    (native : Nat → GoString → GoString → GoString → RustCallStatus → RustCallStatus)
    (transferId fileId destination : GoString) :
    FfiObject × Except PanicValue (Option GoError) :=
  match self.incrementPointer (goString "*NordDrop") with
  | .error p => (self, .error p)
  | .ok (_pointer, ffiObject) =>
    let result := rustCallWithError (some FfiConverterTypeLibdropError.Lift)
      (fun _uniffiStatus =>
        .ok (false, native _pointer transferId fileId destination _uniffiStatus))
    (ffiObject.decrementPointer,
      match result with
      | .error p => .error p
      | .ok (_, _uniffiErr) => .ok _uniffiErr)

/-- Method `NordDrop.Destroy`; clearing the finalizer has no effect on the object state. -/
def NordDrop.Destroy (object : FfiObject) : FfiObject := object.destroy

/-- Position of a variant in the declaration order of the source, starting at 1. -/
def IncomingPathStateKind.ordinal : IncomingPathStateKind → Nat
  | .Pending .. => 1
  | .Started .. => 2
  | .Failed .. => 3
  | .Completed .. => 4
  | .Rejected .. => 5
  | .Paused .. => 6

/-- Position of a variant in the declaration order of the source, starting at 1. -/
def OutgoingPathStateKind.ordinal : OutgoingPathStateKind → Nat
  | .Started .. => 1
  | .Failed .. => 2
  | .Completed => 3
  | .Rejected .. => 4
  | .Paused .. => 5

/-- Relation between an object state and the number of calls in flight that every run from
a fresh object keeps: the counter is the number of calls in flight, less one once the object
is destroyed; it never exceeds `math.MaxInt64`; and the native destructor has run once when
the object is destroyed with no call in flight, and not at all otherwise. -/
def FfiObject.Consistent (ffiObject : FfiObject) (inFlight : Nat) : Prop :=
  ffiObject.callCounter = (inFlight : Int) - (if ffiObject.destroyed then 1 else 0) ∧
    ffiObject.callCounter ≤ MaxInt64 ∧
    ffiObject.freeCalls = (if ffiObject.destroyed = true ∧ inFlight = 0 then 1 else 0)

/-- History of two transfers used to exercise the round trip: an incoming one with a file
that was started and then completed, and an outgoing one that failed. -/
def sampleTransfers : List TransferInfo :=
  [ { Id := [105, 100], CreatedAt := 1700000000000, Peer := [49, 48, 46, 48],
      States := [⟨1700000000500, .Cancel true⟩],
      Kind := .Incoming
        [ { FileId := [102], RelativePath := [97, 47, 98], Bytes := 500, BytesReceived := 500,
            States := [⟨1, .Pending [47]⟩, ⟨2, .Started 0⟩, ⟨3, .Completed [47, 98]⟩] } ] },
    { Id := [105, 50], CreatedAt := -5, Peer := [112],
      States := [⟨7, .Failed 22⟩],
      Kind := .Outgoing
        [ { FileId := [103], RelativePath := [99], Bytes := 1000, BytesSent := 10,
            Source := .BasePath [47, 97],
            States := [⟨1, .Started 0⟩, ⟨2, .Paused 10⟩, ⟨3, .Failed 22 10⟩] },
          { FileId := [104], RelativePath := [100], Bytes := 0, BytesSent := 0,
            Source := .ContentUri [117], States := [⟨4, .Completed⟩] } ] } ]

/-! ## Round trips -/

/-- Decoding undoes encoding at the value `v`: `write` produces bytes, and `read` applied to
these bytes followed by anything returns `v` and leaves exactly what followed. -/
def RoundTrips {α : Type} (read : Reader → Except PanicValue (α × Reader))
    (write : α → Except PanicValue (List Byte)) (v : α) : Prop :=
  ∃ bs, write v = .ok bs ∧ ∀ rest, read (bs ++ rest) = .ok (v, rest)

/-! ## Byte arrays and lowering -/

/-- Method `FfiConverterBytes.Read`; it differs from the string reader in the panic text
only. -/
def FfiConverterBytes.Read (reader : Reader) : Except PanicValue (List Byte × Reader) :=
  match readInt32 reader with
  | .error p => .error p
  | .ok (length, reader) =>
    if length < 0 then .error (.runtime (goString "makeslice: len out of range"))
    else if reader.length = 0 then .error (.error .EOF)
    else
      let read_length := min length.toNat reader.length
      if read_length ≠ length.toNat then
        .error (.error (.errorString
          (goString "bad read length when reading []byte, expected " ++ fmtInt length ++
            goString ", read " ++ fmtInt read_length)))
      else .ok (reader.take read_length, reader.drop read_length)

/-- Method `FfiConverterBytes.Write`: the bytes appended to the buffer. -/
def FfiConverterBytes.Write (value : List Byte) : Except PanicValue (List Byte) :=
  if value.length > MaxInt32 then
    .error (.message (goString "[]byte is too large to fit into Int32"))
  else .ok (writeInt32 (toSigned 32 value.length) ++ value)

/-- Method `FfiConverterOptionalBytes.Read`; `none` is the nil pointer. -/
def FfiConverterOptionalBytes.Read (reader : Reader) :
    Except PanicValue (Option (List Byte) × Reader) :=
  match readInt8 reader with
  | .error p => .error p
  | .ok (flag, reader) =>
    if flag = 0 then .ok (none, reader)
    else
      match FfiConverterBytes.Read reader with
      | .error p => .error p
      | .ok (temp, reader) => .ok (some temp, reader)

/-- Method `FfiConverterOptionalBytes.Write`. -/
def FfiConverterOptionalBytes.Write (value : Option (List Byte)) :
    Except PanicValue (List Byte) :=
  match value with
  | none => .ok (writeInt8 0)
  | some v =>
    match FfiConverterBytes.Write v with
    | .error p => .error p
    | .ok bs => .ok (writeInt8 1 ++ bs)

/-- Function `bytesToRustBuffer`: the bytes are copied into a buffer of the native
library (an empty slice gives the zero `RustBuffer`); the native allocation is taken to
succeed. -/
def bytesToRustBuffer (b : List Byte) : RustBuffer := b

/-- Function `LowerIntoRustBuffer`: the value is written into a `bytes.Buffer` whose
contents become the `RustBuffer`. -/
def LowerIntoRustBuffer {α : Type} (write : α → Except PanicValue (List Byte)) (value : α) :
    Except PanicValue RustBuffer :=
  match write value with
  | .error p => .error p
  | .ok bytes => .ok (bytesToRustBuffer bytes)

/-! ## Callback results and collaborators -/

/-- Type `uniffiCallbackResult` (a `C.int32_t`) and its constants. -/
abbrev uniffiCallbackResult := Int

def uniffiIdxCallbackFree : uniffiCallbackResult := 0
def uniffiCallbackResultSuccess : uniffiCallbackResult := 0
def uniffiCallbackResultError : uniffiCallbackResult := 1
def uniffiCallbackUnexpectedResultError : uniffiCallbackResult := 2
def uniffiCallbackCancelled : uniffiCallbackResult := 3

/-- Interface `KeyStore`, implemented by the application; `none` is the nil pointer that
tells that the key could not be provided. -/
structure KeyStore where
  OnPubkey : GoString → Option (List Byte)
  Privkey : List Byte

/-- Interface `FdResolver`, implemented by the application; `none` is the nil pointer. -/
structure FdResolver where
  OnFd : GoString → Option Int

/-- Method `InvokeOnPubkey`: the bytes left in `*outBuf` and the returned result. -/
def foreignCallbackCallbackInterfaceKeyStore.InvokeOnPubkey (callback : KeyStore)
    (args : List Byte) : Except PanicValue (RustBuffer × uniffiCallbackResult) :=
  match FfiConverterString.Read args with
  | .error p => .error p
  | .ok (peer, _) =>
    let result := callback.OnPubkey peer
    match LowerIntoRustBuffer FfiConverterOptionalBytes.Write result with
    | .error p => .error p
    | .ok outBuf => .ok (outBuf, uniffiCallbackResultSuccess)

/-- Method `InvokePrivkey`. -/
def foreignCallbackCallbackInterfaceKeyStore.InvokePrivkey (callback : KeyStore)
    (_args : List Byte) : Except PanicValue (RustBuffer × uniffiCallbackResult) :=
  let result := callback.Privkey
  match LowerIntoRustBuffer FfiConverterBytes.Write result with
  | .error p => .error p
  | .ok outBuf => .ok (outBuf, uniffiCallbackResultSuccess)

/-- Method `InvokeOnFd`: the bytes left in `*outBuf` and the returned result. -/
def foreignCallbackCallbackInterfaceFdResolver.InvokeOnFd (callback : FdResolver)
    (args : List Byte) : Except PanicValue (RustBuffer × uniffiCallbackResult) :=
  match FfiConverterString.Read args with
  | .error p => .error p
  | .ok (contentUri, _) =>
    let result := callback.OnFd contentUri
    match LowerIntoRustBuffer FfiConverterOptionalInt32.Write result with
    | .error p => .error p
    | .ok outBuf => .ok (outBuf, uniffiCallbackResultSuccess)

/-- Type `LogLevel` (a Go `uint`) with its six constants. -/
abbrev LogLevel := Nat

def LogLevelCritical : LogLevel := 1
def LogLevelError : LogLevel := 2
def LogLevelWarning : LogLevel := 3
def LogLevelInfo : LogLevel := 4
def LogLevelDebug : LogLevel := 5
def LogLevelTrace : LogLevel := 6

/-- Method `FfiConverterTypeLogLevel.Read`: `LogLevel(id)` converts the `int32` to `uint`. -/
def FfiConverterTypeLogLevel.Read (reader : Reader) : Except PanicValue (LogLevel × Reader) :=
  match readInt32 reader with
  | .error p => .error p
  | .ok (id, reader) => .ok (toUnsigned 64 id, reader)

/-- Method `FfiConverterTypeLogLevel.Write`: `int32(value)` truncates the `uint`. -/
def FfiConverterTypeLogLevel.Write (value : LogLevel) : Except PanicValue (List Byte) :=
  .ok (writeInt32 (toSigned 32 value))

/-- Method `InvokeOnLog`: the arguments handed to `Logger.OnLog` (which returns nothing)
and the returned result; `*outBuf` is left untouched. -/
def foreignCallbackCallbackInterfaceLogger.InvokeOnLog (args : List Byte) :
    Except PanicValue ((LogLevel × GoString) × uniffiCallbackResult) :=
  match FfiConverterTypeLogLevel.Read args with
  | .error p => .error p
  | .ok (level, reader) =>
    match FfiConverterString.Read reader with
    | .error p => .error p
    | .ok (msg, _) => .ok ((level, msg), uniffiCallbackResultSuccess)

/-! ## Events -/

def FfiConverterTypeReceivedFile.Write (value : ReceivedFile) : Except PanicValue (List Byte) :=
  writeThen (FfiConverterString.Write value.Id)
    (writeThen (FfiConverterString.Write value.Path) (FfiConverterUint64.Write value.Size))

def FfiConverterSequenceTypeReceivedFile.Write (value : List ReceivedFile) :
    Except PanicValue (List Byte) :=
  writeSequence "ReceivedFile" FfiConverterTypeReceivedFile.Write value

def FfiConverterTypeQueuedFile.Write (value : QueuedFile) : Except PanicValue (List Byte) :=
  writeThen (FfiConverterString.Write value.Id)
    (writeThen (FfiConverterString.Write value.Path)
      (writeThen (FfiConverterUint64.Write value.Size)
        (FfiConverterOptionalString.Write value.BaseDir)))

def FfiConverterSequenceTypeQueuedFile.Write (value : List QueuedFile) :
    Except PanicValue (List Byte) :=
  writeSequence "QueuedFile" FfiConverterTypeQueuedFile.Write value

/-- Two strings written one after the other, as most variants of `EventKind` begin. -/
def writeString2 (a b : GoString) : Except PanicValue (List Byte) :=
  writeThen (FfiConverterString.Write a) (FfiConverterString.Write b)

/-- Method `FfiConverterTypeEventKind.Write`. -/
def FfiConverterTypeEventKind.Write (value : EventKind) : Except PanicValue (List Byte) :=
  match value with
  | .RequestReceived peer transferId files =>
    writeThen (.ok (writeInt32 1))
      (writeThen (writeString2 peer transferId) (FfiConverterSequenceTypeReceivedFile.Write files))
  | .RequestQueued peer transferId files =>
    writeThen (.ok (writeInt32 2))
      (writeThen (writeString2 peer transferId) (FfiConverterSequenceTypeQueuedFile.Write files))
  | .FileStarted transferId fileId n =>
    writeThen (.ok (writeInt32 3))
      (writeThen (writeString2 transferId fileId) (FfiConverterUint64.Write n))
  | .FileProgress transferId fileId n =>
    writeThen (.ok (writeInt32 4))
      (writeThen (writeString2 transferId fileId) (FfiConverterUint64.Write n))
  | .FileDownloaded transferId fileId finalPath =>
    writeThen (.ok (writeInt32 5))
      (writeThen (writeString2 transferId fileId) (FfiConverterString.Write finalPath))
  | .FileUploaded transferId fileId =>
    writeThen (.ok (writeInt32 6)) (writeString2 transferId fileId)
  | .FileFailed transferId fileId status =>
    writeThen (.ok (writeInt32 7))
      (writeThen (writeString2 transferId fileId) (FfiConverterTypeStatus.Write status))
  | .FileRejected transferId fileId byPeer =>
    writeThen (.ok (writeInt32 8))
      (writeThen (writeString2 transferId fileId) (FfiConverterBool.Write byPeer))
  | .FilePaused transferId fileId =>
    writeThen (.ok (writeInt32 9)) (writeString2 transferId fileId)
  | .FileThrottled transferId fileId n =>
    writeThen (.ok (writeInt32 10))
      (writeThen (writeString2 transferId fileId) (FfiConverterUint64.Write n))
  | .FilePending transferId fileId =>
    writeThen (.ok (writeInt32 11)) (writeString2 transferId fileId)
  | .TransferFinalized transferId byPeer =>
    writeThen (.ok (writeInt32 12))
      (writeThen (FfiConverterString.Write transferId) (FfiConverterBool.Write byPeer))
  | .TransferFailed transferId status =>
    writeThen (.ok (writeInt32 13))
      (writeThen (FfiConverterString.Write transferId) (FfiConverterTypeStatus.Write status))
  | .TransferDeferred transferId peer status =>
    writeThen (.ok (writeInt32 14))
      (writeThen (writeString2 transferId peer) (FfiConverterTypeStatus.Write status))
  | .FinalizeChecksumStarted transferId fileId n =>
    writeThen (.ok (writeInt32 15))
      (writeThen (writeString2 transferId fileId) (FfiConverterUint64.Write n))
  | .FinalizeChecksumFinished transferId fileId =>
    writeThen (.ok (writeInt32 16)) (writeString2 transferId fileId)
  | .FinalizeChecksumProgress transferId fileId n =>
    writeThen (.ok (writeInt32 17))
      (writeThen (writeString2 transferId fileId) (FfiConverterUint64.Write n))
  | .VerifyChecksumStarted transferId fileId n =>
    writeThen (.ok (writeInt32 18))
      (writeThen (writeString2 transferId fileId) (FfiConverterUint64.Write n))
  | .VerifyChecksumFinished transferId fileId =>
    writeThen (.ok (writeInt32 19)) (writeString2 transferId fileId)
  | .VerifyChecksumProgress transferId fileId n =>
    writeThen (.ok (writeInt32 20))
      (writeThen (writeString2 transferId fileId) (FfiConverterUint64.Write n))
  | .RuntimeError status =>
    writeThen (.ok (writeInt32 21)) (FfiConverterTypeStatusCode.Write status)

/-- Struct `Event`. -/
structure Event where
  Timestamp : Int
  Kind : EventKind
  deriving DecidableEq, Repr

def FfiConverterTypeEvent.Read (reader : Reader) : Except PanicValue (Event × Reader) :=
  andThen (FfiConverterInt64.Read reader) fun timestamp reader =>
    andThen (FfiConverterTypeEventKind.Read reader) fun kind reader =>
      .ok (⟨timestamp, kind⟩, reader)

def FfiConverterTypeEvent.Write (value : Event) : Except PanicValue (List Byte) :=
  writeThen (FfiConverterInt64.Write value.Timestamp)
    (FfiConverterTypeEventKind.Write value.Kind)

/-- Method `InvokeOnEvent`: the event handed to `EventCallback.OnEvent` (which returns
nothing) and the returned result; `*outBuf` is left untouched. -/
def foreignCallbackCallbackInterfaceEventCallback.InvokeOnEvent (args : List Byte) :
    Except PanicValue (Event × uniffiCallbackResult) :=
  match FfiConverterTypeEvent.Read args with
  | .error p => .error p
  | .ok (event, _) => .ok (event, uniffiCallbackResultSuccess)

/-! ## Methods of `NordDrop` -/

/-- Struct `Config`; a nil pointer field is `none`. -/
structure Config where
  DirDepthLimit : Nat
  TransferFileLimit : Nat
  MooseEventPath : GoString
  MooseProd : Bool
  StoragePath : GoString
  ChecksumEventsSizeThreshold : Option Nat
  ChecksumEventsGranularity : Option Nat
  ConnectionRetries : Option Nat
  deriving DecidableEq, Repr

/-- Interface `TransferDescriptor` with its two variant structs `TransferDescriptorPath` and
`TransferDescriptorFd`. -/
inductive TransferDescriptor where
  | Path (Path : GoString)
  | Fd (Filename : GoString) (ContentUri : GoString) (Fd : Option Int)
  deriving DecidableEq, Repr

/-- Result of a method that returns only an `error`: the `error` (`none` being nil) or the
panic the call ends with. -/
def errorResult (result : Except PanicValue (Bool × Option GoError)) :
    Except PanicValue (Option GoError) :=
  match result with
  | .error p => .error p
  | .ok (_, _uniffiErr) => .ok _uniffiErr

/-- Method `NordDrop.FinalizeTransfer`. As for `NordDrop.DownloadFile`, the parameter
`native` is the function of the native library applied to the object pointer and the
lowered arguments, and the deferred `decrementPointer` runs once `incrementPointer` has
returned. -/
def NordDrop.FinalizeTransfer (self : FfiObject)
    (native : Nat → GoString → RustCallStatus → RustCallStatus) (transferId : GoString) :
    FfiObject × Except PanicValue (Option GoError) :=
  match self.incrementPointer (goString "*NordDrop") with
  | .error p => (self, .error p)
  | .ok (_pointer, ffiObject) =>
    (ffiObject.decrementPointer,
      errorResult (rustCallWithError (some FfiConverterTypeLibdropError.Lift)
        (fun _uniffiStatus => .ok (false, native _pointer transferId _uniffiStatus))))

/-- Method `NordDrop.NetworkRefresh`. -/
def NordDrop.NetworkRefresh (self : FfiObject)
    (native : Nat → RustCallStatus → RustCallStatus) :
    FfiObject × Except PanicValue (Option GoError) :=
  match self.incrementPointer (goString "*NordDrop") with
  | .error p => (self, .error p)
  | .ok (_pointer, ffiObject) =>
    (ffiObject.decrementPointer,
      errorResult (rustCallWithError (some FfiConverterTypeLibdropError.Lift)
        (fun _uniffiStatus => .ok (false, native _pointer _uniffiStatus))))

/-- Method `NordDrop.NewTransfer`: the transfer id lifted from the returned buffer, or the
empty string next to a non-nil `error`. -/
def NordDrop.NewTransfer (self : FfiObject)
    (native : Nat → GoString → List TransferDescriptor → RustCallStatus →
      RustBuffer × RustCallStatus)
    (peer : GoString) (descriptors : List TransferDescriptor) :
    FfiObject × Except PanicValue (GoString × Option GoError) :=
  match self.incrementPointer (goString "*NordDrop") with
  | .error p => (self, .error p)
  | .ok (_pointer, ffiObject) =>
    (ffiObject.decrementPointer,
      match rustCallWithError (some FfiConverterTypeLibdropError.Lift)
        (fun _uniffiStatus => .ok (native _pointer peer descriptors _uniffiStatus)) with
      | .error p => .error p
      | .ok (_, some _uniffiErr) => .ok ([], some _uniffiErr)
      | .ok (_uniffiRV, none) => .ok (FfiConverterString.Lift _uniffiRV, none))

/-- Method `NordDrop.PurgeTransfers`. -/
def NordDrop.PurgeTransfers (self : FfiObject)
    (native : Nat → List GoString → RustCallStatus → RustCallStatus)
    (transferIds : List GoString) : FfiObject × Except PanicValue (Option GoError) :=
  match self.incrementPointer (goString "*NordDrop") with
  | .error p => (self, .error p)
  | .ok (_pointer, ffiObject) =>
    (ffiObject.decrementPointer,
      errorResult (rustCallWithError (some FfiConverterTypeLibdropError.Lift)
        (fun _uniffiStatus => .ok (false, native _pointer transferIds _uniffiStatus))))

/-- Method `NordDrop.PurgeTransfersUntil`. -/
def NordDrop.PurgeTransfersUntil (self : FfiObject)
    (native : Nat → Int → RustCallStatus → RustCallStatus) (until_ : Int) :
    FfiObject × Except PanicValue (Option GoError) :=
  match self.incrementPointer (goString "*NordDrop") with
  | .error p => (self, .error p)
  | .ok (_pointer, ffiObject) =>
    (ffiObject.decrementPointer,
      errorResult (rustCallWithError (some FfiConverterTypeLibdropError.Lift)
        (fun _uniffiStatus => .ok (false, native _pointer until_ _uniffiStatus))))

/-- Method `NordDrop.RejectFile`. -/
def NordDrop.RejectFile (self : FfiObject)
    (native : Nat → GoString → GoString → RustCallStatus → RustCallStatus)
    (transferId fileId : GoString) : FfiObject × Except PanicValue (Option GoError) :=
  match self.incrementPointer (goString "*NordDrop") with
  | .error p => (self, .error p)
  | .ok (_pointer, ffiObject) =>
    (ffiObject.decrementPointer,
      errorResult (rustCallWithError (some FfiConverterTypeLibdropError.Lift)
        (fun _uniffiStatus => .ok (false, native _pointer transferId fileId _uniffiStatus))))

/-- Method `NordDrop.RemoveFile`. -/
def NordDrop.RemoveFile (self : FfiObject)
    (native : Nat → GoString → GoString → RustCallStatus → RustCallStatus)
    (transferId fileId : GoString) : FfiObject × Except PanicValue (Option GoError) :=
  match self.incrementPointer (goString "*NordDrop") with
  | .error p => (self, .error p)
  | .ok (_pointer, ffiObject) =>
    (ffiObject.decrementPointer,
      errorResult (rustCallWithError (some FfiConverterTypeLibdropError.Lift)
        (fun _uniffiStatus => .ok (false, native _pointer transferId fileId _uniffiStatus))))

/-- Method `NordDrop.SetFdResolver`; registering the resolver in the handle map is part of
lowering it and so of `native`. -/
def NordDrop.SetFdResolver (self : FfiObject)
    (native : Nat → FdResolver → RustCallStatus → RustCallStatus) (resolver : FdResolver) :
    FfiObject × Except PanicValue (Option GoError) :=
  match self.incrementPointer (goString "*NordDrop") with
  | .error p => (self, .error p)
  | .ok (_pointer, ffiObject) =>
    (ffiObject.decrementPointer,
      errorResult (rustCallWithError (some FfiConverterTypeLibdropError.Lift)
        (fun _uniffiStatus => .ok (false, native _pointer resolver _uniffiStatus))))

/-- Method `NordDrop.Start`. -/
def NordDrop.Start (self : FfiObject)
    (native : Nat → GoString → Config → RustCallStatus → RustCallStatus)
    (addr : GoString) (config : Config) : FfiObject × Except PanicValue (Option GoError) :=
  match self.incrementPointer (goString "*NordDrop") with
  | .error p => (self, .error p)
  | .ok (_pointer, ffiObject) =>
    (ffiObject.decrementPointer,
      errorResult (rustCallWithError (some FfiConverterTypeLibdropError.Lift)
        (fun _uniffiStatus => .ok (false, native _pointer addr config _uniffiStatus))))

/-- Method `NordDrop.Stop`. -/
def NordDrop.Stop (self : FfiObject) (native : Nat → RustCallStatus → RustCallStatus) :
    FfiObject × Except PanicValue (Option GoError) :=
  match self.incrementPointer (goString "*NordDrop") with
  | .error p => (self, .error p)
  | .ok (_pointer, ffiObject) =>
    (ffiObject.decrementPointer,
      errorResult (rustCallWithError (some FfiConverterTypeLibdropError.Lift)
        (fun _uniffiStatus => .ok (false, native _pointer _uniffiStatus))))

/-- Method `NordDrop.TransfersSince`: the history lifted from the returned buffer, or the
nil slice next to a non-nil `error`. -/
def NordDrop.TransfersSince (self : FfiObject)
    (native : Nat → Int → RustCallStatus → RustBuffer × RustCallStatus) (since : Int) :
    FfiObject × Except PanicValue (List TransferInfo × Option GoError) :=
  match self.incrementPointer (goString "*NordDrop") with
  | .error p => (self, .error p)
  | .ok (_pointer, ffiObject) =>
    (ffiObject.decrementPointer,
      match rustCallWithError (some FfiConverterTypeLibdropError.Lift)
        (fun _uniffiStatus => .ok (native _pointer since _uniffiStatus)) with
      | .error p => .error p
      | .ok (_, some _uniffiErr) => .ok ([], some _uniffiErr)
      | .ok (_uniffiRV, none) =>
        match LiftFromRustBuffer FfiConverterSequenceTypeTransferInfo.Read _uniffiRV with
        | .error p => .error p
        | .ok transfers => .ok (transfers, none))

/-- Method `FfiConverterNordDrop.Lower`. -/
def FfiConverterNordDrop.Lower (value : FfiObject) : FfiObject × Except PanicValue Nat :=
  match value.incrementPointer (goString "*NordDrop") with
  | .error p => (value, .error p)
  | .ok (pointer, ffiObject) => (ffiObject.decrementPointer, .ok pointer)

/-! ## Handle map of the callback interfaces -/

/-- Struct `concurrentHandleMap[T]`. A pointer `*T` is the address of the object; a Go map
is the function that gives the entry of a key, `none` for a key that is absent. The lock
has no part in a sequential run. -/
structure concurrentHandleMap where
  leftMap : Nat → Option Nat
  rightMap : Nat → Option Nat
  currentHandle : Nat

/-- Function `newConcurrentHandleMap`. -/
def newConcurrentHandleMap : concurrentHandleMap := ⟨fun _ => none, fun _ => none, 0⟩

/-- Method `insert`: the returned handle and the map afterwards; `uint64` addition wraps
around. -/
def concurrentHandleMap.insert (cm : concurrentHandleMap) (obj : Nat) :
    Nat × concurrentHandleMap :=
  match cm.rightMap obj with
  | some existingHandle => (existingHandle, cm)
  | none =>
    let currentHandle := (cm.currentHandle + 1) % 18446744073709551616
    (currentHandle,
      { leftMap := fun handle => if handle = currentHandle then some obj else cm.leftMap handle,
        rightMap := fun val => if val = obj then some currentHandle else cm.rightMap val,
        currentHandle := currentHandle })

/-- Method `remove`: the returned value (always `false`) and the map afterwards. -/
def concurrentHandleMap.remove (cm : concurrentHandleMap) (handle : Nat) :
    Bool × concurrentHandleMap :=
  match cm.leftMap handle with
  | some val =>
    (false,
      { leftMap := fun h => if h = handle then none else cm.leftMap h,
        rightMap := fun v => if v = val then none else cm.rightMap v,
        currentHandle := cm.currentHandle })
  | none => (false, cm)

/-- Method `tryGet`: `none` when the second returned value is `false`. -/
def concurrentHandleMap.tryGet (cm : concurrentHandleMap) (handle : Nat) : Option Nat :=
  cm.leftMap handle

/-- Method `FfiConverterCallbackInterface.drop`; the converter is its handle map. -/
def FfiConverterCallbackInterface.drop (c : concurrentHandleMap) (handle : Nat) :
    RustBuffer × concurrentHandleMap :=
  ([], (c.remove handle).2)

/-- Method `FfiConverterCallbackInterface.Lift`; `memory` gives the callback stored at an
address, which `*val` reads. -/
def FfiConverterCallbackInterface.Lift {CallbackInterface : Type} (c : concurrentHandleMap)
    (memory : Nat → CallbackInterface) (handle : Nat) : Except PanicValue CallbackInterface :=
  match c.tryGet handle with
  | none =>
    .error (.error (.errorString
      (goString "no callback in handle map: " ++ fmtInt (handle : Int))))
  | some val => .ok (memory val)

/-- Method `FfiConverterCallbackInterface.Lower`: `address` is where the run time keeps the
copy `value` of the argument, whose address is inserted. -/
def FfiConverterCallbackInterface.Lower {CallbackInterface : Type} (c : concurrentHandleMap)
    (memory : Nat → CallbackInterface) (address : Nat) (value : CallbackInterface) :
    Nat × concurrentHandleMap × (Nat → CallbackInterface) :=
  ((c.insert address).1, (c.insert address).2,
    fun a => if a = address then value else memory a)

/-- Interface `Logger`: the answer of its method `Level`; `OnLog` returns nothing. -/
structure Logger where
  Level : LogLevel

/-- Method `InvokeLevel`. -/
def foreignCallbackCallbackInterfaceLogger.InvokeLevel (callback : Logger)
    (_args : List Byte) : Except PanicValue (RustBuffer × uniffiCallbackResult) :=
  let result := callback.Level
  match LowerIntoRustBuffer FfiConverterTypeLogLevel.Write result with
  | .error p => .error p
  | .ok outBuf => .ok (outBuf, uniffiCallbackResultSuccess)

/-- What a call of an exported callback function leaves behind when it returns: the handle
map, the buffer stored in `*outBuf` (`none` when it is left untouched), the arguments
handed to a callback method that returns nothing, and the returned `C.int32_t`. -/
structure CallbackOutcome (α : Type) where
  handleMap : concurrentHandleMap
  outBuf : Option RustBuffer
  delivered : Option α
  result : uniffiCallbackResult

/-- Function `norddrop_cgo_EventCallback`. -/
def norddrop_cgo_EventCallback {EventCallback : Type} (c : concurrentHandleMap)
    (memory : Nat → EventCallback) (handle : Nat) (method : Int) (args : List Byte) :
    Except PanicValue (CallbackOutcome (EventCallback × Event)) :=
  match FfiConverterCallbackInterface.Lift c memory handle with
  | .error p => .error p
  | .ok cb =>
    if method = 0 then
      .ok ⟨(FfiConverterCallbackInterface.drop c handle).2,
        some (FfiConverterCallbackInterface.drop c handle).1, none, uniffiIdxCallbackFree⟩
    else if method = 1 then
      match foreignCallbackCallbackInterfaceEventCallback.InvokeOnEvent args with
      | .error p => .error p
      | .ok (event, result) => .ok ⟨c, none, some (cb, event), result⟩
    else .ok ⟨c, none, none, uniffiCallbackUnexpectedResultError⟩

/-- Function `norddrop_cgo_FdResolver`. -/
def norddrop_cgo_FdResolver (c : concurrentHandleMap) (memory : Nat → FdResolver)
    (handle : Nat) (method : Int) (args : List Byte) :
    Except PanicValue (CallbackOutcome Unit) :=
  match FfiConverterCallbackInterface.Lift c memory handle with
  | .error p => .error p
  | .ok cb =>
    if method = 0 then
      .ok ⟨(FfiConverterCallbackInterface.drop c handle).2,
        some (FfiConverterCallbackInterface.drop c handle).1, none, uniffiIdxCallbackFree⟩
    else if method = 1 then
      match foreignCallbackCallbackInterfaceFdResolver.InvokeOnFd cb args with
      | .error p => .error p
      | .ok (outBuf, result) => .ok ⟨c, some outBuf, none, result⟩
    else .ok ⟨c, none, none, uniffiCallbackUnexpectedResultError⟩

/-- Function `norddrop_cgo_KeyStore`. -/
def norddrop_cgo_KeyStore (c : concurrentHandleMap) (memory : Nat → KeyStore)
    (handle : Nat) (method : Int) (args : List Byte) :
    Except PanicValue (CallbackOutcome Unit) :=
  match FfiConverterCallbackInterface.Lift c memory handle with
  | .error p => .error p
  | .ok cb =>
    if method = 0 then
      .ok ⟨(FfiConverterCallbackInterface.drop c handle).2,
        some (FfiConverterCallbackInterface.drop c handle).1, none, uniffiIdxCallbackFree⟩
    else if method = 1 then
      match foreignCallbackCallbackInterfaceKeyStore.InvokeOnPubkey cb args with
      | .error p => .error p
      | .ok (outBuf, result) => .ok ⟨c, some outBuf, none, result⟩
    else if method = 2 then
      match foreignCallbackCallbackInterfaceKeyStore.InvokePrivkey cb args with
      | .error p => .error p
      | .ok (outBuf, result) => .ok ⟨c, some outBuf, none, result⟩
    else .ok ⟨c, none, none, uniffiCallbackUnexpectedResultError⟩

/-- Function `norddrop_cgo_Logger`. -/
def norddrop_cgo_Logger (c : concurrentHandleMap) (memory : Nat → Logger)
    (handle : Nat) (method : Int) (args : List Byte) :
    Except PanicValue (CallbackOutcome (LogLevel × GoString)) :=
  match FfiConverterCallbackInterface.Lift c memory handle with
  | .error p => .error p
  | .ok cb =>
    if method = 0 then
      .ok ⟨(FfiConverterCallbackInterface.drop c handle).2,
        some (FfiConverterCallbackInterface.drop c handle).1, none, uniffiIdxCallbackFree⟩
    else if method = 1 then
      match foreignCallbackCallbackInterfaceLogger.InvokeOnLog args with
      | .error p => .error p
      | .ok (logged, result) => .ok ⟨c, none, some logged, result⟩
    else if method = 2 then
      match foreignCallbackCallbackInterfaceLogger.InvokeLevel cb args with
      | .error p => .error p
      | .ok (outBuf, result) => .ok ⟨c, some outBuf, none, result⟩
    else .ok ⟨c, none, none, uniffiCallbackUnexpectedResultError⟩

/-- Operation on a handle map. -/
inductive HandleMapOp where
  | insert (obj : Nat)
  | remove (handle : Nat)
  deriving DecidableEq, Repr

/-- Run of a sequence of operations: the map afterwards and the handles that the
insertions returned, in their order. -/
def runOps : concurrentHandleMap → List HandleMapOp → concurrentHandleMap × List Nat
  | cm, [] => (cm, [])
  | cm, .insert obj :: ops =>
    ((runOps (cm.insert obj).2 ops).1, (cm.insert obj).1 :: (runOps (cm.insert obj).2 ops).2)
  | cm, .remove handle :: ops => runOps (cm.remove handle).2 ops

/-- Number of insertions in a sequence of operations. -/
def countInserts : List HandleMapOp → Nat
  | [] => 0
  | .insert _ :: ops => countInserts ops + 1
  | .remove _ :: ops => countInserts ops

/-- Relation that every handle map reached from the empty one by at most `inserts`
insertions satisfies: the counter is at most the number of insertions, the two maps are
inverse to each other, and every handle in the map is at least 1 and at most the counter. -/
def concurrentHandleMap.Invariant (cm : concurrentHandleMap) (inserts : Nat) : Prop :=
  cm.currentHandle ≤ inserts ∧
    (∀ h p, cm.leftMap h = some p ↔ cm.rightMap p = some h) ∧
    (∀ h p, cm.leftMap h = some p → 1 ≤ h ∧ h ≤ cm.currentHandle)

/-! ## Transfer engine

The engine behind the native functions is not part of the repository. The definitions of
this section follow sections 3, 4.1, 4.5, 4.6 and 7 of the specification. Transfer ids
(UUIDs) are numbers that the engine issues and never issues twice; sizes and byte counts,
which the operations below do not read, are left out. -/

/-- Modelled from the spec: the error taxonomy of section 7, which the absent engine
surfaces to its callers. -/
inductive Engine.Error where
  | InvalidInput
  | IllegalStateTransition
  | NotStarted
  | AddressInUse
  | StorageError
  | Unknown
  deriving DecidableEq, Repr

/-- Modelled from the spec: the states of the absent `FileStateMachine` (section 4.1). -/
inductive Engine.FileState where
  | Pending
  | Started
  | Paused
  | Completed
  | Rejected
  | Failed
  deriving DecidableEq, Repr

/-- Modelled from the spec: the terminal states of the absent `FileStateMachine` are
Completed, Rejected and Failed (section 3). -/
def Engine.FileState.terminal : Engine.FileState → Bool
  | .Completed => true
  | .Rejected => true
  | .Failed => true
  | _ => false

/-- Modelled from the spec: the transition contract of the absent `FileStateMachine`
(section 4.1): `start` from Pending or Paused, `pause` and `complete` from Started,
`reject` and `fail` from any state that is not terminal. -/
def Engine.FileState.canMove (current next : Engine.FileState) : Bool :=
  match next with
  | .Pending => false
  | .Started => current = .Pending || current = .Paused
  | .Paused => current = .Started
  | .Completed => current = .Started
  | .Rejected => !current.terminal
  | .Failed => !current.terminal

/-- Modelled from the spec: the record that the absent `PersistenceStore` keeps of a file
(section 4.5), with the latest entry of its state history. -/
structure Engine.FileRecord where
  fileId : GoString
  state : Engine.FileState
  deriving DecidableEq, Repr

/-- Modelled from the spec: the record that the absent `PersistenceStore` keeps of a
transfer (sections 3 and 4.5). -/
structure Engine.TransferRecord where
  transferId : Nat
  createdAt : Int
  finalized : Bool
  files : List Engine.FileRecord
  deriving DecidableEq, Repr

/-- Modelled from the spec: the state of the absent `TransferManager` (section 4.6):
whether the engine runs, the resolver it was given, the next transfer id and the
records. -/
structure Engine.State where
  started : Bool
  fdResolver : Option Nat
  nextId : Nat
  transfers : List Engine.TransferRecord
  deriving DecidableEq, Repr

/-- Modelled from the spec: the state of the absent engine before `start`. -/
def Engine.initial : Engine.State := ⟨false, none, 0, []⟩

/-- Modelled from the spec: lookup of a transfer record in the absent store. -/
def Engine.State.findTransfer (s : Engine.State) (tid : Nat) : Option Engine.TransferRecord :=
  s.transfers.find? (fun t => t.transferId = tid)

/-- Modelled from the spec: lookup of a file record in a transfer of the absent store. -/
def Engine.TransferRecord.findFile (t : Engine.TransferRecord) (fid : GoString) :
    Option Engine.FileRecord :=
  t.files.find? (fun f => f.fileId = fid)

/-- Modelled from the spec: a transfer of the absent store is in flight when one of its
files is not in a terminal state. -/
def Engine.TransferRecord.inFlight (t : Engine.TransferRecord) : Bool :=
  t.files.any (fun f => !f.state.terminal)

/-- Modelled from the spec: the absent store after a change of one transfer record. -/
def Engine.State.updateTransfer (s : Engine.State) (tid : Nat)
    (change : Engine.TransferRecord → Engine.TransferRecord) : Engine.State :=
  { s with transfers := s.transfers.map (fun t => if t.transferId = tid then change t else t) }

/-- Modelled from the spec: the absent store after a state change of one file. -/
def Engine.State.setFileState (s : Engine.State) (tid : Nat) (fid : GoString)
    (next : Engine.FileState) : Engine.State :=
  s.updateTransfer tid (fun t =>
    { t with files := t.files.map (fun f => if f.fileId = fid then { f with state := next } else f) })

/-- Modelled from the spec: `start` of the absent engine. The parameter `bind` is the
failure of the environment, if any (address in use, storage error). -/
def Engine.start (s : Engine.State) (bind : Option Engine.Error) :
    Engine.State × Option Engine.Error :=
  if s.started then (s, some .IllegalStateTransition)
  else
    match bind with
    | some e => (s, some e)
    | none => ({ s with started := true }, none)

/-- Modelled from the spec: `set_fd_resolver` of the absent engine; the resolver is set
before `start` and immutable thereafter (section 9). -/
def Engine.set_fd_resolver (s : Engine.State) (resolver : Nat) :
    Engine.State × Option Engine.Error :=
  if s.started then (s, some .IllegalStateTransition)
  else ({ s with fdResolver := some resolver }, none)

/-- Modelled from the spec: creation of a transfer by the absent engine (`new_transfer`,
or the receipt of a request of the peer), with its files in the state Pending. -/
def Engine.new_transfer (s : Engine.State) (createdAt : Int) (fileIds : List GoString) :
    Engine.State × Option Engine.Error :=
  if !s.started then (s, some .NotStarted)
  else if fileIds.isEmpty then (s, some .InvalidInput)
  else
    ({ s with
        nextId := s.nextId + 1,
        transfers := s.transfers ++
          [⟨s.nextId, createdAt, false, fileIds.map (fun fid => ⟨fid, .Pending⟩)⟩] }, none)

/-- Modelled from the spec: `finalize_transfer` of the absent engine marks the transfer
terminal, rejecting any further operations (section 4.6). -/
def Engine.finalize_transfer (s : Engine.State) (tid : Nat) :
    Engine.State × Option Engine.Error :=
  if !s.started then (s, some .NotStarted)
  else
    match s.findTransfer tid with
    | none => (s, some .InvalidInput)
    | some t =>
      if t.finalized then (s, some .IllegalStateTransition)
      else (s.updateTransfer tid (fun t => { t with finalized := true }), none)

/-- Modelled from the spec: a state change of a file requested by the caller of the
absent engine: existence of the transfer, eligibility of the transfer, existence of the
file and eligibility of the file are validated in this order (section 4.6). -/
def Engine.moveFile (s : Engine.State) (tid : Nat) (fid : GoString)
    (next : Engine.FileState) : Engine.State × Option Engine.Error :=
  if !s.started then (s, some .NotStarted)
  else
    match s.findTransfer tid with
    | none => (s, some .InvalidInput)
    | some t =>
      if t.finalized then (s, some .IllegalStateTransition)
      else
        match t.findFile fid with
        | none => (s, some .InvalidInput)
        | some f =>
          if f.state.canMove next then (s.setFileState tid fid next, none)
          else (s, some .IllegalStateTransition)

/-- Modelled from the spec: `download_file` of the absent engine starts the file. -/
def Engine.download_file (s : Engine.State) (tid : Nat) (fid : GoString) :
    Engine.State × Option Engine.Error :=
  Engine.moveFile s tid fid .Started

/-- Modelled from the spec: `reject_file` of the absent engine. -/
def Engine.reject_file (s : Engine.State) (tid : Nat) (fid : GoString) :
    Engine.State × Option Engine.Error :=
  Engine.moveFile s tid fid .Rejected

/-- Modelled from the spec: a state change of a file that the background work of the
absent engine makes (pause, resumption, completion, failure, rejection by the peer). A
finalized transfer accepts terminal changes only (section 3). -/
def Engine.background (s : Engine.State) (tid : Nat) (fid : GoString)
    (next : Engine.FileState) : Engine.State :=
  match s.findTransfer tid with
  | none => s
  | some t =>
    match t.findFile fid with
    | none => s
    | some f =>
      if f.state.canMove next && (!t.finalized || next.terminal) then
        s.setFileState tid fid next
      else s

/-- Modelled from the spec: `remove_file` of the absent engine removes the record of a
file, which must be in a terminal state. -/
def Engine.remove_file (s : Engine.State) (tid : Nat) (fid : GoString) :
    Engine.State × Option Engine.Error :=
  if !s.started then (s, some .NotStarted)
  else
    match s.findTransfer tid with
    | none => (s, some .InvalidInput)
    | some t =>
      match t.findFile fid with
      | none => (s, some .InvalidInput)
      | some f =>
        if f.state.terminal then
          (s.updateTransfer tid (fun t =>
            { t with files := t.files.filter (fun f => f.fileId ≠ fid) }), none)
        else (s, some .IllegalStateTransition)

/-- Modelled from the spec: purge of the selected transfers from the absent store; it is
rejected when a selected transfer is in flight (section 4.5). -/
def Engine.purge (s : Engine.State) (selected : Engine.TransferRecord → Bool) :
    Engine.State × Option Engine.Error :=
  if !s.started then (s, some .NotStarted)
  else if s.transfers.any (fun t => selected t && t.inFlight) then
    (s, some .IllegalStateTransition)
  else ({ s with transfers := s.transfers.filter (fun t => !selected t) }, none)

/-- Modelled from the spec: `purge_transfers` of the absent engine. -/
def Engine.purge_transfers (s : Engine.State) (ids : List Nat) :
    Engine.State × Option Engine.Error :=
  if ids.any (fun tid => (s.findTransfer tid).isNone) then (s, some .InvalidInput)
  else Engine.purge s (fun t => ids.contains t.transferId)

/-- Modelled from the spec: `purge_transfers_until` of the absent engine selects the
transfers created up to the cutoff. -/
def Engine.purge_transfers_until (s : Engine.State) (cutoff : Int) :
    Engine.State × Option Engine.Error :=
  Engine.purge s (fun t => decide (t.createdAt ≤ cutoff))

/-- Modelled from the spec: the operations of the absent `TransferManager` and the
background changes. -/
inductive Engine.Op where
  | start (bind : Option Engine.Error)
  | set_fd_resolver (resolver : Nat)
  | new_transfer (createdAt : Int) (fileIds : List GoString)
  | download_file (tid : Nat) (fid : GoString)
  | reject_file (tid : Nat) (fid : GoString)
  | remove_file (tid : Nat) (fid : GoString)
  | finalize_transfer (tid : Nat)
  | purge_transfers (ids : List Nat)
  | purge_transfers_until (cutoff : Int)
  | background (tid : Nat) (fid : GoString) (next : Engine.FileState)
  deriving DecidableEq, Repr

/-- Modelled from the spec: one operation on the absent engine. -/
def Engine.step (s : Engine.State) : Engine.Op → Engine.State × Option Engine.Error
  | .start bind => Engine.start s bind
  | .set_fd_resolver resolver => Engine.set_fd_resolver s resolver
  | .new_transfer createdAt fileIds => Engine.new_transfer s createdAt fileIds
  | .download_file tid fid => Engine.download_file s tid fid
  | .reject_file tid fid => Engine.reject_file s tid fid
  | .remove_file tid fid => Engine.remove_file s tid fid
  | .finalize_transfer tid => Engine.finalize_transfer s tid
  | .purge_transfers ids => Engine.purge_transfers s ids
  | .purge_transfers_until cutoff => Engine.purge_transfers_until s cutoff
  | .background tid fid next => (Engine.background s tid fid next, none)

/-- Modelled from the spec: a sequence of operations on the absent engine. -/
def Engine.run (s : Engine.State) : List Engine.Op → Engine.State
  | [] => s
  | op :: ops => Engine.run (Engine.step s op).1 ops

/-- Modelled from the spec: the operations of the absent engine that delete transfer
records. -/
def Engine.Op.purges : Engine.Op → Bool
  | .purge_transfers _ => true
  | .purge_transfers_until _ => true
  | _ => false

/-- Relation between a state of the engine model and a later one: a running engine keeps
running, transfer ids are issued in increasing order, and every record of the later state
either continues a record of the earlier state, keeping its id and its mark of
finalization, or has an id issued in between. -/
def Engine.Mono (s s2 : Engine.State) : Prop :=
  (s.started = true → s2.started = true) ∧ s.nextId ≤ s2.nextId ∧
    ∀ t2 ∈ s2.transfers,
      (∃ t ∈ s.transfers, t2.transferId = t.transferId ∧
        (t.finalized = true → t2.finalized = true)) ∨
      (s.nextId ≤ t2.transferId ∧ t2.transferId < s2.nextId)

/-- Every record has an id that the engine model has issued. -/
def Engine.State.IdsIssued (s : Engine.State) : Prop :=
  ∀ t ∈ s.transfers, t.transferId < s.nextId

/-- The engine model runs and every record of the transfer `tid`, whose id has been
issued, is marked as finalized. -/
def Engine.State.FinalizedAt (s : Engine.State) (tid : Nat) : Prop :=
  s.started = true ∧ tid < s.nextId ∧
    ∀ t ∈ s.transfers, t.transferId = tid → t.finalized = true

/-! ## Admission of outgoing files

The admission controller of the engine is not part of the repository either. The
definitions of this section follow section 4.3 of the specification. -/

/-- Modelled from the spec: a file of the absent engine, named by the id of its transfer
and its file id. -/
abbrev Admission.File := Nat × GoString

/-- Modelled from the spec: the state of the absent `AdmissionController` (section 4.3):
the configured limit, the outgoing files in the state Started, and the throttled files
in the order in which they were throttled. -/
structure Admission.State where
  limit : Nat
  started : List Admission.File
  throttled : List Admission.File
  deriving DecidableEq, Repr

/-- Modelled from the spec: the events that the absent `AdmissionController` causes; the
binding declares them as `EventKindFileStarted` and `EventKindFileThrottled`. -/
inductive Admission.Event where
  | FileStarted (file : Admission.File)
  | FileThrottled (file : Admission.File)
  deriving DecidableEq, Repr

/-- Modelled from the spec: the absent `AdmissionController` with no file in flight. -/
def Admission.initial (limit : Nat) : Admission.State := ⟨limit, [], []⟩

/-- Modelled from the spec: a request to start a file reaches the absent
`AdmissionController`: the file is started while the limit allows it and throttled
otherwise (section 4.3). A file that is started or throttled already is left as it is. -/
def Admission.request (s : Admission.State) (file : Admission.File) :
    Admission.State × List Admission.Event :=
  if file ∈ s.started ∨ file ∈ s.throttled then (s, [])
  else if s.started.length < s.limit then
    ({ s with started := s.started ++ [file] }, [.FileStarted file])
  else ({ s with throttled := s.throttled ++ [file] }, [.FileThrottled file])

/-- Modelled from the spec: a file reaches a terminal or the Paused state. When it was in
flight, the absent `AdmissionController` promotes the next throttled file to Started
(section 4.3); when it was throttled, it leaves the queue. -/
def Admission.release (s : Admission.State) (file : Admission.File) :
    Admission.State × List Admission.Event :=
  if file ∈ s.started then
    match s.throttled with
    | [] => ({ s with started := s.started.erase file }, [])
    | next :: rest =>
      ({ s with started := s.started.erase file ++ [next], throttled := rest },
        [.FileStarted next])
  else if file ∈ s.throttled then ({ s with throttled := s.throttled.erase file }, [])
  else (s, [])

/-- Modelled from the spec: what reaches the absent `AdmissionController`. -/
inductive Admission.Op where
  | request (file : Admission.File)
  | release (file : Admission.File)
  deriving DecidableEq, Repr

/-- Modelled from the spec: one step of the absent `AdmissionController`. -/
def Admission.step (s : Admission.State) : Admission.Op →
    Admission.State × List Admission.Event
  | .request file => Admission.request s file
  | .release file => Admission.release s file

/-- Modelled from the spec: a run of the absent `AdmissionController`. -/
def Admission.run (s : Admission.State) : List Admission.Op → Admission.State
  | [] => s
  | op :: ops => Admission.run (Admission.step s op).1 ops

/-- Relation that the runs of the admission model keep: the limit is respected, no slot is
free while a file is throttled, no file is both started and throttled, and no file is
throttled twice. -/
def Admission.State.Invariant (s : Admission.State) : Prop :=
  s.started.length ≤ s.limit ∧ (s.throttled ≠ [] → s.started.length = s.limit) ∧
    (∀ f ∈ s.throttled, f ∉ s.started) ∧ s.throttled.Nodup

/-! ## Configuration and transfer descriptors on the wire -/

/-- Method `FfiConverterOptionalUint32.Read`; `none` is the nil pointer. -/
def FfiConverterOptionalUint32.Read (reader : Reader) :
    Except PanicValue (Option Nat × Reader) :=
  match readInt8 reader with
  | .error p => .error p
  | .ok (flag, reader) =>
    if flag = 0 then .ok (none, reader)
    else
      match FfiConverterUint32.Read reader with
      | .error p => .error p
      | .ok (temp, reader) => .ok (some temp, reader)

/-- Method `FfiConverterOptionalUint32.Write`. -/
def FfiConverterOptionalUint32.Write (value : Option Nat) : Except PanicValue (List Byte) :=
  match value with
  | none => .ok (writeInt8 0)
  | some v =>
    match FfiConverterUint32.Write v with
    | .error p => .error p
    | .ok bs => .ok (writeInt8 1 ++ bs)

/-- Method `FfiConverterOptionalUint64.Read`; `none` is the nil pointer. -/
def FfiConverterOptionalUint64.Read (reader : Reader) :
    Except PanicValue (Option Nat × Reader) :=
  match readInt8 reader with
  | .error p => .error p
  | .ok (flag, reader) =>
    if flag = 0 then .ok (none, reader)
    else
      match FfiConverterUint64.Read reader with
      | .error p => .error p
      | .ok (temp, reader) => .ok (some temp, reader)

/-- Method `FfiConverterOptionalUint64.Write`. -/
def FfiConverterOptionalUint64.Write (value : Option Nat) : Except PanicValue (List Byte) :=
  match value with
  | none => .ok (writeInt8 0)
  | some v =>
    match FfiConverterUint64.Write v with
    | .error p => .error p
    | .ok bs => .ok (writeInt8 1 ++ bs)

/-- Method `FfiConverterTypeConfig.Read`. -/
def FfiConverterTypeConfig.Read (reader : Reader) : Except PanicValue (Config × Reader) :=
  andThen (FfiConverterUint64.Read reader) fun dirDepthLimit reader =>
    andThen (FfiConverterUint64.Read reader) fun transferFileLimit reader =>
      andThen (FfiConverterString.Read reader) fun mooseEventPath reader =>
        andThen (FfiConverterBool.Read reader) fun mooseProd reader =>
          andThen (FfiConverterString.Read reader) fun storagePath reader =>
            andThen (FfiConverterOptionalUint64.Read reader) fun threshold reader =>
              andThen (FfiConverterOptionalUint64.Read reader) fun granularity reader =>
                andThen (FfiConverterOptionalUint32.Read reader) fun retries reader =>
                  .ok (⟨dirDepthLimit, transferFileLimit, mooseEventPath, mooseProd,
                    storagePath, threshold, granularity, retries⟩, reader)

/-- Method `FfiConverterTypeConfig.Write`. -/
def FfiConverterTypeConfig.Write (value : Config) : Except PanicValue (List Byte) :=
  writeThen (FfiConverterUint64.Write value.DirDepthLimit)
    (writeThen (FfiConverterUint64.Write value.TransferFileLimit)
      (writeThen (FfiConverterString.Write value.MooseEventPath)
        (writeThen (FfiConverterBool.Write value.MooseProd)
          (writeThen (FfiConverterString.Write value.StoragePath)
            (writeThen (FfiConverterOptionalUint64.Write value.ChecksumEventsSizeThreshold)
              (writeThen (FfiConverterOptionalUint64.Write value.ChecksumEventsGranularity)
                (FfiConverterOptionalUint32.Write value.ConnectionRetries)))))))

/-- Method `FfiConverterTypeTransferDescriptor.Read`. -/
def FfiConverterTypeTransferDescriptor.Read (reader : Reader) :
    Except PanicValue (TransferDescriptor × Reader) :=
  match readInt32 reader with
  | .error p => .error p
  | .ok (id, reader) =>
    match id with
    | 1 => andThen (FfiConverterString.Read reader) fun path reader =>
        .ok (.Path path, reader)
    | 2 => andThen (FfiConverterString.Read reader) fun filename reader =>
        andThen (FfiConverterString.Read reader) fun contentUri reader =>
          andThen (FfiConverterOptionalInt32.Read reader) fun fd reader =>
            .ok (.Fd filename contentUri fd, reader)
    | _ =>
      .error (.message (goString "invalid enum value " ++ fmtInt id ++
        goString " in FfiConverterTypeTransferDescriptor.Read()"))

/-- Method `FfiConverterTypeTransferDescriptor.Write`. -/
def FfiConverterTypeTransferDescriptor.Write (value : TransferDescriptor) :
    Except PanicValue (List Byte) :=
  match value with
  | .Path path => writeThen (.ok (writeInt32 1)) (FfiConverterString.Write path)
  | .Fd filename contentUri fd =>
    writeThen (.ok (writeInt32 2))
      (writeThen (FfiConverterString.Write filename)
        (writeThen (FfiConverterString.Write contentUri)
          (FfiConverterOptionalInt32.Write fd)))

def FfiConverterSequenceTypeTransferDescriptor.Read (reader : Reader) :
    Except PanicValue (List TransferDescriptor × Reader) :=
  readSequence FfiConverterTypeTransferDescriptor.Read reader

def FfiConverterSequenceTypeTransferDescriptor.Write (value : List TransferDescriptor) :
    Except PanicValue (List Byte) :=
  writeSequence "TransferDescriptor" FfiConverterTypeTransferDescriptor.Write value

/-- Range of the Go type `uint32`. -/
def IsUint32 (n : Nat) : Prop := n < 4294967296

/-- Range of the Go type `int32`. -/
def IsInt32 (i : Int) : Prop := -2147483648 ≤ i ∧ i < 2147483648

instance (n : Nat) : Decidable (IsUint32 n) := by unfold IsUint32; infer_instance

instance (i : Int) : Decidable (IsInt32 i) := by unfold IsInt32; infer_instance

/-- Value of the Go type `Config` whose strings `FfiConverterString.Write` accepts. -/
def Config.Ok (c : Config) : Prop :=
  IsUint64 c.DirDepthLimit ∧ IsUint64 c.TransferFileLimit ∧
    c.MooseEventPath.length ≤ MaxInt32 ∧ c.StoragePath.length ≤ MaxInt32 ∧
    (∀ n, c.ChecksumEventsSizeThreshold = some n → IsUint64 n) ∧
    (∀ n, c.ChecksumEventsGranularity = some n → IsUint64 n) ∧
    (∀ n, c.ConnectionRetries = some n → IsUint32 n)

/-- Value of the Go type `TransferDescriptor` whose strings `FfiConverterString.Write`
accepts. -/
def TransferDescriptor.Ok : TransferDescriptor → Prop
  | .Path path => path.length ≤ MaxInt32
  | .Fd filename contentUri fd =>
    filename.length ≤ MaxInt32 ∧ contentUri.length ≤ MaxInt32 ∧ ∀ i, fd = some i → IsInt32 i

/-- Descriptor that can be decoded at the end of a buffer: an `Fd` descriptor, or a `Path`
descriptor whose path is not empty. -/
def TransferDescriptor.endsBuffer : TransferDescriptor → Bool
  | .Path path => !path.isEmpty
  | .Fd .. => true

/-- Bytes that the `FfiConverterOptional...` converters are to produce: the byte 0 for an
absent value, the byte 1 followed by the encoding of the value for a present one. -/
def optionalEncoding {α : Type} (encode : α → List Byte) : Option α → List Byte
  | none => [0]
  | some v => 1 :: encode v

/-- Bytes that `FfiConverterTypeTransferDescriptor.Write` is to produce for a descriptor:
the tag, then the length-prefixed strings, then the optional descriptor. -/
def TransferDescriptor.encoding : TransferDescriptor → List Byte
  | .Path path => writeInt32 1 ++ (writeInt32 (path.length : Int) ++ path)
  | .Fd filename contentUri fd =>
    writeInt32 2 ++ ((writeInt32 (filename.length : Int) ++ filename) ++
      ((writeInt32 (contentUri.length : Int) ++ contentUri) ++ optionalEncoding writeInt32 fd))

/-! ## Writing errors -/

/-- Method `FfiConverterTypeLibdropError.Write`; `value` is the `*LibdropError`. -/
def FfiConverterTypeLibdropError.Write (value : GoError) : Except PanicValue (List Byte) :=
  match value with
  | .LibdropError (.LibdropErrorVariant .Unknown _) => .ok (writeInt32 1)
  | .LibdropError (.LibdropErrorVariant .InvalidString _) => .ok (writeInt32 2)
  | .LibdropError (.LibdropErrorVariant .BadInput _) => .ok (writeInt32 3)
  | .LibdropError (.LibdropErrorVariant .TransferCreate _) => .ok (writeInt32 4)
  | .LibdropError (.LibdropErrorVariant .NotStarted _) => .ok (writeInt32 5)
  | .LibdropError (.LibdropErrorVariant .AddrInUse _) => .ok (writeInt32 6)
  | .LibdropError (.LibdropErrorVariant .InstanceStart _) => .ok (writeInt32 7)
  | .LibdropError (.LibdropErrorVariant .InstanceStop _) => .ok (writeInt32 8)
  | .LibdropError (.LibdropErrorVariant .InvalidPrivkey _) => .ok (writeInt32 9)
  | .LibdropError (.LibdropErrorVariant .DbError _) => .ok (writeInt32 10)
  | _ =>
    .error (.message (goString "invalid error value `" ++ value.Error ++
      goString "` in FfiConverterTypeLibdropError.Write"))

/-- Position of a variant of `LibdropError` in the declaration order, starting at 1. -/
def LibdropErrorKind.ordinal : LibdropErrorKind → Nat
  | .Unknown => 1
  | .InvalidString => 2
  | .BadInput => 3
  | .TransferCreate => 4
  | .NotStarted => 5
  | .AddrInUse => 6
  | .InstanceStart => 7
  | .InstanceStop => 8
  | .InvalidPrivkey => 9
  | .DbError => 10

/-! ## Check of the contract version and the checksums -/

/-- Functions of the native library that `uniffiCheckChecksums` calls. Each gets the call
status and leaves it behind next to the returned `uint32_t` or `uint16_t`. -/
structure NativeChecksums where
  ffi_norddrop_uniffi_contract_version : RustCallStatus → Nat × RustCallStatus
  uniffi_norddrop_checksum_func_version : RustCallStatus → Nat × RustCallStatus
  uniffi_norddrop_checksum_method_norddrop_download_file :
    RustCallStatus → Nat × RustCallStatus
  uniffi_norddrop_checksum_method_norddrop_finalize_transfer :
    RustCallStatus → Nat × RustCallStatus
  uniffi_norddrop_checksum_method_norddrop_network_refresh :
    RustCallStatus → Nat × RustCallStatus
  uniffi_norddrop_checksum_method_norddrop_new_transfer :
    RustCallStatus → Nat × RustCallStatus
  uniffi_norddrop_checksum_method_norddrop_purge_transfers :
    RustCallStatus → Nat × RustCallStatus
  uniffi_norddrop_checksum_method_norddrop_purge_transfers_until :
    RustCallStatus → Nat × RustCallStatus
  uniffi_norddrop_checksum_method_norddrop_reject_file :
    RustCallStatus → Nat × RustCallStatus
  uniffi_norddrop_checksum_method_norddrop_remove_file :
    RustCallStatus → Nat × RustCallStatus
  uniffi_norddrop_checksum_method_norddrop_set_fd_resolver :
    RustCallStatus → Nat × RustCallStatus
  uniffi_norddrop_checksum_method_norddrop_start : RustCallStatus → Nat × RustCallStatus
  uniffi_norddrop_checksum_method_norddrop_stop : RustCallStatus → Nat × RustCallStatus
  uniffi_norddrop_checksum_method_norddrop_transfers_since :
    RustCallStatus → Nat × RustCallStatus
  uniffi_norddrop_checksum_constructor_norddrop_new : RustCallStatus → Nat × RustCallStatus
  uniffi_norddrop_checksum_method_eventcallback_on_event :
    RustCallStatus → Nat × RustCallStatus
  uniffi_norddrop_checksum_method_fdresolver_on_fd : RustCallStatus → Nat × RustCallStatus
  uniffi_norddrop_checksum_method_keystore_on_pubkey : RustCallStatus → Nat × RustCallStatus
  uniffi_norddrop_checksum_method_keystore_privkey : RustCallStatus → Nat × RustCallStatus
  uniffi_norddrop_checksum_method_logger_on_log : RustCallStatus → Nat × RustCallStatus
  uniffi_norddrop_checksum_method_logger_level : RustCallStatus → Nat × RustCallStatus

/-- Block `{ checksum := rustCall(...); if checksum != expected { panic(...) } }` of
`uniffiCheckChecksums`, for the native function `call` whose name is `name`. -/
def checkChecksum (call : RustCallStatus → Nat × RustCallStatus) (expected : Nat)
    (name : String) : Except PanicValue Unit :=
  match rustCall (fun uniffiStatus => .ok (call uniffiStatus)) with
  | .error p => .error p
  | .ok checksum =>
    if checksum ≠ expected then
      .error (.message (goString ("norddrop: " ++ name ++ ": UniFFI API checksum mismatch")))
    else .ok ()

/-- Sequencing of two statements that may panic. -/
def thenDo (a b : Except PanicValue Unit) : Except PanicValue Unit :=
  match a with
  | .error p => .error p
  | .ok _ => b

/-- Check of the contract version at the start of `uniffiCheckChecksums`. -/
def checkContractVersion (call : RustCallStatus → Nat × RustCallStatus) :
    Except PanicValue Unit :=
  let bindingsContractVersion : Nat := 24
  match rustCall (fun uniffiStatus => .ok (call uniffiStatus)) with
  | .error p => .error p
  | .ok scaffoldingContractVersion =>
    if bindingsContractVersion ≠ scaffoldingContractVersion then
      .error (.message (goString "norddrop: UniFFI contract version mismatch"))
    else .ok ()

/-- Function `uniffiCheckChecksums`: `.ok ()` when it returns. -/
def uniffiCheckChecksums (native : NativeChecksums) : Except PanicValue Unit :=
  thenDo (checkContractVersion native.ffi_norddrop_uniffi_contract_version)
  (thenDo (checkChecksum native.uniffi_norddrop_checksum_func_version 54120
    "uniffi_norddrop_checksum_func_version")
  (thenDo (checkChecksum native.uniffi_norddrop_checksum_method_norddrop_download_file 32954
    "uniffi_norddrop_checksum_method_norddrop_download_file")
  (thenDo (checkChecksum native.uniffi_norddrop_checksum_method_norddrop_finalize_transfer 37465
    "uniffi_norddrop_checksum_method_norddrop_finalize_transfer")
  (thenDo (checkChecksum native.uniffi_norddrop_checksum_method_norddrop_network_refresh 53685
    "uniffi_norddrop_checksum_method_norddrop_network_refresh")
  (thenDo (checkChecksum native.uniffi_norddrop_checksum_method_norddrop_new_transfer 51452
    "uniffi_norddrop_checksum_method_norddrop_new_transfer")
  (thenDo (checkChecksum native.uniffi_norddrop_checksum_method_norddrop_purge_transfers 55603
    "uniffi_norddrop_checksum_method_norddrop_purge_transfers")
  (thenDo (checkChecksum native.uniffi_norddrop_checksum_method_norddrop_purge_transfers_until
    13823 "uniffi_norddrop_checksum_method_norddrop_purge_transfers_until")
  (thenDo (checkChecksum native.uniffi_norddrop_checksum_method_norddrop_reject_file 19601
    "uniffi_norddrop_checksum_method_norddrop_reject_file")
  (thenDo (checkChecksum native.uniffi_norddrop_checksum_method_norddrop_remove_file 38631
    "uniffi_norddrop_checksum_method_norddrop_remove_file")
  (thenDo (checkChecksum native.uniffi_norddrop_checksum_method_norddrop_set_fd_resolver 35835
    "uniffi_norddrop_checksum_method_norddrop_set_fd_resolver")
  (thenDo (checkChecksum native.uniffi_norddrop_checksum_method_norddrop_start 57097
    "uniffi_norddrop_checksum_method_norddrop_start")
  (thenDo (checkChecksum native.uniffi_norddrop_checksum_method_norddrop_stop 43969
    "uniffi_norddrop_checksum_method_norddrop_stop")
  (thenDo (checkChecksum native.uniffi_norddrop_checksum_method_norddrop_transfers_since 16492
    "uniffi_norddrop_checksum_method_norddrop_transfers_since")
  (thenDo (checkChecksum native.uniffi_norddrop_checksum_constructor_norddrop_new 18531
    "uniffi_norddrop_checksum_constructor_norddrop_new")
  (thenDo (checkChecksum native.uniffi_norddrop_checksum_method_eventcallback_on_event 57627
    "uniffi_norddrop_checksum_method_eventcallback_on_event")
  (thenDo (checkChecksum native.uniffi_norddrop_checksum_method_fdresolver_on_fd 41805
    "uniffi_norddrop_checksum_method_fdresolver_on_fd")
  (thenDo (checkChecksum native.uniffi_norddrop_checksum_method_keystore_on_pubkey 31192
    "uniffi_norddrop_checksum_method_keystore_on_pubkey")
  (thenDo (checkChecksum native.uniffi_norddrop_checksum_method_keystore_privkey 24684
    "uniffi_norddrop_checksum_method_keystore_privkey")
  (thenDo (checkChecksum native.uniffi_norddrop_checksum_method_logger_on_log 26642
    "uniffi_norddrop_checksum_method_logger_on_log")
  (checkChecksum native.uniffi_norddrop_checksum_method_logger_level 56965
    "uniffi_norddrop_checksum_method_logger_level"))))))))))))))))))))

/-- A native function reports the value `v`: the call returns `v` and leaves the status of
a successful call. -/
def Reports (call : RustCallStatus → Nat × RustCallStatus) (v : Nat) : Prop :=
  (call ⟨0, []⟩).1 = v ∧ (call ⟨0, []⟩).2.code = 0

/-- Library whose functions report the contract version and the checksums that the binding
was generated for. -/
def matchingNative : NativeChecksums :=
  ⟨fun s => (24, s), fun s => (54120, s), fun s => (32954, s), fun s => (37465, s),
    fun s => (53685, s), fun s => (51452, s), fun s => (55603, s), fun s => (13823, s),
    fun s => (19601, s), fun s => (38631, s), fun s => (35835, s), fun s => (57097, s),
    fun s => (43969, s), fun s => (16492, s), fun s => (18531, s), fun s => (57627, s),
    fun s => (41805, s), fun s => (31192, s), fun s => (24684, s), fun s => (26642, s),
    fun s => (56965, s)⟩

instance (call : RustCallStatus → Nat × RustCallStatus) (v : Nat) :
    Decidable (Reports call v) := by
  unfold Reports; infer_instance

/-- Library that differs from `matchingNative` in the contract version it reports. -/
def olderNative : NativeChecksums :=
  { matchingNative with ffi_norddrop_uniffi_contract_version := fun s => (23, s) }

/-- Bytes that `FfiConverterTypeConfig.Write` is to produce for a configuration: the eight
fields in their wire order, integers big-endian, strings length-prefixed, a boolean as
one byte, an absent optional field as the byte 0 and a present one as the byte 1 followed
by the value. -/
def Config.encoding (c : Config) : List Byte :=
  writeUint64 c.DirDepthLimit ++ (writeUint64 c.TransferFileLimit ++
    ((writeInt32 (c.MooseEventPath.length : Int) ++ c.MooseEventPath) ++
      ([if c.MooseProd then 1 else 0] ++
        ((writeInt32 (c.StoragePath.length : Int) ++ c.StoragePath) ++
          (optionalEncoding writeUint64 c.ChecksumEventsSizeThreshold ++
            (optionalEncoding writeUint64 c.ChecksumEventsGranularity ++
              optionalEncoding writeUint32 c.ConnectionRetries))))))

/-- Bytes that the loop of `FfiConverterSequenceTypeTransferDescriptor.Write` is to produce:
the encodings of the elements in their order. -/
def TransferDescriptor.encodingOfList : List TransferDescriptor → List Byte
  | [] => []
  | d :: ds => d.encoding ++ TransferDescriptor.encodingOfList ds

/-! ## Well-formed events -/

/-- Optional value that is absent or satisfies `P`. -/
def OptionOk {α : Type} (P : α → Prop) : Option α → Prop
  | none => True
  | some v => P v

instance {α : Type} (P : α → Prop) [DecidablePred P] (o : Option α) :
    Decidable (OptionOk P o) := by
  cases o <;> simp only [OptionOk] <;> infer_instance

/-- Value of the Go type `Status` with a declared status code. -/
def Status.Ok (s : norddrop.Status) : Prop :=
  StatusCodeDeclared s.Status ∧ OptionOk IsInt32 s.OsErrorCode

instance (s : Status) : Decidable s.Ok := by unfold Status.Ok; infer_instance

def ReceivedFile.Ok (f : ReceivedFile) : Prop :=
  StringOk f.Id ∧ StringOk f.Path ∧ IsUint64 f.Size

instance (f : ReceivedFile) : Decidable f.Ok := by unfold ReceivedFile.Ok; infer_instance

def QueuedFile.Ok (f : QueuedFile) : Prop :=
  StringOk f.Id ∧ StringOk f.Path ∧ IsUint64 f.Size ∧ OptionOk StringOk f.BaseDir

instance (f : QueuedFile) : Decidable f.Ok := by unfold QueuedFile.Ok; infer_instance

/-- Event kind of the claim on events: strings (also present optional ones) not empty and
shorter than `2^31` bytes, file lists with fewer than `2^31` elements, declared status
codes, and every integer within its Go type. -/
def EventKind.Ok : EventKind → Prop
  | .RequestReceived peer transferId files =>
    StringOk peer ∧ StringOk transferId ∧ files.length ≤ MaxInt32 ∧ ∀ f ∈ files, f.Ok
  | .RequestQueued peer transferId files =>
    StringOk peer ∧ StringOk transferId ∧ files.length ≤ MaxInt32 ∧ ∀ f ∈ files, f.Ok
  | .FileStarted transferId fileId n => StringOk transferId ∧ StringOk fileId ∧ IsUint64 n
  | .FileProgress transferId fileId n => StringOk transferId ∧ StringOk fileId ∧ IsUint64 n
  | .FileDownloaded transferId fileId finalPath =>
    StringOk transferId ∧ StringOk fileId ∧ StringOk finalPath
  | .FileUploaded transferId fileId => StringOk transferId ∧ StringOk fileId
  | .FileFailed transferId fileId status => StringOk transferId ∧ StringOk fileId ∧ status.Ok
  | .FileRejected transferId fileId _ => StringOk transferId ∧ StringOk fileId
  | .FilePaused transferId fileId => StringOk transferId ∧ StringOk fileId
  | .FileThrottled transferId fileId n => StringOk transferId ∧ StringOk fileId ∧ IsUint64 n
  | .FilePending transferId fileId => StringOk transferId ∧ StringOk fileId
  | .TransferFinalized transferId _ => StringOk transferId
  | .TransferFailed transferId status => StringOk transferId ∧ status.Ok
  | .TransferDeferred transferId peer status => StringOk transferId ∧ StringOk peer ∧ status.Ok
  | .FinalizeChecksumStarted transferId fileId n =>
    StringOk transferId ∧ StringOk fileId ∧ IsUint64 n
  | .FinalizeChecksumFinished transferId fileId => StringOk transferId ∧ StringOk fileId
  | .FinalizeChecksumProgress transferId fileId n =>
    StringOk transferId ∧ StringOk fileId ∧ IsUint64 n
  | .VerifyChecksumStarted transferId fileId n =>
    StringOk transferId ∧ StringOk fileId ∧ IsUint64 n
  | .VerifyChecksumFinished transferId fileId => StringOk transferId ∧ StringOk fileId
  | .VerifyChecksumProgress transferId fileId n =>
    StringOk transferId ∧ StringOk fileId ∧ IsUint64 n
  | .RuntimeError status => StatusCodeDeclared status

instance (k : EventKind) : Decidable k.Ok := by
  cases k <;> simp only [EventKind.Ok] <;> infer_instance

/-- Event of the claim on events: a timestamp within `int64` and a well-formed kind. -/
def Event.Ok (e : Event) : Prop := IsInt64 e.Timestamp ∧ e.Kind.Ok

instance (e : Event) : Decidable e.Ok := by unfold Event.Ok; infer_instance

/-- Event that reports the request of a peer with two files. -/
def sampleEvent : Event :=
  { Timestamp := 1700000000000,
    Kind := .RequestQueued [49, 48] [105, 100]
      [⟨[102], [97, 47, 98], 500, some [47, 116]⟩, ⟨[103], [99], 0, none⟩] }

/-! # Theorems

## Fixed-width integers and strings -/

theorem length_beBytes (n v : Nat) : (beBytes n v).length = n := by
  induction n generalizing v with
  | zero => rfl
  | succ n ih => simp [beBytes, ih]

theorem beNat_append_singleton (bs : List Byte) (b : Byte) :
    beNat (bs ++ [b]) = beNat bs * 256 + b.val := by
  simp [beNat, List.foldl_append]

theorem beNat_beBytes (n v : Nat) : beNat (beBytes n v) = v % 256 ^ n := by
  induction n generalizing v with
  | zero => simp [beBytes, beNat, Nat.mod_one]
  | succ n ih =>
    rw [beBytes, beNat_append_singleton, ih]
    simp only [byteOf]
    rw [pow_succ, Nat.mul_comm (256 ^ n) 256, Nat.mod_mul]
    omega

theorem readFull_append (n : Nat) (bs rest : List Byte) (hn : 0 < n) (h : bs.length = n) :
    readFull n (bs ++ rest) = .ok (bs, rest) := by
  unfold readFull
  have h1 : (bs ++ rest).length ≠ 0 := by simp; intro h0; subst h0; simp at h; omega
  have h2 : ¬ (bs ++ rest).length < n := by simp; omega
  rw [if_neg h1, if_neg h2]
  subst h
  simp

theorem toSigned_toUnsigned_8 (i : Int) (h1 : -128 ≤ i) (h2 : i < 128) :
    toSigned 8 (toUnsigned 8 i) = i := by
  unfold toSigned toUnsigned
  norm_num
  omega

theorem toSigned_toUnsigned_32 (i : Int) (h1 : -2147483648 ≤ i) (h2 : i < 2147483648) :
    toSigned 32 (toUnsigned 32 i) = i := by
  unfold toSigned toUnsigned
  norm_num
  omega

theorem toSigned_toUnsigned_64 (i : Int) (h1 : -9223372036854775808 ≤ i)
    (h2 : i < 9223372036854775808) : toSigned 64 (toUnsigned 64 i) = i := by
  unfold toSigned toUnsigned
  norm_num
  omega

theorem toUnsigned_lt_32 (i : Int) : toUnsigned 32 i < 256 ^ 4 := by
  unfold toUnsigned
  norm_num
  omega



theorem readInt8_writeInt8 (i : Int) (rest : Reader) (h1 : -128 ≤ i) (h2 : i < 128) :
    readInt8 (writeInt8 i ++ rest) = .ok (i, rest) := by
  unfold readInt8 writeInt8
  rw [readFull_append 1 _ rest (by decide) (length_beBytes 1 _)]
  simp only [beNat_beBytes]
  have h : toUnsigned 8 i % 256 ^ 1 = toUnsigned 8 i := by
    unfold toUnsigned; norm_num; omega
  rw [h, toSigned_toUnsigned_8 i h1 h2]

theorem readInt32_writeInt32 (i : Int) (rest : Reader) (h1 : -2147483648 ≤ i)
    (h2 : i < 2147483648) : readInt32 (writeInt32 i ++ rest) = .ok (i, rest) := by
  unfold readInt32 writeInt32
  rw [readFull_append 4 _ rest (by decide) (length_beBytes 4 _)]
  simp only [beNat_beBytes]
  have h : toUnsigned 32 i % 256 ^ 4 = toUnsigned 32 i := by
    unfold toUnsigned; norm_num; omega
  rw [h, toSigned_toUnsigned_32 i h1 h2]

theorem readInt64_writeInt64 (i : Int) (rest : Reader) (h1 : -9223372036854775808 ≤ i)
    (h2 : i < 9223372036854775808) : readInt64 (writeInt64 i ++ rest) = .ok (i, rest) := by
  unfold readInt64 writeInt64
  rw [readFull_append 8 _ rest (by decide) (length_beBytes 8 _)]
  simp only [beNat_beBytes]
  have h : toUnsigned 64 i % 256 ^ 8 = toUnsigned 64 i := by
    unfold toUnsigned; norm_num; omega
  rw [h, toSigned_toUnsigned_64 i h1 h2]

theorem readUint32_writeUint32 (n : Nat) (rest : Reader) (h : n < 4294967296) :
    readUint32 (writeUint32 n ++ rest) = .ok (n, rest) := by
  unfold readUint32 writeUint32
  rw [readFull_append 4 _ rest (by decide) (length_beBytes 4 _)]
  simp only [beNat_beBytes]
  have h3 : n % 256 ^ 4 = n := Nat.mod_eq_of_lt (by norm_num; omega)
  rw [h3]

theorem readUint64_writeUint64 (n : Nat) (rest : Reader) (h : n < 18446744073709551616) :
    readUint64 (writeUint64 n ++ rest) = .ok (n, rest) := by
  unfold readUint64 writeUint64
  rw [readFull_append 8 _ rest (by decide) (length_beBytes 8 _)]
  simp only [beNat_beBytes]
  have h3 : n % 256 ^ 8 = n := Nat.mod_eq_of_lt (by norm_num; omega)
  rw [h3]

theorem toSigned_32_of_lt (n : Nat) (h : n < 2147483648) : toSigned 32 n = (n : Int) := by
  unfold toSigned
  norm_num
  omega

/-- Decoding of an encoded string that is not empty. -/
theorem String_Read_Write (s : GoString) (rest : Reader) (h0 : 0 < s.length)
    (h1 : s.length ≤ MaxInt32) :
    FfiConverterString.Write s = .ok (writeInt32 (s.length : Int) ++ s) ∧
    FfiConverterString.Read ((writeInt32 (s.length : Int) ++ s) ++ rest) = .ok (s, rest) := by
  unfold MaxInt32 at h1
  constructor
  · unfold FfiConverterString.Write
    rw [if_neg (by unfold MaxInt32; omega), toSigned_32_of_lt _ (by omega)]
  · unfold FfiConverterString.Read
    rw [List.append_assoc, readInt32_writeInt32 _ _ (by omega) (by omega)]
    simp only
    rw [if_neg (by omega), if_neg (by rw [List.length_append]; omega)]
    have hm : min (s.length : Int).toNat (s ++ rest).length = s.length := by
      simp
    simp only [hm, Int.toNat_ofNat, ne_eq, not_true_eq_false, if_false]
    simp



/-- Table of the error ids and their variants. -/
theorem LibdropError_Read_encoded (k : Nat) (v : LibdropErrorKind) (m : GoString) (rest : Reader)
    (hk : (k, v) ∈ [(1, LibdropErrorKind.Unknown), (2, .InvalidString), (3, .BadInput),
      (4, .TransferCreate), (5, .NotStarted), (6, .AddrInUse), (7, .InstanceStart),
      (8, .InstanceStop), (9, .InvalidPrivkey), (10, .DbError)])
    (h0 : 0 < m.length) (h1 : m.length ≤ MaxInt32) :
    FfiConverterTypeLibdropError.Read (writeUint32 k ++ ((writeInt32 (m.length : Int) ++ m) ++ rest)) =
      .ok (.LibdropError (.LibdropErrorVariant v m), rest) := by
  have hs := (String_Read_Write m rest h0 h1).2
  simp only [List.mem_cons, Prod.mk.injEq, List.mem_singleton, List.not_mem_nil, or_false] at hk
  unfold FfiConverterTypeLibdropError.Read
  rcases hk with h | h | h | h | h | h | h | h | h | h <;> obtain ⟨rfl, rfl⟩ := h <;>
    (rw [readUint32_writeUint32 _ _ (by norm_num)]; simp only [hs])

theorem LibdropError_Read_bad_id (errorID : Nat) (rest : Reader) (h : errorID < 4294967296)
    (hid : ¬ (1 ≤ errorID ∧ errorID ≤ 10)) :
    ∃ p, FfiConverterTypeLibdropError.Read (writeUint32 errorID ++ rest) = .error p := by
  unfold FfiConverterTypeLibdropError.Read
  rw [readUint32_writeUint32 _ _ h]
  simp only
  cases hr : FfiConverterString.Read rest with
  | error p => exact ⟨p, rfl⟩
  | ok v =>
    obtain ⟨message, reader⟩ := v
    simp only
    split <;> first
      | (exfalso; omega)
      | exact ⟨_, rfl⟩

/-! ## Call status -/

theorem checkCallStatus_zero (conv : Option BufLifter) (buf : RustBuffer) :
    checkCallStatus conv ⟨0, buf⟩ = .ok none := by
  rfl

theorem checkCallStatus_one (lift : BufLifter) (buf : RustBuffer) :
    checkCallStatus (some lift) ⟨1, buf⟩ = lift buf := by
  rfl

theorem checkCallStatus_two (conv : Option BufLifter) (buf : RustBuffer) :
    checkCallStatus conv ⟨2, buf⟩ =
      if buf.length > 0 then .error (.error (.errorString buf))
      else .error (.error (.errorString (goString "Rust panicked while handling Rust panic"))) := by
  rfl

theorem checkCallStatus_other (conv : Option BufLifter) (c : Int) (buf : RustBuffer)
    (h0 : c ≠ 0) (h1 : c ≠ 1) (h2 : c ≠ 2) :
    checkCallStatus conv ⟨c, buf⟩ =
      .ok (some (.errorString (goString "unknown status code: " ++ fmtInt c))) := by
  unfold checkCallStatus
  split
  · rename_i h; exact absurd h h0
  · rename_i h; exact absurd h h1
  · rename_i h; exact absurd h h2
  · rfl

theorem LibdropError_Read_shape (reader : Reader) (e : GoError) (rest : Reader)
    (h : FfiConverterTypeLibdropError.Read reader = .ok (e, rest)) :
    ∃ k m, e = .LibdropError (.LibdropErrorVariant k m) := by
  unfold FfiConverterTypeLibdropError.Read at h
  split at h
  · cases h
  · split at h
    · cases h
    · split at h <;> first
        | (cases h; exact ⟨_, _, rfl⟩)
        | cases h

theorem LibdropError_Lift_shape (buf : RustBuffer) (err : Option GoError)
    (h : FfiConverterTypeLibdropError.Lift buf = .ok err) : InLibdropTaxonomy err := by
  unfold FfiConverterTypeLibdropError.Lift LiftFromRustBuffer at h
  cases hr : FfiConverterTypeLibdropError.Read buf with
  | error p => rw [hr] at h; cases h
  | ok v =>
    obtain ⟨e, rest⟩ := v
    obtain ⟨k, m, rfl⟩ := LibdropError_Read_shape buf e rest hr
    rw [hr] at h
    simp only at h
    by_cases hl : rest.length > 0
    · rw [if_pos hl] at h; cases h
    · rw [if_neg hl] at h; cases h; exact trivial

theorem LibdropError_Lift_encoded (k : Nat) (v : LibdropErrorKind) (m : GoString)
    (hk : (k, v) ∈ [(1, LibdropErrorKind.Unknown), (2, .InvalidString), (3, .BadInput),
      (4, .TransferCreate), (5, .NotStarted), (6, .AddrInUse), (7, .InstanceStart),
      (8, .InstanceStop), (9, .InvalidPrivkey), (10, .DbError)])
    (h0 : 0 < m.length) (h1 : m.length ≤ MaxInt32) :
    FfiConverterTypeLibdropError.Lift (writeUint32 k ++ (writeInt32 (m.length : Int) ++ m)) =
      .ok (some (.LibdropError (.LibdropErrorVariant v m))) := by
  have h := LibdropError_Read_encoded k v m [] hk h0 h1
  rw [List.append_nil] at h
  unfold FfiConverterTypeLibdropError.Lift LiftFromRustBuffer
  rw [h]
  rfl

theorem String_Write_ok (m : GoString) (bs : List Byte) (h : FfiConverterString.Write m = .ok bs) :
    m.length ≤ MaxInt32 ∧ bs = writeInt32 (m.length : Int) ++ m := by
  unfold FfiConverterString.Write at h
  by_cases hl : m.length > MaxInt32
  · rw [if_pos hl] at h; cases h
  · rw [if_neg hl] at h
    have hl2 : m.length ≤ MaxInt32 := by omega
    refine ⟨hl2, ?_⟩
    unfold MaxInt32 at hl2
    rw [toSigned_32_of_lt _ (by omega)] at h
    cases h
    rfl

/-! ## Round trips of the records -/

theorem roundTrips_string (s : GoString) (h : StringOk s) :
    RoundTrips FfiConverterString.Read FfiConverterString.Write s :=
  ⟨_, (String_Read_Write s [] h.1 h.2).1, fun rest => (String_Read_Write s rest h.1 h.2).2⟩

theorem roundTrips_uint64 (n : Nat) (h : IsUint64 n) :
    RoundTrips FfiConverterUint64.Read FfiConverterUint64.Write n :=
  ⟨_, rfl, fun rest => readUint64_writeUint64 n rest h⟩

theorem roundTrips_int64 (i : Int) (h : IsInt64 i) :
    RoundTrips FfiConverterInt64.Read FfiConverterInt64.Write i :=
  ⟨_, rfl, fun rest => readInt64_writeInt64 i rest h.1 h.2⟩

theorem roundTrips_bool (b : Bool) : RoundTrips FfiConverterBool.Read FfiConverterBool.Write b := by
  cases b
  · refine ⟨writeInt8 0, rfl, fun rest => ?_⟩
    unfold FfiConverterBool.Read
    rw [readInt8_writeInt8 0 rest (by decide) (by decide)]
    rfl
  · refine ⟨writeInt8 1, rfl, fun rest => ?_⟩
    unfold FfiConverterBool.Read
    rw [readInt8_writeInt8 1 rest (by decide) (by decide)]
    rfl

theorem statusCodeDeclared_iff (c : Nat) : StatusCodeDeclared c ↔ 1 ≤ c ∧ c ≤ 24 :=
  Iff.rfl

theorem roundTrips_statusCode (c : Nat) (h : StatusCodeDeclared c) :
    RoundTrips FfiConverterTypeStatusCode.Read FfiConverterTypeStatusCode.Write c := by
  rw [statusCodeDeclared_iff] at h
  refine ⟨_, rfl, fun rest => ?_⟩
  unfold FfiConverterTypeStatusCode.Read
  rw [toSigned_32_of_lt c (by omega), readInt32_writeInt32 _ rest (by omega) (by omega)]
  simp only [toUnsigned]
  have h3 : ((c : Int) % 2 ^ 64).toNat = c := by
    norm_num
    omega
  rw [h3]

theorem readItems_writeItems {α : Type} (read : Reader → Except PanicValue (α × Reader))
    (write : α → Except PanicValue (List Byte)) (l : List α)
    (h : ∀ x ∈ l, RoundTrips read write x) :
    ∃ bs, writeItems write l = .ok bs ∧
      ∀ rest, readItems read l.length (bs ++ rest) = .ok (l, rest) := by
  induction l with
  | nil => exact ⟨[], rfl, fun _ => rfl⟩
  | cons x xs ih =>
    obtain ⟨b, hw, hr⟩ := h x (List.mem_cons_self x xs)
    obtain ⟨bs, hws, hrs⟩ := ih (fun y hy => h y (List.mem_cons_of_mem x hy))
    refine ⟨b ++ bs, ?_, fun rest => ?_⟩
    · simp only [writeItems, hw, hws]
    · simp only [readItems, List.length_cons, List.append_assoc, hr, hrs]

theorem roundTrips_sequence {α : Type} (typeName : String)
    (read : Reader → Except PanicValue (α × Reader))
    (write : α → Except PanicValue (List Byte)) (l : List α) (hlen : l.length ≤ MaxInt32)
    (h : ∀ x ∈ l, RoundTrips read write x) :
    RoundTrips (readSequence read) (writeSequence typeName write) l := by
  obtain ⟨bs, hw, hr⟩ := readItems_writeItems read write l h
  have hlen2 := hlen
  unfold MaxInt32 at hlen2
  refine ⟨writeInt32 (l.length : Int) ++ bs, ?_, fun rest => ?_⟩
  · unfold writeSequence
    rw [if_neg (by omega), hw, toSigned_32_of_lt _ (by omega)]
  · unfold readSequence
    rw [List.append_assoc, readInt32_writeInt32 _ _ (by omega) (by omega)]
    simp only
    by_cases h0 : l.length = 0
    · have hnil : l = [] := List.length_eq_zero.mp h0
      subst hnil
      cases hw
      rfl
    · rw [if_neg (by omega), if_neg (by omega), Int.toNat_ofNat]
      exact hr rest



theorem roundTrips_incomingPathStateKind (k : IncomingPathStateKind) (h : k.Ok) :
    RoundTrips FfiConverterTypeIncomingPathStateKind.Read
      FfiConverterTypeIncomingPathStateKind.Write k := by
  cases k with
  | Pending baseDir =>
    obtain ⟨b, hw, hr⟩ := roundTrips_string baseDir h
    refine ⟨writeInt32 1 ++ b, ?_, fun rest => ?_⟩
    · simp only [FfiConverterTypeIncomingPathStateKind.Write, hw, writeThen]
    · unfold FfiConverterTypeIncomingPathStateKind.Read
      rw [List.append_assoc, readInt32_writeInt32 1 _ (by decide) (by decide)]
      simp only [hr, andThen]
  | Started n =>
    obtain ⟨b, hw, hr⟩ := roundTrips_uint64 n h
    refine ⟨writeInt32 2 ++ b, ?_, fun rest => ?_⟩
    · simp only [FfiConverterTypeIncomingPathStateKind.Write, hw, writeThen]
    · unfold FfiConverterTypeIncomingPathStateKind.Read
      rw [List.append_assoc, readInt32_writeInt32 2 _ (by decide) (by decide)]
      simp only [hr, andThen]
  | Failed status n =>
    obtain ⟨b1, hw1, hr1⟩ := roundTrips_statusCode status h.1
    obtain ⟨b2, hw2, hr2⟩ := roundTrips_uint64 n h.2
    refine ⟨writeInt32 3 ++ (b1 ++ b2), ?_, fun rest => ?_⟩
    · simp only [FfiConverterTypeIncomingPathStateKind.Write, hw1, hw2, writeThen]
    · unfold FfiConverterTypeIncomingPathStateKind.Read
      rw [List.append_assoc, readInt32_writeInt32 3 _ (by decide) (by decide)]
      simp only [List.append_assoc, hr1, hr2, andThen]
  | Completed finalPath =>
    obtain ⟨b, hw, hr⟩ := roundTrips_string finalPath h
    refine ⟨writeInt32 4 ++ b, ?_, fun rest => ?_⟩
    · simp only [FfiConverterTypeIncomingPathStateKind.Write, hw, writeThen]
    · unfold FfiConverterTypeIncomingPathStateKind.Read
      rw [List.append_assoc, readInt32_writeInt32 4 _ (by decide) (by decide)]
      simp only [hr, andThen]
  | Rejected byPeer n =>
    obtain ⟨b1, hw1, hr1⟩ := roundTrips_bool byPeer
    obtain ⟨b2, hw2, hr2⟩ := roundTrips_uint64 n h
    refine ⟨writeInt32 5 ++ (b1 ++ b2), ?_, fun rest => ?_⟩
    · simp only [FfiConverterTypeIncomingPathStateKind.Write, hw1, hw2, writeThen]
    · unfold FfiConverterTypeIncomingPathStateKind.Read
      rw [List.append_assoc, readInt32_writeInt32 5 _ (by decide) (by decide)]
      simp only [List.append_assoc, hr1, hr2, andThen]
  | Paused n =>
    obtain ⟨b, hw, hr⟩ := roundTrips_uint64 n h
    refine ⟨writeInt32 6 ++ b, ?_, fun rest => ?_⟩
    · simp only [FfiConverterTypeIncomingPathStateKind.Write, hw, writeThen]
    · unfold FfiConverterTypeIncomingPathStateKind.Read
      rw [List.append_assoc, readInt32_writeInt32 6 _ (by decide) (by decide)]
      simp only [hr, andThen]

theorem roundTrips_incomingPathState (s : IncomingPathState) (h : s.Ok) :
    RoundTrips FfiConverterTypeIncomingPathState.Read FfiConverterTypeIncomingPathState.Write s := by
  obtain ⟨b1, hw1, hr1⟩ := roundTrips_int64 s.CreatedAt h.1
  obtain ⟨b2, hw2, hr2⟩ := roundTrips_incomingPathStateKind s.Kind h.2
  refine ⟨b1 ++ b2, ?_, fun rest => ?_⟩
  · simp only [FfiConverterTypeIncomingPathState.Write, hw1, hw2, writeThen]
  · simp only [FfiConverterTypeIncomingPathState.Read, List.append_assoc, hr1, hr2, andThen]



theorem roundTrips_outgoingPathStateKind (k : OutgoingPathStateKind) (h : k.Ok) :
    RoundTrips FfiConverterTypeOutgoingPathStateKind.Read
      FfiConverterTypeOutgoingPathStateKind.Write k := by
  cases k with
  | Started n =>
    obtain ⟨b, hw, hr⟩ := roundTrips_uint64 n h
    refine ⟨writeInt32 1 ++ b, ?_, fun rest => ?_⟩
    · simp only [FfiConverterTypeOutgoingPathStateKind.Write, hw, writeThen]
    · unfold FfiConverterTypeOutgoingPathStateKind.Read
      rw [List.append_assoc, readInt32_writeInt32 1 _ (by decide) (by decide)]
      simp only [hr, andThen]
  | Failed status n =>
    obtain ⟨b1, hw1, hr1⟩ := roundTrips_statusCode status h.1
    obtain ⟨b2, hw2, hr2⟩ := roundTrips_uint64 n h.2
    refine ⟨writeInt32 2 ++ (b1 ++ b2), ?_, fun rest => ?_⟩
    · simp only [FfiConverterTypeOutgoingPathStateKind.Write, hw1, hw2, writeThen]
    · unfold FfiConverterTypeOutgoingPathStateKind.Read
      rw [List.append_assoc, readInt32_writeInt32 2 _ (by decide) (by decide)]
      simp only [List.append_assoc, hr1, hr2, andThen]
  | Completed =>
    refine ⟨writeInt32 3, rfl, fun rest => ?_⟩
    unfold FfiConverterTypeOutgoingPathStateKind.Read
    rw [readInt32_writeInt32 3 _ (by decide) (by decide)]
    rfl
  | Rejected byPeer n =>
    obtain ⟨b1, hw1, hr1⟩ := roundTrips_bool byPeer
    obtain ⟨b2, hw2, hr2⟩ := roundTrips_uint64 n h
    refine ⟨writeInt32 4 ++ (b1 ++ b2), ?_, fun rest => ?_⟩
    · simp only [FfiConverterTypeOutgoingPathStateKind.Write, hw1, hw2, writeThen]
    · unfold FfiConverterTypeOutgoingPathStateKind.Read
      rw [List.append_assoc, readInt32_writeInt32 4 _ (by decide) (by decide)]
      simp only [List.append_assoc, hr1, hr2, andThen]
  | Paused n =>
    obtain ⟨b, hw, hr⟩ := roundTrips_uint64 n h
    refine ⟨writeInt32 5 ++ b, ?_, fun rest => ?_⟩
    · simp only [FfiConverterTypeOutgoingPathStateKind.Write, hw, writeThen]
    · unfold FfiConverterTypeOutgoingPathStateKind.Read
      rw [List.append_assoc, readInt32_writeInt32 5 _ (by decide) (by decide)]
      simp only [hr, andThen]

theorem roundTrips_outgoingPathState (s : OutgoingPathState) (h : s.Ok) :
    RoundTrips FfiConverterTypeOutgoingPathState.Read FfiConverterTypeOutgoingPathState.Write s := by
  obtain ⟨b1, hw1, hr1⟩ := roundTrips_int64 s.CreatedAt h.1
  obtain ⟨b2, hw2, hr2⟩ := roundTrips_outgoingPathStateKind s.Kind h.2
  refine ⟨b1 ++ b2, ?_, fun rest => ?_⟩
  · simp only [FfiConverterTypeOutgoingPathState.Write, hw1, hw2, writeThen]
  · simp only [FfiConverterTypeOutgoingPathState.Read, List.append_assoc, hr1, hr2, andThen]

theorem roundTrips_incomingPathStates (l : List IncomingPathState) (hlen : l.length ≤ MaxInt32)
    (h : ∀ s ∈ l, s.Ok) :
    RoundTrips FfiConverterSequenceTypeIncomingPathState.Read
      FfiConverterSequenceTypeIncomingPathState.Write l :=
  roundTrips_sequence "IncomingPathState" _ _ l hlen
    (fun s hs => roundTrips_incomingPathState s (h s hs))

theorem roundTrips_outgoingPathStates (l : List OutgoingPathState) (hlen : l.length ≤ MaxInt32)
    (h : ∀ s ∈ l, s.Ok) :
    RoundTrips FfiConverterSequenceTypeOutgoingPathState.Read
      FfiConverterSequenceTypeOutgoingPathState.Write l :=
  roundTrips_sequence "OutgoingPathState" _ _ l hlen
    (fun s hs => roundTrips_outgoingPathState s (h s hs))

theorem roundTrips_outgoingFileSource (k : OutgoingFileSource) (h : k.Ok) :
    RoundTrips FfiConverterTypeOutgoingFileSource.Read FfiConverterTypeOutgoingFileSource.Write k := by
  cases k with
  | BasePath basePath =>
    obtain ⟨b, hw, hr⟩ := roundTrips_string basePath h
    refine ⟨writeInt32 1 ++ b, ?_, fun rest => ?_⟩
    · simp only [FfiConverterTypeOutgoingFileSource.Write, hw, writeThen]
    · unfold FfiConverterTypeOutgoingFileSource.Read
      rw [List.append_assoc, readInt32_writeInt32 1 _ (by decide) (by decide)]
      simp only [hr, andThen]
  | ContentUri uri =>
    obtain ⟨b, hw, hr⟩ := roundTrips_string uri h
    refine ⟨writeInt32 2 ++ b, ?_, fun rest => ?_⟩
    · simp only [FfiConverterTypeOutgoingFileSource.Write, hw, writeThen]
    · unfold FfiConverterTypeOutgoingFileSource.Read
      rw [List.append_assoc, readInt32_writeInt32 2 _ (by decide) (by decide)]
      simp only [hr, andThen]

theorem roundTrips_incomingPath (p : IncomingPath) (h : p.Ok) :
    RoundTrips FfiConverterTypeIncomingPath.Read FfiConverterTypeIncomingPath.Write p := by
  obtain ⟨h1, h2, h3, h4, h5, h6⟩ := h
  obtain ⟨b1, hw1, hr1⟩ := roundTrips_string p.FileId h1
  obtain ⟨b2, hw2, hr2⟩ := roundTrips_string p.RelativePath h2
  obtain ⟨b3, hw3, hr3⟩ := roundTrips_uint64 p.Bytes h3
  obtain ⟨b4, hw4, hr4⟩ := roundTrips_uint64 p.BytesReceived h4
  obtain ⟨b5, hw5, hr5⟩ := roundTrips_incomingPathStates p.States h5 h6
  refine ⟨b1 ++ (b2 ++ (b3 ++ (b4 ++ b5))), ?_, fun rest => ?_⟩
  · simp only [FfiConverterTypeIncomingPath.Write, hw1, hw2, hw3, hw4, hw5, writeThen]
  · simp only [FfiConverterTypeIncomingPath.Read, List.append_assoc, hr1, hr2, hr3, hr4, hr5,
      andThen]

theorem roundTrips_outgoingPath (p : OutgoingPath) (h : p.Ok) :
    RoundTrips FfiConverterTypeOutgoingPath.Read FfiConverterTypeOutgoingPath.Write p := by
  obtain ⟨h1, h2, h3, h4, h5, h6, h7⟩ := h
  obtain ⟨b1, hw1, hr1⟩ := roundTrips_string p.FileId h1
  obtain ⟨b2, hw2, hr2⟩ := roundTrips_string p.RelativePath h2
  obtain ⟨b3, hw3, hr3⟩ := roundTrips_uint64 p.Bytes h3
  obtain ⟨b4, hw4, hr4⟩ := roundTrips_uint64 p.BytesSent h4
  obtain ⟨b5, hw5, hr5⟩ := roundTrips_outgoingFileSource p.Source h5
  obtain ⟨b6, hw6, hr6⟩ := roundTrips_outgoingPathStates p.States h6 h7
  refine ⟨b1 ++ (b2 ++ (b3 ++ (b4 ++ (b5 ++ b6)))), ?_, fun rest => ?_⟩
  · simp only [FfiConverterTypeOutgoingPath.Write, hw1, hw2, hw3, hw4, hw5, hw6, writeThen]
  · simp only [FfiConverterTypeOutgoingPath.Read, List.append_assoc, hr1, hr2, hr3, hr4, hr5,
      hr6, andThen]

theorem roundTrips_transferStateKind (k : TransferStateKind) (h : k.Ok) :
    RoundTrips FfiConverterTypeTransferStateKind.Read FfiConverterTypeTransferStateKind.Write k := by
  cases k with
  | Cancel byPeer =>
    obtain ⟨b, hw, hr⟩ := roundTrips_bool byPeer
    refine ⟨writeInt32 1 ++ b, ?_, fun rest => ?_⟩
    · simp only [FfiConverterTypeTransferStateKind.Write, hw, writeThen]
    · unfold FfiConverterTypeTransferStateKind.Read
      rw [List.append_assoc, readInt32_writeInt32 1 _ (by decide) (by decide)]
      simp only [hr, andThen]
  | Failed status =>
    obtain ⟨b, hw, hr⟩ := roundTrips_statusCode status h
    refine ⟨writeInt32 2 ++ b, ?_, fun rest => ?_⟩
    · simp only [FfiConverterTypeTransferStateKind.Write, hw, writeThen]
    · unfold FfiConverterTypeTransferStateKind.Read
      rw [List.append_assoc, readInt32_writeInt32 2 _ (by decide) (by decide)]
      simp only [hr, andThen]

theorem roundTrips_transferState (s : TransferState) (h : s.Ok) :
    RoundTrips FfiConverterTypeTransferState.Read FfiConverterTypeTransferState.Write s := by
  obtain ⟨b1, hw1, hr1⟩ := roundTrips_int64 s.CreatedAt h.1
  obtain ⟨b2, hw2, hr2⟩ := roundTrips_transferStateKind s.Kind h.2
  refine ⟨b1 ++ b2, ?_, fun rest => ?_⟩
  · simp only [FfiConverterTypeTransferState.Write, hw1, hw2, writeThen]
  · simp only [FfiConverterTypeTransferState.Read, List.append_assoc, hr1, hr2, andThen]

theorem roundTrips_transferKind (k : TransferKind) (h : k.Ok) :
    RoundTrips FfiConverterTypeTransferKind.Read FfiConverterTypeTransferKind.Write k := by
  cases k with
  | Incoming paths =>
    obtain ⟨b, hw, hr⟩ := roundTrips_sequence "IncomingPath" FfiConverterTypeIncomingPath.Read
      FfiConverterTypeIncomingPath.Write paths h.1 (fun p hp => roundTrips_incomingPath p (h.2 p hp))
    refine ⟨writeInt32 1 ++ b, ?_, fun rest => ?_⟩
    · simp only [FfiConverterTypeTransferKind.Write, FfiConverterSequenceTypeIncomingPath.Write,
        hw, writeThen]
    · unfold FfiConverterTypeTransferKind.Read
      rw [List.append_assoc, readInt32_writeInt32 1 _ (by decide) (by decide)]
      simp only [FfiConverterSequenceTypeIncomingPath.Read, hr, andThen]
  | Outgoing paths =>
    obtain ⟨b, hw, hr⟩ := roundTrips_sequence "OutgoingPath" FfiConverterTypeOutgoingPath.Read
      FfiConverterTypeOutgoingPath.Write paths h.1 (fun p hp => roundTrips_outgoingPath p (h.2 p hp))
    refine ⟨writeInt32 2 ++ b, ?_, fun rest => ?_⟩
    · simp only [FfiConverterTypeTransferKind.Write, FfiConverterSequenceTypeOutgoingPath.Write,
        hw, writeThen]
    · unfold FfiConverterTypeTransferKind.Read
      rw [List.append_assoc, readInt32_writeInt32 2 _ (by decide) (by decide)]
      simp only [FfiConverterSequenceTypeOutgoingPath.Read, hr, andThen]

theorem roundTrips_transferInfo (t : TransferInfo) (h : t.Ok) :
    RoundTrips FfiConverterTypeTransferInfo.Read FfiConverterTypeTransferInfo.Write t := by
  obtain ⟨h1, h2, h3, h4, h5, h6⟩ := h
  obtain ⟨b1, hw1, hr1⟩ := roundTrips_string t.Id h1
  obtain ⟨b2, hw2, hr2⟩ := roundTrips_int64 t.CreatedAt h2
  obtain ⟨b3, hw3, hr3⟩ := roundTrips_string t.Peer h3
  obtain ⟨b4, hw4, hr4⟩ := roundTrips_sequence "TransferState" FfiConverterTypeTransferState.Read
    FfiConverterTypeTransferState.Write t.States h4 (fun s hs => roundTrips_transferState s (h5 s hs))
  obtain ⟨b5, hw5, hr5⟩ := roundTrips_transferKind t.Kind h6
  refine ⟨b1 ++ (b2 ++ (b3 ++ (b4 ++ b5))), ?_, fun rest => ?_⟩
  · simp only [FfiConverterTypeTransferInfo.Write, FfiConverterSequenceTypeTransferState.Write,
      hw1, hw2, hw3, hw4, hw5, writeThen]
  · simp only [FfiConverterTypeTransferInfo.Read, FfiConverterSequenceTypeTransferState.Read,
      List.append_assoc, hr1, hr2, hr3, hr4, hr5, andThen]

/-! ## Tagged unions -/

theorem andThen_ok_elim {α β : Type} (P : β → Prop) (r : Except PanicValue (α × Reader))
    (k : α → Reader → Except PanicValue (β × Reader))
    (h : ∀ a reader b rest, k a reader = .ok (b, rest) → P b) :
    ∀ b rest, andThen r k = .ok (b, rest) → P b := by
  intro b rest hb
  unfold andThen at hb
  split at hb
  · cases hb
  · exact h _ _ b rest hb

theorem ok_elim {β : Type} (P : β → Prop) (c : β) (reader : Reader) (h : P c) :
    ∀ b rest, (Except.ok (c, reader) : Except PanicValue (β × Reader)) = .ok (b, rest) → P b := by
  intro b rest hb
  cases hb
  exact h

theorem readInt32_ok (reader : Reader) (id : Int) (rest : Reader)
    (h : readInt32 reader = .ok (id, rest)) :
    ∃ b0 b1 b2 b3, reader = b0 :: b1 :: b2 :: b3 :: rest ∧
      id = toSigned 32 (beNat [b0, b1, b2, b3]) := by
  unfold readInt32 readFull at h
  rcases reader with _ | ⟨b0, _ | ⟨b1, _ | ⟨b2, _ | ⟨b3, tl⟩⟩⟩⟩
  · simp at h
  · simp at h
  · simp at h
  · simp at h
  · simp at h
    obtain ⟨rfl, rfl⟩ := h
    exact ⟨b0, b1, b2, b3, rfl, rfl⟩

theorem EventKind_Read_ordinal (reader : Reader) (v : EventKind) (rest : Reader)
    (h : FfiConverterTypeEventKind.Read reader = .ok (v, rest)) :
    ∃ id tl, readInt32 reader = .ok (id, tl) ∧ id = (v.ordinal : Int) := by
  unfold FfiConverterTypeEventKind.Read at h
  cases hr : readInt32 reader with
  | error p => rw [hr] at h; cases h
  | ok x =>
    obtain ⟨id, tl⟩ := x
    rw [hr] at h
    simp only at h
    refine ⟨id, tl, rfl, ?_⟩
    revert h
    split
    all_goals first
      | (intro h; cases h)
      | (revert v rest
         intro v rest
         refine andThen_ok_elim (fun v => _ = (EventKind.ordinal v : Int)) _ _ ?_ v rest
         intro a r
         first
           | exact ok_elim _ _ _ rfl
           | (refine andThen_ok_elim _ _ _ ?_
              intro a2 r2
              exact ok_elim _ _ _ rfl))


theorem EventKind_ordinal_range (v : EventKind) : 1 ≤ v.ordinal ∧ v.ordinal ≤ 21 := by
  cases v <;> simp [EventKind.ordinal]

theorem EventKind_Read_bad_tag (tag : Int) (rest : Reader) (h1 : -2147483648 ≤ tag)
    (h2 : tag < 2147483648) (hbad : ¬ (1 ≤ tag ∧ tag ≤ 21)) :
    ∃ p, FfiConverterTypeEventKind.Read (writeInt32 tag ++ rest) = .error p := by
  unfold FfiConverterTypeEventKind.Read
  rw [readInt32_writeInt32 tag rest h1 h2]
  simp only
  split <;> first
    | (exfalso; omega)
    | exact ⟨_, rfl⟩

theorem StatusCode_Read_nonneg (c : Nat) (rest : Reader) (h : c < 2147483648) :
    FfiConverterTypeStatusCode.Read (writeInt32 (c : Int) ++ rest) = .ok (c, rest) := by
  unfold FfiConverterTypeStatusCode.Read
  rw [readInt32_writeInt32 _ rest (by omega) (by omega)]
  simp only [toUnsigned]
  have h3 : ((c : Int) % 2 ^ 64).toNat = c := by
    norm_num
    omega
  rw [h3]

theorem Bool_Read_encoded (b : Bool) (rest : Reader) :
    FfiConverterBool.Read (writeInt8 (if b then 1 else 0) ++ rest) = .ok (b, rest) := by
  unfold FfiConverterBool.Read
  cases b
  · rw [if_neg (by decide), readInt8_writeInt8 0 rest (by decide) (by decide)]; rfl
  · rw [if_pos rfl, readInt8_writeInt8 1 rest (by decide) (by decide)]; rfl

theorem IncomingPathStateKind_Read_ordinal (reader : Reader) (v : IncomingPathStateKind)
    (rest : Reader) (h : FfiConverterTypeIncomingPathStateKind.Read reader = .ok (v, rest)) :
    ∃ id tl, readInt32 reader = .ok (id, tl) ∧ id = (v.ordinal : Int) := by
  unfold FfiConverterTypeIncomingPathStateKind.Read at h
  cases hr : readInt32 reader with
  | error p => rw [hr] at h; cases h
  | ok x =>
    obtain ⟨id, tl⟩ := x
    rw [hr] at h
    simp only at h
    refine ⟨id, tl, rfl, ?_⟩
    revert h
    split
    all_goals first
      | (intro h; cases h)
      | (revert v rest
         intro v rest
         refine andThen_ok_elim (fun v => _ = (IncomingPathStateKind.ordinal v : Int)) _ _ ?_ v rest
         intro a r
         first
           | exact ok_elim _ _ _ rfl
           | (refine andThen_ok_elim _ _ _ ?_
              intro a2 r2
              exact ok_elim _ _ _ rfl))

theorem OutgoingPathStateKind_Read_ordinal (reader : Reader) (v : OutgoingPathStateKind)
    (rest : Reader) (h : FfiConverterTypeOutgoingPathStateKind.Read reader = .ok (v, rest)) :
    ∃ id tl, readInt32 reader = .ok (id, tl) ∧ id = (v.ordinal : Int) := by
  unfold FfiConverterTypeOutgoingPathStateKind.Read at h
  cases hr : readInt32 reader with
  | error p => rw [hr] at h; cases h
  | ok x =>
    obtain ⟨id, tl⟩ := x
    rw [hr] at h
    simp only at h
    refine ⟨id, tl, rfl, ?_⟩
    revert h
    split
    all_goals first
      | (intro h; cases h; rfl)
      | (intro h; cases h)
      | (revert v rest
         intro v rest
         refine andThen_ok_elim (fun v => _ = (OutgoingPathStateKind.ordinal v : Int)) _ _ ?_ v rest
         intro a r
         first
           | exact ok_elim _ _ _ rfl
           | (refine andThen_ok_elim _ _ _ ?_
              intro a2 r2
              exact ok_elim _ _ _ rfl))

theorem IncomingPathStateKind_Read_bad_tag (tag : Int) (rest : Reader) (h1 : -2147483648 ≤ tag)
    (h2 : tag < 2147483648) (hbad : ¬ (1 ≤ tag ∧ tag ≤ 6)) :
    ∃ p, FfiConverterTypeIncomingPathStateKind.Read (writeInt32 tag ++ rest) = .error p := by
  unfold FfiConverterTypeIncomingPathStateKind.Read
  rw [readInt32_writeInt32 tag rest h1 h2]
  simp only
  split <;> first
    | (exfalso; omega)
    | exact ⟨_, rfl⟩

theorem OutgoingPathStateKind_Read_bad_tag (tag : Int) (rest : Reader) (h1 : -2147483648 ≤ tag)
    (h2 : tag < 2147483648) (hbad : ¬ (1 ≤ tag ∧ tag ≤ 5)) :
    ∃ p, FfiConverterTypeOutgoingPathStateKind.Read (writeInt32 tag ++ rest) = .error p := by
  unfold FfiConverterTypeOutgoingPathStateKind.Read
  rw [readInt32_writeInt32 tag rest h1 h2]
  simp only
  split <;> first
    | (exfalso; omega)
    | exact ⟨_, rfl⟩

theorem IncomingPathStateKind_Read_tags :
    (∀ (baseDir : GoString) (encoded : List Byte) (rest : Reader), baseDir ≠ [] →
      FfiConverterString.Write baseDir = .ok encoded →
      FfiConverterTypeIncomingPathStateKind.Read (writeInt32 1 ++ (encoded ++ rest)) =
        .ok (.Pending baseDir, rest)) ∧
    (∀ (n : Nat) (rest : Reader), IsUint64 n →
      FfiConverterTypeIncomingPathStateKind.Read (writeInt32 2 ++ (writeUint64 n ++ rest)) =
        .ok (.Started n, rest)) ∧
    (∀ (status n : Nat) (rest : Reader), status < 2147483648 → IsUint64 n →
      FfiConverterTypeIncomingPathStateKind.Read
          (writeInt32 3 ++ (writeInt32 (status : Int) ++ (writeUint64 n ++ rest))) =
        .ok (.Failed status n, rest)) ∧
    (∀ (finalPath : GoString) (encoded : List Byte) (rest : Reader), finalPath ≠ [] →
      FfiConverterString.Write finalPath = .ok encoded →
      FfiConverterTypeIncomingPathStateKind.Read (writeInt32 4 ++ (encoded ++ rest)) =
        .ok (.Completed finalPath, rest)) ∧
    (∀ (byPeer : Bool) (n : Nat) (rest : Reader), IsUint64 n →
      FfiConverterTypeIncomingPathStateKind.Read
          (writeInt32 5 ++ (writeInt8 (if byPeer then 1 else 0) ++ (writeUint64 n ++ rest))) =
        .ok (.Rejected byPeer n, rest)) ∧
    (∀ (n : Nat) (rest : Reader), IsUint64 n →
      FfiConverterTypeIncomingPathStateKind.Read (writeInt32 6 ++ (writeUint64 n ++ rest)) =
        .ok (.Paused n, rest)) := by
  refine ⟨?_, ?_, ?_, ?_, ?_, ?_⟩
  · intro s enc rest hs hw
    obtain ⟨hlen, rfl⟩ := String_Write_ok s enc hw
    unfold FfiConverterTypeIncomingPathStateKind.Read
    rw [readInt32_writeInt32 1 _ (by decide) (by decide)]
    simp only [(String_Read_Write s rest (List.length_pos.mpr hs) hlen).2, andThen]
  · intro n rest hn
    unfold FfiConverterTypeIncomingPathStateKind.Read
    rw [readInt32_writeInt32 2 _ (by decide) (by decide)]
    simp only [FfiConverterUint64.Read, readUint64_writeUint64 n rest hn, andThen]
  · intro status n rest hs hn
    unfold FfiConverterTypeIncomingPathStateKind.Read
    rw [readInt32_writeInt32 3 _ (by decide) (by decide)]
    simp only [StatusCode_Read_nonneg status _ hs, FfiConverterUint64.Read,
      readUint64_writeUint64 n rest hn, andThen]
  · intro s enc rest hs hw
    obtain ⟨hlen, rfl⟩ := String_Write_ok s enc hw
    unfold FfiConverterTypeIncomingPathStateKind.Read
    rw [readInt32_writeInt32 4 _ (by decide) (by decide)]
    simp only [(String_Read_Write s rest (List.length_pos.mpr hs) hlen).2, andThen]
  · intro b n rest hn
    unfold FfiConverterTypeIncomingPathStateKind.Read
    rw [readInt32_writeInt32 5 _ (by decide) (by decide)]
    simp only [Bool_Read_encoded b _, FfiConverterUint64.Read,
      readUint64_writeUint64 n rest hn, andThen]
  · intro n rest hn
    unfold FfiConverterTypeIncomingPathStateKind.Read
    rw [readInt32_writeInt32 6 _ (by decide) (by decide)]
    simp only [FfiConverterUint64.Read, readUint64_writeUint64 n rest hn, andThen]

theorem OutgoingPathStateKind_Read_tags :
    (∀ (n : Nat) (rest : Reader), IsUint64 n →
      FfiConverterTypeOutgoingPathStateKind.Read (writeInt32 1 ++ (writeUint64 n ++ rest)) =
        .ok (.Started n, rest)) ∧
    (∀ (status n : Nat) (rest : Reader), status < 2147483648 → IsUint64 n →
      FfiConverterTypeOutgoingPathStateKind.Read
          (writeInt32 2 ++ (writeInt32 (status : Int) ++ (writeUint64 n ++ rest))) =
        .ok (.Failed status n, rest)) ∧
    (∀ rest : Reader,
      FfiConverterTypeOutgoingPathStateKind.Read (writeInt32 3 ++ rest) =
        .ok (.Completed, rest)) ∧
    (∀ (byPeer : Bool) (n : Nat) (rest : Reader), IsUint64 n →
      FfiConverterTypeOutgoingPathStateKind.Read
          (writeInt32 4 ++ (writeInt8 (if byPeer then 1 else 0) ++ (writeUint64 n ++ rest))) =
        .ok (.Rejected byPeer n, rest)) ∧
    (∀ (n : Nat) (rest : Reader), IsUint64 n →
      FfiConverterTypeOutgoingPathStateKind.Read (writeInt32 5 ++ (writeUint64 n ++ rest)) =
        .ok (.Paused n, rest)) := by
  refine ⟨?_, ?_, ?_, ?_, ?_⟩
  · intro n rest hn
    unfold FfiConverterTypeOutgoingPathStateKind.Read
    rw [readInt32_writeInt32 1 _ (by decide) (by decide)]
    simp only [FfiConverterUint64.Read, readUint64_writeUint64 n rest hn, andThen]
  · intro status n rest hs hn
    unfold FfiConverterTypeOutgoingPathStateKind.Read
    rw [readInt32_writeInt32 2 _ (by decide) (by decide)]
    simp only [StatusCode_Read_nonneg status _ hs, FfiConverterUint64.Read,
      readUint64_writeUint64 n rest hn, andThen]
  · intro rest
    unfold FfiConverterTypeOutgoingPathStateKind.Read
    rw [readInt32_writeInt32 3 _ (by decide) (by decide)]
    rfl
  · intro b n rest hn
    unfold FfiConverterTypeOutgoingPathStateKind.Read
    rw [readInt32_writeInt32 4 _ (by decide) (by decide)]
    simp only [Bool_Read_encoded b _, FfiConverterUint64.Read,
      readUint64_writeUint64 n rest hn, andThen]
  · intro n rest hn
    unfold FfiConverterTypeOutgoingPathStateKind.Read
    rw [readInt32_writeInt32 5 _ (by decide) (by decide)]
    simp only [FfiConverterUint64.Read, readUint64_writeUint64 n rest hn, andThen]

theorem IncomingPathStateKind_ordinal_range (v : IncomingPathStateKind) :
    1 ≤ v.ordinal ∧ v.ordinal ≤ 6 := by
  cases v <;> simp [IncomingPathStateKind.ordinal]

theorem OutgoingPathStateKind_ordinal_range (v : OutgoingPathStateKind) :
    1 ≤ v.ordinal ∧ v.ordinal ≤ 5 := by
  cases v <;> simp [OutgoingPathStateKind.ordinal]

theorem beNat_four_lt (b0 b1 b2 b3 : Byte) : beNat [b0, b1, b2, b3] < 4294967296 := by
  have h0 := b0.isLt
  have h1 := b1.isLt
  have h2 := b2.isLt
  have h3 := b3.isLt
  simp only [beNat, List.foldl]
  omega

theorem readInt32_cons (b0 b1 b2 b3 : Byte) (rest : Reader) :
    readInt32 (b0 :: b1 :: b2 :: b3 :: rest) =
      .ok (toSigned 32 (beNat [b0, b1, b2, b3]), rest) := by
  show readInt32 ([b0, b1, b2, b3] ++ rest) = _
  unfold readInt32
  rw [readFull_append 4 [b0, b1, b2, b3] rest (by decide) rfl]

/-! ## Object lifetime -/

theorem addInt64_neg_one (c : Int) (h1 : 0 ≤ c) (h2 : c ≤ MaxInt64) :
    addInt64 c (-1) = c - 1 := by
  unfold MaxInt64 at h2
  unfold addInt64
  exact toSigned_toUnsigned_64 (c + -1) (by omega) (by omega)

theorem consistent_new (pointer : Nat) : (newFfiObject pointer).Consistent 0 := by
  unfold FfiObject.Consistent newFfiObject MaxInt64
  simp

theorem consistent_incrementPointer (o : FfiObject) (n : Nat) (name : GoString)
    (h : o.Consistent n) (ptr : Nat) (o2 : FfiObject)
    (hi : o.incrementPointer name = .ok (ptr, o2)) :
    o2.Consistent (n + 1) ∧ o2.destroyed = o.destroyed := by
  obtain ⟨hc, hmax, hf⟩ := h
  unfold FfiObject.incrementPointer at hi
  simp only at hi
  by_cases h1 : o.callCounter ≤ -1
  · rw [if_pos h1] at hi; cases hi
  · rw [if_neg h1] at hi
    by_cases h2 : o.callCounter = MaxInt64
    · rw [if_pos h2] at hi; cases hi
    · rw [if_neg h2] at hi
      cases hi
      refine ⟨⟨?_, ?_, ?_⟩, rfl⟩
      · simp only
        rw [hc]
        push_cast
        ring
      · simp only
        unfold MaxInt64 at *
        omega
      · simp only
        rw [hf]
        have hn : ¬ (o.destroyed = true ∧ n = 0) := by
          rintro ⟨hd, hn0⟩
          rw [hd, hn0] at hc
          simp at hc
          omega
        rw [if_neg hn, if_neg (by omega)]

theorem consistent_decrementPointer (o : FfiObject) (n : Nat) (h : o.Consistent (n + 1)) :
    o.decrementPointer.Consistent n ∧ o.decrementPointer.destroyed = o.destroyed := by
  obtain ⟨hc, hmax, hf⟩ := h
  have hnonneg : 0 ≤ o.callCounter := by
    rw [hc]
    split <;> push_cast <;> omega
  have hadd := addInt64_neg_one o.callCounter hnonneg hmax
  unfold FfiObject.decrementPointer
  simp only [hadd]
  rw [if_neg (by omega)] at hf
  by_cases hfree : o.callCounter - 1 = -1
  · rw [if_pos hfree]
    have hd : o.destroyed = true := by
      by_contra hnd
      simp only [Bool.not_eq_true] at hnd
      rw [hnd] at hc
      simp at hc
      omega
    have hn : n = 0 := by
      rw [hd] at hc
      simp at hc
      omega
    refine ⟨⟨?_, ?_, ?_⟩, rfl⟩
    · simp only [FfiObject.freeRustArcPtr]
      rw [hd, hn]
      simp
      omega
    · simp only [FfiObject.freeRustArcPtr]
      unfold MaxInt64 at *
      omega
    · simp only [FfiObject.freeRustArcPtr]
      rw [hf, if_pos ⟨hd, hn⟩]
  · rw [if_neg hfree]
    refine ⟨⟨?_, ?_, ?_⟩, rfl⟩
    · simp only
      rw [hc]
      push_cast
      ring
    · simp only
      unfold MaxInt64 at *
      omega
    · simp only
      rw [hf]
      have hn : ¬ (o.destroyed = true ∧ n = 0) := by
        rintro ⟨hd, hn0⟩
        rw [hd, hn0] at hc
        simp at hc
        omega
      rw [if_neg hn]

theorem consistent_destroy (o : FfiObject) (n : Nat) (h : o.Consistent n) :
    o.destroy.Consistent n ∧ o.destroy.destroyed = true := by
  obtain ⟨hc, hmax, hf⟩ := h
  unfold FfiObject.destroy
  by_cases hd : o.destroyed = false
  · rw [if_pos hd]
    rw [hd] at hc
    simp at hc
    have hadd := addInt64_neg_one o.callCounter (by omega) hmax
    simp only [hadd]
    rw [if_neg (by simp [hd])] at hf
    by_cases hfree : o.callCounter - 1 = -1
    · rw [if_pos hfree]
      have hn : n = 0 := by omega
      refine ⟨⟨?_, ?_, ?_⟩, rfl⟩
      · simp only [FfiObject.freeRustArcPtr]
        rw [hn] at hc ⊢
        simp
        omega
      · simp only [FfiObject.freeRustArcPtr]
        unfold MaxInt64 at *
        omega
      · simp only [FfiObject.freeRustArcPtr]
        rw [hf]
        simp [hn]
    · rw [if_neg hfree]
      refine ⟨⟨?_, ?_, ?_⟩, rfl⟩
      · simp only
        rw [hc]
        simp
      · simp only
        unfold MaxInt64 at *
        omega
      · simp only
        rw [hf, if_neg (by rintro ⟨_, hn0⟩; omega)]
  · rw [if_neg hd]
    simp only [Bool.not_eq_false] at hd
    exact ⟨⟨hc, hmax, hf⟩, hd⟩

theorem runSteps_consistent (steps : List Step) :
    ∀ (o : FfiObject) (n : Nat), o.Consistent n →
      ∀ (o2 : FfiObject) (n2 : Nat), runSteps o n steps = some (o2, n2) →
        o2.Consistent n2 ∧
          (o2.destroyed = true ↔ (o.destroyed = true ∨ Step.destroy ∈ steps)) := by
  induction steps with
  | nil =>
    intro o n h o2 n2 hr
    simp only [runSteps, Option.some.injEq, Prod.mk.injEq] at hr
    obtain ⟨rfl, rfl⟩ := hr
    exact ⟨h, by simp⟩
  | cons step steps ih =>
    intro o n h o2 n2 hr
    cases step with
    | incrementPointer =>
      simp only [runSteps] at hr
      cases hi : o.incrementPointer (goString "*NordDrop") with
      | error p =>
        rw [hi] at hr
        obtain ⟨h1, h2⟩ := ih o n h o2 n2 hr
        exact ⟨h1, by simp [h2]⟩
      | ok x =>
        obtain ⟨ptr, o1⟩ := x
        rw [hi] at hr
        obtain ⟨hc1, hd1⟩ := consistent_incrementPointer o n _ h ptr o1 hi
        obtain ⟨h1, h2⟩ := ih o1 (n + 1) hc1 o2 n2 hr
        exact ⟨h1, by simp [h2, hd1]⟩
    | decrementPointer =>
      simp only [runSteps] at hr
      by_cases hn : n = 0
      · rw [if_pos hn] at hr; cases hr
      · rw [if_neg hn] at hr
        obtain ⟨m, rfl⟩ : ∃ m, n = m + 1 := ⟨n - 1, by omega⟩
        obtain ⟨hc1, hd1⟩ := consistent_decrementPointer o m h
        obtain ⟨h1, h2⟩ := ih o.decrementPointer m hc1 o2 n2 hr
        exact ⟨h1, by simp [h2, hd1]⟩
    | destroy =>
      simp only [runSteps] at hr
      obtain ⟨hc1, hd1⟩ := consistent_destroy o n h
      obtain ⟨h1, h2⟩ := ih o.destroy n hc1 o2 n2 hr
      exact ⟨h1, by simp [h2, hd1]⟩

/-! ## Strings and byte arrays at the end of a buffer -/

theorem String_Read_cons (b0 b1 b2 b3 : Byte) (tl : Reader) :
    FfiConverterString.Read (b0 :: b1 :: b2 :: b3 :: tl) =
      if toSigned 32 (beNat [b0, b1, b2, b3]) < 0 then
        .error (.runtime (goString "makeslice: len out of range"))
      else if tl.length = 0 then .error (.error .EOF)
      else if min (toSigned 32 (beNat [b0, b1, b2, b3])).toNat tl.length ≠
          (toSigned 32 (beNat [b0, b1, b2, b3])).toNat then
        .error (.error (.errorString
          (goString "bad read length when reading string, expected " ++
            fmtInt (toSigned 32 (beNat [b0, b1, b2, b3])) ++ goString ", read " ++
            fmtInt ((min (toSigned 32 (beNat [b0, b1, b2, b3])).toNat tl.length : Nat) : Int))))
      else .ok (tl.take (min (toSigned 32 (beNat [b0, b1, b2, b3])).toNat tl.length),
        tl.drop (min (toSigned 32 (beNat [b0, b1, b2, b3])).toNat tl.length)) := by
  unfold FfiConverterString.Read
  rw [readInt32_cons]

theorem Bytes_Read_cons (b0 b1 b2 b3 : Byte) (tl : Reader) :
    FfiConverterBytes.Read (b0 :: b1 :: b2 :: b3 :: tl) =
      if toSigned 32 (beNat [b0, b1, b2, b3]) < 0 then
        .error (.runtime (goString "makeslice: len out of range"))
      else if tl.length = 0 then .error (.error .EOF)
      else if min (toSigned 32 (beNat [b0, b1, b2, b3])).toNat tl.length ≠
          (toSigned 32 (beNat [b0, b1, b2, b3])).toNat then
        .error (.error (.errorString
          (goString "bad read length when reading []byte, expected " ++
            fmtInt (toSigned 32 (beNat [b0, b1, b2, b3])) ++ goString ", read " ++
            fmtInt ((min (toSigned 32 (beNat [b0, b1, b2, b3])).toNat tl.length : Nat) : Int))))
      else .ok (tl.take (min (toSigned 32 (beNat [b0, b1, b2, b3])).toNat tl.length),
        tl.drop (min (toSigned 32 (beNat [b0, b1, b2, b3])).toNat tl.length)) := by
  unfold FfiConverterBytes.Read
  rw [readInt32_cons]

theorem readInt32_short (reader : Reader) (h : reader.length < 4) :
    ∃ p, readInt32 reader = .error p := by
  unfold readInt32 readFull
  by_cases h0 : reader.length = 0
  · rw [if_pos h0]; exact ⟨_, rfl⟩
  · rw [if_neg h0, if_pos h]; exact ⟨_, rfl⟩

/-- Decoding of an encoded string that is empty only when something follows it. -/
theorem String_Read_Write_general (s : GoString) (rest : Reader) (h1 : s.length ≤ MaxInt32)
    (hne : s ≠ [] ∨ rest ≠ []) :
    FfiConverterString.Write s = .ok (writeInt32 (s.length : Int) ++ s) ∧
    FfiConverterString.Read ((writeInt32 (s.length : Int) ++ s) ++ rest) = .ok (s, rest) := by
  unfold MaxInt32 at h1
  constructor
  · unfold FfiConverterString.Write
    rw [if_neg (by unfold MaxInt32; omega), toSigned_32_of_lt _ (by omega)]
  · unfold FfiConverterString.Read
    rw [List.append_assoc, readInt32_writeInt32 _ _ (by omega) (by omega)]
    simp only
    have hlen : (s ++ rest).length ≠ 0 := by
      rw [List.length_append]
      rcases hne with h | h
      · have := List.length_pos.mpr h; omega
      · have := List.length_pos.mpr h; omega
    rw [if_neg (by omega), if_neg hlen]
    have hm : min (s.length : Int).toNat (s ++ rest).length = s.length := by
      simp
    simp only [hm, Int.toNat_ofNat, ne_eq, not_true_eq_false, if_false]
    simp

theorem Bytes_Read_Write_general (s : List Byte) (rest : Reader) (h1 : s.length ≤ MaxInt32)
    (hne : s ≠ [] ∨ rest ≠ []) :
    FfiConverterBytes.Write s = .ok (writeInt32 (s.length : Int) ++ s) ∧
    FfiConverterBytes.Read ((writeInt32 (s.length : Int) ++ s) ++ rest) = .ok (s, rest) := by
  unfold MaxInt32 at h1
  constructor
  · unfold FfiConverterBytes.Write
    rw [if_neg (by unfold MaxInt32; omega), toSigned_32_of_lt _ (by omega)]
  · unfold FfiConverterBytes.Read
    rw [List.append_assoc, readInt32_writeInt32 _ _ (by omega) (by omega)]
    simp only
    have hlen : (s ++ rest).length ≠ 0 := by
      rw [List.length_append]
      rcases hne with h | h
      · have := List.length_pos.mpr h; omega
      · have := List.length_pos.mpr h; omega
    rw [if_neg (by omega), if_neg hlen]
    have hm : min (s.length : Int).toNat (s ++ rest).length = s.length := by
      simp
    simp only [hm, Int.toNat_ofNat, ne_eq, not_true_eq_false, if_false]
    simp


theorem String_Read_ok (reader : Reader) (v : GoString) (rest : Reader)
    (h : FfiConverterString.Read reader = .ok (v, rest)) :
    ∃ b0 b1 b2 b3, reader = [b0, b1, b2, b3] ++ (v ++ rest) ∧
      0 ≤ toSigned 32 (beNat [b0, b1, b2, b3]) ∧
      (v.length : Int) = toSigned 32 (beNat [b0, b1, b2, b3]) := by
  rcases reader with _ | ⟨b0, _ | ⟨b1, _ | ⟨b2, _ | ⟨b3, tl⟩⟩⟩⟩
  · obtain ⟨p, hp⟩ := readInt32_short [] (by decide)
    simp [FfiConverterString.Read, hp] at h
  · obtain ⟨p, hp⟩ := readInt32_short [b0] (by simp)
    simp [FfiConverterString.Read, hp] at h
  · obtain ⟨p, hp⟩ := readInt32_short [b0, b1] (by simp)
    simp [FfiConverterString.Read, hp] at h
  · obtain ⟨p, hp⟩ := readInt32_short [b0, b1, b2] (by simp)
    simp [FfiConverterString.Read, hp] at h
  · rw [String_Read_cons] at h
    refine ⟨b0, b1, b2, b3, ?_⟩
    generalize toSigned 32 (beNat [b0, b1, b2, b3]) = n at h ⊢
    by_cases h1 : n < 0
    · rw [if_pos h1] at h; cases h
    · rw [if_neg h1] at h
      by_cases h2 : tl.length = 0
      · rw [if_pos h2] at h; cases h
      · rw [if_neg h2] at h
        by_cases h3 : min n.toNat tl.length ≠ n.toNat
        · rw [if_pos h3] at h; cases h
        · rw [if_neg h3] at h
          simp only [ne_eq, not_not] at h3
          rw [h3] at h
          simp only [Except.ok.injEq, Prod.mk.injEq] at h
          obtain ⟨rfl, rfl⟩ := h
          refine ⟨?_, by omega, ?_⟩
          · simp
          · rw [List.length_take]
            omega

theorem String_Read_fails (b0 b1 b2 b3 : Byte) (tl : Reader)
    (h : toSigned 32 (beNat [b0, b1, b2, b3]) < 0 ∨
      (tl.length : Int) < toSigned 32 (beNat [b0, b1, b2, b3])) :
    ∃ p, FfiConverterString.Read (b0 :: b1 :: b2 :: b3 :: tl) = .error p := by
  rw [String_Read_cons]
  generalize toSigned 32 (beNat [b0, b1, b2, b3]) = n at h ⊢
  by_cases h1 : n < 0
  · rw [if_pos h1]; exact ⟨_, rfl⟩
  · rw [if_neg h1]
    by_cases h2 : tl.length = 0
    · rw [if_pos h2]; exact ⟨_, rfl⟩
    · rw [if_neg h2]
      have h3 : min n.toNat tl.length ≠ n.toNat := by omega
      rw [if_pos h3]; exact ⟨_, rfl⟩

theorem String_Read_empty_last : FfiConverterString.Read [0, 0, 0, 0] = .error (.error .EOF) := by
  decide

theorem String_Read_empty_then (b : Byte) (rest : Reader) :
    FfiConverterString.Read (0 :: 0 :: 0 :: 0 :: b :: rest) = .ok ([], b :: rest) := by
  rw [String_Read_cons]
  have h : toSigned 32 (beNat [0, 0, 0, 0]) = 0 := by decide
  rw [h]
  simp

theorem Bytes_Read_empty_then (b : Byte) (rest : Reader) :
    FfiConverterBytes.Read (0 :: 0 :: 0 :: 0 :: b :: rest) = .ok ([], b :: rest) := by
  rw [Bytes_Read_cons]
  have h : toSigned 32 (beNat [0, 0, 0, 0]) = 0 := by decide
  rw [h]
  simp

/-- Reading a string that is written in full before the final four zero bytes. -/
theorem String_Read_before_zero (s : GoString) (h : s.length ≤ MaxInt32) :
    FfiConverterString.Read ((writeInt32 (s.length : Int) ++ s) ++ [0, 0, 0, 0]) =
      .ok (s, [0, 0, 0, 0]) :=
  (String_Read_Write_general s [0, 0, 0, 0] h (Or.inr (by simp))).2

theorem String_Write_eq (s : GoString) (h : s.length ≤ MaxInt32) :
    FfiConverterString.Write s = .ok (writeInt32 (s.length : Int) ++ s) := by
  unfold MaxInt32 at h
  unfold FfiConverterString.Write
  rw [if_neg (by unfold MaxInt32; omega), toSigned_32_of_lt _ (by omega)]

theorem readString2_empty_last (a : GoString) (ha : a.length ≤ MaxInt32) :
    readString2 ((writeInt32 (a.length : Int) ++ a) ++ [0, 0, 0, 0]) = .error (.error .EOF) := by
  unfold readString2
  rw [String_Read_before_zero a ha]
  simp only [String_Read_empty_last]

theorem readString2_encoded (a b : GoString) (rest : Reader) (ha : a.length ≤ MaxInt32)
    (hb : b.length ≤ MaxInt32) (hrest : rest ≠ []) :
    readString2 ((writeInt32 (a.length : Int) ++ a) ++
        ((writeInt32 (b.length : Int) ++ b) ++ rest)) = .ok ((a, b), rest) := by
  unfold readString2
  rw [(String_Read_Write_general a _ ha (Or.inr (by simp [hrest]))).2]
  simp only
  rw [(String_Read_Write_general b rest hb (Or.inr hrest)).2]

theorem Event_Read_empty_last (ts : Int) (tag : Int) (a : GoString) (hts : IsInt64 ts)
    (ha : a.length ≤ MaxInt32) (htag : tag ∈ [6, 9, 11, 16, 19]) :
    FfiConverterTypeEvent.Read (writeInt64 ts ++ (writeInt32 tag ++
        ((writeInt32 (a.length : Int) ++ a) ++ [0, 0, 0, 0]))) = .error (.error .EOF) := by
  unfold FfiConverterTypeEvent.Read FfiConverterInt64.Read
  rw [readInt64_writeInt64 ts _ hts.1 hts.2]
  simp only [andThen]
  unfold FfiConverterTypeEventKind.Read
  simp only [List.mem_cons, List.mem_singleton, List.not_mem_nil, or_false] at htag
  rcases htag with rfl | rfl | rfl | rfl | rfl <;>
    (rw [readInt32_writeInt32 _ _ (by decide) (by decide)]
     simp only [readString2_empty_last a ha, andThen])

theorem Event_Read_FileDownloaded_empty_last (ts : Int) (a b : GoString) (hts : IsInt64 ts)
    (ha : a.length ≤ MaxInt32) (hb : b.length ≤ MaxInt32) :
    FfiConverterTypeEvent.Read (writeInt64 ts ++ (writeInt32 5 ++
        (((writeInt32 (a.length : Int) ++ a) ++ (writeInt32 (b.length : Int) ++ b)) ++
          [0, 0, 0, 0]))) = .error (.error .EOF) := by
  unfold FfiConverterTypeEvent.Read FfiConverterInt64.Read
  rw [readInt64_writeInt64 ts _ hts.1 hts.2]
  simp only [andThen]
  unfold FfiConverterTypeEventKind.Read
  rw [readInt32_writeInt32 _ _ (by decide) (by decide)]
  rw [List.append_assoc (writeInt32 (a.length : Int) ++ a)]
  simp only [readString2_encoded a b [0, 0, 0, 0] ha hb (by simp), andThen,
    String_Read_empty_last]

/-- Event kinds whose last field is a string, with that string empty. -/
theorem Event_empty_last_field (ts : Int) (transferId fileId : GoString) (e : EventKind)
    (hts : IsInt64 ts) (ht : transferId.length ≤ MaxInt32) (hf : fileId.length ≤ MaxInt32)
    (he : e ∈ [EventKind.FileDownloaded transferId fileId [], .FileUploaded transferId [],
      .FilePaused transferId [], .FilePending transferId [],
      .FinalizeChecksumFinished transferId [], .VerifyChecksumFinished transferId []]) :
    ∃ bs, FfiConverterTypeEvent.Write ⟨ts, e⟩ = .ok bs ∧
      FfiConverterTypeEvent.Read bs = .error (.error .EOF) := by
  have hw0 : FfiConverterString.Write ([] : GoString) = .ok [0, 0, 0, 0] := by decide
  simp only [List.mem_cons, List.mem_singleton, List.not_mem_nil, or_false] at he
  rcases he with rfl | rfl | rfl | rfl | rfl | rfl
  · refine ⟨_, ?_, Event_Read_FileDownloaded_empty_last ts transferId fileId hts ht hf⟩
    simp only [FfiConverterTypeEvent.Write, FfiConverterTypeEventKind.Write, writeString2,
      FfiConverterInt64.Write, String_Write_eq transferId ht, String_Write_eq fileId hf, hw0,
      writeThen]
  · refine ⟨_, ?_, Event_Read_empty_last ts 6 transferId hts ht (by decide)⟩
    simp only [FfiConverterTypeEvent.Write, FfiConverterTypeEventKind.Write, writeString2,
      FfiConverterInt64.Write, String_Write_eq transferId ht, hw0, writeThen]
  · refine ⟨_, ?_, Event_Read_empty_last ts 9 transferId hts ht (by decide)⟩
    simp only [FfiConverterTypeEvent.Write, FfiConverterTypeEventKind.Write, writeString2,
      FfiConverterInt64.Write, String_Write_eq transferId ht, hw0, writeThen]
  · refine ⟨_, ?_, Event_Read_empty_last ts 11 transferId hts ht (by decide)⟩
    simp only [FfiConverterTypeEvent.Write, FfiConverterTypeEventKind.Write, writeString2,
      FfiConverterInt64.Write, String_Write_eq transferId ht, hw0, writeThen]
  · refine ⟨_, ?_, Event_Read_empty_last ts 16 transferId hts ht (by decide)⟩
    simp only [FfiConverterTypeEvent.Write, FfiConverterTypeEventKind.Write, writeString2,
      FfiConverterInt64.Write, String_Write_eq transferId ht, hw0, writeThen]
  · refine ⟨_, ?_, Event_Read_empty_last ts 19 transferId hts ht (by decide)⟩
    simp only [FfiConverterTypeEvent.Write, FfiConverterTypeEventKind.Write, writeString2,
      FfiConverterInt64.Write, String_Write_eq transferId ht, hw0, writeThen]

theorem LibdropError_Read_empty_message (errorID : Nat) (h : errorID < 4294967296) :
    FfiConverterTypeLibdropError.Read (writeUint32 errorID ++ [0, 0, 0, 0]) =
      .error (.error .EOF) := by
  unfold FfiConverterTypeLibdropError.Read
  rw [readUint32_writeUint32 _ _ h]
  simp only [String_Read_empty_last]

theorem InvokeOnLog_empty_message (level : Int) (h1 : -2147483648 ≤ level)
    (h2 : level < 2147483648) :
    foreignCallbackCallbackInterfaceLogger.InvokeOnLog (writeInt32 level ++ [0, 0, 0, 0]) =
      .error (.error .EOF) := by
  unfold foreignCallbackCallbackInterfaceLogger.InvokeOnLog FfiConverterTypeLogLevel.Read
  rw [readInt32_writeInt32 _ _ h1 h2]
  simp only [String_Read_empty_last]

/-! ## Key store answers -/

/-- An object whose call counter is -1 refuses every `incrementPointer`. -/
theorem incrementPointer_freed (o : FfiObject) (h : o.callCounter = -1)
    (debugName : GoString) :
    o.incrementPointer debugName =
      .error (.error (.errorString
        (debugName ++ goString " object has already been destroyed"))) := by
  unfold FfiObject.incrementPointer
  simp only [h]
  rfl

/-- The method `destroy` has no effect on an object that is marked as destroyed. -/
theorem destroy_of_destroyed (o : FfiObject) (h : o.destroyed = true) : o.destroy = o := by
  unfold FfiObject.destroy
  simp [h]

/-- Every state reached from a fresh object in which the native destructor has run is
marked as destroyed, has no call in flight and has the call counter -1. -/
theorem runSteps_freed (pointer : Nat) (steps : List Step) (o : FfiObject) (inFlight : Nat)
    (hrun : runSteps (newFfiObject pointer) 0 steps = some (o, inFlight))
    (hfree : 1 ≤ o.freeCalls) :
    o.destroyed = true ∧ inFlight = 0 ∧ o.callCounter = -1 ∧ o.freeCalls = 1 := by
  obtain ⟨⟨hc, _, hf⟩, _⟩ :=
    runSteps_consistent steps (newFfiObject pointer) 0 (consistent_new pointer) o inFlight hrun
  by_cases hd : o.destroyed = true ∧ inFlight = 0
  · obtain ⟨hd1, hd2⟩ := hd
    refine ⟨hd1, hd2, ?_, ?_⟩
    · rw [hc, hd1, hd2]
      simp
    · rw [hf, if_pos ⟨hd1, hd2⟩]
  · rw [hf, if_neg hd] at hfree
    omega

/-- Destroying an object reached from a fresh one with no call in flight runs the native
destructor. -/
theorem runSteps_destroy_frees (pointer : Nat) (steps : List Step) (o : FfiObject)
    (hrun : runSteps (newFfiObject pointer) 0 steps = some (o, 0)) :
    o.destroy.destroyed = true ∧ o.destroy.callCounter = -1 ∧ o.destroy.freeCalls = 1 := by
  obtain ⟨hcons, _⟩ :=
    runSteps_consistent steps (newFfiObject pointer) 0 (consistent_new pointer) o 0 hrun
  obtain ⟨⟨hc, _, hf⟩, hd⟩ := consistent_destroy o 0 hcons
  refine ⟨hd, ?_, ?_⟩
  · rw [hc, hd]
    simp
  · rw [hf, if_pos ⟨hd, rfl⟩]

/-! ## Handle map -/

theorem invariant_new : newConcurrentHandleMap.Invariant 0 := by
  refine ⟨Nat.le_refl 0, ?_, ?_⟩
  · intro h p
    simp [newConcurrentHandleMap]
  · intro h p hl
    simp [newConcurrentHandleMap] at hl

/-- An insertion of a registered object returns its handle and leaves the map as it is. -/
theorem insert_registered (cm : concurrentHandleMap) (obj e : Nat)
    (h : cm.rightMap obj = some e) : cm.insert obj = (e, cm) := by
  unfold concurrentHandleMap.insert
  rw [h]

/-- An insertion of an object that is not registered, in a map whose counter is below the
largest `uint64`. -/
theorem insert_fresh (cm : concurrentHandleMap) (obj : Nat) (h : cm.rightMap obj = none)
    (hc : cm.currentHandle + 1 < 18446744073709551616) :
    cm.insert obj = (cm.currentHandle + 1,
      { leftMap := fun handle =>
          if handle = cm.currentHandle + 1 then some obj else cm.leftMap handle,
        rightMap := fun val => if val = obj then some (cm.currentHandle + 1)
          else cm.rightMap val,
        currentHandle := cm.currentHandle + 1 }) := by
  unfold concurrentHandleMap.insert
  rw [h]
  simp only [Nat.mod_eq_of_lt hc]

theorem invariant_insert (cm : concurrentHandleMap) (k obj : Nat) (hinv : cm.Invariant k)
    (hk : k + 1 < 18446744073709551616) : (cm.insert obj).2.Invariant (k + 1) := by
  obtain ⟨hc, hbij, hrange⟩ := hinv
  cases hr : cm.rightMap obj with
  | some e =>
    rw [insert_registered cm obj e hr]
    exact ⟨Nat.le_succ_of_le hc, hbij, hrange⟩
  | none =>
    rw [insert_fresh cm obj hr (by omega)]
    refine ⟨by simp only; omega, ?_, ?_⟩
    · intro h p
      simp only
      by_cases hh : h = cm.currentHandle + 1
      · rw [if_pos hh]
        by_cases hp : p = obj
        · rw [if_pos hp]
          simp [hp, hh]
        · rw [if_neg hp]
          constructor
          · intro heq
            simp only [Option.some.injEq] at heq
            exact absurd heq.symm hp
          · intro heq
            rw [← hbij] at heq
            have := (hrange h p heq).2
            omega
      · rw [if_neg hh]
        by_cases hp : p = obj
        · rw [if_pos hp]
          constructor
          · intro heq
            rw [hp, hbij, hr] at heq
            cases heq
          · intro heq
            simp only [Option.some.injEq] at heq
            exact absurd heq.symm hh
        · rw [if_neg hp]
          exact hbij h p
    · intro h p hl
      simp only at hl ⊢
      by_cases hh : h = cm.currentHandle + 1
      · omega
      · rw [if_neg hh] at hl
        have := hrange h p hl
        omega

theorem invariant_remove (cm : concurrentHandleMap) (k handle : Nat) (hinv : cm.Invariant k) :
    (cm.remove handle).2.Invariant k := by
  obtain ⟨hc, hbij, hrange⟩ := hinv
  unfold concurrentHandleMap.remove
  cases hl : cm.leftMap handle with
  | none => exact ⟨hc, hbij, hrange⟩
  | some val =>
    refine ⟨hc, ?_, ?_⟩
    · intro h p
      simp only
      by_cases hh : h = handle
      · rw [if_pos hh]
        by_cases hp : p = val
        · rw [if_pos hp]
          constructor <;> intro heq <;> cases heq
        · rw [if_neg hp]
          constructor
          · intro heq
            cases heq
          · intro heq
            rw [hh, ← hbij, hl] at heq
            simp only [Option.some.injEq] at heq
            exact absurd heq.symm hp
      · rw [if_neg hh]
        by_cases hp : p = val
        · rw [if_pos hp]
          constructor
          · intro heq
            rw [hp, hbij] at heq
            have h2 := (hbij handle val).1 hl
            rw [heq] at h2
            simp only [Option.some.injEq] at h2
            exact absurd h2 hh
          · intro heq
            cases heq
        · rw [if_neg hp]
          exact hbij h p
    · intro h p hlp
      simp only at hlp ⊢
      by_cases hh : h = handle
      · rw [if_pos hh] at hlp
        cases hlp
      · rw [if_neg hh] at hlp
        exact hrange h p hlp

/-- Effect of `remove` on the lookups. -/
theorem tryGet_remove (cm : concurrentHandleMap) (handle h : Nat) :
    (cm.remove handle).2.tryGet h = if h = handle then none else cm.tryGet h := by
  unfold concurrentHandleMap.remove concurrentHandleMap.tryGet
  cases hl : cm.leftMap handle with
  | none =>
    simp only
    by_cases hh : h = handle
    · rw [if_pos hh, hh, hl]
    · rw [if_neg hh]
  | some val => rfl

theorem currentHandle_remove (cm : concurrentHandleMap) (handle : Nat) :
    (cm.remove handle).2.currentHandle = cm.currentHandle := by
  unfold concurrentHandleMap.remove
  cases cm.leftMap handle <;> rfl

theorem runOps_invariant (ops : List HandleMapOp) :
    ∀ (cm : concurrentHandleMap) (k : Nat), cm.Invariant k →
      k + countInserts ops < 18446744073709551616 →
      (runOps cm ops).1.Invariant (k + countInserts ops) := by
  induction ops with
  | nil =>
    intro cm k hinv _
    exact hinv
  | cons op ops ih =>
    intro cm k hinv hk
    cases op with
    | insert obj =>
      simp only [countInserts] at hk ⊢
      have h2 := ih (cm.insert obj).2 (k + 1) (invariant_insert cm k obj hinv (by omega))
        (by omega)
      simp only [runOps]
      rw [show k + (countInserts ops + 1) = k + 1 + countInserts ops by omega]
      exact h2
    | remove handle =>
      simp only [countInserts] at hk ⊢
      simp only [runOps]
      exact ih (cm.remove handle).2 k (invariant_remove cm k handle hinv) hk

/-- A handle that is not above the counter and not in the map is returned by no later
insertion. -/
theorem runOps_not_reissued (h : Nat) (ops : List HandleMapOp) :
    ∀ (cm : concurrentHandleMap) (k : Nat), cm.Invariant k →
      k + countInserts ops < 18446744073709551616 →
      cm.leftMap h = none → h ≤ cm.currentHandle → h ∉ (runOps cm ops).2 := by
  induction ops with
  | nil =>
    intro cm k _ _ _ _
    simp [runOps]
  | cons op ops ih =>
    intro cm k hinv hk hnone hle
    cases op with
    | insert obj =>
      simp only [countInserts] at hk
      simp only [runOps, List.mem_cons, not_or]
      have hinv2 := invariant_insert cm k obj hinv (by omega)
      obtain ⟨hc, hbij, hrange⟩ := hinv
      cases hr : cm.rightMap obj with
      | some e =>
        rw [insert_registered cm obj e hr] at hinv2 ⊢
        refine ⟨?_, ih cm (k + 1) hinv2 (by omega) hnone hle⟩
        intro heq
        have := (hbij e obj).2 hr
        simp only at heq
        rw [← heq, hnone] at this
        cases this
      | none =>
        rw [insert_fresh cm obj hr (by omega)] at hinv2 ⊢
        refine ⟨by simp only; omega, ih _ (k + 1) hinv2 (by omega) ?_ (by simp only; omega)⟩
        simp only
        rw [if_neg (by omega)]
        exact hnone
    | remove handle =>
      simp only [countInserts] at hk
      simp only [runOps]
      refine ih _ k (invariant_remove cm k handle hinv) hk ?_ ?_
      · have := tryGet_remove cm handle h
        unfold concurrentHandleMap.tryGet at this
        rw [this]
        by_cases hh : h = handle
        · rw [if_pos hh]
        · rw [if_neg hh]
          exact hnone
      · rw [currentHandle_remove]
        exact hle

/-! ## Transfer engine -/

theorem Engine.mono_refl (s : Engine.State) : Engine.Mono s s :=
  ⟨fun h => h, Nat.le_refl _, fun t2 h2 => Or.inl ⟨t2, h2, rfl, fun h => h⟩⟩

theorem Engine.mono_updateTransfer (s : Engine.State) (tid : Nat)
    (change : Engine.TransferRecord → Engine.TransferRecord)
    (hid : ∀ t, (change t).transferId = t.transferId)
    (hfin : ∀ t, t.finalized = true → (change t).finalized = true) :
    Engine.Mono s (s.updateTransfer tid change) := by
  refine ⟨fun h => h, Nat.le_refl _, ?_⟩
  intro t2 h2
  simp only [Engine.State.updateTransfer, List.mem_map] at h2
  obtain ⟨t, ht, rfl⟩ := h2
  refine Or.inl ⟨t, ht, ?_, ?_⟩
  · by_cases h : t.transferId = tid
    · rw [if_pos h]
      exact hid t
    · rw [if_neg h]
  · intro hf
    by_cases h : t.transferId = tid
    · rw [if_pos h]
      exact hfin t hf
    · rw [if_neg h]
      exact hf

theorem Engine.mono_setFileState (s : Engine.State) (tid : Nat) (fid : GoString)
    (next : Engine.FileState) : Engine.Mono s (s.setFileState tid fid next) :=
  Engine.mono_updateTransfer s tid _ (fun _ => rfl) (fun _ h => h)

theorem Engine.mono_filter (s : Engine.State) (keep : Engine.TransferRecord → Bool) :
    Engine.Mono s { s with transfers := s.transfers.filter keep } := by
  refine ⟨fun h => h, Nat.le_refl _, ?_⟩
  intro t2 h2
  simp only [List.mem_filter] at h2
  exact Or.inl ⟨t2, h2.1, rfl, fun h => h⟩

theorem Engine.mono_moveFile (s : Engine.State) (tid : Nat) (fid : GoString)
    (next : Engine.FileState) : Engine.Mono s (Engine.moveFile s tid fid next).1 := by
  unfold Engine.moveFile
  split
  · exact Engine.mono_refl s
  · split
    · exact Engine.mono_refl s
    · split
      · exact Engine.mono_refl s
      · split
        · exact Engine.mono_refl s
        · split
          · exact Engine.mono_setFileState s tid fid next
          · exact Engine.mono_refl s

theorem Engine.mono_purge (s : Engine.State) (selected : Engine.TransferRecord → Bool) :
    Engine.Mono s (Engine.purge s selected).1 := by
  unfold Engine.purge
  split
  · exact Engine.mono_refl s
  · split
    · exact Engine.mono_refl s
    · exact Engine.mono_filter s _

theorem Engine.mono_step (s : Engine.State) (op : Engine.Op) :
    Engine.Mono s (Engine.step s op).1 := by
  cases op with
  | start bind =>
    simp only [Engine.step, Engine.start]
    split
    · exact Engine.mono_refl s
    · split
      · exact Engine.mono_refl s
      · exact ⟨fun _ => rfl, Nat.le_refl _, fun t2 h2 => Or.inl ⟨t2, h2, rfl, fun h => h⟩⟩
  | set_fd_resolver resolver =>
    simp only [Engine.step, Engine.set_fd_resolver]
    split
    · exact Engine.mono_refl s
    · exact ⟨fun h => h, Nat.le_refl _, fun t2 h2 => Or.inl ⟨t2, h2, rfl, fun h => h⟩⟩
  | new_transfer createdAt fileIds =>
    simp only [Engine.step, Engine.new_transfer]
    split
    · exact Engine.mono_refl s
    · split
      · exact Engine.mono_refl s
      · refine ⟨fun h => h, Nat.le_succ _, ?_⟩
        intro t2 h2
        simp only [List.mem_append, List.mem_singleton] at h2
        rcases h2 with h2 | rfl
        · exact Or.inl ⟨t2, h2, rfl, fun h => h⟩
        · exact Or.inr ⟨Nat.le_refl _, Nat.lt_succ_self _⟩
  | download_file tid fid => exact Engine.mono_moveFile s tid fid .Started
  | reject_file tid fid => exact Engine.mono_moveFile s tid fid .Rejected
  | remove_file tid fid =>
    simp only [Engine.step, Engine.remove_file]
    split
    · exact Engine.mono_refl s
    · split
      · exact Engine.mono_refl s
      · split
        · exact Engine.mono_refl s
        · split
          · exact Engine.mono_updateTransfer s tid _ (fun _ => rfl) (fun _ h => h)
          · exact Engine.mono_refl s
  | finalize_transfer tid =>
    simp only [Engine.step, Engine.finalize_transfer]
    split
    · exact Engine.mono_refl s
    · split
      · exact Engine.mono_refl s
      · split
        · exact Engine.mono_refl s
        · exact Engine.mono_updateTransfer s tid _ (fun _ => rfl) (fun _ _ => rfl)
  | purge_transfers ids =>
    simp only [Engine.step, Engine.purge_transfers]
    split
    · exact Engine.mono_refl s
    · exact Engine.mono_purge s _
  | purge_transfers_until cutoff => exact Engine.mono_purge s _
  | background tid fid next =>
    simp only [Engine.step, Engine.background]
    split
    · exact Engine.mono_refl s
    · split
      · exact Engine.mono_refl s
      · split
        · exact Engine.mono_setFileState s tid fid next
        · exact Engine.mono_refl s

theorem Engine.idsIssued_of_mono (s s2 : Engine.State) (h : Engine.Mono s s2)
    (hs : s.IdsIssued) : s2.IdsIssued := by
  intro t2 h2
  rcases h.2.2 t2 h2 with ⟨t, ht, hid, _⟩ | ⟨_, hlt⟩
  · rw [hid]
    exact Nat.lt_of_lt_of_le (hs t ht) h.2.1
  · exact hlt

theorem Engine.finalizedAt_of_mono (s s2 : Engine.State) (tid : Nat) (h : Engine.Mono s s2)
    (hs : s.FinalizedAt tid) : s2.FinalizedAt tid := by
  obtain ⟨hstarted, hlt, hfin⟩ := hs
  refine ⟨h.1 hstarted, Nat.lt_of_lt_of_le hlt h.2.1, ?_⟩
  intro t2 h2 hid2
  rcases h.2.2 t2 h2 with ⟨t, ht, hid, hf⟩ | ⟨hle, _⟩
  · exact hf (hfin t ht (by rw [← hid, hid2]))
  · omega

theorem Engine.run_idsIssued (ops : List Engine.Op) :
    ∀ s : Engine.State, s.IdsIssued → (Engine.run s ops).IdsIssued := by
  induction ops with
  | nil => intro s hs; exact hs
  | cons op ops ih =>
    intro s hs
    exact ih _ (Engine.idsIssued_of_mono s _ (Engine.mono_step s op) hs)

theorem Engine.run_finalizedAt (tid : Nat) (ops : List Engine.Op) :
    ∀ s : Engine.State, s.FinalizedAt tid → (Engine.run s ops).FinalizedAt tid := by
  induction ops with
  | nil => intro s hs; exact hs
  | cons op ops ih =>
    intro s hs
    exact ih _ (Engine.finalizedAt_of_mono s _ tid (Engine.mono_step s op) hs)

theorem Engine.run_started (ops : List Engine.Op) :
    ∀ s : Engine.State, s.started = true → (Engine.run s ops).started = true := by
  induction ops with
  | nil => intro s hs; exact hs
  | cons op ops ih =>
    intro s hs
    exact ih _ ((Engine.mono_step s op).1 hs)

theorem Engine.findTransfer_some (s : Engine.State) (tid : Nat) (t : Engine.TransferRecord)
    (h : s.findTransfer tid = some t) : t ∈ s.transfers ∧ t.transferId = tid := by
  unfold Engine.State.findTransfer at h
  refine ⟨List.mem_of_find?_eq_some h, ?_⟩
  have := List.find?_some h
  simpa using this

theorem Engine.findTransfer_isSome (s : Engine.State) (tid : Nat) :
    (s.findTransfer tid).isSome = true ↔ ∃ t ∈ s.transfers, t.transferId = tid := by
  unfold Engine.State.findTransfer
  rw [List.find?_isSome]
  simp

theorem Engine.idsIssued_initial : Engine.initial.IdsIssued := by
  intro t h
  simp [Engine.initial] at h

/-- A successful `finalize_transfer` leaves a running engine in which the transfer is
marked as finalized. -/
theorem Engine.finalize_transfer_ok (s : Engine.State) (tid : Nat) (hs : s.IdsIssued)
    (h : (Engine.finalize_transfer s tid).2 = none) :
    (Engine.finalize_transfer s tid).1.FinalizedAt tid ∧
      ((Engine.finalize_transfer s tid).1.findTransfer tid).isSome = true := by
  unfold Engine.finalize_transfer at h ⊢
  by_cases hst : s.started = true
  · simp only [hst, Bool.not_true, Bool.false_eq_true, if_false] at h ⊢
    cases hf : s.findTransfer tid with
    | none => simp [hf] at h
    | some t =>
      simp only [hf] at h ⊢
      obtain ⟨hmem, hid⟩ := Engine.findTransfer_some s tid t hf
      by_cases hfin : t.finalized = true
      · simp [hfin] at h
      · have hfin2 : t.finalized = false := by simpa using hfin
        simp only [hfin2, Bool.false_eq_true, if_false]
        refine ⟨⟨hst, ?_, ?_⟩, ?_⟩
        · simp only [Engine.State.updateTransfer]
          rw [← hid]
          exact hs t hmem
        · intro t2 h2 hid2
          simp only [Engine.State.updateTransfer, List.mem_map] at h2
          obtain ⟨t1, _, rfl⟩ := h2
          by_cases h1 : t1.transferId = tid
          · rw [if_pos h1]
          · rw [if_neg h1] at hid2
            exact absurd hid2 h1
        · rw [Engine.findTransfer_isSome]
          refine ⟨{ t with finalized := true }, ?_, hid⟩
          simp only [Engine.State.updateTransfer, List.mem_map]
          exact ⟨t, hmem, by rw [if_pos hid]⟩
  · simp [hst] at h

/-- In a state in which the transfer is marked as finalized, a requested state change of
one of its files is refused and changes nothing. -/
theorem Engine.moveFile_finalized (s : Engine.State) (tid : Nat) (fid : GoString)
    (next : Engine.FileState) (hs : s.FinalizedAt tid) :
    (Engine.moveFile s tid fid next).1 = s ∧
    (Engine.moveFile s tid fid next).2 =
      some (if (s.findTransfer tid).isSome then .IllegalStateTransition else .InvalidInput) := by
  obtain ⟨hst, _, hfin⟩ := hs
  unfold Engine.moveFile
  simp only [hst, Bool.not_true, Bool.false_eq_true, if_false]
  cases hf : s.findTransfer tid with
  | none => simp
  | some t =>
    obtain ⟨hmem, hid⟩ := Engine.findTransfer_some s tid t hf
    simp [hfin t hmem hid]

theorem Engine.finalize_transfer_finalized (s : Engine.State) (tid : Nat)
    (hs : s.FinalizedAt tid) :
    (Engine.finalize_transfer s tid).1 = s ∧
    (Engine.finalize_transfer s tid).2 =
      some (if (s.findTransfer tid).isSome then .IllegalStateTransition else .InvalidInput) := by
  obtain ⟨hst, _, hfin⟩ := hs
  unfold Engine.finalize_transfer
  simp only [hst, Bool.not_true, Bool.false_eq_true, if_false]
  cases hf : s.findTransfer tid with
  | none => simp
  | some t =>
    obtain ⟨hmem, hid⟩ := Engine.findTransfer_some s tid t hf
    simp [hfin t hmem hid]

/-- An operation that is not a purge keeps the record of every transfer. -/
theorem Engine.step_keeps_record (s : Engine.State) (op : Engine.Op) (tid : Nat)
    (hop : op.purges = false) (h : (s.findTransfer tid).isSome = true) :
    ((Engine.step s op).1.findTransfer tid).isSome = true := by
  have hupd : ∀ (tid2 : Nat) (change : Engine.TransferRecord → Engine.TransferRecord),
      (∀ t, (change t).transferId = t.transferId) →
      ((s.updateTransfer tid2 change).findTransfer tid).isSome = true := by
    intro tid2 change hid
    rw [Engine.findTransfer_isSome] at h ⊢
    obtain ⟨t, ht, hidt⟩ := h
    refine ⟨if t.transferId = tid2 then change t else t, ?_, ?_⟩
    · simp only [Engine.State.updateTransfer, List.mem_map]
      exact ⟨t, ht, rfl⟩
    · by_cases h2 : t.transferId = tid2
      · rw [if_pos h2, hid, hidt]
      · rw [if_neg h2, hidt]
  have hmove : ∀ (tid2 : Nat) (fid : GoString) (next : Engine.FileState),
      ((Engine.moveFile s tid2 fid next).1.findTransfer tid).isSome = true := by
    intro tid2 fid next
    unfold Engine.moveFile
    split
    · exact h
    · split
      · exact h
      · split
        · exact h
        · split
          · exact h
          · split
            · exact hupd tid2 _ (fun _ => rfl)
            · exact h
  cases op with
  | start bind =>
    simp only [Engine.step, Engine.start]
    split
    · exact h
    · split
      · exact h
      · exact h
  | set_fd_resolver resolver =>
    simp only [Engine.step, Engine.set_fd_resolver]
    split
    · exact h
    · exact h
  | new_transfer createdAt fileIds =>
    simp only [Engine.step, Engine.new_transfer]
    split
    · exact h
    · split
      · exact h
      · rw [Engine.findTransfer_isSome] at h ⊢
        obtain ⟨t, ht, hidt⟩ := h
        exact ⟨t, List.mem_append_left _ ht, hidt⟩
  | download_file tid2 fid => exact hmove tid2 fid .Started
  | reject_file tid2 fid => exact hmove tid2 fid .Rejected
  | remove_file tid2 fid =>
    simp only [Engine.step, Engine.remove_file]
    split
    · exact h
    · split
      · exact h
      · split
        · exact h
        · split
          · exact hupd tid2 _ (fun _ => rfl)
          · exact h
  | finalize_transfer tid2 =>
    simp only [Engine.step, Engine.finalize_transfer]
    split
    · exact h
    · split
      · exact h
      · split
        · exact h
        · exact hupd tid2 _ (fun _ => rfl)
  | purge_transfers ids => simp [Engine.Op.purges] at hop
  | purge_transfers_until cutoff => simp [Engine.Op.purges] at hop
  | background tid2 fid next =>
    simp only [Engine.step, Engine.background]
    split
    · exact h
    · split
      · exact h
      · split
        · exact hupd tid2 _ (fun _ => rfl)
        · exact h

theorem Engine.run_keeps_record (tid : Nat) (ops : List Engine.Op) :
    ∀ s : Engine.State, (∀ op ∈ ops, op.purges = false) →
      (s.findTransfer tid).isSome = true →
      ((Engine.run s ops).findTransfer tid).isSome = true := by
  induction ops with
  | nil => intro s _ h; exact h
  | cons op ops ih =>
    intro s hops h
    exact ih _ (fun o ho => hops o (List.mem_cons_of_mem _ ho))
      (Engine.step_keeps_record s op tid (hops op (List.mem_cons_self _ _)) h)

/-- A running engine keeps the resolver it was given. -/
theorem Engine.step_fdResolver (s : Engine.State) (op : Engine.Op) (hst : s.started = true) :
    (Engine.step s op).1.fdResolver = s.fdResolver := by
  have hmove : ∀ (tid : Nat) (fid : GoString) (next : Engine.FileState),
      (Engine.moveFile s tid fid next).1.fdResolver = s.fdResolver := by
    intro tid fid next
    unfold Engine.moveFile
    split
    · rfl
    · split
      · rfl
      · split
        · rfl
        · split
          · rfl
          · split <;> rfl
  have hpurge : ∀ selected, (Engine.purge s selected).1.fdResolver = s.fdResolver := by
    intro selected
    unfold Engine.purge
    split
    · rfl
    · split <;> rfl
  cases op with
  | start bind =>
    simp only [Engine.step, Engine.start, hst, if_true]
  | set_fd_resolver resolver =>
    simp only [Engine.step, Engine.set_fd_resolver, hst, if_true]
  | new_transfer createdAt fileIds =>
    simp only [Engine.step, Engine.new_transfer]
    split
    · rfl
    · split <;> rfl
  | download_file tid fid => exact hmove tid fid .Started
  | reject_file tid fid => exact hmove tid fid .Rejected
  | remove_file tid fid =>
    simp only [Engine.step, Engine.remove_file]
    split
    · rfl
    · split
      · rfl
      · split
        · rfl
        · split <;> rfl
  | finalize_transfer tid =>
    simp only [Engine.step, Engine.finalize_transfer]
    split
    · rfl
    · split
      · rfl
      · split <;> rfl
  | purge_transfers ids =>
    simp only [Engine.step, Engine.purge_transfers]
    split
    · rfl
    · exact hpurge _
  | purge_transfers_until cutoff => exact hpurge _
  | background tid fid next =>
    simp only [Engine.step, Engine.background]
    split
    · rfl
    · split
      · rfl
      · split <;> rfl

theorem Engine.run_fdResolver (ops : List Engine.Op) :
    ∀ s : Engine.State, s.started = true → (Engine.run s ops).fdResolver = s.fdResolver := by
  induction ops with
  | nil => intro s _; rfl
  | cons op ops ih =>
    intro s hs
    have h1 := ih (Engine.step s op).1 ((Engine.mono_step s op).1 hs)
    simp only [Engine.run]
    rw [h1, Engine.step_fdResolver s op hs]

/-- A purge that selects a transfer in flight is refused and changes nothing. -/
theorem Engine.purge_inFlight (s : Engine.State) (selected : Engine.TransferRecord → Bool)
    (t : Engine.TransferRecord) (ht : t ∈ s.transfers) (hsel : selected t = true)
    (hfl : t.inFlight = true) :
    (Engine.purge s selected).1 = s ∧
    (Engine.purge s selected).2 =
      some (if s.started then .IllegalStateTransition else .NotStarted) := by
  unfold Engine.purge
  by_cases hst : s.started = true
  · have hany : s.transfers.any (fun t => selected t && t.inFlight) = true := by
      rw [List.any_eq_true]
      exact ⟨t, ht, by simp [hsel, hfl]⟩
    simp [hst, hany]
  · simp [hst]

/-- A purge of a running engine that selects no transfer in flight succeeds and leaves
exactly the records that it does not select. -/
theorem Engine.purge_terminal (s : Engine.State) (selected : Engine.TransferRecord → Bool)
    (hst : s.started = true)
    (hall : ∀ t ∈ s.transfers, selected t = true → t.inFlight = false) :
    (Engine.purge s selected).2 = none ∧
    (Engine.purge s selected).1.transfers = s.transfers.filter (fun t => !selected t) := by
  unfold Engine.purge
  have hany : s.transfers.any (fun t => selected t && t.inFlight) = false := by
    rw [List.any_eq_false]
    intro t ht
    cases hsel : selected t with
    | false => simp
    | true => simp [hall t ht hsel]
  simp [hst, hany]

theorem Engine.findFile_some (t : Engine.TransferRecord) (fid : GoString)
    (f : Engine.FileRecord) (h : t.findFile fid = some f) : f ∈ t.files ∧ f.fileId = fid := by
  unfold Engine.TransferRecord.findFile at h
  refine ⟨List.mem_of_find?_eq_some h, ?_⟩
  have := List.find?_some h
  simpa using this

/-! ## Admission of outgoing files -/

theorem Admission.invariant_initial (limit : Nat) : (Admission.initial limit).Invariant := by
  refine ⟨Nat.zero_le _, ?_, ?_, List.nodup_nil⟩
  · intro h
    exact absurd rfl h
  · intro f hf
    simp [Admission.initial] at hf

theorem Admission.limit_step (s : Admission.State) (op : Admission.Op) :
    (Admission.step s op).1.limit = s.limit := by
  cases op with
  | request file =>
    simp only [Admission.step, Admission.request]
    split
    · rfl
    · split <;> rfl
  | release file =>
    simp only [Admission.step, Admission.release]
    split
    · split <;> rfl
    · split <;> rfl

theorem Admission.invariant_step (s : Admission.State) (op : Admission.Op)
    (h : s.Invariant) : (Admission.step s op).1.Invariant := by
  obtain ⟨hle, hfull, hdisj, hnodup⟩ := h
  cases op with
  | request file =>
    simp only [Admission.step, Admission.request]
    by_cases hknown : file ∈ s.started ∨ file ∈ s.throttled
    · rw [if_pos hknown]
      exact ⟨hle, hfull, hdisj, hnodup⟩
    · rw [if_neg hknown]
      rw [not_or] at hknown
      by_cases hroom : s.started.length < s.limit
      · rw [if_pos hroom]
        have hempty : s.throttled = [] := by
          by_contra hne
          have := hfull hne
          omega
        refine ⟨?_, ?_, ?_, hnodup⟩
        · simp only [List.length_append, List.length_singleton]
          omega
        · intro hne
          exact absurd hempty hne
        · intro f hf
          simp only
          rw [hempty] at hf
          cases hf
      · rw [if_neg hroom]
        refine ⟨hle, ?_, ?_, ?_⟩
        · intro _
          simp only
          omega
        · intro f hf
          simp only [List.mem_append, List.mem_singleton] at hf
          rcases hf with hf | rfl
          · exact hdisj f hf
          · exact hknown.1
        · simp only
          rw [List.nodup_append]
          refine ⟨hnodup, List.nodup_singleton _, ?_⟩
          intro a ha hb
          simp only [List.mem_singleton] at hb
          rw [hb] at ha
          exact hknown.2 ha
  | release file =>
    simp only [Admission.step, Admission.release]
    by_cases hin : file ∈ s.started
    · rw [if_pos hin]
      have hlen : (s.started.erase file).length = s.started.length - 1 :=
        List.length_erase_of_mem hin
      have hpos : 0 < s.started.length := List.length_pos_of_mem hin
      cases hq : s.throttled with
      | nil =>
        refine ⟨?_, ?_, ?_, List.nodup_nil⟩
        · simp only
          omega
        · intro hne
          exact absurd rfl hne
        · intro f hf
          cases hf
      | cons next rest =>
        have hfull2 := hfull (by rw [hq]; exact List.cons_ne_nil _ _)
        rw [hq] at hnodup hdisj
        have hlen2 : (s.started.erase file ++ [next]).length = s.limit := by
          simp only [List.length_append, List.length_singleton]
          omega
        refine ⟨?_, ?_, ?_, (List.nodup_cons.1 hnodup).2⟩
        · simp only
          omega
        · intro _
          exact hlen2
        · intro f hf
          simp only [List.mem_append, List.mem_singleton, not_or]
          refine ⟨?_, ?_⟩
          · intro hmem
            exact hdisj f (List.mem_cons_of_mem _ hf) (List.mem_of_mem_erase hmem)
          · intro heq
            rw [heq] at hf
            exact (List.nodup_cons.1 hnodup).1 hf
    · rw [if_neg hin]
      by_cases hq : file ∈ s.throttled
      · rw [if_pos hq]
        refine ⟨hle, ?_, ?_, hnodup.erase file⟩
        · intro hne
          apply hfull
          intro hnil
          rw [hnil] at hne
          exact hne rfl
        · intro f hf
          exact hdisj f (List.mem_of_mem_erase hf)
      · rw [if_neg hq]
        exact ⟨hle, hfull, hdisj, hnodup⟩

theorem Admission.run_invariant (ops : List Admission.Op) :
    ∀ s : Admission.State, s.Invariant →
      (Admission.run s ops).Invariant ∧ (Admission.run s ops).limit = s.limit := by
  induction ops with
  | nil => intro s h; exact ⟨h, rfl⟩
  | cons op ops ih =>
    intro s h
    have h2 := ih _ (Admission.invariant_step s op h)
    exact ⟨h2.1, by rw [← Admission.limit_step s op]; exact h2.2⟩

/-! ## Check of the contract version and the checksums -/

theorem thenDo_ok (a b : Except PanicValue Unit) :
    thenDo a b = .ok () ↔ a = .ok () ∧ b = .ok () := by
  cases a with
  | error p => simp [thenDo]
  | ok u => simp [thenDo]

/-- Without a converter, only the status of a successful call gives the nil error. -/
theorem checkCallStatus_none_nil_iff (status : RustCallStatus) :
    checkCallStatus none status = .ok none ↔ status.code = 0 := by
  obtain ⟨code, buf⟩ := status
  constructor
  · intro h
    by_contra hne
    simp only at hne
    by_cases h1 : code = 1
    · subst h1
      cases h
    · by_cases h2 : code = 2
      · subst h2
        rw [checkCallStatus_two] at h
        split at h <;> cases h
      · rw [checkCallStatus_other _ code buf hne h1 h2] at h
        cases h
  · intro h
    simp only at h
    subst h
    rfl

theorem rustCall_ok_iff (call : RustCallStatus → Nat × RustCallStatus) (v : Nat) :
    rustCall (fun uniffiStatus => .ok (call uniffiStatus)) = .ok v ↔ Reports call v := by
  unfold rustCall rustCallWithError Reports
  simp only
  cases hc : checkCallStatus none (call ⟨0, []⟩).2 with
  | error p =>
    simp only
    constructor
    · intro h
      cases h
    · intro h
      rw [(checkCallStatus_none_nil_iff _).2 h.2] at hc
      cases hc
  | ok err =>
    cases err with
    | some e =>
      simp only
      constructor
      · intro h
        cases h
      · intro h
        rw [(checkCallStatus_none_nil_iff _).2 h.2] at hc
        cases hc
    | none =>
      simp only [Except.ok.injEq]
      constructor
      · intro h
        exact ⟨h, (checkCallStatus_none_nil_iff _).1 hc⟩
      · intro h
        exact h.1

theorem checkChecksum_ok (call : RustCallStatus → Nat × RustCallStatus) (expected : Nat)
    (name : String) : checkChecksum call expected name = .ok () ↔ Reports call expected := by
  unfold checkChecksum
  cases hr : rustCall (fun uniffiStatus => .ok (call uniffiStatus)) with
  | error p =>
    simp only
    constructor
    · intro h
      cases h
    · intro h
      rw [(rustCall_ok_iff call expected).2 h] at hr
      cases hr
  | ok checksum =>
    simp only
    by_cases he : checksum = expected
    · subst he
      simp only [ne_eq, not_true_eq_false, if_false, true_iff]
      exact (rustCall_ok_iff call checksum).1 hr
    · rw [if_pos he]
      constructor
      · intro h
        cases h
      · intro h
        rw [(rustCall_ok_iff call expected).2 h] at hr
        cases hr
        exact absurd rfl he

theorem checkContractVersion_ok (call : RustCallStatus → Nat × RustCallStatus) :
    checkContractVersion call = .ok () ↔ Reports call 24 := by
  unfold checkContractVersion
  cases hr : rustCall (fun uniffiStatus => .ok (call uniffiStatus)) with
  | error p =>
    simp only
    constructor
    · intro h
      cases h
    · intro h
      rw [(rustCall_ok_iff call 24).2 h] at hr
      cases hr
  | ok version =>
    simp only
    by_cases he : 24 = version
    · subst he
      simp only [ne_eq, not_true_eq_false, if_false, true_iff]
      exact (rustCall_ok_iff call 24).1 hr
    · rw [if_pos he]
      constructor
      · intro h
        cases h
      · intro h
        rw [(rustCall_ok_iff call 24).2 h] at hr
        cases hr
        exact absurd rfl he

/-- The version check comes first: a library that reports another contract version makes
`uniffiCheckChecksums` panic with the text of the version mismatch. -/
theorem uniffiCheckChecksums_version_mismatch (native : NativeChecksums) (v : Nat)
    (h : Reports native.ffi_norddrop_uniffi_contract_version v) (hv : v ≠ 24) :
    uniffiCheckChecksums native =
      .error (.message (goString "norddrop: UniFFI contract version mismatch")) := by
  unfold uniffiCheckChecksums checkContractVersion
  rw [(rustCall_ok_iff _ v).2 h]
  simp only [thenDo]
  rw [if_pos (fun h24 => hv h24.symm)]

/-! ## Errors on the wire -/

theorem readUint32_ok (reader : Reader) (id : Nat) (rest : Reader)
    (h : readUint32 reader = .ok (id, rest)) :
    ∃ b0 b1 b2 b3, reader = b0 :: b1 :: b2 :: b3 :: rest ∧ id = beNat [b0, b1, b2, b3] := by
  unfold readUint32 readFull at h
  rcases reader with _ | ⟨b0, _ | ⟨b1, _ | ⟨b2, _ | ⟨b3, tl⟩⟩⟩⟩
  · simp at h
  · simp at h
  · simp at h
  · simp at h
  · simp only [List.length_cons, Nat.add_eq_zero, one_ne_zero, and_false, if_false] at h
    rw [if_neg (by omega)] at h
    simp only [List.take, List.drop] at h
    cases h
    exact ⟨b0, b1, b2, b3, rfl, rfl⟩

/-- Whatever `FfiConverterTypeLibdropError.Read` decodes is an id followed by a
length-prefixed message. -/
theorem LibdropError_Read_ok (reader : Reader) (e : GoError) (rest : Reader)
    (h : FfiConverterTypeLibdropError.Read reader = .ok (e, rest)) :
    ∃ b0 b1 b2 b3 c0 c1 c2 c3 k m,
      reader = [b0, b1, b2, b3] ++ ([c0, c1, c2, c3] ++ (m ++ rest)) ∧
      e = .LibdropError (.LibdropErrorVariant k m) ∧
      beNat [b0, b1, b2, b3] = k.ordinal ∧
      (m.length : Int) = toSigned 32 (beNat [c0, c1, c2, c3]) := by
  unfold FfiConverterTypeLibdropError.Read at h
  cases h1 : readUint32 reader with
  | error p => rw [h1] at h; cases h
  | ok v1 =>
    obtain ⟨errorID, reader1⟩ := v1
    obtain ⟨b0, b1, b2, b3, hr, hid⟩ := readUint32_ok reader errorID reader1 h1
    rw [h1] at h
    simp only at h
    cases h2 : FfiConverterString.Read reader1 with
    | error p => rw [h2] at h; cases h
    | ok v2 =>
      obtain ⟨message, reader2⟩ := v2
      obtain ⟨c0, c1, c2, c3, hr2, _, hlen⟩ := String_Read_ok reader1 message reader2 h2
      rw [h2] at h
      simp only at h
      have hreader : reader = [b0, b1, b2, b3] ++ ([c0, c1, c2, c3] ++ (message ++ reader2)) := by
        rw [hr, hr2]
        rfl
      refine ⟨b0, b1, b2, b3, c0, c1, c2, c3, ?_⟩
      split at h <;> first
        | (cases h; exact ⟨_, _, hreader, rfl, hid.symm, hlen⟩)
        | cases h

theorem LibdropError_Write_variant (k : LibdropErrorKind) (m : GoString) :
    FfiConverterTypeLibdropError.Write (.LibdropError (.LibdropErrorVariant k m)) =
      .ok [0, 0, 0, byteOf k.ordinal] := by
  cases k <;> rfl

theorem LibdropError_Read_four (b0 b1 b2 b3 : Byte) :
    FfiConverterTypeLibdropError.Read [b0, b1, b2, b3] = .error (.error .EOF) := by
  unfold FfiConverterTypeLibdropError.Read readUint32
  rw [show ([b0, b1, b2, b3] : Reader) = [b0, b1, b2, b3] ++ [] from rfl,
    readFull_append 4 [b0, b1, b2, b3] [] (by decide) rfl]
  rfl

/-! ## Optional values and records with explicit encodings -/

theorem writeInt8_zero : writeInt8 0 = [0] := by decide

theorem writeInt8_one : writeInt8 1 = [1] := by decide

theorem readInt8_zero (rest : Reader) : readInt8 (0 :: rest) = .ok (0, rest) :=
  readInt8_writeInt8 0 rest (by decide) (by decide)

theorem readInt8_one (rest : Reader) : readInt8 (1 :: rest) = .ok (1, rest) :=
  readInt8_writeInt8 1 rest (by decide) (by decide)

theorem OptionalInt32_Write_eq (o : Option Int) :
    FfiConverterOptionalInt32.Write o =
      .ok (optionalEncoding writeInt32 o) := by
  cases o <;> rfl

theorem OptionalInt32_Read_encoded (o : Option Int) (rest : Reader)
    (h : ∀ i, o = some i → IsInt32 i) :
    FfiConverterOptionalInt32.Read
      (optionalEncoding writeInt32 o ++ rest) = .ok (o, rest) := by
  unfold FfiConverterOptionalInt32.Read
  cases o with
  | none =>
    simp only [optionalEncoding, List.singleton_append, readInt8_zero, if_true]
  | some i =>
    obtain ⟨h1, h2⟩ := h i rfl
    simp only [optionalEncoding, List.cons_append, readInt8_one, one_ne_zero, if_false, FfiConverterInt32.Read,
      readInt32_writeInt32 i rest h1 h2]

theorem OptionalUint32_Write_eq (o : Option Nat) :
    FfiConverterOptionalUint32.Write o =
      .ok (optionalEncoding writeUint32 o) := by
  cases o <;> rfl

theorem OptionalUint32_Read_encoded (o : Option Nat) (rest : Reader)
    (h : ∀ n, o = some n → IsUint32 n) :
    FfiConverterOptionalUint32.Read
      (optionalEncoding writeUint32 o ++ rest) = .ok (o, rest) := by
  unfold FfiConverterOptionalUint32.Read
  cases o with
  | none =>
    simp only [optionalEncoding, List.singleton_append, readInt8_zero, if_true]
  | some n =>
    simp only [optionalEncoding, List.cons_append, readInt8_one, one_ne_zero, if_false, FfiConverterUint32.Read,
      readUint32_writeUint32 n rest (h n rfl)]

theorem OptionalUint64_Write_eq (o : Option Nat) :
    FfiConverterOptionalUint64.Write o =
      .ok (optionalEncoding writeUint64 o) := by
  cases o <;> rfl

theorem OptionalUint64_Read_encoded (o : Option Nat) (rest : Reader)
    (h : ∀ n, o = some n → IsUint64 n) :
    FfiConverterOptionalUint64.Read
      (optionalEncoding writeUint64 o ++ rest) = .ok (o, rest) := by
  unfold FfiConverterOptionalUint64.Read
  cases o with
  | none =>
    simp only [optionalEncoding, List.singleton_append, readInt8_zero, if_true]
  | some n =>
    simp only [optionalEncoding, List.cons_append, readInt8_one, one_ne_zero, if_false, FfiConverterUint64.Read,
      readUint64_writeUint64 n rest (h n rfl)]

theorem Bool_Write_eq (b : Bool) :
    FfiConverterBool.Write b = .ok [if b then 1 else 0] := by
  cases b <;> rfl

theorem Bool_Read_written (b : Bool) (rest : Reader) :
    FfiConverterBool.Read ((if b then 1 else 0) :: rest) = .ok (b, rest) := by
  unfold FfiConverterBool.Read
  cases b
  · simp only [Bool.false_eq_true, if_false, readInt8_zero]
    rfl
  · simp only [if_true, readInt8_one]
    rfl

theorem StatusCode_Write_eq (c : Nat) (h : StatusCodeDeclared c) :
    FfiConverterTypeStatusCode.Write c = .ok (writeInt32 (c : Int)) := by
  rw [statusCodeDeclared_iff] at h
  unfold FfiConverterTypeStatusCode.Write
  rw [toSigned_32_of_lt c (by omega)]

theorem StatusCode_Read_written (c : Nat) (rest : Reader) (h : StatusCodeDeclared c) :
    FfiConverterTypeStatusCode.Read (writeInt32 (c : Int) ++ rest) = .ok (c, rest) := by
  obtain ⟨bs, hw, hr⟩ := roundTrips_statusCode c h
  rw [StatusCode_Write_eq c h] at hw
  cases hw
  exact hr rest

theorem Status_Write_eq (c : Nat) (o : Option Int) (h : StatusCodeDeclared c) :
    FfiConverterTypeStatus.Write ⟨c, o⟩ =
      .ok (writeInt32 (c : Int) ++ optionalEncoding writeInt32 o) := by
  unfold FfiConverterTypeStatus.Write
  simp only [StatusCode_Write_eq c h, OptionalInt32_Write_eq]

theorem Status_Read_written (c : Nat) (o : Option Int) (rest : Reader)
    (h : StatusCodeDeclared c) (ho : ∀ i, o = some i → IsInt32 i) :
    FfiConverterTypeStatus.Read
      ((writeInt32 (c : Int) ++ optionalEncoding writeInt32 o) ++ rest) =
        .ok (⟨c, o⟩, rest) := by
  unfold FfiConverterTypeStatus.Read
  rw [List.append_assoc, StatusCode_Read_written c _ h]
  simp only [OptionalInt32_Read_encoded o rest ho]

theorem optionalEncoding_ne_nil {α : Type} (encode : α → List Byte) (o : Option α) :
    optionalEncoding encode o ≠ [] := by
  cases o <;> simp [optionalEncoding]

theorem Config_Write_eq (c : Config) (h : c.Ok) :
    FfiConverterTypeConfig.Write c = .ok c.encoding := by
  obtain ⟨_, _, h3, h4, _, _, _⟩ := h
  unfold FfiConverterTypeConfig.Write Config.encoding
  simp only [FfiConverterUint64.Write, String_Write_eq _ h3, String_Write_eq _ h4,
    Bool_Write_eq, OptionalUint64_Write_eq, OptionalUint32_Write_eq, writeThen]

theorem Config_Read_written (c : Config) (rest : Reader) (h : c.Ok) :
    FfiConverterTypeConfig.Read (c.encoding ++ rest) = .ok (c, rest) := by
  obtain ⟨h1, h2, h3, h4, h5, h6, h7⟩ := h
  unfold FfiConverterTypeConfig.Read Config.encoding
  simp only [List.append_assoc, FfiConverterUint64.Read, readUint64_writeUint64 _ _ h1,
    readUint64_writeUint64 _ _ h2, andThen]
  have hs1 := fun r (hr : r ≠ []) =>
    (String_Read_Write_general c.MooseEventPath r h3 (Or.inr hr)).2
  have hs2 := fun r (hr : r ≠ []) =>
    (String_Read_Write_general c.StoragePath r h4 (Or.inr hr)).2
  simp only [List.append_assoc] at hs1 hs2
  rw [hs1 _ (by simp)]
  simp only [List.singleton_append, Bool_Read_written]
  rw [hs2 _ (by simp [optionalEncoding_ne_nil])]
  simp only [OptionalUint64_Read_encoded _ _ h5, OptionalUint64_Read_encoded _ _ h6,
    OptionalUint32_Read_encoded _ _ h7]

/-! ## Transfer descriptors on the wire -/

theorem TransferDescriptor_Write_eq (d : TransferDescriptor) (h : d.Ok) :
    FfiConverterTypeTransferDescriptor.Write d = .ok d.encoding := by
  cases d with
  | Path path =>
    simp only [FfiConverterTypeTransferDescriptor.Write, TransferDescriptor.encoding,
      String_Write_eq path h, writeThen]
  | Fd filename contentUri fd =>
    obtain ⟨h1, h2, _⟩ := h
    simp only [FfiConverterTypeTransferDescriptor.Write, TransferDescriptor.encoding,
      String_Write_eq filename h1, String_Write_eq contentUri h2, OptionalInt32_Write_eq,
      writeThen]

theorem TransferDescriptor_encoding_ne_nil (d : TransferDescriptor) : d.encoding ≠ [] := by
  have h4 : ∀ i, writeInt32 i ≠ [] := by
    intro i h
    have := length_beBytes 4 (toUnsigned 32 i)
    unfold writeInt32 at h
    rw [h] at this
    cases this
  cases d with
  | Path path =>
    simp only [TransferDescriptor.encoding, ne_eq, List.append_eq_nil, not_and]
    intro h
    exact absurd h (h4 1)
  | Fd filename contentUri fd =>
    simp only [TransferDescriptor.encoding, ne_eq, List.append_eq_nil, not_and]
    intro h
    exact absurd h (h4 2)

theorem TransferDescriptor_Read_written (d : TransferDescriptor) (rest : Reader) (h : d.Ok)
    (hend : d.endsBuffer = true ∨ rest ≠ []) :
    FfiConverterTypeTransferDescriptor.Read (d.encoding ++ rest) = .ok (d, rest) := by
  cases d with
  | Path path =>
    unfold FfiConverterTypeTransferDescriptor.Read TransferDescriptor.encoding
    rw [List.append_assoc, readInt32_writeInt32 1 _ (by decide) (by decide)]
    have hne : path ≠ [] ∨ rest ≠ [] := by
      rcases hend with he | hr
      · left
        intro hp
        rw [hp] at he
        simp [TransferDescriptor.endsBuffer] at he
      · exact Or.inr hr
    simp only [(String_Read_Write_general path rest h hne).2, andThen]
  | Fd filename contentUri fd =>
    obtain ⟨h1, h2, h3⟩ := h
    unfold FfiConverterTypeTransferDescriptor.Read TransferDescriptor.encoding
    rw [List.append_assoc, readInt32_writeInt32 2 _ (by decide) (by decide)]
    have hs1 := fun r (hr : r ≠ []) => (String_Read_Write_general filename r h1 (Or.inr hr)).2
    have hs2 := fun r (hr : r ≠ []) =>
      (String_Read_Write_general contentUri r h2 (Or.inr hr)).2
    simp only [List.append_assoc] at hs1 hs2 ⊢
    have hw : ∀ i, writeInt32 i ≠ [] := by
      intro i h
      have := length_beBytes 4 (toUnsigned 32 i)
      unfold writeInt32 at h
      rw [h] at this
      cases this
    rw [hs1 _ (by simp [hw])]
    simp only [andThen]
    rw [hs2 _ (by simp [optionalEncoding_ne_nil])]
    simp only [andThen, OptionalInt32_Read_encoded fd rest h3]

theorem TransferDescriptor_writeItems (l : List TransferDescriptor) (h : ∀ d ∈ l, d.Ok) :
    writeItems FfiConverterTypeTransferDescriptor.Write l =
      .ok (TransferDescriptor.encodingOfList l) := by
  induction l with
  | nil => rfl
  | cons d ds ih =>
    have hd := TransferDescriptor_Write_eq d (h d (List.mem_cons_self _ _))
    have hds := ih (fun x hx => h x (List.mem_cons_of_mem _ hx))
    simp only [writeItems, hd, hds, TransferDescriptor.encodingOfList]

theorem TransferDescriptor_encodingOfList_ne_nil (d : TransferDescriptor)
    (ds : List TransferDescriptor) : TransferDescriptor.encodingOfList (d :: ds) ≠ [] := by
  simp only [TransferDescriptor.encodingOfList, ne_eq, List.append_eq_nil, not_and]
  intro h
  exact absurd h (TransferDescriptor_encoding_ne_nil d)

theorem TransferDescriptor_readItems (l : List TransferDescriptor) :
    ∀ rest : Reader, (∀ d ∈ l, d.Ok) →
      ((∀ d, l.getLast? = some d → d.endsBuffer = true) ∨ rest ≠ []) →
      readItems FfiConverterTypeTransferDescriptor.Read l.length
        (TransferDescriptor.encodingOfList l ++ rest) = .ok (l, rest) := by
  induction l with
  | nil =>
    intro rest _ _
    rfl
  | cons d ds ih =>
    intro rest h hend
    have hd : FfiConverterTypeTransferDescriptor.Read
        (d.encoding ++ (TransferDescriptor.encodingOfList ds ++ rest)) =
          .ok (d, TransferDescriptor.encodingOfList ds ++ rest) := by
      apply TransferDescriptor_Read_written d _ (h d (List.mem_cons_self _ _))
      cases ds with
      | nil =>
        rcases hend with he | hr
        · exact Or.inl (he d rfl)
        · right
          simpa [TransferDescriptor.encodingOfList] using hr
      | cons e es =>
        right
        simp only [ne_eq, List.append_eq_nil, not_and]
        intro hnil
        exact absurd hnil (TransferDescriptor_encodingOfList_ne_nil e es)
    have hds := ih rest (fun x hx => h x (List.mem_cons_of_mem _ hx)) (by
      rcases hend with he | hr
      · left
        intro x hx
        apply he x
        cases ds with
        | nil => cases hx
        | cons e es => simpa [List.getLast?_cons_cons] using hx
      · exact Or.inr hr)
    simp only [TransferDescriptor.encodingOfList, List.length_cons, List.append_assoc, readItems,
      hd, hds]

theorem TransferDescriptor_sequence_Write_eq (l : List TransferDescriptor)
    (hlen : l.length ≤ MaxInt32) (h : ∀ d ∈ l, d.Ok) :
    FfiConverterSequenceTypeTransferDescriptor.Write l =
      .ok (writeInt32 (l.length : Int) ++ TransferDescriptor.encodingOfList l) := by
  have hlen2 := hlen
  unfold MaxInt32 at hlen2
  unfold FfiConverterSequenceTypeTransferDescriptor.Write writeSequence
  rw [if_neg (by omega), TransferDescriptor_writeItems l h, toSigned_32_of_lt _ (by omega)]

theorem TransferDescriptor_sequence_Read_written (l : List TransferDescriptor) (rest : Reader)
    (hlen : l.length ≤ MaxInt32) (h : ∀ d ∈ l, d.Ok)
    (hend : (∀ d, l.getLast? = some d → d.endsBuffer = true) ∨ rest ≠ []) :
    FfiConverterSequenceTypeTransferDescriptor.Read
      ((writeInt32 (l.length : Int) ++ TransferDescriptor.encodingOfList l) ++ rest) =
        .ok (l, rest) := by
  have hlen2 := hlen
  unfold MaxInt32 at hlen2
  unfold FfiConverterSequenceTypeTransferDescriptor.Read readSequence
  rw [List.append_assoc, readInt32_writeInt32 _ _ (by omega) (by omega)]
  simp only
  by_cases h0 : l.length = 0
  · have hnil : l = [] := List.length_eq_zero.mp h0
    subst hnil
    rfl
  · rw [if_neg (by omega), if_neg (by omega), Int.toNat_ofNat]
    exact TransferDescriptor_readItems l rest h hend

/-- A descriptor whose path has more than `MaxInt32` bytes makes the sequence writer panic
in the size guard of `FfiConverterString.Write`. -/
theorem TransferDescriptor_sequence_Write_too_long (path : GoString)
    (h : MaxInt32 < path.length) :
    FfiConverterSequenceTypeTransferDescriptor.Write [.Path path] =
      .error (.message (goString "String is too large to fit into Int32")) := by
  have hgt : path.length > MaxInt32 := h
  unfold FfiConverterSequenceTypeTransferDescriptor.Write writeSequence
  rw [if_neg (by simp [MaxInt32])]
  simp only [writeItems, FfiConverterTypeTransferDescriptor.Write, FfiConverterString.Write,
    if_pos hgt, writeThen]

/-! ## Handles issued by the handle map -/

/-- After an insertion the returned handle resolves to the inserted object, in a map that
satisfies the invariant and whose counter is below the largest `uint64`. -/
theorem tryGet_insert (cm : concurrentHandleMap) (k obj : Nat) (hinv : cm.Invariant k)
    (hc : cm.currentHandle + 1 < 18446744073709551616) :
    (cm.insert obj).2.tryGet (cm.insert obj).1 = some obj := by
  cases hr : cm.rightMap obj with
  | some e =>
    rw [insert_registered cm obj e hr]
    exact (hinv.2.1 e obj).2 hr
  | none =>
    rw [insert_fresh cm obj hr hc]
    simp [concurrentHandleMap.tryGet]

/-- An insertion keeps every entry of the map. -/
theorem tryGet_insert_keeps (cm : concurrentHandleMap) (k obj : Nat) (hinv : cm.Invariant k)
    (hc : cm.currentHandle + 1 < 18446744073709551616) (h2 p2 : Nat)
    (h : cm.tryGet h2 = some p2) : (cm.insert obj).2.tryGet h2 = some p2 := by
  cases hr : cm.rightMap obj with
  | some e =>
    rw [insert_registered cm obj e hr]
    exact h
  | none =>
    rw [insert_fresh cm obj hr hc]
    have hle := (hinv.2.2 h2 p2 h).2
    simp only [concurrentHandleMap.tryGet]
    rw [if_neg (by omega)]
    exact h

theorem currentHandle_insert_ge (cm : concurrentHandleMap) (obj : Nat)
    (hc : cm.currentHandle + 1 < 18446744073709551616) :
    cm.currentHandle ≤ (cm.insert obj).2.currentHandle := by
  cases hr : cm.rightMap obj with
  | some e =>
    rw [insert_registered cm obj e hr]
  | none =>
    rw [insert_fresh cm obj hr hc]
    exact Nat.le_succ _

theorem insert_handle_le (cm : concurrentHandleMap) (k obj : Nat) (hinv : cm.Invariant k)
    (hc : cm.currentHandle + 1 < 18446744073709551616) :
    (cm.insert obj).1 ≤ (cm.insert obj).2.currentHandle := by
  cases hr : cm.rightMap obj with
  | some e =>
    rw [insert_registered cm obj e hr]
    exact (hinv.2.2 e obj ((hinv.2.1 e obj).2 hr)).2
  | none =>
    rw [insert_fresh cm obj hr hc]

/-- Every handle that a run has returned is at most the counter after the run, and the
counter never decreases. -/
theorem runOps_issued_le (ops : List HandleMapOp) :
    ∀ (cm : concurrentHandleMap) (k : Nat), cm.Invariant k →
      k + countInserts ops < 18446744073709551616 →
      cm.currentHandle ≤ (runOps cm ops).1.currentHandle ∧
      ∀ x ∈ (runOps cm ops).2, x ≤ (runOps cm ops).1.currentHandle := by
  induction ops with
  | nil =>
    intro cm k _ _
    exact ⟨Nat.le_refl _, fun x hx => by cases hx⟩
  | cons op ops ih =>
    intro cm k hinv hk
    cases op with
    | insert obj =>
      simp only [countInserts] at hk
      have hc : cm.currentHandle + 1 < 18446744073709551616 := by
        have := hinv.1
        omega
      obtain ⟨h1, h2⟩ := ih (cm.insert obj).2 (k + 1) (invariant_insert cm k obj hinv (by omega))
        (by omega)
      simp only [runOps, List.mem_cons]
      refine ⟨Nat.le_trans (currentHandle_insert_ge cm obj hc) h1, ?_⟩
      intro x hx
      rcases hx with rfl | hx
      · exact Nat.le_trans (insert_handle_le cm k obj hinv hc) h1
      · exact h2 x hx
    | remove handle =>
      simp only [countInserts] at hk
      obtain ⟨h1, h2⟩ := ih (cm.remove handle).2 k (invariant_remove cm k handle hinv) hk
      simp only [runOps]
      rw [currentHandle_remove] at h1
      exact ⟨h1, h2⟩

theorem runOps_append (a b : List HandleMapOp) :
    ∀ cm : concurrentHandleMap,
      runOps cm (a ++ b) =
        ((runOps (runOps cm a).1 b).1, (runOps cm a).2 ++ (runOps (runOps cm a).1 b).2) := by
  induction a with
  | nil =>
    intro cm
    rfl
  | cons op a ih =>
    intro cm
    cases op with
    | insert obj =>
      show runOps cm (HandleMapOp.insert obj :: (a ++ b)) = _
      simp only [runOps, ih, List.cons_append]
    | remove handle =>
      show runOps cm (HandleMapOp.remove handle :: (a ++ b)) = _
      simp only [runOps, ih]

theorem countInserts_range (n : Nat) :
    countInserts ((List.range n).map HandleMapOp.insert) = n := by
  induction n with
  | zero => rfl
  | succ n ih =>
    have happ : ∀ a : List HandleMapOp, ∀ obj,
        countInserts (a ++ [HandleMapOp.insert obj]) = countInserts a + 1 := by
      intro a obj
      induction a with
      | nil => rfl
      | cons op a iha =>
        cases op with
        | insert o =>
          show countInserts (HandleMapOp.insert o :: (a ++ [HandleMapOp.insert obj])) = _
          simp only [countInserts, iha]
        | remove o =>
          show countInserts (HandleMapOp.remove o :: (a ++ [HandleMapOp.insert obj])) = _
          simp only [countInserts, iha]
    rw [List.range_succ, List.map_append, List.map_singleton, happ, ih]

/-- The map reached by inserting the objects at the addresses `0`, ..., `n - 1`: its
counter is `n` and no address from `n` on is registered. -/
theorem runOps_range (n : Nat) (hn : n < 18446744073709551616) :
    (runOps newConcurrentHandleMap ((List.range n).map HandleMapOp.insert)).1.currentHandle = n ∧
    ∀ p, n ≤ p →
      (runOps newConcurrentHandleMap ((List.range n).map HandleMapOp.insert)).1.rightMap p =
        none := by
  induction n with
  | zero => exact ⟨rfl, fun _ _ => rfl⟩
  | succ n ih =>
    obtain ⟨hc, hr⟩ := ih (by omega)
    rw [List.range_succ, List.map_append, List.map_singleton, runOps_append]
    simp only [runOps]
    rw [insert_fresh _ n (hr n (Nat.le_refl _)) (by omega)]
    simp only
    refine ⟨by rw [hc], ?_⟩
    intro p hp
    rw [if_neg (by omega)]
    exact hr p (by omega)

/-- The insertion after `2^64 - 1` insertions of new objects returns the handle 0. -/
theorem insert_wraps (n : Nat) (hn : n = 18446744073709551615) :
    ((runOps newConcurrentHandleMap ((List.range n).map HandleMapOp.insert)).1.insert n).1 =
      0 := by
  obtain ⟨hc, hr⟩ := runOps_range n (by omega)
  unfold concurrentHandleMap.insert
  rw [hr n (Nat.le_refl _)]
  simp only [hc]
  rw [hn]

/-! ## Round trips of events -/

theorem optionOk_elim {α : Type} (P : α → Prop) (o : Option α) (h : OptionOk P o) :
    ∀ v, o = some v → P v := by
  intro v hv
  rw [hv] at h
  exact h

theorem roundTrips_status (s : Status) (h : s.Ok) :
    RoundTrips FfiConverterTypeStatus.Read FfiConverterTypeStatus.Write s := by
  obtain ⟨c, o⟩ := s
  exact ⟨_, Status_Write_eq c o h.1,
    fun rest => Status_Read_written c o rest h.1 (optionOk_elim _ o h.2)⟩

theorem roundTrips_optionalString (o : Option GoString) (h : OptionOk StringOk o) :
    RoundTrips FfiConverterOptionalString.Read FfiConverterOptionalString.Write o := by
  cases o with
  | none =>
    refine ⟨[0], rfl, fun rest => ?_⟩
    unfold FfiConverterOptionalString.Read
    simp only [List.singleton_append, readInt8_zero, if_true]
  | some s =>
    obtain ⟨b, hw, hr⟩ := roundTrips_string s h
    refine ⟨1 :: b, ?_, fun rest => ?_⟩
    · simp only [FfiConverterOptionalString.Write, hw, writeInt8_one, List.singleton_append]
    · unfold FfiConverterOptionalString.Read
      simp only [List.cons_append, readInt8_one, one_ne_zero, if_false, hr]

theorem roundTrips_receivedFile (f : ReceivedFile) (h : f.Ok) :
    RoundTrips FfiConverterTypeReceivedFile.Read FfiConverterTypeReceivedFile.Write f := by
  obtain ⟨h1, h2, h3⟩ := h
  obtain ⟨b1, hw1, hr1⟩ := roundTrips_string f.Id h1
  obtain ⟨b2, hw2, hr2⟩ := roundTrips_string f.Path h2
  obtain ⟨b3, hw3, hr3⟩ := roundTrips_uint64 f.Size h3
  refine ⟨b1 ++ (b2 ++ b3), ?_, fun rest => ?_⟩
  · simp only [FfiConverterTypeReceivedFile.Write, hw1, hw2, hw3, writeThen]
  · simp only [FfiConverterTypeReceivedFile.Read, List.append_assoc, hr1, hr2, hr3]

theorem roundTrips_queuedFile (f : QueuedFile) (h : f.Ok) :
    RoundTrips FfiConverterTypeQueuedFile.Read FfiConverterTypeQueuedFile.Write f := by
  obtain ⟨h1, h2, h3, h4⟩ := h
  obtain ⟨b1, hw1, hr1⟩ := roundTrips_string f.Id h1
  obtain ⟨b2, hw2, hr2⟩ := roundTrips_string f.Path h2
  obtain ⟨b3, hw3, hr3⟩ := roundTrips_uint64 f.Size h3
  obtain ⟨b4, hw4, hr4⟩ := roundTrips_optionalString f.BaseDir h4
  refine ⟨b1 ++ (b2 ++ (b3 ++ b4)), ?_, fun rest => ?_⟩
  · simp only [FfiConverterTypeQueuedFile.Write, hw1, hw2, hw3, hw4, writeThen]
  · simp only [FfiConverterTypeQueuedFile.Read, List.append_assoc, hr1, hr2, hr3, hr4]

theorem readString2_written (a b : GoString) (ha : StringOk a) (hb : StringOk b) :
    ∃ bs, writeString2 a b = .ok bs ∧
      ∀ rest, readString2 (bs ++ rest) = .ok ((a, b), rest) := by
  obtain ⟨b1, hw1, hr1⟩ := roundTrips_string a ha
  obtain ⟨b2, hw2, hr2⟩ := roundTrips_string b hb
  refine ⟨b1 ++ b2, ?_, fun rest => ?_⟩
  · simp only [writeString2, hw1, hw2, writeThen]
  · simp only [readString2, List.append_assoc, hr1, hr2]

theorem roundTrips_eventKind (k : EventKind) (h : k.Ok) :
    RoundTrips FfiConverterTypeEventKind.Read FfiConverterTypeEventKind.Write k := by
  cases k with
  | RequestReceived a b c =>
    obtain ⟨h1, h2, h3, h4⟩ := h
    obtain ⟨bs, hw, hr⟩ := readString2_written a b h1 h2
    obtain ⟨b3, hw3, hr3⟩ := roundTrips_sequence "ReceivedFile" FfiConverterTypeReceivedFile.Read
      FfiConverterTypeReceivedFile.Write c h3 (fun f hf => roundTrips_receivedFile f (h4 f hf))
    refine ⟨writeInt32 1 ++ (bs ++ b3), ?_, fun rest => ?_⟩
    · simp only [FfiConverterTypeEventKind.Write, FfiConverterSequenceTypeReceivedFile.Write, hw, hw3, writeThen]
    · unfold FfiConverterTypeEventKind.Read
      rw [List.append_assoc, readInt32_writeInt32 1 _ (by decide) (by decide)]
      simp only [List.append_assoc, FfiConverterSequenceTypeReceivedFile.Read, hr, hr3, andThen]
  | RequestQueued a b c =>
    obtain ⟨h1, h2, h3, h4⟩ := h
    obtain ⟨bs, hw, hr⟩ := readString2_written a b h1 h2
    obtain ⟨b3, hw3, hr3⟩ := roundTrips_sequence "QueuedFile" FfiConverterTypeQueuedFile.Read
      FfiConverterTypeQueuedFile.Write c h3 (fun f hf => roundTrips_queuedFile f (h4 f hf))
    refine ⟨writeInt32 2 ++ (bs ++ b3), ?_, fun rest => ?_⟩
    · simp only [FfiConverterTypeEventKind.Write, FfiConverterSequenceTypeQueuedFile.Write, hw, hw3, writeThen]
    · unfold FfiConverterTypeEventKind.Read
      rw [List.append_assoc, readInt32_writeInt32 2 _ (by decide) (by decide)]
      simp only [List.append_assoc, FfiConverterSequenceTypeQueuedFile.Read, hr, hr3, andThen]
  | FileStarted a b c =>
    obtain ⟨h1, h2, h3⟩ := h
    obtain ⟨bs, hw, hr⟩ := readString2_written a b h1 h2
    obtain ⟨b3, hw3, hr3⟩ := roundTrips_uint64 c h3
    refine ⟨writeInt32 3 ++ (bs ++ b3), ?_, fun rest => ?_⟩
    · simp only [FfiConverterTypeEventKind.Write, hw, hw3, writeThen]
    · unfold FfiConverterTypeEventKind.Read
      rw [List.append_assoc, readInt32_writeInt32 3 _ (by decide) (by decide)]
      simp only [List.append_assoc, hr, hr3, andThen]
  | FileProgress a b c =>
    obtain ⟨h1, h2, h3⟩ := h
    obtain ⟨bs, hw, hr⟩ := readString2_written a b h1 h2
    obtain ⟨b3, hw3, hr3⟩ := roundTrips_uint64 c h3
    refine ⟨writeInt32 4 ++ (bs ++ b3), ?_, fun rest => ?_⟩
    · simp only [FfiConverterTypeEventKind.Write, hw, hw3, writeThen]
    · unfold FfiConverterTypeEventKind.Read
      rw [List.append_assoc, readInt32_writeInt32 4 _ (by decide) (by decide)]
      simp only [List.append_assoc, hr, hr3, andThen]
  | FileDownloaded a b c =>
    obtain ⟨h1, h2, h3⟩ := h
    obtain ⟨bs, hw, hr⟩ := readString2_written a b h1 h2
    obtain ⟨b3, hw3, hr3⟩ := roundTrips_string c h3
    refine ⟨writeInt32 5 ++ (bs ++ b3), ?_, fun rest => ?_⟩
    · simp only [FfiConverterTypeEventKind.Write, hw, hw3, writeThen]
    · unfold FfiConverterTypeEventKind.Read
      rw [List.append_assoc, readInt32_writeInt32 5 _ (by decide) (by decide)]
      simp only [List.append_assoc, hr, hr3, andThen]
  | FileUploaded a b =>
    obtain ⟨h1, h2⟩ := h
    obtain ⟨bs, hw, hr⟩ := readString2_written a b h1 h2
    refine ⟨writeInt32 6 ++ bs, ?_, fun rest => ?_⟩
    · simp only [FfiConverterTypeEventKind.Write, hw, writeThen]
    · unfold FfiConverterTypeEventKind.Read
      rw [List.append_assoc, readInt32_writeInt32 6 _ (by decide) (by decide)]
      simp only [hr, andThen]
  | FileFailed a b c =>
    obtain ⟨h1, h2, h3⟩ := h
    obtain ⟨bs, hw, hr⟩ := readString2_written a b h1 h2
    obtain ⟨b3, hw3, hr3⟩ := roundTrips_status c h3
    refine ⟨writeInt32 7 ++ (bs ++ b3), ?_, fun rest => ?_⟩
    · simp only [FfiConverterTypeEventKind.Write, hw, hw3, writeThen]
    · unfold FfiConverterTypeEventKind.Read
      rw [List.append_assoc, readInt32_writeInt32 7 _ (by decide) (by decide)]
      simp only [List.append_assoc, hr, hr3, andThen]
  | FileRejected a b c =>
    obtain ⟨h1, h2⟩ := h
    obtain ⟨bs, hw, hr⟩ := readString2_written a b h1 h2
    obtain ⟨b3, hw3, hr3⟩ := roundTrips_bool c
    refine ⟨writeInt32 8 ++ (bs ++ b3), ?_, fun rest => ?_⟩
    · simp only [FfiConverterTypeEventKind.Write, hw, hw3, writeThen]
    · unfold FfiConverterTypeEventKind.Read
      rw [List.append_assoc, readInt32_writeInt32 8 _ (by decide) (by decide)]
      simp only [List.append_assoc, hr, hr3, andThen]
  | FilePaused a b =>
    obtain ⟨h1, h2⟩ := h
    obtain ⟨bs, hw, hr⟩ := readString2_written a b h1 h2
    refine ⟨writeInt32 9 ++ bs, ?_, fun rest => ?_⟩
    · simp only [FfiConverterTypeEventKind.Write, hw, writeThen]
    · unfold FfiConverterTypeEventKind.Read
      rw [List.append_assoc, readInt32_writeInt32 9 _ (by decide) (by decide)]
      simp only [hr, andThen]
  | FileThrottled a b c =>
    obtain ⟨h1, h2, h3⟩ := h
    obtain ⟨bs, hw, hr⟩ := readString2_written a b h1 h2
    obtain ⟨b3, hw3, hr3⟩ := roundTrips_uint64 c h3
    refine ⟨writeInt32 10 ++ (bs ++ b3), ?_, fun rest => ?_⟩
    · simp only [FfiConverterTypeEventKind.Write, hw, hw3, writeThen]
    · unfold FfiConverterTypeEventKind.Read
      rw [List.append_assoc, readInt32_writeInt32 10 _ (by decide) (by decide)]
      simp only [List.append_assoc, hr, hr3, andThen]
  | FilePending a b =>
    obtain ⟨h1, h2⟩ := h
    obtain ⟨bs, hw, hr⟩ := readString2_written a b h1 h2
    refine ⟨writeInt32 11 ++ bs, ?_, fun rest => ?_⟩
    · simp only [FfiConverterTypeEventKind.Write, hw, writeThen]
    · unfold FfiConverterTypeEventKind.Read
      rw [List.append_assoc, readInt32_writeInt32 11 _ (by decide) (by decide)]
      simp only [hr, andThen]
  | TransferFinalized a c =>
    have h1 : StringOk a := h
    obtain ⟨bs, hw, hr⟩ := roundTrips_string a h1
    obtain ⟨b3, hw3, hr3⟩ := roundTrips_bool c
    refine ⟨writeInt32 12 ++ (bs ++ b3), ?_, fun rest => ?_⟩
    · simp only [FfiConverterTypeEventKind.Write, hw, hw3, writeThen]
    · unfold FfiConverterTypeEventKind.Read
      rw [List.append_assoc, readInt32_writeInt32 12 _ (by decide) (by decide)]
      simp only [List.append_assoc, hr, hr3, andThen]
  | TransferFailed a c =>
    obtain ⟨h1, h3⟩ := h
    obtain ⟨bs, hw, hr⟩ := roundTrips_string a h1
    obtain ⟨b3, hw3, hr3⟩ := roundTrips_status c h3
    refine ⟨writeInt32 13 ++ (bs ++ b3), ?_, fun rest => ?_⟩
    · simp only [FfiConverterTypeEventKind.Write, hw, hw3, writeThen]
    · unfold FfiConverterTypeEventKind.Read
      rw [List.append_assoc, readInt32_writeInt32 13 _ (by decide) (by decide)]
      simp only [List.append_assoc, hr, hr3, andThen]
  | TransferDeferred a b c =>
    obtain ⟨h1, h2, h3⟩ := h
    obtain ⟨bs, hw, hr⟩ := readString2_written a b h1 h2
    obtain ⟨b3, hw3, hr3⟩ := roundTrips_status c h3
    refine ⟨writeInt32 14 ++ (bs ++ b3), ?_, fun rest => ?_⟩
    · simp only [FfiConverterTypeEventKind.Write, hw, hw3, writeThen]
    · unfold FfiConverterTypeEventKind.Read
      rw [List.append_assoc, readInt32_writeInt32 14 _ (by decide) (by decide)]
      simp only [List.append_assoc, hr, hr3, andThen]
  | FinalizeChecksumStarted a b c =>
    obtain ⟨h1, h2, h3⟩ := h
    obtain ⟨bs, hw, hr⟩ := readString2_written a b h1 h2
    obtain ⟨b3, hw3, hr3⟩ := roundTrips_uint64 c h3
    refine ⟨writeInt32 15 ++ (bs ++ b3), ?_, fun rest => ?_⟩
    · simp only [FfiConverterTypeEventKind.Write, hw, hw3, writeThen]
    · unfold FfiConverterTypeEventKind.Read
      rw [List.append_assoc, readInt32_writeInt32 15 _ (by decide) (by decide)]
      simp only [List.append_assoc, hr, hr3, andThen]
  | FinalizeChecksumFinished a b =>
    obtain ⟨h1, h2⟩ := h
    obtain ⟨bs, hw, hr⟩ := readString2_written a b h1 h2
    refine ⟨writeInt32 16 ++ bs, ?_, fun rest => ?_⟩
    · simp only [FfiConverterTypeEventKind.Write, hw, writeThen]
    · unfold FfiConverterTypeEventKind.Read
      rw [List.append_assoc, readInt32_writeInt32 16 _ (by decide) (by decide)]
      simp only [hr, andThen]
  | FinalizeChecksumProgress a b c =>
    obtain ⟨h1, h2, h3⟩ := h
    obtain ⟨bs, hw, hr⟩ := readString2_written a b h1 h2
    obtain ⟨b3, hw3, hr3⟩ := roundTrips_uint64 c h3
    refine ⟨writeInt32 17 ++ (bs ++ b3), ?_, fun rest => ?_⟩
    · simp only [FfiConverterTypeEventKind.Write, hw, hw3, writeThen]
    · unfold FfiConverterTypeEventKind.Read
      rw [List.append_assoc, readInt32_writeInt32 17 _ (by decide) (by decide)]
      simp only [List.append_assoc, hr, hr3, andThen]
  | VerifyChecksumStarted a b c =>
    obtain ⟨h1, h2, h3⟩ := h
    obtain ⟨bs, hw, hr⟩ := readString2_written a b h1 h2
    obtain ⟨b3, hw3, hr3⟩ := roundTrips_uint64 c h3
    refine ⟨writeInt32 18 ++ (bs ++ b3), ?_, fun rest => ?_⟩
    · simp only [FfiConverterTypeEventKind.Write, hw, hw3, writeThen]
    · unfold FfiConverterTypeEventKind.Read
      rw [List.append_assoc, readInt32_writeInt32 18 _ (by decide) (by decide)]
      simp only [List.append_assoc, hr, hr3, andThen]
  | VerifyChecksumFinished a b =>
    obtain ⟨h1, h2⟩ := h
    obtain ⟨bs, hw, hr⟩ := readString2_written a b h1 h2
    refine ⟨writeInt32 19 ++ bs, ?_, fun rest => ?_⟩
    · simp only [FfiConverterTypeEventKind.Write, hw, writeThen]
    · unfold FfiConverterTypeEventKind.Read
      rw [List.append_assoc, readInt32_writeInt32 19 _ (by decide) (by decide)]
      simp only [hr, andThen]
  | VerifyChecksumProgress a b c =>
    obtain ⟨h1, h2, h3⟩ := h
    obtain ⟨bs, hw, hr⟩ := readString2_written a b h1 h2
    obtain ⟨b3, hw3, hr3⟩ := roundTrips_uint64 c h3
    refine ⟨writeInt32 20 ++ (bs ++ b3), ?_, fun rest => ?_⟩
    · simp only [FfiConverterTypeEventKind.Write, hw, hw3, writeThen]
    · unfold FfiConverterTypeEventKind.Read
      rw [List.append_assoc, readInt32_writeInt32 20 _ (by decide) (by decide)]
      simp only [List.append_assoc, hr, hr3, andThen]
  | RuntimeError c =>
    obtain ⟨bs, hw, hr⟩ := roundTrips_statusCode c h
    refine ⟨writeInt32 21 ++ bs, ?_, fun rest => ?_⟩
    · simp only [FfiConverterTypeEventKind.Write, hw, writeThen]
    · unfold FfiConverterTypeEventKind.Read
      rw [List.append_assoc, readInt32_writeInt32 21 _ (by decide) (by decide)]
      simp only [hr, andThen]

theorem roundTrips_event (e : Event) (h : e.Ok) :
    RoundTrips FfiConverterTypeEvent.Read FfiConverterTypeEvent.Write e := by
  obtain ⟨b1, hw1, hr1⟩ := roundTrips_int64 e.Timestamp h.1
  obtain ⟨b2, hw2, hr2⟩ := roundTrips_eventKind e.Kind h.2
  refine ⟨b1 ++ b2, ?_, fun rest => ?_⟩
  · simp only [FfiConverterTypeEvent.Write, hw1, hw2, writeThen]
  · simp only [FfiConverterTypeEvent.Read, List.append_assoc, hr1, hr2, andThen]

/-! ## Decoded errors and calls of the methods -/

theorem beBytes_four_beNat (b0 b1 b2 b3 : Byte) :
    beBytes 4 (beNat [b0, b1, b2, b3]) = [b0, b1, b2, b3] := by
  have h0 := b0.isLt
  have h1 := b1.isLt
  have h2 := b2.isLt
  have h3 := b3.isLt
  simp only [beBytes, beNat, List.foldl, byteOf, List.nil_append, List.cons_append,
    List.cons.injEq, Fin.ext_iff, and_true]
  refine ⟨?_, ?_, ?_, ?_⟩ <;> omega

theorem toUnsigned_toSigned_32 (n : Nat) (h : n < 4294967296) :
    toUnsigned 32 (toSigned 32 n) = n := by
  unfold toUnsigned toSigned
  norm_num
  split <;> omega

/-- Whatever `FfiConverterTypeLibdropError.Lift` returns is the variant whose id and
length-prefixed message make up the whole buffer. -/
theorem LibdropError_Lift_ok (buf : RustBuffer) (err : Option GoError)
    (h : FfiConverterTypeLibdropError.Lift buf = .ok err) :
    ∃ k m, m.length ≤ MaxInt32 ∧
      buf = writeUint32 k.ordinal ++ (writeInt32 (m.length : Int) ++ m) ∧
      err = some (.LibdropError (.LibdropErrorVariant k m)) := by
  unfold FfiConverterTypeLibdropError.Lift LiftFromRustBuffer at h
  cases hr : FfiConverterTypeLibdropError.Read buf with
  | error p => rw [hr] at h; cases h
  | ok v =>
    obtain ⟨e, rest⟩ := v
    obtain ⟨b0, b1, b2, b3, c0, c1, c2, c3, k, m, hbuf, rfl, hid, hlen⟩ :=
      LibdropError_Read_ok buf e rest hr
    rw [hr] at h
    simp only at h
    by_cases hl : rest.length > 0
    · rw [if_pos hl] at h; cases h
    · rw [if_neg hl] at h
      cases h
      have hrest : rest = [] := List.length_eq_zero.mp (by omega)
      subst hrest
      have hc := beNat_four_lt c0 c1 c2 c3
      have hm : m.length ≤ MaxInt32 := by
        have : (m.length : Int) < 2147483648 := by
          rw [hlen]
          unfold toSigned
          norm_num
          split <;> omega
        unfold MaxInt32
        omega
      refine ⟨k, m, hm, ?_, rfl⟩
      rw [hbuf, List.append_nil, hlen]
      unfold writeUint32 writeInt32
      rw [← hid, beBytes_four_beNat, toUnsigned_toSigned_32 _ hc, beBytes_four_beNat]

/-- C1 (as stated, refuted): the native call statuses with code 3 and an empty buffer, with
code 2 and with code 1 and an empty buffer make `rustCallWithError` with the `LibdropError`
converter return an error that is no `LibdropError`, respectively panic. -/
theorem C1_counterexample :
    rustCallWithError (some FfiConverterTypeLibdropError.Lift)
        (fun _ => .ok (false, (⟨3, []⟩ : RustCallStatus))) =
      .ok (false, some (.errorString (goString "unknown status code: 3"))) ∧
    ¬ InLibdropTaxonomy (some (.errorString (goString "unknown status code: 3"))) ∧
    rustCallWithError (some FfiConverterTypeLibdropError.Lift)
        (fun _ => .ok (false, (⟨2, []⟩ : RustCallStatus))) =
      .error (.error (.errorString (goString "Rust panicked while handling Rust panic"))) ∧
    rustCallWithError (some FfiConverterTypeLibdropError.Lift)
        (fun _ => .ok (false, (⟨1, []⟩ : RustCallStatus))) = .error (.error .EOF) := by
  refine ⟨rfl, ?_, rfl, rfl⟩
  intro h
  exact h

/-- C1 (amended): for every native call status with code 0 or 1, `rustCallWithError` used
with the `LibdropError` converter, whenever it returns, returns a nil error or one of the ten
`LibdropError` variants; it does return nil for code 0, and for code 1 it returns the variant
of id `k` with message `m` when the error buffer holds the id `k` in 1..10 followed by the
length-prefixed non-empty message `m`. It panics for code 1 when the buffer is no id
followed by a length-prefixed message, and always for code 2; for every other code it
returns an "unknown status code" error, which is no `LibdropError`. -/
theorem C1_errors_in_taxonomy {U : Type}
    (callback : RustCallStatus → Except PanicValue (U × RustCallStatus)) (returnValue : U)
    (status : RustCallStatus) (hcall : callback ⟨0, []⟩ = .ok (returnValue, status)) :
    (status.code = 0 ∨ status.code = 1 →
      ∀ rv err, rustCallWithError (some FfiConverterTypeLibdropError.Lift) callback =
        .ok (rv, err) → InLibdropTaxonomy err) ∧
    (status.code = 0 →
      rustCallWithError (some FfiConverterTypeLibdropError.Lift) callback =
        .ok (returnValue, none)) ∧
    (∀ (k : Nat) (v : LibdropErrorKind) (m : GoString),
      (k, v) ∈ [(1, LibdropErrorKind.Unknown), (2, .InvalidString), (3, .BadInput),
        (4, .TransferCreate), (5, .NotStarted), (6, .AddrInUse), (7, .InstanceStart),
        (8, .InstanceStop), (9, .InvalidPrivkey), (10, .DbError)] →
      0 < m.length → m.length ≤ MaxInt32 →
      status = ⟨1, writeUint32 k ++ (writeInt32 (m.length : Int) ++ m)⟩ →
      rustCallWithError (some FfiConverterTypeLibdropError.Lift) callback =
        .ok (returnValue, some (.LibdropError (.LibdropErrorVariant v m)))) ∧
    (status.code = 1 →
      (¬ ∃ (k : LibdropErrorKind) (m : GoString),
        status.errorBuf = writeUint32 k.ordinal ++ (writeInt32 (m.length : Int) ++ m)) →
      ∃ p, rustCallWithError (some FfiConverterTypeLibdropError.Lift) callback = .error p) ∧
    (status.code = 2 →
      ∃ p, rustCallWithError (some FfiConverterTypeLibdropError.Lift) callback = .error p) ∧
    (status.code ≠ 0 → status.code ≠ 1 → status.code ≠ 2 →
      rustCallWithError (some FfiConverterTypeLibdropError.Lift) callback =
        .ok (returnValue,
          some (.errorString (goString "unknown status code: " ++ fmtInt status.code))) ∧
      ¬ InLibdropTaxonomy
        (some (.errorString (goString "unknown status code: " ++ fmtInt status.code)))) := by
  obtain ⟨code, buf⟩ := status
  refine ⟨?_, ?_, ?_, ?_, ?_, ?_⟩
  · intro hcode rv err h
    simp only at hcode
    unfold rustCallWithError at h
    rw [hcall] at h
    simp only at h
    rcases hcode with rfl | rfl
    · rw [checkCallStatus_zero] at h
      cases h
      exact trivial
    · rw [checkCallStatus_one] at h
      cases hl : FfiConverterTypeLibdropError.Lift buf with
      | error p => rw [hl] at h; cases h
      | ok e =>
        rw [hl] at h
        cases h
        exact LibdropError_Lift_shape buf _ hl
  · intro h0
    simp only at h0
    subst h0
    unfold rustCallWithError
    rw [hcall]
    rfl
  · intro k v m hk h0 h1 hst
    cases hst
    unfold rustCallWithError
    rw [hcall]
    simp only [checkCallStatus_one, LibdropError_Lift_encoded k v m hk h0 h1]
  · intro h1 hno
    simp only at h1 hno
    subst h1
    unfold rustCallWithError
    rw [hcall]
    simp only [checkCallStatus_one]
    cases hl : FfiConverterTypeLibdropError.Lift buf with
    | error p => exact ⟨p, rfl⟩
    | ok err =>
      obtain ⟨k, m, _, hbuf, _⟩ := LibdropError_Lift_ok buf err hl
      exact absurd ⟨k, m, hbuf⟩ hno
  · intro h2
    simp only at h2
    subst h2
    unfold rustCallWithError
    rw [hcall]
    simp only [checkCallStatus_two]
    by_cases hb : buf.length > 0
    · rw [if_pos hb]
      exact ⟨_, rfl⟩
    · rw [if_neg hb]
      exact ⟨_, rfl⟩
  · intro h0 h1 h2
    simp only at h0 h1 h2
    refine ⟨?_, fun h => h⟩
    unfold rustCallWithError
    rw [hcall]
    simp only [checkCallStatus_other _ code buf h0 h1 h2]

/-- C1 at the status with code 1 whose buffer holds id 3 and the message "hi". -/
theorem C1_errors_in_taxonomy_witness :
    InLibdropTaxonomy (some (.LibdropError (.LibdropErrorVariant .BadInput [104, 105]))) ∧
    rustCallWithError (some FfiConverterTypeLibdropError.Lift)
        (fun _ => .ok (false, (⟨1, [0, 0, 0, 3, 0, 0, 0, 2, 104, 105]⟩ : RustCallStatus))) =
      .ok (false, some (.LibdropError (.LibdropErrorVariant .BadInput [104, 105]))) :=
  ⟨(C1_errors_in_taxonomy (fun _ => .ok (false, (⟨1, [0, 0, 0, 3, 0, 0, 0, 2, 104, 105]⟩ : RustCallStatus)))
      false ⟨1, [0, 0, 0, 3, 0, 0, 0, 2, 104, 105]⟩ rfl).1 (Or.inr rfl) false _ (by decide),
   (C1_errors_in_taxonomy (fun _ => .ok (false, (⟨1, [0, 0, 0, 3, 0, 0, 0, 2, 104, 105]⟩ : RustCallStatus)))
      false ⟨1, [0, 0, 0, 3, 0, 0, 0, 2, 104, 105]⟩ rfl).2.2.1 3 .BadInput [104, 105]
      (by decide) (by decide) (by decide) rfl⟩

/-- C3: for every error id `k` in 1..10 and every non-empty message `m`,
`FfiConverterTypeLibdropError.Read` applied to the big-endian 32-bit id followed by the
length-prefixed string (the bytes `FfiConverterString.Write` produces for `m`) returns the
`LibdropError` wrapping the `k`-th variant with message `m`, on which `errors.Is` holds for
the sentinel of that variant and for no other sentinel; for an id outside 1..10 decoding
fails whatever follows the id. -/
theorem C3_libdrop_error_decoding :
    (∀ (k : Nat) (v : LibdropErrorKind) (m : GoString) (encoded : List Byte),
      (k, v) ∈ [(1, LibdropErrorKind.Unknown), (2, .InvalidString), (3, .BadInput),
        (4, .TransferCreate), (5, .NotStarted), (6, .AddrInUse), (7, .InstanceStart),
        (8, .InstanceStop), (9, .InvalidPrivkey), (10, .DbError)] →
      m ≠ [] → FfiConverterString.Write m = .ok encoded →
      FfiConverterTypeLibdropError.Read (writeUint32 k ++ encoded) =
        .ok (.LibdropError (.LibdropErrorVariant v m), []) ∧
      ∀ s, errorsIs (.LibdropError (.LibdropErrorVariant v m)) s = true ↔ s = v) ∧
    (∀ (errorID : Nat) (rest : Reader), errorID < 4294967296 →
      ¬ (1 ≤ errorID ∧ errorID ≤ 10) →
      ∃ p, FfiConverterTypeLibdropError.Read (writeUint32 errorID ++ rest) = .error p) := by
  refine ⟨?_, LibdropError_Read_bad_id⟩
  intro k v m encoded hk hm hw
  obtain ⟨hlen, rfl⟩ := String_Write_ok m encoded hw
  have h := LibdropError_Read_encoded k v m [] hk (List.length_pos.mpr hm) hlen
  rw [List.append_nil] at h
  refine ⟨h, ?_⟩
  intro s
  simp only [errorsIs, decide_eq_true_eq]
  exact eq_comm

/-- C3 at the id 6 with the message "hi", and at the id 11. -/
theorem C3_libdrop_error_decoding_witness :
    FfiConverterTypeLibdropError.Read (writeUint32 6 ++ [0, 0, 0, 2, 104, 105]) =
      .ok (.LibdropError (.LibdropErrorVariant .AddrInUse [104, 105]), []) ∧
    ∃ p, FfiConverterTypeLibdropError.Read (writeUint32 11 ++ [0, 0, 0, 2, 104, 105]) =
      .error p :=
  ⟨(C3_libdrop_error_decoding.1 6 .AddrInUse [104, 105] [0, 0, 0, 2, 104, 105]
      (by decide) (by decide) (by decide)).1,
   C3_libdrop_error_decoding.2 11 [0, 0, 0, 2, 104, 105] (by decide) (by decide)⟩

/-- C4: the event-kind decoder recognises exactly 21 variants. Whenever
`FfiConverterTypeEventKind.Read` returns a value, the input starts with four bytes whose
big-endian signed value is the position (1..21) of the returned variant in declaration
order; for every tag outside 1..21 decoding fails whatever follows; and every tag in 1..21
is accepted on some input. -/
theorem C4_event_kind_tags :
    (∀ (reader : Reader) (v : EventKind) (rest : Reader),
      FfiConverterTypeEventKind.Read reader = .ok (v, rest) →
      ∃ b0 b1 b2 b3 tl, reader = b0 :: b1 :: b2 :: b3 :: tl ∧
        toSigned 32 (beNat [b0, b1, b2, b3]) = (v.ordinal : Int) ∧
        1 ≤ v.ordinal ∧ v.ordinal ≤ 21) ∧
    (∀ (tag : Int) (rest : Reader), -2147483648 ≤ tag → tag < 2147483648 →
      ¬ (1 ≤ tag ∧ tag ≤ 21) →
      ∃ p, FfiConverterTypeEventKind.Read (writeInt32 tag ++ rest) = .error p) ∧
    (∀ i : Nat, 1 ≤ i → i ≤ 21 →
      ∃ payload v, FfiConverterTypeEventKind.Read (writeInt32 (i : Int) ++ payload) = .ok (v, []) ∧
        v.ordinal = i) := by
  refine ⟨?_, EventKind_Read_bad_tag, ?_⟩
  · intro reader v rest h
    obtain ⟨id, tl, hr, hid⟩ := EventKind_Read_ordinal reader v rest h
    obtain ⟨b0, b1, b2, b3, hreader, hval⟩ := readInt32_ok reader id tl hr
    exact ⟨b0, b1, b2, b3, tl, hreader, by rw [← hval, hid], EventKind_ordinal_range v⟩
  · intro i h1 h21
    interval_cases i
    · exact ⟨[0, 0, 0, 1, 97, 0, 0, 0, 1, 98, 0, 0, 0, 0], .RequestReceived [97] [98] [],
        by decide, rfl⟩
    · exact ⟨[0, 0, 0, 1, 97, 0, 0, 0, 1, 98, 0, 0, 0, 0], .RequestQueued [97] [98] [],
        by decide, rfl⟩
    · exact ⟨[0, 0, 0, 1, 97, 0, 0, 0, 1, 98, 0, 0, 0, 0, 0, 0, 0, 7], .FileStarted [97] [98] 7,
        by decide, rfl⟩
    · exact ⟨[0, 0, 0, 1, 97, 0, 0, 0, 1, 98, 0, 0, 0, 0, 0, 0, 0, 7], .FileProgress [97] [98] 7,
        by decide, rfl⟩
    · exact ⟨[0, 0, 0, 1, 97, 0, 0, 0, 1, 98, 0, 0, 0, 1, 99], .FileDownloaded [97] [98] [99],
        by decide, rfl⟩
    · exact ⟨[0, 0, 0, 1, 97, 0, 0, 0, 1, 98], .FileUploaded [97] [98], by decide, rfl⟩
    · exact ⟨[0, 0, 0, 1, 97, 0, 0, 0, 1, 98, 0, 0, 0, 7, 0], .FileFailed [97] [98] ⟨7, none⟩,
        by decide, rfl⟩
    · exact ⟨[0, 0, 0, 1, 97, 0, 0, 0, 1, 98, 1], .FileRejected [97] [98] true, by decide, rfl⟩
    · exact ⟨[0, 0, 0, 1, 97, 0, 0, 0, 1, 98], .FilePaused [97] [98], by decide, rfl⟩
    · exact ⟨[0, 0, 0, 1, 97, 0, 0, 0, 1, 98, 0, 0, 0, 0, 0, 0, 0, 7], .FileThrottled [97] [98] 7,
        by decide, rfl⟩
    · exact ⟨[0, 0, 0, 1, 97, 0, 0, 0, 1, 98], .FilePending [97] [98], by decide, rfl⟩
    · exact ⟨[0, 0, 0, 1, 97, 1], .TransferFinalized [97] true, by decide, rfl⟩
    · exact ⟨[0, 0, 0, 1, 97, 0, 0, 0, 7, 0], .TransferFailed [97] ⟨7, none⟩, by decide, rfl⟩
    · exact ⟨[0, 0, 0, 1, 97, 0, 0, 0, 1, 98, 0, 0, 0, 7, 0],
        .TransferDeferred [97] [98] ⟨7, none⟩, by decide, rfl⟩
    · exact ⟨[0, 0, 0, 1, 97, 0, 0, 0, 1, 98, 0, 0, 0, 0, 0, 0, 0, 7],
        .FinalizeChecksumStarted [97] [98] 7, by decide, rfl⟩
    · exact ⟨[0, 0, 0, 1, 97, 0, 0, 0, 1, 98], .FinalizeChecksumFinished [97] [98],
        by decide, rfl⟩
    · exact ⟨[0, 0, 0, 1, 97, 0, 0, 0, 1, 98, 0, 0, 0, 0, 0, 0, 0, 7],
        .FinalizeChecksumProgress [97] [98] 7, by decide, rfl⟩
    · exact ⟨[0, 0, 0, 1, 97, 0, 0, 0, 1, 98, 0, 0, 0, 0, 0, 0, 0, 7],
        .VerifyChecksumStarted [97] [98] 7, by decide, rfl⟩
    · exact ⟨[0, 0, 0, 1, 97, 0, 0, 0, 1, 98], .VerifyChecksumFinished [97] [98],
        by decide, rfl⟩
    · exact ⟨[0, 0, 0, 1, 97, 0, 0, 0, 1, 98, 0, 0, 0, 0, 0, 0, 0, 7],
        .VerifyChecksumProgress [97] [98] 7, by decide, rfl⟩
    · exact ⟨[0, 0, 0, 7], .RuntimeError 7, by decide, rfl⟩

/-- C4 at an encoded RuntimeError event kind and at the tags 22, 0 and -1. -/
theorem C4_event_kind_tags_witness :
    (∃ b0 b1 b2 b3 tl, ([0, 0, 0, 21, 0, 0, 0, 7] : Reader) = b0 :: b1 :: b2 :: b3 :: tl ∧
        toSigned 32 (beNat [b0, b1, b2, b3]) = ((EventKind.RuntimeError 7).ordinal : Int) ∧
        1 ≤ (EventKind.RuntimeError 7).ordinal ∧ (EventKind.RuntimeError 7).ordinal ≤ 21) ∧
    (∃ p, FfiConverterTypeEventKind.Read (writeInt32 22 ++ [0, 0, 0, 7]) = .error p) ∧
    (∃ p, FfiConverterTypeEventKind.Read (writeInt32 0 ++ [0, 0, 0, 7]) = .error p) ∧
    (∃ p, FfiConverterTypeEventKind.Read (writeInt32 (-1) ++ [0, 0, 0, 7]) = .error p) :=
  ⟨C4_event_kind_tags.1 [0, 0, 0, 21, 0, 0, 0, 7] (.RuntimeError 7) [] (by decide),
   C4_event_kind_tags.2.1 22 [0, 0, 0, 7] (by decide) (by decide) (by decide),
   C4_event_kind_tags.2.1 0 [0, 0, 0, 7] (by decide) (by decide) (by decide),
   C4_event_kind_tags.2.1 (-1) [0, 0, 0, 7] (by decide) (by decide) (by decide)⟩

/-- C5: the transfer history record survives the boundary unchanged and in order. For every
list of fewer than `2^31` `TransferInfo` values whose strings are not empty and shorter than
`2^31` bytes, whose sequences have fewer than `2^31` elements and whose status codes are
declared ones, `FfiConverterSequenceTypeTransferInfo.Write` produces bytes on which
`FfiConverterSequenceTypeTransferInfo.Read` returns the same list and consumes every byte. -/
theorem C5_transfer_history_roundtrip (transfers : List TransferInfo)
    (hlen : transfers.length ≤ MaxInt32) (hok : ∀ t ∈ transfers, t.Ok) :
    ∃ bs, FfiConverterSequenceTypeTransferInfo.Write transfers = .ok bs ∧
      FfiConverterSequenceTypeTransferInfo.Read bs = .ok (transfers, []) := by
  obtain ⟨bs, hw, hr⟩ := roundTrips_sequence "TransferInfo" FfiConverterTypeTransferInfo.Read
    FfiConverterTypeTransferInfo.Write transfers hlen
    (fun t ht => roundTrips_transferInfo t (hok t ht))
  refine ⟨bs, hw, ?_⟩
  have h := hr []
  rw [List.append_nil] at h
  exact h

/-- C5 at a history of an incoming and an outgoing transfer. -/
theorem C5_transfer_history_roundtrip_witness :
    (sampleTransfers.length ≤ MaxInt32 ∧ ∀ t ∈ sampleTransfers, t.Ok) ∧
    ∃ bs, FfiConverterSequenceTypeTransferInfo.Write sampleTransfers = .ok bs ∧
      FfiConverterSequenceTypeTransferInfo.Read bs = .ok (sampleTransfers, []) :=
  ⟨by decide, C5_transfer_history_roundtrip sampleTransfers (by decide) (by decide)⟩

/-- C6 (as stated, refuted): `FfiConverterTypeStatusCode.Read` succeeds on the tags 25, 0
and -1 and returns the codes 25, 0 and `2^64 - 1`, none of which is a declared code. -/
theorem C6_counterexample :
    FfiConverterTypeStatusCode.Read [0, 0, 0, 25] = .ok (25, []) ∧ ¬ StatusCodeDeclared 25 ∧
    FfiConverterTypeStatusCode.Read [0, 0, 0, 0] = .ok (0, []) ∧ ¬ StatusCodeDeclared 0 ∧
    FfiConverterTypeStatusCode.Read [255, 255, 255, 255] = .ok (18446744073709551615, []) ∧
    ¬ StatusCodeDeclared 18446744073709551615 := by
  decide

/-- C6 (amended): `FfiConverterTypeStatusCode.Read` checks no range. On every input of at
least four bytes it succeeds and returns the leading big-endian signed 32-bit tag converted
to `StatusCode`, and the decoded code is one of the 24 declared codes exactly when the tag
is in 1..24; every declared code written by `Write` is read back unchanged. -/
theorem C6_status_code_as_encoded :
    (∀ (b0 b1 b2 b3 : Byte) (rest : Reader),
      FfiConverterTypeStatusCode.Read (b0 :: b1 :: b2 :: b3 :: rest) =
        .ok (toUnsigned 64 (toSigned 32 (beNat [b0, b1, b2, b3])), rest) ∧
      (StatusCodeDeclared (toUnsigned 64 (toSigned 32 (beNat [b0, b1, b2, b3]))) ↔
        1 ≤ toSigned 32 (beNat [b0, b1, b2, b3]) ∧ toSigned 32 (beNat [b0, b1, b2, b3]) ≤ 24)) ∧
    (∀ (c : StatusCode) (rest : Reader), StatusCodeDeclared c →
      ∃ bs, FfiConverterTypeStatusCode.Write c = .ok bs ∧
        FfiConverterTypeStatusCode.Read (bs ++ rest) = .ok (c, rest)) := by
  constructor
  · intro b0 b1 b2 b3 rest
    constructor
    · unfold FfiConverterTypeStatusCode.Read
      rw [readInt32_cons]
    · have hlt := beNat_four_lt b0 b1 b2 b3
      rw [statusCodeDeclared_iff]
      generalize beNat [b0, b1, b2, b3] = n at hlt
      unfold toUnsigned toSigned
      norm_num
      split <;> omega
  · intro c rest hc
    obtain ⟨bs, hw, hr⟩ := roundTrips_statusCode c hc
    exact ⟨bs, hw, hr rest⟩

/-- C6 at the declared code FileChecksumMismatch followed by one more byte. -/
theorem C6_status_code_as_encoded_witness :
    ∃ bs, FfiConverterTypeStatusCode.Write StatusCodeFileChecksumMismatch = .ok bs ∧
      FfiConverterTypeStatusCode.Read (bs ++ [1]) = .ok (StatusCodeFileChecksumMismatch, [1]) :=
  C6_status_code_as_encoded.2 StatusCodeFileChecksumMismatch [1] (by decide)

/-- C7 (as stated, refuted): both path decoders return a record whose transferred bytes (1)
exceed the file size (0) when the wire carries these two numbers. -/
theorem C7_counterexample :
    FfiConverterTypeIncomingPath.Read
        [0, 0, 0, 1, 102, 0, 0, 0, 1, 112, 0, 0, 0, 0, 0, 0, 0, 0, 0, 0, 0, 0, 0, 0, 0, 1,
          0, 0, 0, 0] =
      .ok (⟨[102], [112], 0, 1, []⟩, []) ∧
    ¬ ((⟨[102], [112], 0, 1, []⟩ : IncomingPath).BytesReceived ≤
        (⟨[102], [112], 0, 1, []⟩ : IncomingPath).Bytes) ∧
    FfiConverterTypeOutgoingPath.Read
        [0, 0, 0, 1, 102, 0, 0, 0, 1, 112, 0, 0, 0, 0, 0, 0, 0, 0, 0, 0, 0, 0, 0, 0, 0, 1,
          0, 0, 0, 1, 0, 0, 0, 1, 47, 0, 0, 0, 0] =
      .ok (⟨[102], [112], 0, 1, .BasePath [47], []⟩, []) ∧
    ¬ ((⟨[102], [112], 0, 1, .BasePath [47], []⟩ : OutgoingPath).BytesSent ≤
        (⟨[102], [112], 0, 1, .BasePath [47], []⟩ : OutgoingPath).Bytes) := by
  decide

/-- C7 (amended): the path decoders compare nothing; they hand over the file size and the
transferred bytes exactly as they were encoded. For every well-formed `IncomingPath` or
`OutgoingPath` record `p` (whatever its two byte counts), `Read` applied to the bytes
`Write` produces for `p` returns `p` itself and consumes every byte; hence the decoded
record satisfies `BytesReceived <= Bytes` (`BytesSent <= Bytes`) exactly when the encoded
record does. -/
theorem C7_path_bytes_as_encoded :
    (∀ p : IncomingPath, p.Ok →
      ∃ bs, FfiConverterTypeIncomingPath.Write p = .ok bs ∧
        FfiConverterTypeIncomingPath.Read bs = .ok (p, []) ∧
        ∀ q rest, FfiConverterTypeIncomingPath.Read bs = .ok (q, rest) →
          q = p ∧ rest = [] ∧ (q.BytesReceived ≤ q.Bytes ↔ p.BytesReceived ≤ p.Bytes)) ∧
    (∀ p : OutgoingPath, p.Ok →
      ∃ bs, FfiConverterTypeOutgoingPath.Write p = .ok bs ∧
        FfiConverterTypeOutgoingPath.Read bs = .ok (p, []) ∧
        ∀ q rest, FfiConverterTypeOutgoingPath.Read bs = .ok (q, rest) →
          q = p ∧ rest = [] ∧ (q.BytesSent ≤ q.Bytes ↔ p.BytesSent ≤ p.Bytes)) := by
  constructor
  · intro p hp
    obtain ⟨bs, hw, hr⟩ := roundTrips_incomingPath p hp
    have h := hr []
    rw [List.append_nil] at h
    refine ⟨bs, hw, h, ?_⟩
    intro q rest hq
    rw [h] at hq
    cases hq
    exact ⟨rfl, rfl, Iff.rfl⟩
  · intro p hp
    obtain ⟨bs, hw, hr⟩ := roundTrips_outgoingPath p hp
    have h := hr []
    rw [List.append_nil] at h
    refine ⟨bs, hw, h, ?_⟩
    intro q rest hq
    rw [h] at hq
    cases hq
    exact ⟨rfl, rfl, Iff.rfl⟩

/-- C7 at an incoming record with 1 byte received of 0 and an outgoing one with 4 of 9. -/
theorem C7_path_bytes_as_encoded_witness :
    (∃ bs, FfiConverterTypeIncomingPath.Write ⟨[102], [112], 0, 1, []⟩ = .ok bs ∧
        FfiConverterTypeIncomingPath.Read bs = .ok (⟨[102], [112], 0, 1, []⟩, []) ∧
        ∀ q rest, FfiConverterTypeIncomingPath.Read bs = .ok (q, rest) →
          q = ⟨[102], [112], 0, 1, []⟩ ∧ rest = [] ∧ (q.BytesReceived ≤ q.Bytes ↔ 1 ≤ 0)) ∧
    (∃ bs, FfiConverterTypeOutgoingPath.Write ⟨[102], [112], 9, 4, .ContentUri [47], []⟩ =
          .ok bs ∧
        FfiConverterTypeOutgoingPath.Read bs =
          .ok (⟨[102], [112], 9, 4, .ContentUri [47], []⟩, []) ∧
        ∀ q rest, FfiConverterTypeOutgoingPath.Read bs = .ok (q, rest) →
          q = ⟨[102], [112], 9, 4, .ContentUri [47], []⟩ ∧ rest = [] ∧
            (q.BytesSent ≤ q.Bytes ↔ 4 ≤ 9)) :=
  ⟨C7_path_bytes_as_encoded.1 ⟨[102], [112], 0, 1, []⟩ (by decide),
   C7_path_bytes_as_encoded.2 ⟨[102], [112], 9, 4, .ContentUri [47], []⟩ (by decide)⟩

/-- C8 (as stated, refuted): the incoming decoder returns a history with two terminal
entries (Completed twice), and the outgoing decoder returns a history whose only terminal
entry (Completed) is followed by a Started entry. -/
theorem C8_counterexample :
    FfiConverterTypeIncomingPath.Read
        [0, 0, 0, 1, 102, 0, 0, 0, 1, 112, 0, 0, 0, 0, 0, 0, 0, 5, 0, 0, 0, 0, 0, 0, 0, 5,
          0, 0, 0, 2,
          0, 0, 0, 0, 0, 0, 0, 1, 0, 0, 0, 4, 0, 0, 0, 1, 47,
          0, 0, 0, 0, 0, 0, 0, 2, 0, 0, 0, 4, 0, 0, 0, 1, 47] =
      .ok (⟨[102], [112], 5, 5, [⟨1, .Completed [47]⟩, ⟨2, .Completed [47]⟩]⟩, []) ∧
    ¬ TerminalOnceAndLast (fun s : IncomingPathState => s.Kind.isTerminal)
        [⟨1, .Completed [47]⟩, ⟨2, .Completed [47]⟩] ∧
    FfiConverterTypeOutgoingPath.Read
        [0, 0, 0, 1, 102, 0, 0, 0, 1, 112, 0, 0, 0, 0, 0, 0, 0, 5, 0, 0, 0, 0, 0, 0, 0, 5,
          0, 0, 0, 1, 0, 0, 0, 1, 47,
          0, 0, 0, 2,
          0, 0, 0, 0, 0, 0, 0, 1, 0, 0, 0, 3,
          0, 0, 0, 0, 0, 0, 0, 2, 0, 0, 0, 1, 0, 0, 0, 0, 0, 0, 0, 0] =
      .ok (⟨[102], [112], 5, 5, .BasePath [47], [⟨1, .Completed⟩, ⟨2, .Started 0⟩]⟩, []) ∧
    ¬ TerminalOnceAndLast (fun s : OutgoingPathState => s.Kind.isTerminal)
        [⟨1, .Completed⟩, ⟨2, .Started 0⟩] := by
  decide

/-- C8 (amended): the path decoders check nothing about terminal entries; they return the
state history exactly as it was encoded, in the same order. For every well-formed
`IncomingPath` or `OutgoingPath` record `p` (whatever its history), `Read` applied to the
bytes `Write` produces for `p` returns a record with the same `States`; hence the decoded
history has at most one terminal entry, placed last, exactly when the encoded history
does. -/
theorem C8_state_history_as_encoded :
    (∀ p : IncomingPath, p.Ok →
      ∃ bs q, FfiConverterTypeIncomingPath.Write p = .ok bs ∧
        FfiConverterTypeIncomingPath.Read bs = .ok (q, []) ∧ q.States = p.States ∧
        (TerminalOnceAndLast (fun s : IncomingPathState => s.Kind.isTerminal) q.States ↔
          TerminalOnceAndLast (fun s : IncomingPathState => s.Kind.isTerminal) p.States)) ∧
    (∀ p : OutgoingPath, p.Ok →
      ∃ bs q, FfiConverterTypeOutgoingPath.Write p = .ok bs ∧
        FfiConverterTypeOutgoingPath.Read bs = .ok (q, []) ∧ q.States = p.States ∧
        (TerminalOnceAndLast (fun s : OutgoingPathState => s.Kind.isTerminal) q.States ↔
          TerminalOnceAndLast (fun s : OutgoingPathState => s.Kind.isTerminal) p.States)) := by
  constructor
  · intro p hp
    obtain ⟨bs, hw, hr⟩ := roundTrips_incomingPath p hp
    have h := hr []
    rw [List.append_nil] at h
    exact ⟨bs, p, hw, h, rfl, Iff.rfl⟩
  · intro p hp
    obtain ⟨bs, hw, hr⟩ := roundTrips_outgoingPath p hp
    have h := hr []
    rw [List.append_nil] at h
    exact ⟨bs, p, hw, h, rfl, Iff.rfl⟩

/-- C8 at an incoming history ending in its only terminal entry and at an outgoing history
whose terminal entry is not the last one. -/
theorem C8_state_history_as_encoded_witness :
    (∃ bs q, FfiConverterTypeIncomingPath.Write
          ⟨[102], [112], 5, 5, [⟨1, .Started 0⟩, ⟨2, .Completed [47]⟩]⟩ = .ok bs ∧
        FfiConverterTypeIncomingPath.Read bs = .ok (q, []) ∧
        q.States = [⟨1, .Started 0⟩, ⟨2, .Completed [47]⟩] ∧
        (TerminalOnceAndLast (fun s : IncomingPathState => s.Kind.isTerminal) q.States ↔
          TerminalOnceAndLast (fun s : IncomingPathState => s.Kind.isTerminal)
            [⟨1, .Started 0⟩, ⟨2, .Completed [47]⟩])) ∧
    (∃ bs q, FfiConverterTypeOutgoingPath.Write
          ⟨[102], [112], 5, 5, .BasePath [47], [⟨1, .Completed⟩, ⟨2, .Started 0⟩]⟩ = .ok bs ∧
        FfiConverterTypeOutgoingPath.Read bs = .ok (q, []) ∧
        q.States = [⟨1, .Completed⟩, ⟨2, .Started 0⟩] ∧
        (TerminalOnceAndLast (fun s : OutgoingPathState => s.Kind.isTerminal) q.States ↔
          TerminalOnceAndLast (fun s : OutgoingPathState => s.Kind.isTerminal)
            [⟨1, .Completed⟩, ⟨2, .Started 0⟩])) :=
  ⟨C8_state_history_as_encoded.1
      ⟨[102], [112], 5, 5, [⟨1, .Started 0⟩, ⟨2, .Completed [47]⟩]⟩ (by decide),
   C8_state_history_as_encoded.2
      ⟨[102], [112], 5, 5, .BasePath [47], [⟨1, .Completed⟩, ⟨2, .Started 0⟩]⟩ (by decide)⟩

/-- C9: every path state the binding decodes is one of the declared variants with the
listed payload. `FfiConverterTypeIncomingPathStateKind.Read` decodes tag 1 followed by an
encoded string to Pending(base_dir), tag 2 and a 64-bit count to Started(bytes), tag 3, a
status code and a count to Failed(status, bytes), tag 4 and a string to
Completed(final_path), tag 5, a flag byte and a count to Rejected(by_peer, bytes), tag 6 and
a count to Paused(bytes); `FfiConverterTypeOutgoingPathStateKind.Read` decodes tags 1..5 to
Started(bytes), Failed(status, bytes), Completed (no payload), Rejected(by_peer, bytes) and
Paused(bytes). Each decoder fails for every other tag, and whenever it returns a value the
input starts with the tag of the returned variant. -/
theorem C9_path_state_kinds :
    ((∀ (baseDir : GoString) (encoded : List Byte) (rest : Reader), baseDir ≠ [] →
        FfiConverterString.Write baseDir = .ok encoded →
        FfiConverterTypeIncomingPathStateKind.Read (writeInt32 1 ++ (encoded ++ rest)) =
          .ok (.Pending baseDir, rest)) ∧
      (∀ (n : Nat) (rest : Reader), IsUint64 n →
        FfiConverterTypeIncomingPathStateKind.Read (writeInt32 2 ++ (writeUint64 n ++ rest)) =
          .ok (.Started n, rest)) ∧
      (∀ (status n : Nat) (rest : Reader), status < 2147483648 → IsUint64 n →
        FfiConverterTypeIncomingPathStateKind.Read
            (writeInt32 3 ++ (writeInt32 (status : Int) ++ (writeUint64 n ++ rest))) =
          .ok (.Failed status n, rest)) ∧
      (∀ (finalPath : GoString) (encoded : List Byte) (rest : Reader), finalPath ≠ [] →
        FfiConverterString.Write finalPath = .ok encoded →
        FfiConverterTypeIncomingPathStateKind.Read (writeInt32 4 ++ (encoded ++ rest)) =
          .ok (.Completed finalPath, rest)) ∧
      (∀ (byPeer : Bool) (n : Nat) (rest : Reader), IsUint64 n →
        FfiConverterTypeIncomingPathStateKind.Read
            (writeInt32 5 ++ (writeInt8 (if byPeer then 1 else 0) ++ (writeUint64 n ++ rest))) =
          .ok (.Rejected byPeer n, rest)) ∧
      (∀ (n : Nat) (rest : Reader), IsUint64 n →
        FfiConverterTypeIncomingPathStateKind.Read (writeInt32 6 ++ (writeUint64 n ++ rest)) =
          .ok (.Paused n, rest))) ∧
    ((∀ (n : Nat) (rest : Reader), IsUint64 n →
        FfiConverterTypeOutgoingPathStateKind.Read (writeInt32 1 ++ (writeUint64 n ++ rest)) =
          .ok (.Started n, rest)) ∧
      (∀ (status n : Nat) (rest : Reader), status < 2147483648 → IsUint64 n →
        FfiConverterTypeOutgoingPathStateKind.Read
            (writeInt32 2 ++ (writeInt32 (status : Int) ++ (writeUint64 n ++ rest))) =
          .ok (.Failed status n, rest)) ∧
      (∀ rest : Reader,
        FfiConverterTypeOutgoingPathStateKind.Read (writeInt32 3 ++ rest) =
          .ok (.Completed, rest)) ∧
      (∀ (byPeer : Bool) (n : Nat) (rest : Reader), IsUint64 n →
        FfiConverterTypeOutgoingPathStateKind.Read
            (writeInt32 4 ++ (writeInt8 (if byPeer then 1 else 0) ++ (writeUint64 n ++ rest))) =
          .ok (.Rejected byPeer n, rest)) ∧
      (∀ (n : Nat) (rest : Reader), IsUint64 n →
        FfiConverterTypeOutgoingPathStateKind.Read (writeInt32 5 ++ (writeUint64 n ++ rest)) =
          .ok (.Paused n, rest))) ∧
    (∀ (tag : Int) (rest : Reader), -2147483648 ≤ tag → tag < 2147483648 →
      (¬ (1 ≤ tag ∧ tag ≤ 6) →
        ∃ p, FfiConverterTypeIncomingPathStateKind.Read (writeInt32 tag ++ rest) = .error p) ∧
      (¬ (1 ≤ tag ∧ tag ≤ 5) →
        ∃ p, FfiConverterTypeOutgoingPathStateKind.Read (writeInt32 tag ++ rest) = .error p)) ∧
    (∀ (reader : Reader) (v : IncomingPathStateKind) (rest : Reader),
      FfiConverterTypeIncomingPathStateKind.Read reader = .ok (v, rest) →
      ∃ b0 b1 b2 b3 tl, reader = b0 :: b1 :: b2 :: b3 :: tl ∧
        toSigned 32 (beNat [b0, b1, b2, b3]) = (v.ordinal : Int) ∧
        1 ≤ v.ordinal ∧ v.ordinal ≤ 6) ∧
    (∀ (reader : Reader) (v : OutgoingPathStateKind) (rest : Reader),
      FfiConverterTypeOutgoingPathStateKind.Read reader = .ok (v, rest) →
      ∃ b0 b1 b2 b3 tl, reader = b0 :: b1 :: b2 :: b3 :: tl ∧
        toSigned 32 (beNat [b0, b1, b2, b3]) = (v.ordinal : Int) ∧
        1 ≤ v.ordinal ∧ v.ordinal ≤ 5) := by
  refine ⟨IncomingPathStateKind_Read_tags, OutgoingPathStateKind_Read_tags, ?_, ?_, ?_⟩
  · intro tag rest h1 h2
    exact ⟨IncomingPathStateKind_Read_bad_tag tag rest h1 h2,
      OutgoingPathStateKind_Read_bad_tag tag rest h1 h2⟩
  · intro reader v rest h
    obtain ⟨id, tl, hr, hid⟩ := IncomingPathStateKind_Read_ordinal reader v rest h
    obtain ⟨b0, b1, b2, b3, hreader, hval⟩ := readInt32_ok reader id tl hr
    exact ⟨b0, b1, b2, b3, tl, hreader, by rw [← hval, hid],
      IncomingPathStateKind_ordinal_range v⟩
  · intro reader v rest h
    obtain ⟨id, tl, hr, hid⟩ := OutgoingPathStateKind_Read_ordinal reader v rest h
    obtain ⟨b0, b1, b2, b3, hreader, hval⟩ := readInt32_ok reader id tl hr
    exact ⟨b0, b1, b2, b3, tl, hreader, by rw [← hval, hid],
      OutgoingPathStateKind_ordinal_range v⟩

/-- C9 at encoded Failed, Pending and Rejected states and at the tags 6 (outgoing) and 0
(incoming). -/
theorem C9_path_state_kinds_witness :
    FfiConverterTypeIncomingPathStateKind.Read
        (writeInt32 3 ++ (writeInt32 ((17 : Nat) : Int) ++ (writeUint64 500 ++ []))) =
      .ok (.Failed 17 500, []) ∧
    FfiConverterTypeIncomingPathStateKind.Read (writeInt32 1 ++ ([0, 0, 0, 1, 47] ++ [9])) =
      .ok (.Pending [47], [9]) ∧
    FfiConverterTypeOutgoingPathStateKind.Read
        (writeInt32 4 ++ (writeInt8 (if true then 1 else 0) ++ (writeUint64 3 ++ []))) =
      .ok (.Rejected true 3, []) ∧
    (∃ p, FfiConverterTypeOutgoingPathStateKind.Read (writeInt32 6 ++ []) = .error p) ∧
    (∃ p, FfiConverterTypeIncomingPathStateKind.Read (writeInt32 0 ++ []) = .error p) :=
  ⟨C9_path_state_kinds.1.2.2.1 17 500 [] (by decide) (by decide),
   C9_path_state_kinds.1.1 [47] [0, 0, 0, 1, 47] [9] (by decide) (by decide),
   C9_path_state_kinds.2.1.2.2.2.1 true 3 [] (by decide),
   (C9_path_state_kinds.2.2.1 6 [] (by decide) (by decide)).2 (by decide),
   (C9_path_state_kinds.2.2.1 0 [] (by decide) (by decide)).1 (by decide)⟩

/-- C10: the native destructor of an object is called at most once, and exactly when the
object has been destroyed and no call is in flight. For every sequence of
`incrementPointer`, `decrementPointer` and `destroy` steps on a fresh `FfiObject` in which
each `decrementPointer` follows its own successful `incrementPointer`, `freeRustArcPtr` has
run at most once after the sequence, and it has run if and only if `destroy` occurred and
no successful `incrementPointer` is left without its `decrementPointer`. -/
theorem C10_destructor_once (pointer : Nat) (steps : List Step) (ffiObject : FfiObject)
    (inFlight : Nat)
    (hrun : runSteps (newFfiObject pointer) 0 steps = some (ffiObject, inFlight)) :
    ffiObject.freeCalls ≤ 1 ∧
      (ffiObject.freeCalls = 1 ↔ (Step.destroy ∈ steps ∧ inFlight = 0)) := by
  obtain ⟨⟨_, _, hf⟩, hd⟩ :=
    runSteps_consistent steps (newFfiObject pointer) 0 (consistent_new pointer) ffiObject
      inFlight hrun
  have hd2 : ffiObject.destroyed = true ↔ Step.destroy ∈ steps := by
    rw [hd]
    simp [newFfiObject]
  rw [hf, ← hd2]
  by_cases hc : ffiObject.destroyed = true ∧ inFlight = 0
  · rw [if_pos hc]
    exact ⟨le_refl 1, fun _ => hc, fun _ => rfl⟩
  · rw [if_neg hc]
    exact ⟨Nat.zero_le 1, fun h => absurd h (by decide), fun h => absurd h hc⟩

/-- C10 at a run in which two calls overlap two `destroy` calls and a late call is refused. -/
theorem C10_destructor_once_witness :
    runSteps (newFfiObject 7) 0
        [.incrementPointer, .destroy, .incrementPointer, .decrementPointer, .destroy,
          .decrementPointer, .incrementPointer] = some (⟨7, -1, true, 1⟩, 0) ∧
    (⟨7, -1, true, 1⟩ : FfiObject).freeCalls ≤ 1 ∧
    ((⟨7, -1, true, 1⟩ : FfiObject).freeCalls = 1 ↔
      (Step.destroy ∈ [Step.incrementPointer, .destroy, .incrementPointer, .decrementPointer,
        .destroy, .decrementPointer, .incrementPointer] ∧ 0 = 0)) :=
  ⟨by decide,
   C10_destructor_once 7
     [.incrementPointer, .destroy, .incrementPointer, .decrementPointer, .destroy,
       .decrementPointer, .incrementPointer] ⟨7, -1, true, 1⟩ 0 (by decide)⟩

/-- C11: no native method is started on a freed object. Take any state reached from a fresh
`FfiObject` by `incrementPointer`, `decrementPointer` and `destroy` steps, and let `o` be
that state if `freeRustArcPtr` has run in it, or the state `Destroy` leaves when it is
called there with no call in flight. Then in `o` the destructor has run exactly once and
the call counter is -1; `incrementPointer` panics with `object has already been
destroyed`; every method of `NordDrop` ends with this panic whatever the native function
is (the function is not applied), leaving the object as it is; and a further `Destroy`
changes nothing. -/
theorem C11_no_call_on_freed_object (pointer : Nat) (steps : List Step) (reached : FfiObject)
    (inFlight : Nat)
    (hrun : runSteps (newFfiObject pointer) 0 steps = some (reached, inFlight))
    (o : FfiObject)
    (ho : (1 ≤ reached.freeCalls ∧ o = reached) ∨
      (inFlight = 0 ∧ o = NordDrop.Destroy reached)) :
    o.freeCalls = 1 ∧ o.callCounter = -1 ∧
    (∀ debugName, o.incrementPointer debugName =
      .error (.error (.errorString
        (debugName ++ goString " object has already been destroyed")))) ∧
    (∀ native a b c, NordDrop.DownloadFile o native a b c =
      (o, .error (.error (.errorString
        (goString "*NordDrop object has already been destroyed"))))) ∧
    (∀ native a, NordDrop.FinalizeTransfer o native a =
      (o, .error (.error (.errorString
        (goString "*NordDrop object has already been destroyed"))))) ∧
    (∀ native, NordDrop.NetworkRefresh o native =
      (o, .error (.error (.errorString
        (goString "*NordDrop object has already been destroyed"))))) ∧
    (∀ native a b, NordDrop.NewTransfer o native a b =
      (o, .error (.error (.errorString
        (goString "*NordDrop object has already been destroyed"))))) ∧
    (∀ native a, NordDrop.PurgeTransfers o native a =
      (o, .error (.error (.errorString
        (goString "*NordDrop object has already been destroyed"))))) ∧
    (∀ native a, NordDrop.PurgeTransfersUntil o native a =
      (o, .error (.error (.errorString
        (goString "*NordDrop object has already been destroyed"))))) ∧
    (∀ native a b, NordDrop.RejectFile o native a b =
      (o, .error (.error (.errorString
        (goString "*NordDrop object has already been destroyed"))))) ∧
    (∀ native a b, NordDrop.RemoveFile o native a b =
      (o, .error (.error (.errorString
        (goString "*NordDrop object has already been destroyed"))))) ∧
    (∀ native a, NordDrop.SetFdResolver o native a =
      (o, .error (.error (.errorString
        (goString "*NordDrop object has already been destroyed"))))) ∧
    (∀ native a b, NordDrop.Start o native a b =
      (o, .error (.error (.errorString
        (goString "*NordDrop object has already been destroyed"))))) ∧
    (∀ native, NordDrop.Stop o native =
      (o, .error (.error (.errorString
        (goString "*NordDrop object has already been destroyed"))))) ∧
    (∀ native a, NordDrop.TransfersSince o native a =
      (o, .error (.error (.errorString
        (goString "*NordDrop object has already been destroyed"))))) ∧
    FfiConverterNordDrop.Lower o =
      (o, .error (.error (.errorString
        (goString "*NordDrop object has already been destroyed")))) ∧
    NordDrop.Destroy o = o := by
  have hstate : o.destroyed = true ∧ o.callCounter = -1 ∧ o.freeCalls = 1 := by
    rcases ho with ⟨hfree, rfl⟩ | ⟨rfl, rfl⟩
    · obtain ⟨h1, _, h3, h4⟩ := runSteps_freed pointer steps o inFlight hrun hfree
      exact ⟨h1, h3, h4⟩
    · exact runSteps_destroy_frees pointer steps reached hrun
  obtain ⟨hd, hc, hf⟩ := hstate
  have hinc := incrementPointer_freed o hc (goString "*NordDrop")
  have hname : goString "*NordDrop" ++ goString " object has already been destroyed" =
      goString "*NordDrop object has already been destroyed" := by decide
  rw [hname] at hinc
  refine ⟨hf, hc, incrementPointer_freed o hc, ?_, ?_, ?_, ?_, ?_, ?_, ?_, ?_, ?_, ?_, ?_, ?_,
    ?_, destroy_of_destroyed o hd⟩
  · intro native a b c
    unfold NordDrop.DownloadFile
    rw [hinc]
  · intro native a
    unfold NordDrop.FinalizeTransfer
    rw [hinc]
  · intro native
    unfold NordDrop.NetworkRefresh
    rw [hinc]
  · intro native a b
    unfold NordDrop.NewTransfer
    rw [hinc]
  · intro native a
    unfold NordDrop.PurgeTransfers
    rw [hinc]
  · intro native a
    unfold NordDrop.PurgeTransfersUntil
    rw [hinc]
  · intro native a b
    unfold NordDrop.RejectFile
    rw [hinc]
  · intro native a b
    unfold NordDrop.RemoveFile
    rw [hinc]
  · intro native a
    unfold NordDrop.SetFdResolver
    rw [hinc]
  · intro native a b
    unfold NordDrop.Start
    rw [hinc]
  · intro native
    unfold NordDrop.Stop
    rw [hinc]
  · intro native a
    unfold NordDrop.TransfersSince
    rw [hinc]
  · unfold FfiConverterNordDrop.Lower
    rw [hinc]

/-- C11 at an object that is destroyed while a call is in flight and freed when this call
returns, and at a fresh object on which `Destroy` is called. -/
theorem C11_no_call_on_freed_object_witness :
    runSteps (newFfiObject 7) 0 [.incrementPointer, .destroy, .decrementPointer] =
      some (⟨7, -1, true, 1⟩, 0) ∧
    NordDrop.Stop ⟨7, -1, true, 1⟩ (fun _ _ => ⟨0, []⟩) =
      (⟨7, -1, true, 1⟩, .error (.error (.errorString
        (goString "*NordDrop object has already been destroyed")))) ∧
    NordDrop.Destroy ⟨7, -1, true, 1⟩ = ⟨7, -1, true, 1⟩ ∧
    NordDrop.Stop (NordDrop.Destroy (newFfiObject 7)) (fun _ _ => ⟨0, []⟩) =
      (NordDrop.Destroy (newFfiObject 7), .error (.error (.errorString
        (goString "*NordDrop object has already been destroyed")))) :=
  ⟨by decide,
   (C11_no_call_on_freed_object 7 [.incrementPointer, .destroy, .decrementPointer]
      ⟨7, -1, true, 1⟩ 0 (by decide) ⟨7, -1, true, 1⟩
      (Or.inl ⟨by decide, rfl⟩)).2.2.2.2.2.2.2.2.2.2.2.2.2.1 (fun _ _ => ⟨0, []⟩),
   (C11_no_call_on_freed_object 7 [.incrementPointer, .destroy, .decrementPointer]
      ⟨7, -1, true, 1⟩ 0 (by decide) ⟨7, -1, true, 1⟩
      (Or.inl ⟨by decide, rfl⟩)).2.2.2.2.2.2.2.2.2.2.2.2.2.2.2.2,
   (C11_no_call_on_freed_object 7 [] (newFfiObject 7) 0 (by decide)
      (NordDrop.Destroy (newFfiObject 7))
      (Or.inr ⟨rfl, rfl⟩)).2.2.2.2.2.2.2.2.2.2.2.2.2.1 (fun _ _ => ⟨0, []⟩)⟩

/-- C13: when the native side releases a callback, the callback is dropped and nothing else
changes. Let `cm` be a handle map reached from the empty one by insertions and removals,
and `h` a handle registered in it. Each of the four exported callback functions, called
with `h` and method index 0, returns `uniffiIdxCallbackFree`, stores the empty buffer in
`*outBuf`, calls no callback method and leaves the map that `drop` gives. In this map the
lookup of `h` fails, so that `Lift` panics with `no callback in handle map`; every other
handle has the entry it had before, so that `Lift` gives the same callback; the counter
is unchanged; and no later insertion returns `h`, as long as there are fewer than 2^64
insertions overall. -/
theorem C13_release_drops_callback (before : List HandleMapOp) (cm : concurrentHandleMap)
    (h val : Nat) (hcm : cm = (runOps newConcurrentHandleMap before).1)
    (hcount : countInserts before < 18446744073709551616)
    (hreg : cm.tryGet h = some val) :
    (∀ (EventCallback : Type) (memory : Nat → EventCallback) (args : List Byte),
      ∃ out, norddrop_cgo_EventCallback cm memory h 0 args = .ok out ∧
        out.handleMap = (FfiConverterCallbackInterface.drop cm h).2 ∧
        out.outBuf = some [] ∧ out.delivered = none ∧ out.result = uniffiIdxCallbackFree) ∧
    (∀ (memory : Nat → FdResolver) (args : List Byte),
      ∃ out, norddrop_cgo_FdResolver cm memory h 0 args = .ok out ∧
        out.handleMap = (FfiConverterCallbackInterface.drop cm h).2 ∧
        out.outBuf = some [] ∧ out.delivered = none ∧ out.result = uniffiIdxCallbackFree) ∧
    (∀ (memory : Nat → KeyStore) (args : List Byte),
      ∃ out, norddrop_cgo_KeyStore cm memory h 0 args = .ok out ∧
        out.handleMap = (FfiConverterCallbackInterface.drop cm h).2 ∧
        out.outBuf = some [] ∧ out.delivered = none ∧ out.result = uniffiIdxCallbackFree) ∧
    (∀ (memory : Nat → Logger) (args : List Byte),
      ∃ out, norddrop_cgo_Logger cm memory h 0 args = .ok out ∧
        out.handleMap = (FfiConverterCallbackInterface.drop cm h).2 ∧
        out.outBuf = some [] ∧ out.delivered = none ∧ out.result = uniffiIdxCallbackFree) ∧
    (FfiConverterCallbackInterface.drop cm h).2.tryGet h = none ∧
    (∀ (T : Type) (memory : Nat → T),
      FfiConverterCallbackInterface.Lift (FfiConverterCallbackInterface.drop cm h).2 memory h =
        .error (.error (.errorString
          (goString "no callback in handle map: " ++ fmtInt (h : Int))))) ∧
    (∀ h2, h2 ≠ h →
      (FfiConverterCallbackInterface.drop cm h).2.tryGet h2 = cm.tryGet h2 ∧
      ∀ (T : Type) (memory : Nat → T),
        FfiConverterCallbackInterface.Lift (FfiConverterCallbackInterface.drop cm h).2
          memory h2 = FfiConverterCallbackInterface.Lift cm memory h2) ∧
    (FfiConverterCallbackInterface.drop cm h).2.currentHandle = cm.currentHandle ∧
    (∀ later : List HandleMapOp,
      countInserts before + countInserts later < 18446744073709551616 →
      h ∉ (runOps (FfiConverterCallbackInterface.drop cm h).2 later).2) := by
  have hinv : cm.Invariant (0 + countInserts before) := by
    rw [hcm]
    exact runOps_invariant before newConcurrentHandleMap 0 invariant_new (by omega)
  rw [Nat.zero_add] at hinv
  have hlift : ∀ (T : Type) (memory : Nat → T),
      FfiConverterCallbackInterface.Lift cm memory h = .ok (memory val) := by
    intro T memory
    unfold FfiConverterCallbackInterface.Lift
    rw [hreg]
  have hget : (FfiConverterCallbackInterface.drop cm h).2.tryGet h = none := by
    unfold FfiConverterCallbackInterface.drop
    simp only [tryGet_remove, if_pos]
  refine ⟨?_, ?_, ?_, ?_, hget, ?_, ?_, ?_, ?_⟩
  · intro EventCallback memory args
    unfold norddrop_cgo_EventCallback
    rw [hlift]
    exact ⟨_, rfl, rfl, rfl, rfl, rfl⟩
  · intro memory args
    unfold norddrop_cgo_FdResolver
    rw [hlift]
    exact ⟨_, rfl, rfl, rfl, rfl, rfl⟩
  · intro memory args
    unfold norddrop_cgo_KeyStore
    rw [hlift]
    exact ⟨_, rfl, rfl, rfl, rfl, rfl⟩
  · intro memory args
    unfold norddrop_cgo_Logger
    rw [hlift]
    exact ⟨_, rfl, rfl, rfl, rfl, rfl⟩
  · intro T memory
    unfold FfiConverterCallbackInterface.Lift
    rw [hget]
  · intro h2 hne
    have h1 : (FfiConverterCallbackInterface.drop cm h).2.tryGet h2 = cm.tryGet h2 := by
      unfold FfiConverterCallbackInterface.drop
      simp only [tryGet_remove, if_neg hne]
    refine ⟨h1, ?_⟩
    intro T memory
    unfold FfiConverterCallbackInterface.Lift
    rw [h1]
  · unfold FfiConverterCallbackInterface.drop
    exact currentHandle_remove cm h
  · intro later hlater
    have hinv2 : (FfiConverterCallbackInterface.drop cm h).2.Invariant (countInserts before) := by
      unfold FfiConverterCallbackInterface.drop
      exact invariant_remove cm _ h hinv
    refine runOps_not_reissued h later _ (countInserts before) hinv2 hlater ?_ ?_
    · exact hget
    · have hle := (hinv.2.2 h val hreg).2
      unfold FfiConverterCallbackInterface.drop
      rw [currentHandle_remove]
      exact hle

/-- C13 at the map that holds the objects at the addresses 100 and 200 under the handles 1
and 2: after the release of handle 1, handle 2 still resolves to address 200 and the
insertion of address 100 returns the new handle 3. -/
theorem C13_release_drops_callback_witness :
    (runOps newConcurrentHandleMap [.insert 100, .insert 200]).1.tryGet 1 = some 100 ∧
    (FfiConverterCallbackInterface.drop
      (runOps newConcurrentHandleMap [.insert 100, .insert 200]).1 1).2.tryGet 1 = none ∧
    (FfiConverterCallbackInterface.drop
      (runOps newConcurrentHandleMap [.insert 100, .insert 200]).1 1).2.tryGet 2 =
        (runOps newConcurrentHandleMap [.insert 100, .insert 200]).1.tryGet 2 ∧
    (1 : Nat) ∉ (runOps (FfiConverterCallbackInterface.drop
      (runOps newConcurrentHandleMap [.insert 100, .insert 200]).1 1).2 [.insert 100]).2 :=
  ⟨by decide,
   (C13_release_drops_callback [.insert 100, .insert 200] _ 1 100 rfl (by decide)
      (by decide)).2.2.2.2.1,
   ((C13_release_drops_callback [.insert 100, .insert 200] _ 1 100 rfl (by decide)
      (by decide)).2.2.2.2.2.2.1 2 (by decide)).1,
   (C13_release_drops_callback [.insert 100, .insert 200] _ 1 100 rfl (by decide)
      (by decide)).2.2.2.2.2.2.2.2 [.insert 100] (by decide)⟩

/-- C14 (as stated, refuted in the engine model): a transfer whose only file has been
rejected is finalized without error and its record is then purged; afterwards the id is
unknown, and `download_file`, `reject_file` and `finalize_transfer` on it return the
invalid-input error, not the illegal-state-transition error. -/
theorem C14_counterexample :
    (Engine.finalize_transfer (Engine.run Engine.initial
      [.start none, .new_transfer 5 [[97]], .background 0 [97] .Rejected]) 0).2 = none ∧
    (Engine.step (Engine.finalize_transfer (Engine.run Engine.initial
      [.start none, .new_transfer 5 [[97]], .background 0 [97] .Rejected]) 0).1
      (.purge_transfers [0])).2 = none ∧
    (Engine.download_file (Engine.run (Engine.finalize_transfer (Engine.run Engine.initial
      [.start none, .new_transfer 5 [[97]], .background 0 [97] .Rejected]) 0).1
      [.purge_transfers [0]]) 0 [97]).2 = some .InvalidInput ∧
    (Engine.reject_file (Engine.run (Engine.finalize_transfer (Engine.run Engine.initial
      [.start none, .new_transfer 5 [[97]], .background 0 [97] .Rejected]) 0).1
      [.purge_transfers [0]]) 0 [97]).2 = some .InvalidInput ∧
    (Engine.finalize_transfer (Engine.run (Engine.finalize_transfer (Engine.run Engine.initial
      [.start none, .new_transfer 5 [[97]], .background 0 [97] .Rejected]) 0).1
      [.purge_transfers [0]]) 0).2 = some .InvalidInput := by
  decide

/-- C14 (amended): after `finalize_transfer` has succeeded on a transfer, no later
state-mutating operation on this transfer succeeds. In the engine model, for every run from
the initial state in which `finalize_transfer` on `tid` returns no error and every sequence
of later operations, `download_file`, `reject_file` and `finalize_transfer` on `tid` leave
the state as it is and return an error: the illegal-state-transition error when the record
of the transfer is in the store and the invalid-input error when it is not. The record is
in the store unless one of the later operations is a purge. -/
theorem C14_finalized_transfer_refuses (before later : List Engine.Op) (tid : Nat)
    (s : Engine.State)
    (hfin : (Engine.finalize_transfer (Engine.run Engine.initial before) tid).2 = none)
    (hs : s =
      Engine.run (Engine.finalize_transfer (Engine.run Engine.initial before) tid).1 later) :
    (∀ fid, Engine.download_file s tid fid =
      (s, some (if (s.findTransfer tid).isSome then .IllegalStateTransition
        else .InvalidInput))) ∧
    (∀ fid, Engine.reject_file s tid fid =
      (s, some (if (s.findTransfer tid).isSome then .IllegalStateTransition
        else .InvalidInput))) ∧
    Engine.finalize_transfer s tid =
      (s, some (if (s.findTransfer tid).isSome then .IllegalStateTransition
        else .InvalidInput)) ∧
    ((∀ op ∈ later, op.purges = false) → (s.findTransfer tid).isSome = true) := by
  have hissued : (Engine.run Engine.initial before).IdsIssued :=
    Engine.run_idsIssued before Engine.initial Engine.idsIssued_initial
  obtain ⟨hfa, hrec⟩ := Engine.finalize_transfer_ok _ tid hissued hfin
  have hsf : s.FinalizedAt tid := by
    rw [hs]
    exact Engine.run_finalizedAt tid later _ hfa
  have hmove := fun fid next => Engine.moveFile_finalized s tid fid next hsf
  have hfz := Engine.finalize_transfer_finalized s tid hsf
  refine ⟨?_, ?_, ?_, ?_⟩
  · intro fid
    exact Prod.ext (hmove fid .Started).1 (hmove fid .Started).2
  · intro fid
    exact Prod.ext (hmove fid .Rejected).1 (hmove fid .Rejected).2
  · exact Prod.ext hfz.1 hfz.2
  · intro hops
    rw [hs]
    exact Engine.run_keeps_record tid later _ hops hrec

/-- C14 at a transfer with the file `a` that is finalized while the file is started: the
file is rejected by the peer afterwards, and a download of the file, its rejection and a
second finalization are refused with the illegal-state-transition error. -/
theorem C14_finalized_transfer_refuses_witness :
    (Engine.finalize_transfer (Engine.run Engine.initial
      [.start none, .new_transfer 5 [[97]], .download_file 0 [97]]) 0).2 = none ∧
    (Engine.download_file (Engine.run (Engine.finalize_transfer (Engine.run Engine.initial
      [.start none, .new_transfer 5 [[97]], .download_file 0 [97]]) 0).1
      [.background 0 [97] .Rejected]) 0 [97]).2 = some .IllegalStateTransition ∧
    (Engine.reject_file (Engine.run (Engine.finalize_transfer (Engine.run Engine.initial
      [.start none, .new_transfer 5 [[97]], .download_file 0 [97]]) 0).1
      [.background 0 [97] .Rejected]) 0 [97]).2 = some .IllegalStateTransition ∧
    (Engine.finalize_transfer (Engine.run (Engine.finalize_transfer (Engine.run Engine.initial
      [.start none, .new_transfer 5 [[97]], .download_file 0 [97]]) 0).1
      [.background 0 [97] .Rejected]) 0).2 = some .IllegalStateTransition :=
  ⟨by decide,
   congrArg Prod.snd ((C14_finalized_transfer_refuses
      [.start none, .new_transfer 5 [[97]], .download_file 0 [97]]
      [.background 0 [97] .Rejected] 0 _ (by decide) rfl).1 [97]),
   congrArg Prod.snd ((C14_finalized_transfer_refuses
      [.start none, .new_transfer 5 [[97]], .download_file 0 [97]]
      [.background 0 [97] .Rejected] 0 _ (by decide) rfl).2.1 [97]),
   congrArg Prod.snd (C14_finalized_transfer_refuses
      [.start none, .new_transfer 5 [[97]], .download_file 0 [97]]
      [.background 0 [97] .Rejected] 0 _ (by decide) rfl).2.2.1⟩

/-- C15: deleting the record of something still in flight is rejected. In the engine
model, `remove_file` on a file that is not in a terminal state, `purge_transfers` on ids
among which is a transfer with a file that is not in a terminal state, and
`purge_transfers_until` with a cutoff that reaches such a transfer return an error and
leave every record as it is. A purge of a running engine that reaches no such transfer
succeeds and deletes the records of the transfers it reaches. -/
theorem C15_in_flight_records_kept (s : Engine.State) (tid : Nat) (t : Engine.TransferRecord)
    (ht : s.findTransfer tid = some t) :
    (∀ fid f, t.findFile fid = some f → f.state.terminal = false →
      (Engine.remove_file s tid fid).1 = s ∧ (Engine.remove_file s tid fid).2 ≠ none) ∧
    (t.inFlight = true → ∀ ids, tid ∈ ids →
      (Engine.purge_transfers s ids).1 = s ∧ (Engine.purge_transfers s ids).2 ≠ none) ∧
    (t.inFlight = true → ∀ cutoff, t.createdAt ≤ cutoff →
      (Engine.purge_transfers_until s cutoff).1 = s ∧
      (Engine.purge_transfers_until s cutoff).2 ≠ none) ∧
    (s.started = true → ∀ cutoff,
      (∀ t2 ∈ s.transfers, t2.createdAt ≤ cutoff → t2.inFlight = false) →
      (Engine.purge_transfers_until s cutoff).2 = none ∧
      (Engine.purge_transfers_until s cutoff).1.transfers =
        s.transfers.filter (fun t2 => !decide (t2.createdAt ≤ cutoff))) := by
  obtain ⟨hmem, hid⟩ := Engine.findTransfer_some s tid t ht
  refine ⟨?_, ?_, ?_, ?_⟩
  · intro fid f hf hterm
    unfold Engine.remove_file
    by_cases hst : s.started = true
    · simp [hst, ht, hf, hterm]
    · simp [hst]
  · intro hfl ids hids
    unfold Engine.purge_transfers
    split
    · exact ⟨rfl, Option.some_ne_none _⟩
    · have h := Engine.purge_inFlight s (fun t => ids.contains t.transferId) t hmem
        (by simp [hid, hids]) hfl
      exact ⟨h.1, by rw [h.2]; exact Option.some_ne_none _⟩
  · intro hfl cutoff hcut
    unfold Engine.purge_transfers_until
    have h := Engine.purge_inFlight s (fun t => decide (t.createdAt ≤ cutoff)) t hmem
      (by simp [hcut]) hfl
    exact ⟨h.1, by rw [h.2]; exact Option.some_ne_none _⟩
  · intro hst cutoff hall
    unfold Engine.purge_transfers_until
    exact Engine.purge_terminal s _ hst (fun t2 h2 hsel => hall t2 h2 (by simpa using hsel))

/-- C15 at a transfer created at time 5 whose file `a` is started: the removal of the file
and both purges are refused and keep the state; after the file has been rejected the
purge up to time 9 succeeds and the record is gone. -/
theorem C15_in_flight_records_kept_witness :
    (Engine.remove_file (Engine.run Engine.initial
        [.start none, .new_transfer 5 [[97]], .download_file 0 [97]]) 0 [97]).1 =
      Engine.run Engine.initial [.start none, .new_transfer 5 [[97]], .download_file 0 [97]] ∧
    (Engine.purge_transfers (Engine.run Engine.initial
        [.start none, .new_transfer 5 [[97]], .download_file 0 [97]]) [0]).2 ≠ none ∧
    (Engine.purge_transfers_until (Engine.run Engine.initial
        [.start none, .new_transfer 5 [[97]], .download_file 0 [97]]) 9).1 =
      Engine.run Engine.initial [.start none, .new_transfer 5 [[97]], .download_file 0 [97]] ∧
    (Engine.purge_transfers_until (Engine.run Engine.initial
        [.start none, .new_transfer 5 [[97]], .download_file 0 [97]]) 9).2 ≠ none ∧
    Engine.purge_transfers_until (Engine.run Engine.initial
        [.start none, .new_transfer 5 [[97]], .download_file 0 [97],
          .reject_file 0 [97]]) 9 = (⟨true, none, 1, []⟩, none) :=
  ⟨((C15_in_flight_records_kept _ 0 ⟨0, 5, false, [⟨[97], .Started⟩]⟩ (by decide)).1
      [97] ⟨[97], .Started⟩ (by decide) (by decide)).1,
   ((C15_in_flight_records_kept (Engine.run Engine.initial
      [.start none, .new_transfer 5 [[97]], .download_file 0 [97]]) 0
      ⟨0, 5, false, [⟨[97], .Started⟩]⟩ (by decide)).2.1 (by decide) [0] (by decide)).2,
   ((C15_in_flight_records_kept _ 0 ⟨0, 5, false, [⟨[97], .Started⟩]⟩ (by decide)).2.2.1
      (by decide) 9 (by decide)).1,
   ((C15_in_flight_records_kept (Engine.run Engine.initial
      [.start none, .new_transfer 5 [[97]], .download_file 0 [97]]) 0
      ⟨0, 5, false, [⟨[97], .Started⟩]⟩ (by decide)).2.2.1 (by decide) 9 (by decide)).2,
   by decide⟩

/-- C16: the file-descriptor resolver can only be set before the engine is started. In the
engine model, for every run from the initial state in which `start` returns no error and
every sequence of later operations, `set_fd_resolver` returns the
illegal-state-transition error and changes nothing, and the resolver is the one the engine
had when it was started. Before `start`, `set_fd_resolver` succeeds. -/
theorem C16_resolver_only_before_start (before later : List Engine.Op)
    (bind : Option Engine.Error) (s : Engine.State)
    (hstart : (Engine.start (Engine.run Engine.initial before) bind).2 = none)
    (hs : s = Engine.run (Engine.start (Engine.run Engine.initial before) bind).1 later) :
    (∀ resolver, Engine.set_fd_resolver s resolver = (s, some .IllegalStateTransition)) ∧
    s.fdResolver = (Engine.run Engine.initial before).fdResolver ∧
    (∀ resolver, Engine.set_fd_resolver (Engine.run Engine.initial before) resolver =
      ({ Engine.run Engine.initial before with fdResolver := some resolver }, none)) := by
  have hnot : (Engine.run Engine.initial before).started = false := by
    cases h : (Engine.run Engine.initial before).started with
    | false => rfl
    | true => simp [Engine.start, h] at hstart
  have hst1 : (Engine.start (Engine.run Engine.initial before) bind).1.started = true := by
    unfold Engine.start at hstart ⊢
    cases bind with
    | some e => simp [hnot] at hstart
    | none => simp [hnot]
  have hfd1 : (Engine.start (Engine.run Engine.initial before) bind).1.fdResolver =
      (Engine.run Engine.initial before).fdResolver := by
    unfold Engine.start
    cases bind with
    | some e => simp [hnot]
    | none => simp [hnot]
  have hst : s.started = true := by
    rw [hs]
    exact Engine.run_started later _ hst1
  refine ⟨?_, ?_, ?_⟩
  · intro resolver
    unfold Engine.set_fd_resolver
    simp [hst]
  · rw [hs, Engine.run_fdResolver later _ hst1, hfd1]
  · intro resolver
    unfold Engine.set_fd_resolver
    simp [hnot]

/-- C16 at an engine that is given resolver 7, started, and used for a new transfer: the
later resolver 8 is refused and resolver 7 stays. -/
theorem C16_resolver_only_before_start_witness :
    (Engine.start (Engine.run Engine.initial [.set_fd_resolver 7]) none).2 = none ∧
    Engine.set_fd_resolver (Engine.run (Engine.start
        (Engine.run Engine.initial [.set_fd_resolver 7]) none).1 [.new_transfer 5 [[97]]]) 8 =
      (Engine.run (Engine.start
        (Engine.run Engine.initial [.set_fd_resolver 7]) none).1 [.new_transfer 5 [[97]]],
        some .IllegalStateTransition) ∧
    (Engine.run (Engine.start
        (Engine.run Engine.initial [.set_fd_resolver 7]) none).1
        [.new_transfer 5 [[97]]]).fdResolver = some 7 :=
  ⟨by decide,
   (C16_resolver_only_before_start [.set_fd_resolver 7] [.new_transfer 5 [[97]]] none _
      (by decide) rfl).1 8,
   (C16_resolver_only_before_start [.set_fd_resolver 7] [.new_transfer 5 [[97]]] none _
      (by decide) rfl).2.1⟩

/-- C17: the number of simultaneously started outgoing files never exceeds the configured
limit, and a throttled file is promoted in FIFO order exactly when a slot frees. In the
admission model, in every state `s` reached from the empty controller with the given
limit: at most `limit` files are started; no slot is free while a file is throttled; when
a started file is released while files are throttled, the file throttled first is
started in its place; no other step starts a throttled file; a request for a new file
starts it if a slot is free and otherwise reports it as throttled and puts it last in
the queue; and no step changes the order of the files that wait. -/
theorem C17_admission_limit_fifo (limit : Nat) (ops : List Admission.Op)
    (s : Admission.State) (hs : s = Admission.run (Admission.initial limit) ops) :
    s.started.length ≤ limit ∧
    (s.throttled ≠ [] → s.started.length = limit) ∧
    (∀ file next rest, file ∈ s.started → s.throttled = next :: rest →
      Admission.release s file =
        ({ s with started := s.started.erase file ++ [next], throttled := rest },
          [.FileStarted next])) ∧
    (∀ op, (∀ file, op = .release file → file ∉ s.started) →
      ∀ f ∈ s.throttled, f ∉ (Admission.step s op).1.started ∧
        Admission.Event.FileStarted f ∉ (Admission.step s op).2) ∧
    (∀ file, file ∉ s.started → file ∉ s.throttled →
      Admission.request s file =
        if s.started.length < limit then
          ({ s with started := s.started ++ [file] }, [.FileStarted file])
        else ({ s with throttled := s.throttled ++ [file] }, [.FileThrottled file])) ∧
    (∀ op, ((Admission.step s op).1.throttled).Sublist
      (s.throttled ++ (match op with | .request file => [file] | .release _ => []))) := by
  obtain ⟨⟨hle, hfull, hdisj, hnodup⟩, hlimit⟩ :=
    Admission.run_invariant ops (Admission.initial limit) (Admission.invariant_initial limit)
  rw [← hs] at hle hfull hdisj hnodup hlimit
  have hlim : s.limit = limit := hlimit
  rw [hlim] at hle hfull
  refine ⟨hle, hfull, ?_, ?_, ?_, ?_⟩
  · intro file next rest hin hq
    unfold Admission.release
    rw [if_pos hin, hq]
  · intro op hop f hf
    cases op with
    | request file =>
      simp only [Admission.step, Admission.request]
      by_cases hknown : file ∈ s.started ∨ file ∈ s.throttled
      · rw [if_pos hknown]
        exact ⟨hdisj f hf, List.not_mem_nil _⟩
      · rw [if_neg hknown]
        rw [not_or] at hknown
        have hne : f ≠ file := by
          intro heq
          rw [heq] at hf
          exact hknown.2 hf
        by_cases hroom : s.started.length < s.limit
        · rw [if_pos hroom]
          refine ⟨?_, ?_⟩
          · simp only [List.mem_append, List.mem_singleton, not_or]
            exact ⟨hdisj f hf, hne⟩
          · simp only [List.mem_singleton, Admission.Event.FileStarted.injEq]
            exact hne
        · rw [if_neg hroom]
          refine ⟨hdisj f hf, ?_⟩
          simp
    | release file =>
      have hnot := hop file rfl
      simp only [Admission.step, Admission.release]
      rw [if_neg hnot]
      by_cases hq : file ∈ s.throttled
      · rw [if_pos hq]
        exact ⟨hdisj f hf, List.not_mem_nil _⟩
      · rw [if_neg hq]
        exact ⟨hdisj f hf, List.not_mem_nil _⟩
  · intro file h1 h2
    unfold Admission.request
    rw [if_neg (by rw [not_or]; exact ⟨h1, h2⟩), hlim]
  · intro op
    cases op with
    | request file =>
      simp only [Admission.step, Admission.request]
      by_cases hknown : file ∈ s.started ∨ file ∈ s.throttled
      · rw [if_pos hknown]
        exact List.sublist_append_left _ _
      · rw [if_neg hknown]
        by_cases hroom : s.started.length < s.limit
        · rw [if_pos hroom]
          exact List.sublist_append_left _ _
        · rw [if_neg hroom]
    | release file =>
      simp only [Admission.step, Admission.release, List.append_nil]
      by_cases hin : file ∈ s.started
      · rw [if_pos hin]
        cases hq : s.throttled with
        | nil => exact List.Sublist.refl _
        | cons next rest => exact List.sublist_cons_self _ _
      · rw [if_neg hin]
        by_cases hq : file ∈ s.throttled
        · rw [if_pos hq]
          exact List.erase_sublist _ _
        · rw [if_neg hq]

/-- C17 at a controller with the limit 1: the file `a` is started, the files `b` and `c`
are throttled in this order, and the release of `a` starts `b` and leaves `c` waiting. -/
theorem C17_admission_limit_fifo_witness :
    Admission.run (Admission.initial 1)
        [.request (0, [97]), .request (0, [98]), .request (0, [99])] =
      ⟨1, [(0, [97])], [(0, [98]), (0, [99])]⟩ ∧
    (⟨1, [(0, [97])], [(0, [98]), (0, [99])]⟩ : Admission.State).started.length ≤ 1 ∧
    Admission.release ⟨1, [(0, [97])], [(0, [98]), (0, [99])]⟩ (0, [97]) =
      (⟨1, [(0, [98])], [(0, [99])]⟩, [.FileStarted (0, [98])]) :=
  ⟨by decide,
   (C17_admission_limit_fifo 1 [.request (0, [97]), .request (0, [98]), .request (0, [99])]
      ⟨1, [(0, [97])], [(0, [98]), (0, [99])]⟩ (by decide)).1,
   (C17_admission_limit_fifo 1 [.request (0, [97]), .request (0, [98]), .request (0, [99])]
      ⟨1, [(0, [97])], [(0, [98]), (0, [99])]⟩ (by decide)).2.2.1 (0, [97]) (0, [98])
      [(0, [99])] (by decide) rfl⟩

/-- C18 (the code departs from it at one input): decoding undoes encoding for strings and
byte arrays anywhere in a buffer except for the empty value at the very end. `Write`
produces `00 00 00 00` for the empty string, and `Read` applied to exactly these bytes
panics with `io.EOF`; for every other string `s` shorter than `2^31` bytes and byte
sequence `rest` (`s` not empty, or `rest` not empty), `Read` applied to `Write(s)` followed
by `rest` returns `s` and leaves exactly `rest`. The same holds for `FfiConverterBytes`. -/
theorem C18_roundtrip_fails_only_for_empty_last :
    (FfiConverterString.Write [] = .ok [0, 0, 0, 0] ∧
      FfiConverterString.Read ([0, 0, 0, 0] ++ []) = .error (.error .EOF)) ∧
    (FfiConverterBytes.Write [] = .ok [0, 0, 0, 0] ∧
      FfiConverterBytes.Read ([0, 0, 0, 0] ++ []) = .error (.error .EOF)) ∧
    (∀ (s : GoString) (rest : Reader), s.length ≤ MaxInt32 → (s ≠ [] ∨ rest ≠ []) →
      ∃ bs, FfiConverterString.Write s = .ok bs ∧
        FfiConverterString.Read (bs ++ rest) = .ok (s, rest)) ∧
    (∀ (s : List Byte) (rest : Reader), s.length ≤ MaxInt32 → (s ≠ [] ∨ rest ≠ []) →
      ∃ bs, FfiConverterBytes.Write s = .ok bs ∧
        FfiConverterBytes.Read (bs ++ rest) = .ok (s, rest)) := by
  refine ⟨⟨by decide, by decide⟩, ⟨by decide, by decide⟩, ?_, ?_⟩
  · intro s rest h1 hne
    exact ⟨_, (String_Read_Write_general s rest h1 hne).1,
      (String_Read_Write_general s rest h1 hne).2⟩
  · intro s rest h1 hne
    exact ⟨_, (Bytes_Read_Write_general s rest h1 hne).1,
      (Bytes_Read_Write_general s rest h1 hne).2⟩

/-- C18 at the empty string followed by one byte and at a two-byte array at the end. -/
theorem C18_roundtrip_fails_only_for_empty_last_witness :
    (∃ bs, FfiConverterString.Write [] = .ok bs ∧
        FfiConverterString.Read (bs ++ [7]) = .ok ([], [7])) ∧
    (∃ bs, FfiConverterBytes.Write [1, 2] = .ok bs ∧
        FfiConverterBytes.Read (bs ++ []) = .ok ([1, 2], [])) :=
  ⟨C18_roundtrip_fails_only_for_empty_last.2.2.1 [] [7] (by decide) (by decide),
   C18_roundtrip_fails_only_for_empty_last.2.2.2 [1, 2] [] (by decide) (by decide)⟩

/-- C19: a zero-length string or byte array that is the last item of a buffer cannot be
decoded. `FfiConverterString.Read` and `FfiConverterBytes.Read` applied to exactly the
bytes `00 00 00 00` panic with `io.EOF`, whereas the same bytes followed by at least one
more byte decode to the empty value and leave the rest unread. Hence an event whose final
field is an empty string (FileUploaded, FilePaused, FilePending, FinalizeChecksumFinished
or VerifyChecksumFinished with an empty file id, FileDownloaded with an empty final path),
an error with an empty message and a log line with an empty message all fail to decode. -/
theorem C19_empty_last_item_fails :
    (FfiConverterString.Read [0, 0, 0, 0] = .error (.error .EOF) ∧
      FfiConverterBytes.Read [0, 0, 0, 0] = .error (.error .EOF)) ∧
    (∀ (b : Byte) (rest : Reader),
      FfiConverterString.Read (0 :: 0 :: 0 :: 0 :: b :: rest) = .ok ([], b :: rest) ∧
      FfiConverterBytes.Read (0 :: 0 :: 0 :: 0 :: b :: rest) = .ok ([], b :: rest)) ∧
    (∀ (ts : Int) (transferId fileId : GoString) (e : EventKind), IsInt64 ts →
      transferId.length ≤ MaxInt32 → fileId.length ≤ MaxInt32 →
      e ∈ [EventKind.FileDownloaded transferId fileId [], .FileUploaded transferId [],
        .FilePaused transferId [], .FilePending transferId [],
        .FinalizeChecksumFinished transferId [], .VerifyChecksumFinished transferId []] →
      ∃ bs, FfiConverterTypeEvent.Write ⟨ts, e⟩ = .ok bs ∧
        FfiConverterTypeEvent.Read bs = .error (.error .EOF) ∧
        foreignCallbackCallbackInterfaceEventCallback.InvokeOnEvent bs = .error (.error .EOF)) ∧
    (∀ errorID : Nat, errorID < 4294967296 →
      FfiConverterTypeLibdropError.Read (writeUint32 errorID ++ [0, 0, 0, 0]) =
        .error (.error .EOF) ∧
      FfiConverterTypeLibdropError.Lift (writeUint32 errorID ++ [0, 0, 0, 0]) =
        .error (.error .EOF)) ∧
    (∀ level : Int, -2147483648 ≤ level → level < 2147483648 →
      foreignCallbackCallbackInterfaceLogger.InvokeOnLog (writeInt32 level ++ [0, 0, 0, 0]) =
        .error (.error .EOF)) := by
  refine ⟨⟨String_Read_empty_last, by decide⟩, ?_, ?_, ?_, InvokeOnLog_empty_message⟩
  · intro b rest
    exact ⟨String_Read_empty_then b rest, Bytes_Read_empty_then b rest⟩
  · intro ts transferId fileId e hts ht hf he
    obtain ⟨bs, hw, hr⟩ := Event_empty_last_field ts transferId fileId e hts ht hf he
    refine ⟨bs, hw, hr, ?_⟩
    unfold foreignCallbackCallbackInterfaceEventCallback.InvokeOnEvent
    rw [hr]
  · intro errorID h
    have hr := LibdropError_Read_empty_message errorID h
    refine ⟨hr, ?_⟩
    unfold FfiConverterTypeLibdropError.Lift LiftFromRustBuffer
    rw [hr]

/-- C19 at a FileUploaded event with an empty file id, at a BadInput error with an empty
message and at an Info log line with an empty message. -/
theorem C19_empty_last_item_fails_witness :
    (∃ bs, FfiConverterTypeEvent.Write ⟨1700000000000, .FileUploaded [116] []⟩ = .ok bs ∧
        FfiConverterTypeEvent.Read bs = .error (.error .EOF) ∧
        foreignCallbackCallbackInterfaceEventCallback.InvokeOnEvent bs = .error (.error .EOF)) ∧
    FfiConverterTypeLibdropError.Lift (writeUint32 3 ++ [0, 0, 0, 0]) = .error (.error .EOF) ∧
    foreignCallbackCallbackInterfaceLogger.InvokeOnLog (writeInt32 4 ++ [0, 0, 0, 0]) =
      .error (.error .EOF) :=
  ⟨C19_empty_last_item_fails.2.2.1 1700000000000 [116] [] (.FileUploaded [116] [])
      (by decide) (by decide) (by decide) (by decide),
   (C19_empty_last_item_fails.2.2.2.1 3 (by decide)).2,
   C19_empty_last_item_fails.2.2.2.2 4 (by decide) (by decide)⟩

/-- C20: the string decoder never returns a shortened or over-read string. Whenever
`FfiConverterString.Read` returns a value, the input is a four-byte prefix whose
big-endian signed value `n` is not negative, followed by the returned value, which is `n`
bytes long, followed by the unread rest (so exactly `4 + n` bytes were consumed); when
`n` is negative or fewer than `n` bytes follow the prefix, decoding fails. -/
theorem C20_string_read_exact :
    (∀ (reader : Reader) (v : GoString) (rest : Reader),
      FfiConverterString.Read reader = .ok (v, rest) →
      ∃ b0 b1 b2 b3, reader = [b0, b1, b2, b3] ++ (v ++ rest) ∧
        0 ≤ toSigned 32 (beNat [b0, b1, b2, b3]) ∧
        (v.length : Int) = toSigned 32 (beNat [b0, b1, b2, b3]) ∧
        (reader.length : Int) - rest.length = 4 + toSigned 32 (beNat [b0, b1, b2, b3])) ∧
    (∀ (b0 b1 b2 b3 : Byte) (tl : Reader),
      (toSigned 32 (beNat [b0, b1, b2, b3]) < 0 ∨
        (tl.length : Int) < toSigned 32 (beNat [b0, b1, b2, b3])) →
      ∃ p, FfiConverterString.Read (b0 :: b1 :: b2 :: b3 :: tl) = .error p) := by
  refine ⟨?_, String_Read_fails⟩
  intro reader v rest h
  obtain ⟨b0, b1, b2, b3, hr, h0, hl⟩ := String_Read_ok reader v rest h
  refine ⟨b0, b1, b2, b3, hr, h0, hl, ?_⟩
  rw [← hl, hr]
  simp only [List.length_append, List.length_cons, List.length_nil]
  push_cast
  ring

/-- C20 at a two-byte string followed by one byte, at a length prefix of 3 with two bytes
behind it, and at the length prefix -1. -/
theorem C20_string_read_exact_witness :
    (∃ b0 b1 b2 b3, ([0, 0, 0, 2, 104, 105, 9] : Reader) = [b0, b1, b2, b3] ++ ([104, 105] ++ [9]) ∧
        0 ≤ toSigned 32 (beNat [b0, b1, b2, b3]) ∧
        ((([104, 105] : GoString).length : Nat) : Int) = toSigned 32 (beNat [b0, b1, b2, b3]) ∧
        ((([0, 0, 0, 2, 104, 105, 9] : Reader).length : Nat) : Int) - (([9] : Reader).length : Nat) =
          4 + toSigned 32 (beNat [b0, b1, b2, b3])) ∧
    (∃ p, FfiConverterString.Read (0 :: 0 :: 0 :: 3 :: [104, 105]) = .error p) ∧
    (∃ p, FfiConverterString.Read (255 :: 255 :: 255 :: 255 :: [104, 105]) = .error p) :=
  ⟨C20_string_read_exact.1 [0, 0, 0, 2, 104, 105, 9] [104, 105] [9] (by decide),
   C20_string_read_exact.2 0 0 0 3 [104, 105] (by decide),
   C20_string_read_exact.2 255 255 255 255 [104, 105] (by decide)⟩

/-- C21: lifting a whole buffer accepts no trailing bytes. For every decoder and every
buffer, `LiftFromRustBuffer` returns the value `v` if and only if the decoder's `Read`
succeeds on the buffer with the result `v` and leaves nothing unread; when `Read` succeeds
and leaves bytes unread, `LiftFromRustBuffer` panics with `Junk remaining in buffer after
lifting` followed by these bytes; and a panic of `Read` is the panic of
`LiftFromRustBuffer`. -/
theorem C21_lift_accepts_no_trailing_bytes {α : Type}
    (read : Reader → Except PanicValue (α × Reader)) (rbuf : RustBuffer) :
    (∀ v, LiftFromRustBuffer read rbuf = .ok v ↔ read rbuf = .ok (v, [])) ∧
    (∀ item rest, read rbuf = .ok (item, rest) → rest ≠ [] →
      LiftFromRustBuffer read rbuf =
        .error (.error (.errorString
          (goString "Junk remaining in buffer after lifting: " ++ rest)))) ∧
    (∀ p, read rbuf = .error p → LiftFromRustBuffer read rbuf = .error p) := by
  refine ⟨?_, ?_, ?_⟩
  · intro v
    unfold LiftFromRustBuffer
    cases hr : read rbuf with
    | error p =>
      simp only
      constructor <;> intro h <;> cases h
    | ok res =>
      obtain ⟨item, rest⟩ := res
      simp only
      cases rest with
      | nil =>
        simp only [List.length_nil, gt_iff_lt, Nat.lt_irrefl, if_false, Except.ok.injEq,
          Prod.mk.injEq, and_true]
      | cons b tl =>
        simp only [List.length_cons, gt_iff_lt, Nat.zero_lt_succ, if_true]
        constructor
        · intro h
          cases h
        · intro h
          cases h
  · intro item rest hr hne
    unfold LiftFromRustBuffer
    rw [hr]
    simp only
    rw [if_pos (List.length_pos.mpr hne)]
  · intro p hr
    unfold LiftFromRustBuffer
    rw [hr]

/-- C21 at the string decoder: the encoding of `hi` is lifted, and the same bytes followed
by the byte 9 are refused. -/
theorem C21_lift_accepts_no_trailing_bytes_witness :
    LiftFromRustBuffer FfiConverterString.Read [0, 0, 0, 2, 104, 105] = .ok [104, 105] ∧
    LiftFromRustBuffer FfiConverterString.Read [0, 0, 0, 2, 104, 105, 9] =
      .error (.error (.errorString
        (goString "Junk remaining in buffer after lifting: " ++ [9]))) :=
  ⟨((C21_lift_accepts_no_trailing_bytes FfiConverterString.Read
      [0, 0, 0, 2, 104, 105]).1 [104, 105]).2 (by decide),
   (C21_lift_accepts_no_trailing_bytes FfiConverterString.Read
      [0, 0, 0, 2, 104, 105, 9]).2.1 [104, 105] [9] (by decide) (by decide)⟩

/-- C22: events survive the boundary unchanged. For every `Event` whose string fields
(present optional strings included) are not empty and shorter than `2^31` bytes, whose
file lists have fewer than `2^31` elements and whose status codes are among the 24
declared ones, `FfiConverterTypeEvent.Write` produces bytes from which
`FfiConverterTypeEvent.Read` returns the same event (same timestamp, same kind with equal
fields) and which it consumes entirely, so that `InvokeOnEvent` hands this event to the
callback; followed by further bytes, `Read` leaves exactly these unread. -/
theorem C22_event_roundtrip (e : Event) (h : e.Ok) :
    ∃ bs, FfiConverterTypeEvent.Write e = .ok bs ∧
      FfiConverterTypeEvent.Read bs = .ok (e, []) ∧
      LiftFromRustBuffer FfiConverterTypeEvent.Read bs = .ok e ∧
      foreignCallbackCallbackInterfaceEventCallback.InvokeOnEvent bs =
        .ok (e, uniffiCallbackResultSuccess) ∧
      ∀ rest, FfiConverterTypeEvent.Read (bs ++ rest) = .ok (e, rest) := by
  obtain ⟨bs, hw, hr⟩ := roundTrips_event e h
  have h0 := hr []
  rw [List.append_nil] at h0
  refine ⟨bs, hw, h0, ?_, ?_, hr⟩
  · unfold LiftFromRustBuffer
    rw [h0]
    rfl
  · unfold foreignCallbackCallbackInterfaceEventCallback.InvokeOnEvent
    rw [h0]

/-- C22 at the event of a queued request with two files, one of them with a base
directory, and at a failure event with an OS error code. -/
theorem C22_event_roundtrip_witness :
    (∃ bs, FfiConverterTypeEvent.Write sampleEvent = .ok bs ∧
      FfiConverterTypeEvent.Read bs = .ok (sampleEvent, []) ∧
      LiftFromRustBuffer FfiConverterTypeEvent.Read bs = .ok sampleEvent ∧
      foreignCallbackCallbackInterfaceEventCallback.InvokeOnEvent bs =
        .ok (sampleEvent, uniffiCallbackResultSuccess) ∧
      ∀ rest, FfiConverterTypeEvent.Read (bs ++ rest) = .ok (sampleEvent, rest)) ∧
    (∃ bs, FfiConverterTypeEvent.Write ⟨7, .FileFailed [105] [102] ⟨7, some 13⟩⟩ = .ok bs ∧
      FfiConverterTypeEvent.Read bs = .ok (⟨7, .FileFailed [105] [102] ⟨7, some 13⟩⟩, []) ∧
      LiftFromRustBuffer FfiConverterTypeEvent.Read bs =
        .ok ⟨7, .FileFailed [105] [102] ⟨7, some 13⟩⟩ ∧
      foreignCallbackCallbackInterfaceEventCallback.InvokeOnEvent bs =
        .ok (⟨7, .FileFailed [105] [102] ⟨7, some 13⟩⟩, uniffiCallbackResultSuccess) ∧
      ∀ rest, FfiConverterTypeEvent.Read (bs ++ rest) =
        .ok (⟨7, .FileFailed [105] [102] ⟨7, some 13⟩⟩, rest)) :=
  ⟨C22_event_roundtrip sampleEvent (by decide),
   C22_event_roundtrip ⟨7, .FileFailed [105] [102] ⟨7, some 13⟩⟩ (by decide)⟩

/-- C23: the configuration survives the boundary unchanged. For every `Config` whose two
strings are shorter than `2^31` bytes (empty strings included, each optional field absent
or present), `FfiConverterTypeConfig.Write` produces the eight fields in the wire order
DirDepthLimit, TransferFileLimit, MooseEventPath, MooseProd, StoragePath,
ChecksumEventsSizeThreshold, ChecksumEventsGranularity, ConnectionRetries, and
`FfiConverterTypeConfig.Read` applied to these bytes returns the same `Config` and
consumes every byte; followed by further bytes, it leaves exactly these unread. -/
theorem C23_config_roundtrip (c : Config) (h : c.Ok) :
    FfiConverterTypeConfig.Write c = .ok c.encoding ∧
    FfiConverterTypeConfig.Read c.encoding = .ok (c, []) ∧
    LiftFromRustBuffer FfiConverterTypeConfig.Read c.encoding = .ok c ∧
    (∀ rest, FfiConverterTypeConfig.Read (c.encoding ++ rest) = .ok (c, rest)) := by
  have hr := Config_Read_written c [] h
  rw [List.append_nil] at hr
  refine ⟨Config_Write_eq c h, hr, ?_, fun rest => Config_Read_written c rest h⟩
  unfold LiftFromRustBuffer
  rw [hr]
  rfl

/-- C23 at a configuration with two empty strings, an absent threshold and a present
granularity and retry count. -/
theorem C23_config_roundtrip_witness :
    FfiConverterTypeConfig.Write ⟨5, 1000, [], true, [], none, some 7, some 3⟩ =
      .ok (Config.encoding ⟨5, 1000, [], true, [], none, some 7, some 3⟩) ∧
    FfiConverterTypeConfig.Read (Config.encoding ⟨5, 1000, [], true, [], none, some 7, some 3⟩) =
      .ok (⟨5, 1000, [], true, [], none, some 7, some 3⟩, []) :=
  ⟨(C23_config_roundtrip ⟨5, 1000, [], true, [], none, some 7, some 3⟩
      (by unfold Config.Ok; simp; decide)).1,
   (C23_config_roundtrip ⟨5, 1000, [], true, [], none, some 7, some 3⟩
      (by unfold Config.Ok; simp; decide)).2.1⟩

/-- C24: a `Status` keeps its code and its optional OS error across the boundary. For
every one of the 24 declared status codes `c` and every optional OS error code `o`
(absent or any `int32`), `FfiConverterTypeStatus.Write` produces the four big-endian bytes
of `c` followed by the single byte 0 when `o` is absent and by the byte 1 and the four
big-endian bytes of the error code when it is present, and `FfiConverterTypeStatus.Read`
applied to these bytes returns the same `Status` and consumes every byte. -/
theorem C24_status_roundtrip (c : StatusCode) (o : Option Int) (hc : StatusCodeDeclared c)
    (ho : ∀ i, o = some i → IsInt32 i) :
    FfiConverterTypeStatus.Write ⟨c, o⟩ =
      .ok (writeInt32 (c : Int) ++ optionalEncoding writeInt32 o) ∧
    (o = none → optionalEncoding writeInt32 o = [0]) ∧
    (∀ i, o = some i → optionalEncoding writeInt32 o = 1 :: writeInt32 i ∧
      (writeInt32 i).length = 4 ∧ readInt32 (writeInt32 i) = .ok (i, [])) ∧
    FfiConverterTypeStatus.Read (writeInt32 (c : Int) ++ optionalEncoding writeInt32 o) =
      .ok (⟨c, o⟩, []) ∧
    (∀ rest, FfiConverterTypeStatus.Read
      ((writeInt32 (c : Int) ++ optionalEncoding writeInt32 o) ++ rest) =
        .ok (⟨c, o⟩, rest)) := by
  have hr := Status_Read_written c o [] hc ho
  rw [List.append_nil] at hr
  refine ⟨Status_Write_eq c o hc, ?_, ?_, hr, fun rest => Status_Read_written c o rest hc ho⟩
  · intro h
    rw [h]
    rfl
  · intro i h
    obtain ⟨h1, h2⟩ := ho i h
    refine ⟨by rw [h]; rfl, length_beBytes 4 _, ?_⟩
    have := readInt32_writeInt32 i [] h1 h2
    rw [List.append_nil] at this
    exact this

/-- C24 at the status `IoError` with the OS error 13, at `PermissionDenied` with the OS
error -1, and at `Finalized` without an OS error. -/
theorem C24_status_roundtrip_witness :
    FfiConverterTypeStatus.Read
        (writeInt32 ((StatusCodeIoError : Nat) : Int) ++ optionalEncoding writeInt32 (some 13)) =
      .ok (⟨StatusCodeIoError, some 13⟩, []) ∧
    FfiConverterTypeStatus.Write ⟨StatusCodePermissionDenied, some (-1)⟩ =
      .ok (writeInt32 ((StatusCodePermissionDenied : Nat) : Int) ++
        optionalEncoding writeInt32 (some (-1))) ∧
    optionalEncoding writeInt32 (none : Option Int) = [0] :=
  ⟨(C24_status_roundtrip StatusCodeIoError (some 13) (by decide)
      (by intro i h; cases h; decide)).2.2.2.1,
   (C24_status_roundtrip StatusCodePermissionDenied (some (-1)) (by decide)
      (by intro i h; cases h; decide)).1,
   (C24_status_roundtrip StatusCodeFinalized none (by decide)
      (by intro i h; cases h)).2.1 rfl⟩

/-- C25 (counterexample): a list of one `Path` descriptor whose path has 2^31 bytes is a
list of fewer than 2^31 descriptors, but `FfiConverterSequenceTypeTransferDescriptor.Write`
emits nothing for it: it panics in the size guard of `FfiConverterString.Write`. -/
theorem C25_counterexample :
    FfiConverterSequenceTypeTransferDescriptor.Write
        [.Path (List.replicate 2147483648 0)] =
      .error (.message (goString "String is too large to fit into Int32")) :=
  TransferDescriptor_sequence_Write_too_long (List.replicate 2147483648 0)
    (lt_of_lt_of_eq (by decide : MaxInt32 < 2147483648) (List.length_replicate _ _).symm)

/-- C25 (amended): a transfer descriptor list whose strings are shorter than `2^31` bytes
is passed complete, in order and with any pre-supplied descriptor preserved. For every
list of fewer than `2^31` such descriptors, `Write` emits the big-endian 32-bit element
count followed by the encodings of the elements in input order, where a `Path` descriptor
is the tag 1 and its length-prefixed path and an `Fd` descriptor is the tag 2, the
length-prefixed filename and content URI and the optional descriptor (the byte 0 when
absent, the byte 1 and four big-endian bytes when present). When the last element is an
`Fd` descriptor or a `Path` descriptor with a non-empty path (or the list is empty),
`Read` applied to that output returns the same list and consumes every byte; followed by
further bytes, `Read` returns the list in every case and leaves these bytes unread. -/
theorem C25_descriptor_list_encoding (l : List TransferDescriptor)
    (hlen : l.length ≤ MaxInt32) (h : ∀ d ∈ l, d.Ok) :
    FfiConverterSequenceTypeTransferDescriptor.Write l =
      .ok (writeInt32 (l.length : Int) ++ TransferDescriptor.encodingOfList l) ∧
    (∀ d ds, TransferDescriptor.encodingOfList (d :: ds) =
      d.encoding ++ TransferDescriptor.encodingOfList ds) ∧
    (∀ path, (TransferDescriptor.Path path).encoding =
      writeInt32 1 ++ (writeInt32 (path.length : Int) ++ path)) ∧
    (∀ filename contentUri, (TransferDescriptor.Fd filename contentUri none).encoding =
      writeInt32 2 ++ ((writeInt32 (filename.length : Int) ++ filename) ++
        ((writeInt32 (contentUri.length : Int) ++ contentUri) ++ [0]))) ∧
    (∀ filename contentUri fd, (TransferDescriptor.Fd filename contentUri (some fd)).encoding =
      writeInt32 2 ++ ((writeInt32 (filename.length : Int) ++ filename) ++
        ((writeInt32 (contentUri.length : Int) ++ contentUri) ++ (1 :: writeInt32 fd)))) ∧
    ((∀ d, l.getLast? = some d → d.endsBuffer = true) →
      FfiConverterSequenceTypeTransferDescriptor.Read
        (writeInt32 (l.length : Int) ++ TransferDescriptor.encodingOfList l) = .ok (l, [])) ∧
    (∀ rest, rest ≠ [] →
      FfiConverterSequenceTypeTransferDescriptor.Read
        ((writeInt32 (l.length : Int) ++ TransferDescriptor.encodingOfList l) ++ rest) =
          .ok (l, rest)) := by
  refine ⟨TransferDescriptor_sequence_Write_eq l hlen h, fun _ _ => rfl, fun _ => rfl,
    fun _ _ => rfl, fun _ _ _ => rfl, ?_, ?_⟩
  · intro hend
    have hr := TransferDescriptor_sequence_Read_written l [] hlen h (Or.inl hend)
    rw [List.append_nil] at hr
    exact hr
  · intro rest hrest
    exact TransferDescriptor_sequence_Read_written l rest hlen h (Or.inr hrest)

/-- C25 (amended) at a list of a `Path` descriptor with an empty path followed by an `Fd`
descriptor with the pre-supplied descriptor 7. -/
theorem C25_descriptor_list_encoding_witness :
    FfiConverterSequenceTypeTransferDescriptor.Write [.Path [], .Fd [102] [117] (some 7)] =
      .ok (writeInt32 (([.Path [], .Fd [102] [117] (some 7)] :
          List TransferDescriptor).length : Int) ++
        TransferDescriptor.encodingOfList [.Path [], .Fd [102] [117] (some 7)]) ∧
    FfiConverterSequenceTypeTransferDescriptor.Read
        (writeInt32 (([.Path [], .Fd [102] [117] (some 7)] :
          List TransferDescriptor).length : Int) ++
        TransferDescriptor.encodingOfList [.Path [], .Fd [102] [117] (some 7)]) =
      .ok ([.Path [], .Fd [102] [117] (some 7)], []) :=
  ⟨(C25_descriptor_list_encoding [.Path [], .Fd [102] [117] (some 7)] (by decide)
      (by
        intro d hd
        simp only [List.mem_cons, List.mem_singleton, List.not_mem_nil, or_false] at hd
        rcases hd with rfl | rfl
        · exact (by decide : ([] : GoString).length ≤ MaxInt32)
        · exact ⟨by decide, by decide, fun i hi => by cases hi; decide⟩)).1,
   (C25_descriptor_list_encoding [.Path [], .Fd [102] [117] (some 7)] (by decide)
      (by
        intro d hd
        simp only [List.mem_cons, List.mem_singleton, List.not_mem_nil, or_false] at hd
        rcases hd with rfl | rfl
        · exact (by decide : ([] : GoString).length ≤ MaxInt32)
        · exact ⟨by decide, by decide, fun i hi => by cases hi; decide⟩)).2.2.2.2.2.1
      (by
        intro d hd
        cases hd
        rfl)⟩

/-- C26: the error codec is not symmetric. For every `LibdropError` value, whichever of the
ten variants it wraps and whatever its message, `FfiConverterTypeLibdropError.Write` emits
exactly the four bytes of the big-endian variant id (1..10) and nothing of the message.
`Read` decodes only an id that is followed by a length-prefixed message, so it fails on
every four-byte input; hence `Read` and `Lift` applied to the output of `Write` panic with
`io.EOF` instead of returning the error. -/
theorem C26_error_codec_not_symmetric (k : LibdropErrorKind) (m : GoString) :
    FfiConverterTypeLibdropError.Write (.LibdropError (.LibdropErrorVariant k m)) =
      .ok [0, 0, 0, byteOf k.ordinal] ∧
    ([0, 0, 0, byteOf k.ordinal] : List Byte) = writeInt32 (k.ordinal : Int) ∧
    1 ≤ k.ordinal ∧ k.ordinal ≤ 10 ∧
    FfiConverterTypeLibdropError.Read [0, 0, 0, byteOf k.ordinal] = .error (.error .EOF) ∧
    FfiConverterTypeLibdropError.Lift [0, 0, 0, byteOf k.ordinal] = .error (.error .EOF) ∧
    (∀ b0 b1 b2 b3 : Byte,
      FfiConverterTypeLibdropError.Read [b0, b1, b2, b3] = .error (.error .EOF)) ∧
    (∀ (reader : Reader) (e : GoError) (rest : Reader),
      FfiConverterTypeLibdropError.Read reader = .ok (e, rest) →
      ∃ b0 b1 b2 b3 c0 c1 c2 c3 k2 m2,
        reader = [b0, b1, b2, b3] ++ ([c0, c1, c2, c3] ++ (m2 ++ rest)) ∧
        e = .LibdropError (.LibdropErrorVariant k2 m2) ∧
        beNat [b0, b1, b2, b3] = k2.ordinal ∧
        (m2.length : Int) = toSigned 32 (beNat [c0, c1, c2, c3])) := by
  refine ⟨LibdropError_Write_variant k m, ?_, ?_, ?_, LibdropError_Read_four _ _ _ _, ?_,
    LibdropError_Read_four, LibdropError_Read_ok⟩
  · cases k <;> decide
  · cases k <;> decide
  · cases k <;> decide
  · unfold FfiConverterTypeLibdropError.Lift LiftFromRustBuffer
    rw [LibdropError_Read_four]

/-- C26 at the error `AddrInUse` with the message `hi`: the four bytes `00 00 00 06` are
written, which `Read` refuses, while `Read` decodes the id followed by the message. -/
theorem C26_error_codec_not_symmetric_witness :
    FfiConverterTypeLibdropError.Write (.LibdropError (.LibdropErrorVariant .AddrInUse
      [104, 105])) = .ok [0, 0, 0, 6] ∧
    FfiConverterTypeLibdropError.Read [0, 0, 0, 6] = .error (.error .EOF) ∧
    ∃ b0 b1 b2 b3 c0 c1 c2 c3 k2 m2,
      ([0, 0, 0, 6, 0, 0, 0, 2, 104, 105] : Reader) =
        [b0, b1, b2, b3] ++ ([c0, c1, c2, c3] ++ (m2 ++ [])) ∧
      GoError.LibdropError (.LibdropErrorVariant .AddrInUse [104, 105]) =
        .LibdropError (.LibdropErrorVariant k2 m2) ∧
      beNat [b0, b1, b2, b3] = k2.ordinal ∧
      (m2.length : Int) = toSigned 32 (beNat [c0, c1, c2, c3]) :=
  ⟨(C26_error_codec_not_symmetric .AddrInUse [104, 105]).1,
   (C26_error_codec_not_symmetric .AddrInUse [104, 105]).2.2.2.2.1,
   (C26_error_codec_not_symmetric .AddrInUse [104, 105]).2.2.2.2.2.2.2
     [0, 0, 0, 6, 0, 0, 0, 2, 104, 105] _ [] (by decide)⟩

/-- C27: the callback handle map stays a bijection. In every state reached from the empty
map by a sequence of `insert` and `remove` operations with fewer than 2^64 insertions,
`leftMap` and `rightMap` are inverse to each other, every handle in the map is at least 1
and at most `currentHandle`, two distinct registered objects never share a handle, and
no object is registered under two handles. -/
theorem C27_handle_map_bijection (ops : List HandleMapOp) (cm : concurrentHandleMap)
    (hcm : cm = (runOps newConcurrentHandleMap ops).1)
    (hcount : countInserts ops < 18446744073709551616) :
    (∀ h p, cm.leftMap h = some p ↔ cm.rightMap p = some h) ∧
    (∀ h p, cm.leftMap h = some p → 1 ≤ h ∧ h ≤ cm.currentHandle) ∧
    (∀ p q h, cm.rightMap p = some h → cm.rightMap q = some h → p = q) ∧
    (∀ h1 h2 p, cm.leftMap h1 = some p → cm.leftMap h2 = some p → h1 = h2) ∧
    cm.currentHandle ≤ countInserts ops := by
  have hinv : cm.Invariant (0 + countInserts ops) := by
    rw [hcm]
    exact runOps_invariant ops newConcurrentHandleMap 0 invariant_new (by omega)
  rw [Nat.zero_add] at hinv
  obtain ⟨hc, hbij, hrange⟩ := hinv
  refine ⟨hbij, hrange, ?_, ?_, hc⟩
  · intro p q h hp hq
    have h1 := (hbij h p).2 hp
    have h2 := (hbij h q).2 hq
    rw [h1] at h2
    cases h2
    rfl
  · intro h1 h2 p hp hq
    have e1 := (hbij h1 p).1 hp
    have e2 := (hbij h2 p).1 hq
    rw [e1] at e2
    cases e2
    rfl

/-- C27 at the map reached by inserting the addresses 100 and 200, removing the handle 1
and inserting the address 100 again. -/
theorem C27_handle_map_bijection_witness :
    (runOps newConcurrentHandleMap
      [.insert 100, .insert 200, .remove 1, .insert 100]).1.leftMap 3 = some 100 ∧
    (runOps newConcurrentHandleMap
      [.insert 100, .insert 200, .remove 1, .insert 100]).1.rightMap 100 = some 3 ∧
    (1 ≤ 3 ∧ 3 ≤ (runOps newConcurrentHandleMap
      [.insert 100, .insert 200, .remove 1, .insert 100]).1.currentHandle) :=
  ⟨by decide,
   ((C27_handle_map_bijection [.insert 100, .insert 200, .remove 1, .insert 100] _ rfl
      (by decide)).1 3 100).1 (by decide),
   (C27_handle_map_bijection [.insert 100, .insert 200, .remove 1, .insert 100] _ rfl
      (by decide)).2.1 3 100 (by decide)⟩

/-- C28 (counterexample): after the 2^64 - 1 insertions of the objects at the addresses
`0`, ..., `2^64 - 2`, which are fewer than 2^64 insertions, the object at the address
`2^64 - 1` is not registered, and its insertion returns the handle 0: the `uint64`
counter wraps around. -/
theorem C28_counterexample :
    countInserts ((List.range 18446744073709551615).map HandleMapOp.insert) <
      18446744073709551616 ∧
    (runOps newConcurrentHandleMap
      ((List.range 18446744073709551615).map HandleMapOp.insert)).1.rightMap
        18446744073709551615 = none ∧
    ((runOps newConcurrentHandleMap
      ((List.range 18446744073709551615).map HandleMapOp.insert)).1.insert
        18446744073709551615).1 = 0 :=
  ⟨lt_of_eq_of_lt (countInserts_range 18446744073709551615) (by decide),
   (runOps_range 18446744073709551615 (by decide)).2 18446744073709551615 (Nat.le_refl _),
   insert_wraps 18446744073709551615 rfl⟩

/-- C28 (amended): `insert` returns a handle that resolves to the inserted object, as long
as there are fewer than 2^64 insertions overall, this one included. For every handle map
reached from the empty one by fewer than 2^64 - 1 insertions (and any removals) and every
object `p`, `insert(p)` returns a handle under which `tryGet` finds `p` afterwards; if `p`
is registered, the handle is its existing one and the map is unchanged; otherwise the
handle is `currentHandle + 1`, which is not zero and strictly greater than every handle
returned before; all registered handles keep their objects; and `Lift` applied to the
handle that `Lower` returns gives the lowered callback. -/
theorem C28_insert_returns_resolving_handle (ops : List HandleMapOp)
    (cm : concurrentHandleMap) (p : Nat) (hcm : cm = (runOps newConcurrentHandleMap ops).1)
    (hcount : countInserts ops + 1 < 18446744073709551616) :
    (cm.insert p).2.tryGet (cm.insert p).1 = some p ∧
    (∀ e, cm.rightMap p = some e → cm.insert p = (e, cm)) ∧
    (cm.rightMap p = none →
      (cm.insert p).1 = cm.currentHandle + 1 ∧ (cm.insert p).1 ≠ 0 ∧
      (cm.insert p).1 < 18446744073709551616 ∧
      (cm.insert p).2.currentHandle = cm.currentHandle + 1 ∧
      ∀ x ∈ (runOps newConcurrentHandleMap ops).2, x < (cm.insert p).1) ∧
    (∀ h2 p2, cm.tryGet h2 = some p2 → (cm.insert p).2.tryGet h2 = some p2) ∧
    (∀ (T : Type) (memory : Nat → T) (value : T),
      FfiConverterCallbackInterface.Lift
        (FfiConverterCallbackInterface.Lower cm memory p value).2.1
        (FfiConverterCallbackInterface.Lower cm memory p value).2.2
        (FfiConverterCallbackInterface.Lower cm memory p value).1 = .ok value) := by
  have hinv : cm.Invariant (0 + countInserts ops) := by
    rw [hcm]
    exact runOps_invariant ops newConcurrentHandleMap 0 invariant_new (by omega)
  rw [Nat.zero_add] at hinv
  have hc : cm.currentHandle + 1 < 18446744073709551616 := by
    have := hinv.1
    omega
  have hget := tryGet_insert cm _ p hinv hc
  refine ⟨hget, fun e he => insert_registered cm p e he, ?_,
    fun h2 p2 h => tryGet_insert_keeps cm _ p hinv hc h2 p2 h, ?_⟩
  · intro hnone
    rw [insert_fresh cm p hnone hc]
    refine ⟨rfl, Nat.succ_ne_zero _, hc, rfl, ?_⟩
    intro x hx
    have hle := (runOps_issued_le ops newConcurrentHandleMap 0 invariant_new (by omega)).2 x hx
    rw [← hcm] at hle
    exact Nat.lt_succ_of_le hle
  · intro T memory value
    unfold FfiConverterCallbackInterface.Lift FfiConverterCallbackInterface.Lower
    simp only [hget, if_true]

/-- C28 (amended) at the map that holds the addresses 100 and 200 under the handles 1 and
2: the insertion of the address 300 returns the handle 3, and the insertion of the
address 200 returns its handle 2 and leaves the map as it is. -/
theorem C28_insert_returns_resolving_handle_witness :
    ((runOps newConcurrentHandleMap [.insert 100, .insert 200]).1.insert 300).1 =
      (runOps newConcurrentHandleMap [.insert 100, .insert 200]).1.currentHandle + 1 ∧
    ((runOps newConcurrentHandleMap [.insert 100, .insert 200]).1.insert 300).2.tryGet
      ((runOps newConcurrentHandleMap [.insert 100, .insert 200]).1.insert 300).1 = some 300 ∧
    (runOps newConcurrentHandleMap [.insert 100, .insert 200]).1.insert 200 =
      (2, (runOps newConcurrentHandleMap [.insert 100, .insert 200]).1) :=
  ⟨((C28_insert_returns_resolving_handle [.insert 100, .insert 200] _ 300 rfl
      (by decide)).2.2.1 (by decide)).1,
   (C28_insert_returns_resolving_handle [.insert 100, .insert 200] _ 300 rfl (by decide)).1,
   (C28_insert_returns_resolving_handle [.insert 100, .insert 200] _ 200 rfl
      (by decide)).2.1 2 (by decide)⟩

/-- C29: the one-time initialization check fails fast on any mismatch.
`uniffiCheckChecksums` returns if and only if the native library reports the contract
version 24 and each of the twenty checksums equals the constant of the binding (a
function reports a value when its call returns the value with the status of a successful
call); otherwise it panics, and when the reported contract version is not 24 the panic
is the one of the version mismatch, whatever the checksums are. -/
theorem C29_checksums_fail_fast (native : NativeChecksums) :
    (uniffiCheckChecksums native = .ok () ↔
      (Reports native.ffi_norddrop_uniffi_contract_version 24 ∧
        Reports native.uniffi_norddrop_checksum_func_version 54120 ∧
        Reports native.uniffi_norddrop_checksum_method_norddrop_download_file 32954 ∧
        Reports native.uniffi_norddrop_checksum_method_norddrop_finalize_transfer 37465 ∧
        Reports native.uniffi_norddrop_checksum_method_norddrop_network_refresh 53685 ∧
        Reports native.uniffi_norddrop_checksum_method_norddrop_new_transfer 51452 ∧
        Reports native.uniffi_norddrop_checksum_method_norddrop_purge_transfers 55603 ∧
        Reports native.uniffi_norddrop_checksum_method_norddrop_purge_transfers_until 13823 ∧
        Reports native.uniffi_norddrop_checksum_method_norddrop_reject_file 19601 ∧
        Reports native.uniffi_norddrop_checksum_method_norddrop_remove_file 38631 ∧
        Reports native.uniffi_norddrop_checksum_method_norddrop_set_fd_resolver 35835 ∧
        Reports native.uniffi_norddrop_checksum_method_norddrop_start 57097 ∧
        Reports native.uniffi_norddrop_checksum_method_norddrop_stop 43969 ∧
        Reports native.uniffi_norddrop_checksum_method_norddrop_transfers_since 16492 ∧
        Reports native.uniffi_norddrop_checksum_constructor_norddrop_new 18531 ∧
        Reports native.uniffi_norddrop_checksum_method_eventcallback_on_event 57627 ∧
        Reports native.uniffi_norddrop_checksum_method_fdresolver_on_fd 41805 ∧
        Reports native.uniffi_norddrop_checksum_method_keystore_on_pubkey 31192 ∧
        Reports native.uniffi_norddrop_checksum_method_keystore_privkey 24684 ∧
        Reports native.uniffi_norddrop_checksum_method_logger_on_log 26642 ∧
        Reports native.uniffi_norddrop_checksum_method_logger_level 56965)) ∧
    (uniffiCheckChecksums native ≠ .ok () → ∃ p, uniffiCheckChecksums native = .error p) ∧
    (∀ v, Reports native.ffi_norddrop_uniffi_contract_version v → v ≠ 24 →
      uniffiCheckChecksums native =
        .error (.message (goString "norddrop: UniFFI contract version mismatch"))) := by
  refine ⟨?_, ?_, uniffiCheckChecksums_version_mismatch native⟩
  · unfold uniffiCheckChecksums
    simp only [thenDo_ok, checkChecksum_ok, checkContractVersion_ok]
  · intro h
    cases hr : uniffiCheckChecksums native with
    | error p => exact ⟨p, rfl⟩
    | ok u => exact absurd hr h

/-- C29 at a library that reports every expected value, and at one that reports the
contract version 23. -/
theorem C29_checksums_fail_fast_witness :
    uniffiCheckChecksums matchingNative = .ok () ∧
    uniffiCheckChecksums olderNative =
      .error (.message (goString "norddrop: UniFFI contract version mismatch")) :=
  ⟨(C29_checksums_fail_fast matchingNative).1.2 (by decide),
   (C29_checksums_fail_fast olderNative).2.2 23 (by decide) (by decide)⟩

end norddrop
